import Mathlib

/-!
# SUDS dialogue runner: a shallow embedding of `SUDSDialogue.cpp`

The script graph is immutable and shared; a dialogue instance owns its variable
environment, its choices-taken set, its current speaker node and its current choice list.

Conventions of the embedding.

* A node pointer is an index into the node store of the script (`USUDSScript.Node`),
  and a nullable pointer is an `Option Nat`.  A weak edge target that no longer resolves
  is `none`, exactly like a null target.
* The class of a node follows its `NodeType` (a `SetVariable` node is a
  `USUDSScriptNodeSet`, and so on), as the importer builds them; hence a `Cast<>` in the
  source succeeds exactly when the node type matches.
* Participants and delegates are external listeners.  A callback is recorded as an entry
  of `USUDSDialogue.Notifications`, in call order.  What a listener does during its
  callback is not part of the dialogue's code and is not embedded.
* `while` loops and the recursion over the choice tree take a fuel argument; running out
  of fuel is reported as `Fault.OutOfFuel`.  A failed `check`, a `Fatal` log line and a
  null dereference are reported as faults too.  `UE_LOG` lines are embedded only through
  the side effects of evaluating their arguments.
* The expression evaluator, value comparison and text formatting are not part of the
  runner; they are taken as a parameter (`Externals`).  So are the graph queries of
  `USUDSScript` (`GetNextNode`, `GetNextChoiceNode`, `GetNodeByLabel`, `GetNodeByTextID`).
-/

namespace SUDS

/-! ## Data model -/

inductive ESUDSScriptNodeType
  | Text | Choice | Select | SetVariable | Goto | Event
deriving DecidableEq, Repr

inductive ESUDSEdgeType
  | Continue | Decision | Condition | Chained
deriving DecidableEq, Repr

inductive ETextGender
  | Masculine | Feminine | Neuter
deriving DecidableEq, Repr

/-- Modelled from the spec: `FSUDSValue`, whose declaration is not among the sources, is a
typed value (int / float / bool / text / gender-enum).  The runner only stores, copies and
compares values; the payload of a float is kept as its bit pattern. -/
inductive FSUDSValue
  | text (s : String)
  | int (n : Int)
  | float (bits : Nat)
  | boolean (b : Bool)
  | gender (g : ETextGender)
deriving DecidableEq, Repr

/-- Ways in which a call does not return normally. -/
inductive Fault
  | OutOfFuel
  | Fatal
  | NullDereference
deriving DecidableEq, Repr

/-- An `FSUDSExpression`, as far as the runner uses it: whether it is valid and the
variable names it reads.  `Code` identifies the parsed expression for the evaluator, which
is a parameter (`Externals`). -/
structure FSUDSExpression where
  bIsValid : Bool
  VariableNames : List String
  Code : Nat
deriving DecidableEq, Repr

/-- The variable environment, `TMap<FName, FSUDSValue>`, as an association list with
unique keys. -/
abbrev VarMap := List (String × FSUDSValue)

/-- `TMap::Find`. -/
def VarMap.Find (m : VarMap) (Key : String) : Option FSUDSValue :=
  match m with
  | [] => none
  | (k, v) :: rest => if k = Key then some v else VarMap.Find rest Key

/-- `TMap::Add`: sets the value of the key, replacing an existing entry. -/
def VarMap.Add (m : VarMap) (Key : String) (Value : FSUDSValue) : VarMap :=
  match m with
  | [] => [(Key, Value)]
  | (k, v) :: rest => if k = Key then (k, Value) :: rest else (k, v) :: VarMap.Add rest Key Value

/-- `TMap::Append`: adds every pair of the other map. -/
def VarMap.Append (m : VarMap) (Other : VarMap) : VarMap :=
  match Other with
  | [] => m
  | (k, v) :: rest => VarMap.Add (VarMap.Append m rest) k v

/-- `TSet::Add` on the choices-taken set. -/
def SetAdd (s : List String) (x : String) : List String :=
  if x ∈ s then s else s ++ [x]

/-- `TSet::Append`. -/
def SetAppend (s : List String) (Other : List String) : List String :=
  match Other with
  | [] => s
  | x :: rest => SetAppend (SetAdd s x) rest

structure FSUDSScriptEdge where
  TextID : String
  Text : String
  ParameterNames : List String
  EdgeType : ESUDSEdgeType
  Condition : FSUDSExpression
  TargetNode : Option Nat
deriving DecidableEq, Repr

def FSUDSScriptEdge.HasParameters (e : FSUDSScriptEdge) : Bool :=
  !e.ParameterNames.isEmpty

/-- A script node with the payload of its class: text fields for a text node,
identifier and expression for a set node, event name and arguments for an event node. -/
structure USUDSScriptNode where
  NodeType : ESUDSScriptNodeType
  Edges : List FSUDSScriptEdge
  SpeakerID : String
  Text : String
  TextID : String
  ParameterNames : List String
  bHasChoices : Bool
  Identifier : String
  Expression : FSUDSExpression
  EventName : String
  Args : List FSUDSExpression
deriving DecidableEq, Repr

def USUDSScriptNode.HasParameters (n : USUDSScriptNode) : Bool :=
  !n.ParameterNames.isEmpty

def USUDSScriptNode.GetEdgeCount (n : USUDSScriptNode) : Nat :=
  n.Edges.length

def USUDSScriptNode.GetEdge (n : USUDSScriptNode) (i : Nat) : Option FSUDSScriptEdge :=
  n.Edges.get? i

/-- The compiled script: the node store and the queries the runner calls on it.  The
queries are implemented in `SUDSScript.cpp`, which is not among the sources; they are
fields here, so that every theorem holds whatever they return. -/
structure USUDSScript where
  Node : Nat → USUDSScriptNode
  HeaderNode : Option Nat
  FirstNode : Option Nat
  GetNextNode : Nat → Option Nat
  GetNextChoiceNode : Nat → Option Nat
  GetNodeByLabel : String → Option Nat
  GetNodeByTextID : String → Option Nat

/-- What the runner uses of the expression library, of `FSUDSValue` and of `FText`. -/
structure Externals where
  Evaluate : FSUDSExpression → VarMap → FSUDSValue
  EvaluateBoolean : FSUDSExpression → VarMap → Bool
  NotEqual : FSUDSValue → FSUDSValue → Bool
  DefaultValue : FSUDSValue
  Format : String → List (String × FSUDSValue) → String

structure FSUDSDialogueState where
  TextNodeID : String
  Variables : VarMap
  ChoicesTaken : List String
deriving DecidableEq, Repr

/-- A registered participant object. -/
structure Participant where
  Id : Nat
  Priority : Int
  bImplementsInterface : Bool
deriving DecidableEq, Repr

inductive Listener
  | Participant (Id : Nat)
  | Delegate
deriving DecidableEq, Repr

inductive Callback
  | Starting (Label : Option String)
  | SpeakerLine
  | Choice (Index : Int)
  | Proceeding
  | VariableChanged (Name : String) (Value : FSUDSValue) (bFromScript : Bool)
  | VariableRequested (Name : String)
  | Finished
  | Event (Name : String) (Args : List FSUDSValue)
deriving DecidableEq, Repr

structure Notification where
  Target : Listener
  What : Callback
deriving DecidableEq, Repr

/-- The mutable state of a `USUDSDialogue`, with the record of the callbacks made. -/
structure USUDSDialogue where
  CurrentSpeakerNode : Option Nat
  VariableState : VarMap
  ChoicesTaken : List String
  CurrentChoices : List FSUDSScriptEdge
  Participants : List Participant
  CurrentSpeakerDisplayName : String
  bParamNamesExtracted : Bool
  Notifications : List Notification
deriving DecidableEq, Repr

def DummyText : String := "INVALID"

def DummyString : String := "INVALID"

/-- The dialogue object as constructed, before `Initialise`. -/
def NewDialogue : USUDSDialogue :=
  { CurrentSpeakerNode := none, VariableState := [], ChoicesTaken := [], CurrentChoices := [],
    Participants := [], CurrentSpeakerDisplayName := "", bParamNamesExtracted := false,
    Notifications := [] }

/-! ## Notifications -/

/-- The loop `for (const auto P : Participants) if (implements interface) Execute_...`. -/
def ParticipantCalls (ps : List Participant) (c : Callback) : List Notification :=
  match ps with
  | [] => []
  | p :: rest =>
    if p.bImplementsInterface then
      { Target := Listener.Participant p.Id, What := c } :: ParticipantCalls rest c
    else ParticipantCalls rest c

def NotifyParticipants (d : USUDSDialogue) (c : Callback) : USUDSDialogue :=
  { d with Notifications := d.Notifications ++ ParticipantCalls d.Participants c }

/-- A delegate `Broadcast`. -/
def NotifyDelegate (d : USUDSDialogue) (c : Callback) : USUDSDialogue :=
  { d with Notifications := d.Notifications ++ [{ Target := Listener.Delegate, What := c }] }

def RaiseVariableChange (d : USUDSDialogue) (VarName : String) (Value : FSUDSValue)
    (bFromScript : Bool) : USUDSDialogue :=
  NotifyDelegate (NotifyParticipants d (Callback.VariableChanged VarName Value bFromScript))
    (Callback.VariableChanged VarName Value bFromScript)

def RaiseVariableRequested (d : USUDSDialogue) (VarName : String) : USUDSDialogue :=
  NotifyParticipants (NotifyDelegate d (Callback.VariableRequested VarName))
    (Callback.VariableRequested VarName)

def RaiseVariablesRequested (d : USUDSDialogue) (Names : List String) : USUDSDialogue :=
  match Names with
  | [] => d
  | v :: rest => RaiseVariablesRequested (RaiseVariableRequested d v) rest

def RaiseExpressionVariablesRequested (d : USUDSDialogue) (Expression : FSUDSExpression) :
    USUDSDialogue :=
  RaiseVariablesRequested d Expression.VariableNames

def RaiseStarting (d : USUDSDialogue) (StartLabel : Option String) : USUDSDialogue :=
  NotifyDelegate (NotifyParticipants d (Callback.Starting StartLabel)) (Callback.Starting StartLabel)

def RaiseFinished (d : USUDSDialogue) : USUDSDialogue :=
  NotifyDelegate (NotifyParticipants d Callback.Finished) Callback.Finished

def RaiseNewSpeakerLine (d : USUDSDialogue) : USUDSDialogue :=
  NotifyDelegate (NotifyParticipants d Callback.SpeakerLine) Callback.SpeakerLine

def RaiseChoiceMade (d : USUDSDialogue) (Index : Int) : USUDSDialogue :=
  NotifyDelegate (NotifyParticipants d (Callback.Choice Index)) (Callback.Choice Index)

def RaiseProceeding (d : USUDSDialogue) : USUDSDialogue :=
  NotifyDelegate (NotifyParticipants d Callback.Proceeding) Callback.Proceeding

/-! ## Running nodes -/

def ShouldStopAtNodeType (t : ESUDSScriptNodeType) : Bool :=
  t != ESUDSScriptNodeType.SetVariable &&
  t != ESUDSScriptNodeType.Select &&
  t != ESUDSScriptNodeType.Event

/-- Modelled from the spec: `GetVariable`, declared in the header that is not among the
sources, reads the stored value, and the type default when the name is not in the
environment. -/
def GetVariable (X : Externals) (d : USUDSDialogue) (Name : String) : FSUDSValue :=
  match d.VariableState.Find Name with
  | some v => v
  | none => X.DefaultValue

/-- The edge loop of `RunSelectNode`. -/
def RunSelectEdges (X : Externals) (Edges : List FSUDSScriptEdge) (d : USUDSDialogue) :
    Option Nat × USUDSDialogue :=
  match Edges with
  | [] => (none, d)
  | Edge :: rest =>
    if Edge.Condition.bIsValid then
      if X.EvaluateBoolean Edge.Condition
          (RaiseExpressionVariablesRequested d Edge.Condition).VariableState then
        (Edge.TargetNode, RaiseExpressionVariablesRequested d Edge.Condition)
      else RunSelectEdges X rest (RaiseExpressionVariablesRequested d Edge.Condition)
    else RunSelectEdges X rest d

def RunSelectNode (X : Externals) (S : USUDSScript) (d : USUDSDialogue) (Node : Nat) :
    Option Nat × USUDSDialogue :=
  RunSelectEdges X (S.Node Node).Edges d

/-- The argument loop of `RunEventNode`: announces the variables of each argument and
evaluates it. -/
def ResolveEventArgs (X : Externals) (Args : List FSUDSExpression) (d : USUDSDialogue) :
    List FSUDSValue × USUDSDialogue :=
  match Args with
  | [] => ([], d)
  | Expr :: rest =>
    let r := ResolveEventArgs X rest (RaiseExpressionVariablesRequested d Expr)
    (X.Evaluate Expr (RaiseExpressionVariablesRequested d Expr).VariableState :: r.1, r.2)

def RunEventNode (X : Externals) (S : USUDSScript) (d : USUDSDialogue) (Node : Nat) :
    Option Nat × USUDSDialogue :=
  if (S.Node Node).NodeType = ESUDSScriptNodeType.Event then
    let r := ResolveEventArgs X (S.Node Node).Args d
    (S.GetNextNode Node,
      NotifyDelegate (NotifyParticipants r.2 (Callback.Event (S.Node Node).EventName r.1))
        (Callback.Event (S.Node Node).EventName r.1))
  else (S.GetNextNode Node, d)

def RunSetVariableNode (X : Externals) (S : USUDSScript) (d : USUDSDialogue) (Node : Nat) :
    Option Nat × USUDSDialogue :=
  if (S.Node Node).NodeType = ESUDSScriptNodeType.SetVariable then
    if (S.Node Node).Expression.bIsValid then
      let d1 := RaiseExpressionVariablesRequested d (S.Node Node).Expression
      let OldValue := GetVariable X d1 (S.Node Node).Identifier
      let NewValue := X.Evaluate (S.Node Node).Expression d1.VariableState
      if X.NotEqual OldValue NewValue then
        (S.GetNextNode Node,
          RaiseVariableChange
            { d1 with VariableState := d1.VariableState.Add (S.Node Node).Identifier NewValue }
            (S.Node Node).Identifier NewValue true)
      else (S.GetNextNode Node, d1)
    else (S.GetNextNode Node, d)
  else (S.GetNextNode Node, d)

def RunNode (X : Externals) (S : USUDSScript) (d : USUDSDialogue) (Node : Nat) :
    Option Nat × USUDSDialogue :=
  match (S.Node Node).NodeType with
  | ESUDSScriptNodeType.Select => RunSelectNode X S d Node
  | ESUDSScriptNodeType.SetVariable => RunSetVariableNode X S d Node
  | ESUDSScriptNodeType.Event => RunEventNode X S d Node
  | _ => (none, d)

/-- The loop `while (NextNode && !ShouldStopAtNodeType(NextNode->GetNodeType()))
NextNode = RunNode(NextNode);` of `RunUntilNextSpeakerNodeOrEnd` and of
`RunUntilNextChoiceNode`.  One unit of fuel is spent on each node that is run. -/
def RunAutoNodes (X : Externals) (S : USUDSScript) (fuel : Nat) (NextNode : Option Nat)
    (d : USUDSDialogue) : Except Fault (Option Nat × USUDSDialogue) :=
  match NextNode with
  | none => Except.ok (none, d)
  | some n =>
    if ShouldStopAtNodeType (S.Node n).NodeType then Except.ok (some n, d)
    else
      match fuel with
      | 0 => Except.error Fault.OutOfFuel
      | f + 1 => RunAutoNodes X S f (RunNode X S d n).1 (RunNode X S d n).2

/-! ## Choices -/

/-- The body of the edge loop of `RecurseAppendChoices`, for the edges that are left of the
node being visited; `Recurse` is the recursive call on an edge target. -/
def AppendChoicesOfEdges (X : Externals)
    (Recurse : Option Nat → List FSUDSScriptEdge → USUDSDialogue →
      Except Fault (List FSUDSScriptEdge × USUDSDialogue))
    (Edges : List FSUDSScriptEdge) (OutChoices : List FSUDSScriptEdge) (d : USUDSDialogue) :
    Except Fault (List FSUDSScriptEdge × USUDSDialogue) :=
  match Edges with
  | [] => Except.ok (OutChoices, d)
  | Edge :: rest =>
    match Edge.EdgeType with
    | ESUDSEdgeType.Decision => AppendChoicesOfEdges X Recurse rest (OutChoices ++ [Edge]) d
    | ESUDSEdgeType.Condition =>
      if Edge.Condition.bIsValid then
        if X.EvaluateBoolean Edge.Condition
            (RaiseExpressionVariablesRequested d Edge.Condition).VariableState then
          Recurse Edge.TargetNode OutChoices (RaiseExpressionVariablesRequested d Edge.Condition)
        else AppendChoicesOfEdges X Recurse rest OutChoices
          (RaiseExpressionVariablesRequested d Edge.Condition)
      else AppendChoicesOfEdges X Recurse rest OutChoices d
    | ESUDSEdgeType.Chained =>
      match Recurse Edge.TargetNode OutChoices d with
      | Except.error e => Except.error e
      | Except.ok r => AppendChoicesOfEdges X Recurse rest r.1 r.2
    | ESUDSEdgeType.Continue => Except.error Fault.Fatal

/-- `RecurseAppendChoices`; `fuel` bounds the nesting of the visited nodes. -/
def RecurseAppendChoices (X : Externals) (S : USUDSScript) (fuel : Nat) (Node : Option Nat)
    (OutChoices : List FSUDSScriptEdge) (d : USUDSDialogue) :
    Except Fault (List FSUDSScriptEdge × USUDSDialogue) :=
  match Node with
  | none => Except.ok (OutChoices, d)
  | some n =>
    match fuel with
    | 0 => Except.error Fault.OutOfFuel
    | f + 1 =>
      if (S.Node n).NodeType = ESUDSScriptNodeType.Choice ∨
          (S.Node n).NodeType = ESUDSScriptNodeType.Select then
        AppendChoicesOfEdges X (RecurseAppendChoices X S f) (S.Node n).Edges OutChoices d
      else Except.error Fault.Fatal

def UpdateChoices (X : Externals) (S : USUDSScript) (fuel : Nat) (d : USUDSDialogue) :
    Except Fault USUDSDialogue :=
  match d.CurrentSpeakerNode with
  | none => Except.ok { d with CurrentChoices := [] }
  | some n =>
    if (S.Node n).bHasChoices then
      match S.GetNextChoiceNode n with
      | some ChoiceNode =>
        match RecurseAppendChoices X S fuel (some ChoiceNode) [] { d with CurrentChoices := [] } with
        | Except.error e => Except.error e
        | Except.ok r => Except.ok { r.2 with CurrentChoices := r.1 }
      | none => Except.ok { d with CurrentChoices := [] }
    else
      match (S.Node n).GetEdge 0 with
      | some Edge => Except.ok { d with CurrentChoices := [Edge] }
      | none => Except.ok { d with CurrentChoices := [] }

def SetCurrentSpeakerNode (X : Externals) (S : USUDSScript) (fuel : Nat) (d : USUDSDialogue)
    (Node : Option Nat) (bQuietly : Bool) : Except Fault USUDSDialogue :=
  match UpdateChoices X S fuel
      { d with CurrentSpeakerNode := Node, CurrentSpeakerDisplayName := "",
               bParamNamesExtracted := false } with
  | Except.error e => Except.error e
  | Except.ok d1 =>
    if bQuietly then Except.ok d1
    else
      match d1.CurrentSpeakerNode with
      | some _ => Except.ok (RaiseNewSpeakerLine d1)
      | none => Except.ok (RaiseFinished d1)

def IsEnded (d : USUDSDialogue) : Bool :=
  d.CurrentSpeakerNode.isNone

def End (X : Externals) (S : USUDSScript) (fuel : Nat) (d : USUDSDialogue) (bQuietly : Bool) :
    Except Fault USUDSDialogue :=
  SetCurrentSpeakerNode X S fuel d none bQuietly

def RunUntilNextSpeakerNodeOrEnd (X : Externals) (S : USUDSScript) (fuel : Nat)
    (d : USUDSDialogue) (NextNode : Option Nat) (bRaiseAtEnd : Bool) :
    Except Fault USUDSDialogue :=
  match RunAutoNodes X S fuel NextNode d with
  | Except.error e => Except.error e
  | Except.ok (some n, d1) =>
    if (S.Node n).NodeType = ESUDSScriptNodeType.Text then
      SetCurrentSpeakerNode X S fuel d1 (some n) false
    else Except.ok d1
  | Except.ok (none, d1) => End X S fuel d1 (!bRaiseAtEnd)

def RunUntilNextChoiceNode (X : Externals) (S : USUDSScript) (fuel : Nat) (d : USUDSDialogue)
    (FromTextNode : Option Nat) : Except Fault (Option Nat × USUDSDialogue) :=
  match FromTextNode with
  | none => Except.ok (none, d)
  | some n =>
    if (S.Node n).GetEdgeCount = 1 then RunAutoNodes X S fuel (S.GetNextNode n) d
    else Except.ok (none, d)

/-! ## Queries -/

def GetTextFormatArgs (d : USUDSDialogue) (ArgNames : List String) : List (String × FSUDSValue) :=
  match ArgNames with
  | [] => []
  | Name :: rest =>
    match d.VariableState.Find Name with
    | some Value => (Name, Value) :: GetTextFormatArgs d rest
    | none => GetTextFormatArgs d rest

def ResolveParameterisedText (X : Externals) (d : USUDSDialogue) (Params : List String)
    (TextFormat : String) : String × USUDSDialogue :=
  (X.Format TextFormat (GetTextFormatArgs (RaiseVariablesRequested d Params) Params),
    RaiseVariablesRequested d Params)

def GetText (X : Externals) (S : USUDSScript) (d : USUDSDialogue) : String × USUDSDialogue :=
  match d.CurrentSpeakerNode with
  | some n =>
    if (S.Node n).HasParameters then
      ResolveParameterisedText X d (S.Node n).ParameterNames (S.Node n).Text
    else ((S.Node n).Text, d)
  | none => (DummyText, d)

def GetSpeakerID (S : USUDSScript) (d : USUDSDialogue) : String :=
  match d.CurrentSpeakerNode with
  | some n => (S.Node n).SpeakerID
  | none => DummyString

def GetNumberOfChoices (d : USUDSDialogue) : Nat :=
  d.CurrentChoices.length

/-- `CurrentChoices[Index]` guarded by `CurrentChoices.IsValidIndex(Index)`: the element
when `0 <= Index < Num()`, nothing otherwise. -/
def ChoiceAt (Choices : List FSUDSScriptEdge) (Index : Int) : Option FSUDSScriptEdge :=
  if Index < 0 then none else Choices.get? Index.toNat

def IsValidIndex (Choices : List FSUDSScriptEdge) (Index : Int) : Bool :=
  decide (0 ≤ Index) && decide (Index < Choices.length)

def GetChoiceText (X : Externals) (S : USUDSScript) (d : USUDSDialogue) (Index : Int) :
    String × USUDSDialogue :=
  match ChoiceAt d.CurrentChoices Index with
  | some Choice =>
    if Choice.HasParameters then ResolveParameterisedText X d Choice.ParameterNames Choice.Text
    else (Choice.Text, d)
  | none => (DummyText, (GetText X S d).2)

def HasChoiceBeenTakenPreviously (d : USUDSDialogue) (Choice : FSUDSScriptEdge) : Bool :=
  decide (Choice.TextID ∈ d.ChoicesTaken)

def HasChoiceIndexBeenTakenPreviously (d : USUDSDialogue) (Index : Int) : Bool :=
  match ChoiceAt d.CurrentChoices Index with
  | some Choice => HasChoiceBeenTakenPreviously d Choice
  | none => false

/-! ## Advancing -/

def Choose (X : Externals) (S : USUDSScript) (fuel : Nat) (d : USUDSDialogue) (Index : Int) :
    Except Fault (Bool × USUDSDialogue) :=
  match ChoiceAt d.CurrentChoices Index with
  | some Choice =>
    match d.CurrentSpeakerNode with
    | none => Except.error Fault.NullDereference
    | some n =>
      if (S.Node n).bHasChoices then
        match RunUntilNextChoiceNode X S fuel
            (RaiseProceeding (RaiseChoiceMade
              { d with ChoicesTaken := SetAdd d.ChoicesTaken Choice.TextID } Index))
            (some n) with
        | Except.error e => Except.error e
        | Except.ok r =>
          match ChoiceAt r.2.CurrentChoices Index with
          | none => Except.error Fault.Fatal
          | some Chosen =>
            match RunUntilNextSpeakerNodeOrEnd X S fuel r.2 Chosen.TargetNode true with
            | Except.error e => Except.error e
            | Except.ok d2 => Except.ok (!IsEnded d2, d2)
      else
        match RunUntilNextSpeakerNodeOrEnd X S fuel (RaiseProceeding d) Choice.TargetNode true with
        | Except.error e => Except.error e
        | Except.ok d2 => Except.ok (!IsEnded d2, d2)
  | none => Except.ok (false, (GetText X S d).2)

def Continue (X : Externals) (S : USUDSScript) (fuel : Nat) (d : USUDSDialogue) :
    Except Fault (Bool × USUDSDialogue) :=
  if GetNumberOfChoices d = 1 then Choose X S fuel d 0
  else Except.ok (!IsEnded d, d)

/-! ## Initialising, restarting, saving -/

def InitVariables (X : Externals) (S : USUDSScript) (fuel : Nat) (d : USUDSDialogue) :
    Except Fault USUDSDialogue :=
  RunUntilNextSpeakerNodeOrEnd X S fuel { d with VariableState := [] } S.HeaderNode false

def Initialise (X : Externals) (S : USUDSScript) (fuel : Nat) (d : USUDSDialogue) :
    Except Fault USUDSDialogue :=
  match InitVariables X S fuel { d with CurrentSpeakerNode := none } with
  | Except.error e => Except.error e
  | Except.ok d1 => Except.ok { d1 with CurrentSpeakerNode := none }

def ResetState (X : Externals) (S : USUDSScript) (fuel : Nat) (d : USUDSDialogue)
    (bResetVariables bResetPosition bResetVisited : Bool) : Except Fault USUDSDialogue :=
  match (if bResetVariables then InitVariables X S fuel d else Except.ok d) with
  | Except.error e => Except.error e
  | Except.ok d1 =>
    match (if bResetPosition then SetCurrentSpeakerNode X S fuel d1 none true
           else Except.ok d1) with
    | Except.error e => Except.error e
    | Except.ok d2 =>
      if bResetVisited then Except.ok { d2 with ChoicesTaken := [] } else Except.ok d2

def GetSavedState (S : USUDSScript) (d : USUDSDialogue) : FSUDSDialogueState :=
  { TextNodeID := (match d.CurrentSpeakerNode with
                   | some n => (S.Node n).TextID
                   | none => ""),
    Variables := d.VariableState,
    ChoicesTaken := d.ChoicesTaken }

def RestoreSavedState (X : Externals) (S : USUDSScript) (fuel : Nat) (d : USUDSDialogue)
    (State : FSUDSDialogueState) : Except Fault USUDSDialogue :=
  match InitVariables X S fuel d with
  | Except.error e => Except.error e
  | Except.ok d1 =>
    if State.TextNodeID ≠ "" then
      SetCurrentSpeakerNode X S fuel
        { d1 with VariableState := d1.VariableState.Append State.Variables,
                  ChoicesTaken := SetAppend [] State.ChoicesTaken }
        (S.GetNodeByTextID State.TextNodeID) true
    else
      SetCurrentSpeakerNode X S fuel
        { d1 with VariableState := d1.VariableState.Append State.Variables,
                  ChoicesTaken := SetAppend [] State.ChoicesTaken }
        none true

/-- The start node of `Restart`: the first node of the script when no label is given, when
the label is unknown or when it leads to a choice node; the labelled node otherwise. -/
def StartNodeFor (S : USUDSScript) (StartLabel : Option String) : Option Nat :=
  match StartLabel with
  | none => S.FirstNode
  | some Label =>
    match S.GetNodeByLabel Label with
    | none => S.FirstNode
    | some n =>
      if (S.Node n).NodeType = ESUDSScriptNodeType.Choice then S.FirstNode else some n

/-- `Restart`.  Modelled from the spec: the default arguments of `ResetState()`, declared
in the header that is not among the sources, reset the variables, the position and the
choices taken. -/
def Restart (X : Externals) (S : USUDSScript) (fuel : Nat) (d : USUDSDialogue)
    (bResetState : Bool) (StartLabel : Option String) (bReRunHeader : Bool) :
    Except Fault USUDSDialogue :=
  match (if bResetState then ResetState X S fuel d true true true else Except.ok d) with
  | Except.error e => Except.error e
  | Except.ok d1 =>
    match (if !bResetState && bReRunHeader then
             RunUntilNextSpeakerNodeOrEnd X S fuel (RaiseStarting d1 StartLabel) S.HeaderNode false
           else Except.ok (RaiseStarting d1 StartLabel)) with
    | Except.error e => Except.error e
    | Except.ok d2 => RunUntilNextSpeakerNodeOrEnd X S fuel d2 (StartNodeFor S StartLabel) true

def Start (X : Externals) (S : USUDSScript) (fuel : Nat) (d : USUDSDialogue)
    (Label : Option String) : Except Fault USUDSDialogue :=
  match d.CurrentSpeakerNode with
  | none => Restart X S fuel d false Label false
  | some _ => Except.ok d

/-! ## Participants -/

/-- `SortParticipants`: the engine's `StableSort` by ascending priority, which keeps
participants of equal priority in the order they had; embedded as insertion sort. -/
def SortParticipants (d : USUDSDialogue) : USUDSDialogue :=
  if d.Participants.isEmpty then d
  else { d with Participants :=
           d.Participants.insertionSort (fun A B => A.Priority ≤ B.Priority) }

def SetParticipants (d : USUDSDialogue) (InParticipants : List Participant) : USUDSDialogue :=
  SortParticipants { d with Participants := InParticipants }

def AddParticipant (d : USUDSDialogue) (P : Participant) : USUDSDialogue :=
  SortParticipants { d with Participants := d.Participants ++ [P] }

/-! ## A small script used for concrete runs

`Player: Hello there`, then `NPC: Salutations fellow human` with three options, the first
of which leads to `NPC: How rude, bye then` and the end.  Node 6 is a text node without
outgoing edge, node 7 a text node whose only option is a single decision.  The header
(nodes 10 and 11) sets `ValetName` to 7 and `SomeInt` to 99. -/

def NoExpression : FSUDSExpression :=
  { bIsValid := false, VariableNames := [], Code := 0 }

def MkEdge (TextID Text : String) (EdgeType : ESUDSEdgeType) (Target : Option Nat) :
    FSUDSScriptEdge :=
  { TextID := TextID, Text := Text, ParameterNames := [], EdgeType := EdgeType,
    Condition := NoExpression, TargetNode := Target }

def MkText (Speaker Text TextID : String) (bHasChoices : Bool) (Edges : List FSUDSScriptEdge) :
    USUDSScriptNode :=
  { NodeType := ESUDSScriptNodeType.Text, Edges := Edges, SpeakerID := Speaker, Text := Text,
    TextID := TextID, ParameterNames := [], bHasChoices := bHasChoices, Identifier := "",
    Expression := NoExpression, EventName := "", Args := [] }

def MkNode (NodeType : ESUDSScriptNodeType) (Edges : List FSUDSScriptEdge) : USUDSScriptNode :=
  { NodeType := NodeType, Edges := Edges, SpeakerID := "", Text := "", TextID := "",
    ParameterNames := [], bHasChoices := false, Identifier := "", Expression := NoExpression,
    EventName := "", Args := [] }

/-- A set node `[set Identifier Code]` followed by the node `Next`. -/
def MkSet (Identifier : String) (Code : Nat) (Next : Option Nat) : USUDSScriptNode :=
  { NodeType := ESUDSScriptNodeType.SetVariable,
    Edges := [MkEdge "" "" ESUDSEdgeType.Continue Next],
    SpeakerID := "", Text := "", TextID := "", ParameterNames := [], bHasChoices := false,
    Identifier := Identifier,
    Expression := { bIsValid := true, VariableNames := [], Code := Code },
    EventName := "", Args := [] }

def DemoExternals : Externals :=
  { Evaluate := fun e _ => FSUDSValue.int e.Code,
    EvaluateBoolean := fun e env =>
      match e.VariableNames with
      | [] => true
      | v :: _ => decide (env.Find v = some (FSUDSValue.int e.Code)),
    NotEqual := fun a b => decide (a ≠ b),
    DefaultValue := FSUDSValue.int 0,
    Format := fun f _ => f }

def DemoNode (i : Nat) : USUDSScriptNode :=
  match i with
  | 0 => MkText "Player" "Hello there" "t0" false [MkEdge "" "" ESUDSEdgeType.Continue (some 1)]
  | 1 => MkText "NPC" "Salutations fellow human" "t1" true
           [MkEdge "" "" ESUDSEdgeType.Continue (some 2)]
  | 2 => MkNode ESUDSScriptNodeType.Choice
           [MkEdge "c0" "Actually no" ESUDSEdgeType.Decision (some 3),
            MkEdge "c1" "Nested option" ESUDSEdgeType.Decision (some 7),
            MkEdge "c2" "Another option" ESUDSEdgeType.Decision (some 6)]
  | 3 => MkText "NPC" "How rude, bye then" "t3" false [MkEdge "" "" ESUDSEdgeType.Continue none]
  | 6 => MkText "NPC" "Bye!" "t6" false []
  | 7 => MkText "NPC" "Some nesting" "t7" true [MkEdge "" "" ESUDSEdgeType.Continue (some 8)]
  | 8 => MkNode ESUDSScriptNodeType.Choice
           [MkEdge "c3" "Actually bye" ESUDSEdgeType.Decision (some 6)]
  | 10 => MkSet "ValetName" 7 (some 11)
  | 11 => MkSet "SomeInt" 99 none
  | _ => MkNode ESUDSScriptNodeType.Goto []

def DemoScript : USUDSScript :=
  { Node := DemoNode,
    HeaderNode := some 10,
    FirstNode := some 0,
    GetNextNode := fun n => match (DemoNode n).Edges with
                            | [e] => e.TargetNode
                            | _ => none,
    GetNextChoiceNode := fun n => if n = 1 then some 2 else if n = 7 then some 8 else none,
    GetNodeByLabel := fun l => if l = "nestedstart" then some 7 else none,
    GetNodeByTextID := fun t =>
      if t = "t0" then some 0 else if t = "t1" then some 1 else if t = "t3" then some 3
      else if t = "t6" then some 6 else if t = "t7" then some 7 else none }

/-- The demo dialogue positioned on a text node, with that node's choice list. -/
def DemoAt (n : Nat) (Choices : List FSUDSScriptEdge) : USUDSDialogue :=
  { NewDialogue with CurrentSpeakerNode := some n, CurrentChoices := Choices }

/-- Two dialogue states that differ at most in the record of callbacks. -/
def SameButNotifications (d e : USUDSDialogue) : Prop :=
  e.CurrentSpeakerNode = d.CurrentSpeakerNode ∧ e.VariableState = d.VariableState ∧
  e.ChoicesTaken = d.ChoicesTaken ∧ e.CurrentChoices = d.CurrentChoices ∧
  e.Participants = d.Participants ∧
  e.CurrentSpeakerDisplayName = d.CurrentSpeakerDisplayName ∧
  e.bParamNamesExtracted = d.bParamNamesExtracted

/-- Two dialogue states that differ at most in the variables and the record of callbacks. -/
def SameButVariables (d e : USUDSDialogue) : Prop :=
  e.CurrentSpeakerNode = d.CurrentSpeakerNode ∧ e.ChoicesTaken = d.ChoicesTaken ∧
  e.CurrentChoices = d.CurrentChoices ∧ e.Participants = d.Participants ∧
  e.CurrentSpeakerDisplayName = d.CurrentSpeakerDisplayName ∧
  e.bParamNamesExtracted = d.bParamNamesExtracted

/-- Every variable present in `m` is present in `m1`. -/
def KeysKept (m m1 : VarMap) : Prop :=
  ∀ k, m.Find k ≠ none → m1.Find k ≠ none

/-- The guard of an edge is valid and evaluates to true in the environment. -/
def GuardHolds (X : Externals) (env : VarMap) (Edge : FSUDSScriptEdge) : Bool :=
  Edge.Condition.bIsValid && X.EvaluateBoolean Edge.Condition env

/-- Two outcomes that fail alike, or both return, with related results. -/
def SameOutcome {α β : Type} (R : α → β → Prop) : Except Fault α → Except Fault β → Prop
  | Except.ok a, Except.ok b => R a b
  | Except.error x, Except.error y => x = y
  | _, _ => False

/-- Every guard has the same value in both environments. -/
def SameGuards (X : Externals) (m m1 : VarMap) : Prop :=
  ∀ c, X.EvaluateBoolean c m = X.EvaluateBoolean c m1

/-! ## Positioning -/

/-- The choice list `UpdateChoices` computes for a position and an environment. -/
def ChoicesFor (X : Externals) (S : USUDSScript) (fuel : Nat) (env : VarMap)
    (Node : Option Nat) : Except Fault (List FSUDSScriptEdge) :=
  match UpdateChoices X S fuel
      { NewDialogue with CurrentSpeakerNode := Node, VariableState := env } with
  | Except.error e => Except.error e
  | Except.ok d => Except.ok d.CurrentChoices

/-- The environment the header run builds from the empty environment. -/
def HeaderVariables (X : Externals) (S : USUDSScript) (fuel : Nat) : Except Fault VarMap :=
  match InitVariables X S fuel NewDialogue with
  | Except.error e => Except.error e
  | Except.ok d => Except.ok d.VariableState

/-- Two dialogue states that differ at most in the current choices and the record of
callbacks. -/
def SameButChoices (d e : USUDSDialogue) : Prop :=
  e.CurrentSpeakerNode = d.CurrentSpeakerNode ∧ e.VariableState = d.VariableState ∧
  e.ChoicesTaken = d.ChoicesTaken ∧ e.Participants = d.Participants ∧
  e.CurrentSpeakerDisplayName = d.CurrentSpeakerDisplayName ∧
  e.bParamNamesExtracted = d.bParamNamesExtracted

/-! ## Saving and restoring -/

/-- The node `RestoreSavedState` positions the dialogue on. -/
def RestoreTarget (S : USUDSScript) (State : FSUDSDialogueState) : Option Nat :=
  if State.TextNodeID ≠ "" then S.GetNodeByTextID State.TextNodeID else none

/-- The variables the header sets are all present in the state. -/
def HasHeaderVariables (X : Externals) (S : USUDSScript) (fuel : Nat) (d : USUDSDialogue) :
    Prop :=
  ∃ H, HeaderVariables X S fuel = Except.ok H ∧ KeysKept H d.VariableState

/-- The demo dialogue started at the label `nestedstart`: on node 7, which has a choice
construct with a single decision. -/
def DemoNested : USUDSDialogue :=
  RaiseNewSpeakerLine (RaiseStarting (DemoAt 7 (DemoNode 8).Edges) (some "nestedstart"))

/-- The demo dialogue after `Continue` on `DemoNested`: the single decision `c3` has been
taken and the dialogue is on node 6. -/
def DemoNestedContinued : USUDSDialogue :=
  { DemoNested with
    CurrentSpeakerNode := some 6,
    ChoicesTaken := ["c3"],
    CurrentChoices := [],
    Notifications := DemoNested.Notifications ++
      [{ Target := Listener.Delegate, What := Callback.Choice 0 },
       { Target := Listener.Delegate, What := Callback.Proceeding },
       { Target := Listener.Delegate, What := Callback.SpeakerLine }] }

/-- A saved state of the demo script: on `NPC: Salutations fellow human`, with `SomeInt`
changed from its header value, a variable the header does not set, and one choice taken. -/
def DemoSaved : FSUDSDialogueState :=
  { TextNodeID := "t1",
    Variables := [("SomeInt", FSUDSValue.int 5), ("Met", FSUDSValue.boolean true)],
    ChoicesTaken := ["c0"] }

/-- A demo select node: the first guard (`Met == 1`) fails in the empty environment, the
second and the third (no variable, always true) hold. -/
def DemoSelect (i : Nat) : USUDSScriptNode :=
  match i with
  | 20 => MkNode ESUDSScriptNodeType.Select
      [{ MkEdge "" "" ESUDSEdgeType.Condition (some 0) with
          Condition := { bIsValid := true, VariableNames := ["Met"], Code := 1 } },
       { MkEdge "" "" ESUDSEdgeType.Condition (some 2) with
          Condition := { bIsValid := true, VariableNames := [], Code := 0 } },
       { MkEdge "" "" ESUDSEdgeType.Condition (some 8) with
          Condition := { bIsValid := true, VariableNames := [], Code := 0 } }]
  | 21 => MkNode ESUDSScriptNodeType.Select
      [{ MkEdge "" "" ESUDSEdgeType.Condition (some 0) with
          Condition := { bIsValid := true, VariableNames := ["Met"], Code := 1 } }]
  | 22 => MkNode ESUDSScriptNodeType.Choice
      [MkEdge "c5" "Before" ESUDSEdgeType.Decision (some 3),
       MkEdge "" "" ESUDSEdgeType.Chained (some 20),
       MkEdge "c6" "After" ESUDSEdgeType.Decision (some 6)]
  | n => DemoNode n

def DemoSelectScript : USUDSScript :=
  { DemoScript with Node := DemoSelect }

/-- The depth-first, declaration-order flattening of the choice tree below a list of
edges, in the words of the specification: a decision edge contributes itself at its
position; a chained edge contributes, at its position and whatever the environment, the
list collected from its target; a condition edge whose guard fails contributes nothing,
and the first condition edge whose guard holds contributes the list collected from its
target and closes the list of its node. -/
inductive FlattensTo (X : Externals) (S : USUDSScript) (env : VarMap) :
    List FSUDSScriptEdge → List FSUDSScriptEdge → Prop
  | done : FlattensTo X S env [] []
  | decision (Edge : FSUDSScriptEdge) (rest l : List FSUDSScriptEdge) :
      Edge.EdgeType = ESUDSEdgeType.Decision → FlattensTo X S env rest l →
      FlattensTo X S env (Edge :: rest) (Edge :: l)
  | chainedNull (Edge : FSUDSScriptEdge) (rest l : List FSUDSScriptEdge) :
      Edge.EdgeType = ESUDSEdgeType.Chained → Edge.TargetNode = none →
      FlattensTo X S env rest l → FlattensTo X S env (Edge :: rest) l
  | chained (Edge : FSUDSScriptEdge) (rest : List FSUDSScriptEdge) (t : Nat)
      (l1 l2 : List FSUDSScriptEdge) :
      Edge.EdgeType = ESUDSEdgeType.Chained → Edge.TargetNode = some t →
      ((S.Node t).NodeType = ESUDSScriptNodeType.Choice ∨
        (S.Node t).NodeType = ESUDSScriptNodeType.Select) →
      FlattensTo X S env (S.Node t).Edges l1 → FlattensTo X S env rest l2 →
      FlattensTo X S env (Edge :: rest) (l1 ++ l2)
  | conditionFails (Edge : FSUDSScriptEdge) (rest l : List FSUDSScriptEdge) :
      Edge.EdgeType = ESUDSEdgeType.Condition → GuardHolds X env Edge = false →
      FlattensTo X S env rest l → FlattensTo X S env (Edge :: rest) l
  | conditionNull (Edge : FSUDSScriptEdge) (rest : List FSUDSScriptEdge) :
      Edge.EdgeType = ESUDSEdgeType.Condition → GuardHolds X env Edge = true →
      Edge.TargetNode = none → FlattensTo X S env (Edge :: rest) []
  | conditionHolds (Edge : FSUDSScriptEdge) (rest : List FSUDSScriptEdge) (t : Nat)
      (l : List FSUDSScriptEdge) :
      Edge.EdgeType = ESUDSEdgeType.Condition → GuardHolds X env Edge = true →
      Edge.TargetNode = some t →
      ((S.Node t).NodeType = ESUDSScriptNodeType.Choice ∨
        (S.Node t).NodeType = ESUDSScriptNodeType.Select) →
      FlattensTo X S env (S.Node t).Edges l → FlattensTo X S env (Edge :: rest) l

/-- The flattening of the demo choice node 22 in the empty environment: its first
decision, the three options spliced in through the select node 20, its last decision. -/
def DemoFlattened : List FSUDSScriptEdge :=
  [MkEdge "c5" "Before" ESUDSEdgeType.Decision (some 3)] ++
    ((DemoNode 2).Edges ++ [MkEdge "c6" "After" ESUDSEdgeType.Decision (some 6)])

/-- The states reached from `Initialise` through `Start`, `Continue`, `Choose` and
`Restart`, each call returning within the fuel. -/
inductive Reachable (X : Externals) (S : USUDSScript) (fuel : Nat) : USUDSDialogue → Prop
  | initialise (d0 d : USUDSDialogue) :
      Initialise X S fuel d0 = Except.ok d → Reachable X S fuel d
  | start (d d1 : USUDSDialogue) (Label : Option String) :
      Reachable X S fuel d → Start X S fuel d Label = Except.ok d1 → Reachable X S fuel d1
  | proceed (d d1 : USUDSDialogue) (b : Bool) :
      Reachable X S fuel d → Continue X S fuel d = Except.ok (b, d1) → Reachable X S fuel d1
  | choose (d d1 : USUDSDialogue) (Index : Int) (b : Bool) :
      Reachable X S fuel d → Choose X S fuel d Index = Except.ok (b, d1) →
      Reachable X S fuel d1
  | restart (d d1 : USUDSDialogue) (bResetState : Bool) (StartLabel : Option String)
      (bReRunHeader : Bool) :
      Reachable X S fuel d →
      Restart X S fuel d bResetState StartLabel bReRunHeader = Except.ok d1 →
      Reachable X S fuel d1

/-- The current choice list is the one `UpdateChoices` computes for the current node and
the current variables. -/
def ChoicesUpToDate (X : Externals) (S : USUDSScript) (fuel : Nat) (d : USUDSDialogue) : Prop :=
  ChoicesFor X S fuel d.VariableState d.CurrentSpeakerNode = Except.ok d.CurrentChoices

/-- The text id of the current node is not empty and `GetNodeByTextID` finds the node
under it. -/
def TextIDResolves (S : USUDSScript) (d : USUDSDialogue) : Prop :=
  ∀ n, d.CurrentSpeakerNode = some n →
    (S.Node n).TextID ≠ "" ∧ S.GetNodeByTextID (S.Node n).TextID = some n

/-- The guards read the environment through `Find` only: two environments with the same
value for every name give every guard the same value. -/
def GuardsReadByName (X : Externals) : Prop :=
  ∀ c env env1, (∀ k, VarMap.Find env k = VarMap.Find env1 k) →
    X.EvaluateBoolean c env = X.EvaluateBoolean c env1

/-- A script whose first node is a set node followed by a choice node, so that a run from
the first node stops on a node that is neither auto-run nor text.  The text node 2, under
the label `t`, offers option `b` only when `Met` is 1. -/
def StaleNode (i : Nat) : USUDSScriptNode :=
  match i with
  | 0 => MkSet "Met" 1 (some 1)
  | 1 => MkNode ESUDSScriptNodeType.Choice [MkEdge "a" "A" ESUDSEdgeType.Decision (some 2)]
  | 2 => MkText "NPC" "Well" "t2" true [MkEdge "" "" ESUDSEdgeType.Continue (some 3)]
  | 3 => MkNode ESUDSScriptNodeType.Choice [MkEdge "" "" ESUDSEdgeType.Chained (some 5)]
  | 4 => MkNode ESUDSScriptNodeType.Choice [MkEdge "b" "B" ESUDSEdgeType.Decision none]
  | 5 => MkNode ESUDSScriptNodeType.Select
      [{ MkEdge "" "" ESUDSEdgeType.Condition (some 4) with
          Condition := { bIsValid := true, VariableNames := ["Met"], Code := 1 } }]
  | _ => MkNode ESUDSScriptNodeType.Goto []

def StaleScript : USUDSScript :=
  { Node := StaleNode,
    HeaderNode := none,
    FirstNode := some 0,
    GetNextNode := fun n => match (StaleNode n).Edges with
                            | [e] => e.TargetNode
                            | _ => none,
    GetNextChoiceNode := fun n => if n = 2 then some 3 else none,
    GetNodeByLabel := fun l => if l = "t" then some 2 else none,
    GetNodeByTextID := fun t => if t = "t2" then some 2 else none }

/-- The stale script after `Initialise` and `Start` at the label `t`: on node 2, with no
choice since `Met` is not set. -/
def StaleStarted : USUDSDialogue :=
  { NewDialogue with
    CurrentSpeakerNode := some 2,
    Notifications :=
      [{ Target := Listener.Delegate, What := Callback.Starting (some "t") },
       { Target := Listener.Delegate, What := Callback.VariableRequested "Met" },
       { Target := Listener.Delegate, What := Callback.SpeakerLine }] }

/-- Then after `Restart` without reset: the run from the first node has set `Met` and has
stopped on the choice node 1; position and choices are those of before. -/
def StaleRestarted : USUDSDialogue :=
  { StaleStarted with
    VariableState := [("Met", FSUDSValue.int 1)],
    Notifications := StaleStarted.Notifications ++
      [{ Target := Listener.Delegate, What := Callback.Starting none },
       { Target := Listener.Delegate,
         What := Callback.VariableChanged "Met" (FSUDSValue.int 1) true }] }

/-- Then after saving and restoring: option `b` is exposed. -/
def StaleRestored : USUDSDialogue :=
  { StaleRestarted with
    CurrentChoices := [MkEdge "b" "B" ESUDSEdgeType.Decision none],
    Notifications := StaleRestarted.Notifications ++
      [{ Target := Listener.Delegate, What := Callback.VariableRequested "Met" }] }

/-- The state a call returned, or the fallback when it failed. -/
def Returned {α : Type} (r : Except Fault α) (Fallback : α) : α :=
  match r with
  | Except.ok a => a
  | Except.error _ => Fallback

def DemoInitialised : USUDSDialogue :=
  Returned (Initialise DemoExternals DemoScript 4 NewDialogue) NewDialogue

def DemoStarted : USUDSDialogue :=
  Returned (Start DemoExternals DemoScript 4 DemoInitialised none) NewDialogue

/-- The demo dialogue after `Initialise`, `Start` and `Continue`: on `NPC: Salutations
fellow human`, with its three options. -/
def DemoAtChoices : USUDSDialogue :=
  (Returned (Continue DemoExternals DemoScript 4 DemoStarted) (false, NewDialogue)).2

/-! ## The record of callbacks, event by event -/

/-- The callbacks one event makes: for "variable requested" the delegate broadcast and then
the participants, for every other event the participants and then the delegate
broadcast. -/
def EventBlock (ps : List Participant) (c : Callback) : List Notification :=
  match c with
  | Callback.VariableRequested _ =>
    { Target := Listener.Delegate, What := c } :: ParticipantCalls ps c
  | _ => ParticipantCalls ps c ++ [{ Target := Listener.Delegate, What := c }]

/-- The callbacks a sequence of events makes, in order. -/
def Blocks (ps : List Participant) (cs : List Callback) : List Notification :=
  match cs with
  | [] => []
  | c :: rest => EventBlock ps c ++ Blocks ps rest

/-- Going from `d` to `d1` raised exactly the events `cs`, in order, and left the
participants as they were. -/
def Raises (d d1 : USUDSDialogue) (cs : List Callback) : Prop :=
  d1.Notifications = d.Notifications ++ Blocks d.Participants cs ∧
  d1.Participants = d.Participants

/-- The events an auto-run node can raise. -/
def IsRunEvent (c : Callback) : Prop :=
  match c with
  | Callback.VariableRequested _ => True
  | Callback.VariableChanged _ _ _ => True
  | Callback.Event _ _ => True
  | _ => False

/-- The "variable requested" events. -/
def IsRequest (c : Callback) : Prop :=
  match c with
  | Callback.VariableRequested _ => True
  | _ => False

/-- Going from `d` to `d1` raised events, all of which satisfy `P`. -/
def RaisesOnly (P : Callback → Prop) (d d1 : USUDSDialogue) : Prop :=
  ∃ cs, Raises d d1 cs ∧ ∀ c ∈ cs, P c

/-- Any event. -/
def AnyEvent (_ : Callback) : Prop := True

/-- What `Choose` does for a valid index before it follows the chosen edge: on a node with
a choice construct it records the choice, raises "choice made" and "proceeding" and runs
the nodes between the text and the choice node; otherwise it raises "proceeding". -/
def ChoosePrologue (X : Externals) (S : USUDSScript) (fuel : Nat) (d : USUDSDialogue)
    (Index : Int) (Choice : FSUDSScriptEdge) (n : Nat) : Except Fault USUDSDialogue :=
  if (S.Node n).bHasChoices then
    match RunUntilNextChoiceNode X S fuel
        (RaiseProceeding (RaiseChoiceMade
          { d with ChoicesTaken := SetAdd d.ChoicesTaken Choice.TextID } Index))
        (some n) with
    | Except.error e => Except.error e
    | Except.ok r => Except.ok r.2
  else Except.ok (RaiseProceeding d)

/-- What `Restart` does before the run from the start node: the optional reset, the
"starting" event and the optional header run. -/
def RestartPrologue (X : Externals) (S : USUDSScript) (fuel : Nat) (d : USUDSDialogue)
    (bResetState : Bool) (StartLabel : Option String) (bReRunHeader : Bool) :
    Except Fault USUDSDialogue :=
  match (if bResetState then ResetState X S fuel d true true true else Except.ok d) with
  | Except.error e => Except.error e
  | Except.ok d1 =>
    if !bResetState && bReRunHeader then
      RunUntilNextSpeakerNodeOrEnd X S fuel (RaiseStarting d1 StartLabel) S.HeaderNode false
    else Except.ok (RaiseStarting d1 StartLabel)

/-- The demo dialogue on `NPC: Salutations fellow human` after `Choose(0)`. -/
def DemoChosen : USUDSDialogue :=
  (Returned (Choose DemoExternals DemoScript 4 (DemoAt 1 (DemoNode 2).Edges) 0)
    (false, NewDialogue)).2

/-! ## The header as a chain of set nodes -/

/-- In the words of the specification, the effect of a set node on an environment:
evaluate the expression against the environment and, if the new value differs from the
old one (type-aware inequality), commit it.  A node whose expression is not valid has no
effect. -/
def SpecSetVariable (X : Externals) (S : USUDSScript) (env : VarMap) (n : Nat) : VarMap :=
  if (S.Node n).Expression.bIsValid = true ∧
      X.NotEqual
        (match env.Find (S.Node n).Identifier with
         | some v => v
         | none => X.DefaultValue)
        (X.Evaluate (S.Node n).Expression env) = true then
    env.Add (S.Node n).Identifier (X.Evaluate (S.Node n).Expression env)
  else env

/-- Executing set nodes in order, starting from an environment. -/
def SpecRunSetNodes (X : Externals) (S : USUDSScript) (Chain : List Nat) (env : VarMap) :
    VarMap :=
  match Chain with
  | [] => env
  | n :: rest => SpecRunSetNodes X S rest (SpecSetVariable X S env n)

/-- `Chain` lists the nodes from `Start` on: they are all set nodes, each is followed by
the next one, and the last has no successor. -/
def IsSetChain (S : USUDSScript) (Start : Option Nat) (Chain : List Nat) : Prop :=
  match Chain with
  | [] => Start = none
  | n :: rest =>
    Start = some n ∧ (S.Node n).NodeType = ESUDSScriptNodeType.SetVariable ∧
    IsSetChain S (S.GetNextNode n) rest

/-- The "variable requested" and "variable changed" events. -/
def IsVariableEvent (c : Callback) : Prop :=
  match c with
  | Callback.VariableRequested _ => True
  | Callback.VariableChanged _ _ _ => True
  | _ => False

/-- A script whose body starts with a set node: `[set Met 1]`, `NPC: A`, `[set Met 5]`,
`NPC: B`.  The header (node 10) sets `SomeInt` to 99. -/
def PreludeNode (i : Nat) : USUDSScriptNode :=
  match i with
  | 0 => MkSet "Met" 1 (some 1)
  | 1 => MkText "NPC" "A" "t1" false [MkEdge "" "" ESUDSEdgeType.Continue (some 2)]
  | 2 => MkSet "Met" 5 (some 3)
  | 3 => MkText "NPC" "B" "t3" false [MkEdge "" "" ESUDSEdgeType.Continue none]
  | 10 => MkSet "SomeInt" 99 none
  | _ => MkNode ESUDSScriptNodeType.Goto []

def PreludeScript : USUDSScript :=
  { Node := PreludeNode,
    HeaderNode := some 10,
    FirstNode := some 0,
    GetNextNode := fun n => match (PreludeNode n).Edges with
                            | [e] => e.TargetNode
                            | _ => none,
    GetNextChoiceNode := fun _ => none,
    GetNodeByLabel := fun _ => none,
    GetNodeByTextID := fun t => if t = "t1" then some 1 else if t = "t3" then some 3 else none }

def PreludeInitialised : USUDSDialogue :=
  Returned (Initialise DemoExternals PreludeScript 4 NewDialogue) NewDialogue

def PreludeStarted : USUDSDialogue :=
  Returned (Start DemoExternals PreludeScript 4 PreludeInitialised none) NewDialogue

/-- The prelude script after `Initialise`, `Start` and `Continue`: on `NPC: B`, with `Met`
set to 5 by the body. -/
def PreludeAtB : USUDSDialogue :=
  (Returned (Continue DemoExternals PreludeScript 4 PreludeStarted) (false, NewDialogue)).2

/-- Then after `Restart` with reset. -/
def PreludeReset : USUDSDialogue :=
  Returned (Restart DemoExternals PreludeScript 4 PreludeAtB true none true) NewDialogue

/-- Or after `Restart` without reset, the header being run again. -/
def PreludeRestarted : USUDSDialogue :=
  Returned (Restart DemoExternals PreludeScript 4 PreludeAtB false none true) NewDialogue

/-- The value `GetVariable` reads from an environment. -/
def ReadVariable (X : Externals) (env : VarMap) (Name : String) : FSUDSValue :=
  match env.Find Name with
  | some v => v
  | none => X.DefaultValue

/-- Two dialogue states in the same position, with the same choices, variables and choices
taken. -/
def SameProgress (d e : USUDSDialogue) : Prop :=
  e.CurrentSpeakerNode = d.CurrentSpeakerNode ∧ e.CurrentChoices = d.CurrentChoices ∧
  e.VariableState = d.VariableState ∧ e.ChoicesTaken = d.ChoicesTaken

/-- The demo script with one more label, `atchoice`, that leads to the choice node 2. -/
def DemoLabelScript : USUDSScript :=
  { DemoScript with
    GetNodeByLabel := fun l => if l = "atchoice" then some 2 else DemoScript.GetNodeByLabel l }

/-- Two participants that implement the participant interface. -/
def OrderParticipants : List Participant :=
  [{ Id := 1, Priority := 0, bImplementsInterface := true },
   { Id := 2, Priority := 5, bImplementsInterface := true }]

/-- The demo select script entered at the select node 21, whose only guard reads `Met` and
fails, so that the dialogue ends at once. -/
def OrderScript : USUDSScript :=
  { DemoSelectScript with FirstNode := some 21 }

/-- A new dialogue with the two participants. -/
def OrderDialogue : USUDSDialogue :=
  { NewDialogue with Participants := OrderParticipants }

/-- Three participants in registration order: the first and the third have priority 5, the
second has priority 0. -/
def MixedParticipants : List Participant :=
  [{ Id := 1, Priority := 5, bImplementsInterface := true },
   { Id := 2, Priority := 0, bImplementsInterface := true },
   { Id := 3, Priority := 5, bImplementsInterface := true }]

/-- The start of the set-variable test script: `Player: Hello`, `[set SomeInt 99]`,
`NPC: Wotcha`, with no header. -/
def SetRunnerNode (i : Nat) : USUDSScriptNode :=
  match i with
  | 0 => MkText "Player" "Hello" "t0" false [MkEdge "" "" ESUDSEdgeType.Continue (some 1)]
  | 1 => MkSet "SomeInt" 99 (some 2)
  | 2 => MkText "NPC" "Wotcha" "t2" false [MkEdge "" "" ESUDSEdgeType.Continue none]
  | _ => MkNode ESUDSScriptNodeType.Goto []

def SetRunnerScript : USUDSScript :=
  { Node := SetRunnerNode,
    HeaderNode := none,
    FirstNode := some 0,
    GetNextNode := fun n => match (SetRunnerNode n).Edges with
                            | [e] => e.TargetNode
                            | _ => none,
    GetNextChoiceNode := fun _ => none,
    GetNodeByLabel := fun _ => none,
    GetNodeByTextID := fun t => if t = "t0" then some 0 else if t = "t2" then some 2 else none }

/-- The set-variable test dialogue after `Initialise` and `Start`: on `Player: Hello`. -/
def SetRunnerStarted : USUDSDialogue :=
  Returned (Start DemoExternals SetRunnerScript 4
    (Returned (Initialise DemoExternals SetRunnerScript 4 NewDialogue) NewDialogue) none)
    NewDialogue

/-- The demo dialogue after `Initialise`, with `ValetName`, which the header sets to 7,
set to 3 by the caller before `Start`. -/
def DemoOverridden : USUDSDialogue :=
  { DemoInitialised with
    VariableState := DemoInitialised.VariableState.Add "ValetName" (FSUDSValue.int 3) }

/-- The parameter names of the current speaker node's text; none when the dialogue is
ended. -/
def CurrentTextParameters (S : USUDSScript) (d : USUDSDialogue) : List String :=
  match d.CurrentSpeakerNode with
  | some n => (S.Node n).ParameterNames
  | none => []

/-- A script of one line whose text has a parameter: `NPC: Hello {PlayerName}`. -/
def GreetNode (i : Nat) : USUDSScriptNode :=
  match i with
  | 0 => { MkText "NPC" "Hello {PlayerName}" "t0" false
             [MkEdge "" "" ESUDSEdgeType.Continue none] with
           ParameterNames := ["PlayerName"] }
  | _ => MkNode ESUDSScriptNodeType.Goto []

def GreetScript : USUDSScript :=
  { Node := GreetNode,
    HeaderNode := none,
    FirstNode := some 0,
    GetNextNode := fun n => match (GreetNode n).Edges with
                            | [e] => e.TargetNode
                            | _ => none,
    GetNextChoiceNode := fun _ => none,
    GetNodeByLabel := fun _ => none,
    GetNodeByTextID := fun t => if t = "t0" then some 0 else none }

/-- The greeting dialogue on its line, with two participants and no callback made yet. -/
def GreetAtLine : USUDSDialogue :=
  { NewDialogue with CurrentSpeakerNode := some 0, CurrentChoices := (GreetNode 0).Edges,
                     Participants := OrderParticipants }

/-- The events a run to the next speaker line can raise: every event but "starting",
"choice made" and "proceeding". -/
def IsAdvanceEvent (c : Callback) : Prop :=
  match c with
  | Callback.Starting _ => False
  | Callback.Choice _ => False
  | Callback.Proceeding => False
  | _ => True

/-- The state in which `Choose` runs the nodes between the text node and the choice node:
the choice is recorded as taken, "choice made" and "proceeding" have been raised. -/
def ChoiceAnnounced (d : USUDSDialogue) (Index : Int) (Choice : FSUDSScriptEdge) :
    USUDSDialogue :=
  RaiseProceeding (RaiseChoiceMade
    { d with ChoicesTaken := SetAdd d.ChoicesTaken Choice.TextID } Index)

/-- The choice part of the set-variable test script: `NPC: Wotcha`, then
`[set SomeGender 1]` between the text and its choices, `* Choice 1` leading to
`[set SomeBoolean 1]` and `NPC: Truth`, `* Choice 2` leading to `NPC: Surprise`. -/
def AuxNode (i : Nat) : USUDSScriptNode :=
  match i with
  | 0 => MkText "NPC" "Wotcha" "t0" true [MkEdge "" "" ESUDSEdgeType.Continue (some 1)]
  | 1 => MkSet "SomeGender" 1 (some 2)
  | 2 => MkNode ESUDSScriptNodeType.Choice
           [MkEdge "c1" "Choice 1" ESUDSEdgeType.Decision (some 3),
            MkEdge "c2" "Choice 2" ESUDSEdgeType.Decision (some 4)]
  | 3 => MkSet "SomeBoolean" 1 (some 5)
  | 4 => MkText "NPC" "Surprise" "t4" false [MkEdge "" "" ESUDSEdgeType.Continue none]
  | 5 => MkText "NPC" "Truth" "t5" false [MkEdge "" "" ESUDSEdgeType.Continue none]
  | _ => MkNode ESUDSScriptNodeType.Goto []

def AuxScript : USUDSScript :=
  { Node := AuxNode,
    HeaderNode := none,
    FirstNode := some 0,
    GetNextNode := fun n => match (AuxNode n).Edges with
                            | [e] => e.TargetNode
                            | _ => none,
    GetNextChoiceNode := fun n => if n = 0 then some 2 else none,
    GetNodeByLabel := fun _ => none,
    GetNodeByTextID := fun t =>
      if t = "t0" then some 0 else if t = "t4" then some 4 else if t = "t5" then some 5
      else none }

/-- The dialogue on `NPC: Wotcha` with its two choices, no callback made yet. -/
def AuxAtLine : USUDSDialogue :=
  { NewDialogue with CurrentSpeakerNode := some 0, CurrentChoices := (AuxNode 2).Edges }

/-- `RunNode` with its last branch, the one that logs "attempted to run non-runnable node
type", reported as a fault, so that reaching it can be told from a select node without
successor. -/
def RunNodeChecked (X : Externals) (S : USUDSScript) (d : USUDSDialogue) (Node : Nat) :
    Except Fault (Option Nat × USUDSDialogue) :=
  match (S.Node Node).NodeType with
  | ESUDSScriptNodeType.Select => Except.ok (RunSelectNode X S d Node)
  | ESUDSScriptNodeType.SetVariable => Except.ok (RunSetVariableNode X S d Node)
  | ESUDSScriptNodeType.Event => Except.ok (RunEventNode X S d Node)
  | _ => Except.error Fault.Fatal

/-- The loop of `RunUntilNextSpeakerNodeOrEnd` and `RunUntilNextChoiceNode` over
`RunNodeChecked`. -/
def RunAutoNodesChecked (X : Externals) (S : USUDSScript) (fuel : Nat) (NextNode : Option Nat)
    (d : USUDSDialogue) : Except Fault (Option Nat × USUDSDialogue) :=
  match NextNode with
  | none => Except.ok (none, d)
  | some n =>
    if ShouldStopAtNodeType (S.Node n).NodeType then Except.ok (some n, d)
    else
      match fuel with
      | 0 => Except.error Fault.OutOfFuel
      | f + 1 =>
        match RunNodeChecked X S d n with
        | Except.error e => Except.error e
        | Except.ok r => RunAutoNodesChecked X S f r.1 r.2

/-- Neither "finished" nor "speaker line". -/
def IsQuietEvent (c : Callback) : Prop :=
  c ≠ Callback.Finished ∧ c ≠ Callback.SpeakerLine

/-- The stale script on its text node, offered a choice whose edge leads to the choice
node 1. -/
def StaleAtChoice : USUDSDialogue :=
  { StaleStarted with
    CurrentChoices := [MkEdge "x" "X" ESUDSEdgeType.Decision (some 1)] }

/-- The states reached from `Initialise` through `Start`, `Restart`, `Continue`, `Choose`,
`ResetState` and `RestoreSavedState`, each call returning within the fuel. -/
inductive Attainable (X : Externals) (S : USUDSScript) (fuel : Nat) : USUDSDialogue → Prop
  | initialise (d0 d : USUDSDialogue) :
      Initialise X S fuel d0 = Except.ok d → Attainable X S fuel d
  | start (d d1 : USUDSDialogue) (Label : Option String) :
      Attainable X S fuel d → Start X S fuel d Label = Except.ok d1 → Attainable X S fuel d1
  | restart (d d1 : USUDSDialogue) (bResetState : Bool) (StartLabel : Option String)
      (bReRunHeader : Bool) :
      Attainable X S fuel d →
      Restart X S fuel d bResetState StartLabel bReRunHeader = Except.ok d1 →
      Attainable X S fuel d1
  | proceed (d d1 : USUDSDialogue) (b : Bool) :
      Attainable X S fuel d → Continue X S fuel d = Except.ok (b, d1) → Attainable X S fuel d1
  | choose (d d1 : USUDSDialogue) (Index : Int) (b : Bool) :
      Attainable X S fuel d → Choose X S fuel d Index = Except.ok (b, d1) →
      Attainable X S fuel d1
  | reset (d d1 : USUDSDialogue) (bResetVariables bResetPosition bResetVisited : Bool) :
      Attainable X S fuel d →
      ResetState X S fuel d bResetVariables bResetPosition bResetVisited = Except.ok d1 →
      Attainable X S fuel d1
  | restore (d d1 : USUDSDialogue) (State : FSUDSDialogueState) :
      Attainable X S fuel d → RestoreSavedState X S fuel d State = Except.ok d1 →
      Attainable X S fuel d1

/-- With no current speaker node there is no current choice. -/
def EndedHasNoChoice (d : USUDSDialogue) : Prop :=
  d.CurrentSpeakerNode = none → d.CurrentChoices = []

/-! ## Termination -/

/-- A node the loops run: a set, select or event node. -/
def IsAutoRun (S : USUDSScript) (n : Nat) : Prop :=
  ShouldStopAtNodeType (S.Node n).NodeType = false

/-- The auto-run node `n` can hand over to `m`: `m` is the target of one of the edges of
the select node `n`, or the successor `GetNextNode` of the set or event node `n`. -/
def AutoStep (S : USUDSScript) (n m : Nat) : Prop :=
  IsAutoRun S n ∧
  (((S.Node n).NodeType = ESUDSScriptNodeType.Select ∧
      ∃ Edge ∈ (S.Node n).Edges, Edge.TargetNode = some m) ∨
    ((S.Node n).NodeType ≠ ESUDSScriptNodeType.Select ∧ S.GetNextNode n = some m))

/-- The graph has no cycle made up solely of auto-run nodes.  (Every node of a cycle of
`AutoStep` hands over to the next one, hence is an auto-run node.) -/
def NoAutoCycle (S : USUDSScript) : Prop :=
  ∀ n, ¬ Relation.TransGen (AutoStep S) n n

/-- A node `RecurseAppendChoices` accepts: a choice or select node. -/
def IsChoiceOrSelect (S : USUDSScript) (n : Nat) : Prop :=
  (S.Node n).NodeType = ESUDSScriptNodeType.Choice ∨
  (S.Node n).NodeType = ESUDSScriptNodeType.Select

/-- The recursion of `RecurseAppendChoices` can go from the choice or select node `n` into
`m`: `m` is the target of a condition or chained edge of `n`. -/
def ChoiceStep (S : USUDSScript) (n m : Nat) : Prop :=
  IsChoiceOrSelect S n ∧
  ∃ Edge ∈ (S.Node n).Edges,
    (Edge.EdgeType = ESUDSEdgeType.Condition ∨ Edge.EdgeType = ESUDSEdgeType.Chained) ∧
    Edge.TargetNode = some m

/-- The choice and select nodes form no cycle along condition and chained edges. -/
def NoChoiceCycle (S : USUDSScript) : Prop :=
  ∀ n, ¬ Relation.TransGen (ChoiceStep S) n n

/-- A script without auto-run node whose choice node 1 is chained to itself: `NPC: Loop`
with a choice construct. -/
def CycleNode (i : Nat) : USUDSScriptNode :=
  match i with
  | 0 => MkText "NPC" "Loop" "t0" true [MkEdge "" "" ESUDSEdgeType.Continue (some 1)]
  | 1 => MkNode ESUDSScriptNodeType.Choice [MkEdge "" "" ESUDSEdgeType.Chained (some 1)]
  | _ => MkNode ESUDSScriptNodeType.Goto []

def CycleScript : USUDSScript :=
  { Node := CycleNode,
    HeaderNode := none,
    FirstNode := some 0,
    GetNextNode := fun n => match (CycleNode n).Edges with
                            | [e] => e.TargetNode
                            | _ => none,
    GetNextChoiceNode := fun n => if n = 0 then some 1 else none,
    GetNodeByLabel := fun _ => none,
    GetNodeByTextID := fun t => if t = "t0" then some 0 else none }

/-! ## The importer: fallthrough -/

/-- An edge of a parsed node (`SUDSScriptImporter.h`); `TargetNodeIdx` is `-1` while the
edge has no target. -/
structure FSUDSParsedEdge where
  Text : String
  TargetNodeIdx : Int
deriving DecidableEq, Repr

/-- The intermediate parsed node of the importer (`SUDSScriptImporter.h`). -/
structure FSUDSParsedNode where
  NodeType : ESUDSScriptNodeType
  OriginalIndent : Int
  SpeakerOrGotoLabel : String
  Text : String
  Labels : List String
  Edges : List FSUDSParsedEdge
deriving DecidableEq, Repr

/-- Modelled from the spec: the forward scan of `FindNextOutdentedNodeIndex`, whose body
is not among the sources, over the nodes that are left, the first of which has index
`Index`: the first node "whose indent is strictly less than" the given indent. -/
def FindOutdentedFrom (Nodes : List FSUDSParsedNode) (Index : Nat) (IndentLessThan : Int) :
    Option Nat :=
  match Nodes with
  | [] => none
  | N :: rest =>
    if N.OriginalIndent < IndentLessThan then some Index
    else FindOutdentedFrom rest (Index + 1) IndentLessThan

/-- Modelled from the spec: `FindNextOutdentedNodeIndex(StartNodeIndex, IndentLessThan)`,
declared in `SUDSScriptImporter.h` and defined in `SUDSScriptImporter.cpp`, which is not
among the sources: "scanning forward for the first later node whose indent is strictly
less than" the given indent.  Nothing is found when no node from `StartNodeIndex` on is
outdented. -/
def FindNextOutdentedNodeIndex (Nodes : List FSUDSParsedNode) (StartNodeIndex : Nat)
    (IndentLessThan : Int) : Option Nat :=
  FindOutdentedFrom (Nodes.drop StartNodeIndex) StartNodeIndex IndentLessThan

/-- Modelled from the spec: the fallthrough step of `ConnectRemainingNodes`, defined in
`SUDSScriptImporter.cpp`, which is not among the sources, for the last node of a choice
branch: "when a choice branch's nodes run out without an explicit goto, the branch's last
node gains an implicit Continue edge to the nearest enclosing outdented node", the one
`FindNextOutdentedNodeIndex` finds from the next index on for the indent of the choice.
A node that has an edge already, or after which no node is outdented, is left as it is. -/
def ConnectFallthrough (Nodes : List FSUDSParsedNode) (LastNodeIdx : Nat) (ChoiceIndent : Int) :
    List FSUDSParsedNode :=
  match Nodes[LastNodeIdx]? with
  | none => Nodes
  | some N =>
    if N.Edges.isEmpty then
      match FindNextOutdentedNodeIndex Nodes (LastNodeIdx + 1) ChoiceIndent with
      | some Target =>
        Nodes.set LastNodeIdx { N with Edges := [{ Text := "", TargetNodeIdx := Target }] }
      | none => Nodes
    else Nodes

def MkParsedText (Speaker Text : String) (Indent : Int) (Edges : List FSUDSParsedEdge) :
    FSUDSParsedNode :=
  { NodeType := ESUDSScriptNodeType.Text, OriginalIndent := Indent,
    SpeakerOrGotoLabel := Speaker, Text := Text, Labels := [], Edges := Edges }

def MkParsedGoto (Label : String) (Indent : Int) : FSUDSParsedNode :=
  { NodeType := ESUDSScriptNodeType.Goto, OriginalIndent := Indent,
    SpeakerOrGotoLabel := Label, Text := "", Labels := [], Edges := [] }

/-- The text and goto lines of the nested choice of the test script `SimpleRunnerInput`
and of what follows it, in file order, with their indents (a tab counts 4), before the
fallthrough edges are made.  Node 2 is the last line of the branch `* A fallthrough
choice`, whose indent is 8; node 6 is `Player: This is the latter half of the
discussion`. -/
def FallthroughNodes : List FSUDSParsedNode :=
  [MkParsedText "Player" "Gotta go!" 12 [{ Text := "", TargetNodeIdx := 1 }],
   MkParsedGoto "goodbye" 12,
   MkParsedText "NPC" "This should fall through to latterhalf" 12 [],
   MkParsedGoto "latterhalf" 12,
   MkParsedText "Player" "What now?" 8 [{ Text := "", TargetNodeIdx := 5 }],
   MkParsedText "NPC" "This is another fallthrough" 8 [],
   MkParsedText "Player" "This is the latter half of the discussion" 0
     [{ Text := "", TargetNodeIdx := 7 }],
   MkParsedText "NPC" "Yep, sure is" 0 []]

/-- The two lines of the fallthrough as script nodes, under the indices of
`FallthroughNodes`. -/
def FallthroughNode (i : Nat) : USUDSScriptNode :=
  match i with
  | 2 => MkText "NPC" "This should fall through to latterhalf" "t2" false
           [MkEdge "" "" ESUDSEdgeType.Continue (some 6)]
  | 6 => MkText "Player" "This is the latter half of the discussion" "t6" false
           [MkEdge "" "" ESUDSEdgeType.Continue (some 7)]
  | 7 => MkText "NPC" "Yep, sure is" "t7" false []
  | _ => MkNode ESUDSScriptNodeType.Goto []

def FallthroughScript : USUDSScript :=
  { Node := FallthroughNode,
    HeaderNode := none,
    FirstNode := some 2,
    GetNextNode := fun n => match (FallthroughNode n).Edges with
                            | [e] => e.TargetNode
                            | _ => none,
    GetNextChoiceNode := fun _ => none,
    GetNodeByLabel := fun _ => none,
    GetNodeByTextID := fun _ => none }

/-- The dialogue on `NPC: This should fall through to latterhalf`. -/
def FallthroughAtLine : USUDSDialogue :=
  { NewDialogue with CurrentSpeakerNode := some 2,
                     CurrentChoices := (FallthroughNode 2).Edges }

/-- An event a set node of the chain raises: "variable requested" for a variable its
expression reads, or "variable changed", from the script, for its identifier. -/
def IsHeaderEvent (S : USUDSScript) (Chain : List Nat) (c : Callback) : Prop :=
  ∃ n ∈ Chain,
    (∃ v ∈ (S.Node n).Expression.VariableNames, c = Callback.VariableRequested v) ∨
    (∃ Value, c = Callback.VariableChanged (S.Node n).Identifier Value true)

/-- The demo select script with the choices of `NPC: Salutations fellow human` taken from
the choice node 22, which chains to the select node 20, whose first guard reads `Met`. -/
def GuardedScript : USUDSScript :=
  { DemoSelectScript with GetNextChoiceNode := fun n => if n = 1 then some 22 else none }

/-! # Theorems -/

/-! ## Index validity -/

theorem ChoiceAt_eq_none_iff (Choices : List FSUDSScriptEdge) (Index : Int) :
    ChoiceAt Choices Index = none ↔ IsValidIndex Choices Index = false := by
  unfold ChoiceAt IsValidIndex
  by_cases h : Index < 0
  · have h0 : ¬ (0 ≤ Index) := by omega
    simp [h, h0]
  · simp only [h, if_false, List.get?_eq_getElem?, List.getElem?_eq_none_iff]
    have h0 : 0 ≤ Index := by omega
    simp only [h0, decide_True, Bool.true_and, decide_eq_false_iff_not]
    omega

theorem ChoiceAt_of_out_of_range (Choices : List FSUDSScriptEdge) (Index : Int)
    (h : Index < 0 ∨ (Choices.length : Int) ≤ Index) : ChoiceAt Choices Index = none := by
  rw [ChoiceAt_eq_none_iff]
  unfold IsValidIndex
  rcases h with h | h
  · have : ¬ (0 ≤ Index) := by omega
    simp [this]
  · have : ¬ (Index < (Choices.length : Int)) := by omega
    simp [this]

/-! ## What the notification helpers leave alone -/

@[simp] theorem NotifyParticipants_CurrentSpeakerNode (d : USUDSDialogue) (c : Callback) :
    (NotifyParticipants d c).CurrentSpeakerNode = d.CurrentSpeakerNode := rfl

@[simp] theorem NotifyParticipants_VariableState (d : USUDSDialogue) (c : Callback) :
    (NotifyParticipants d c).VariableState = d.VariableState := rfl

@[simp] theorem NotifyParticipants_ChoicesTaken (d : USUDSDialogue) (c : Callback) :
    (NotifyParticipants d c).ChoicesTaken = d.ChoicesTaken := rfl

@[simp] theorem NotifyParticipants_CurrentChoices (d : USUDSDialogue) (c : Callback) :
    (NotifyParticipants d c).CurrentChoices = d.CurrentChoices := rfl

@[simp] theorem NotifyParticipants_Participants (d : USUDSDialogue) (c : Callback) :
    (NotifyParticipants d c).Participants = d.Participants := rfl

@[simp] theorem NotifyDelegate_CurrentSpeakerNode (d : USUDSDialogue) (c : Callback) :
    (NotifyDelegate d c).CurrentSpeakerNode = d.CurrentSpeakerNode := rfl

@[simp] theorem NotifyDelegate_VariableState (d : USUDSDialogue) (c : Callback) :
    (NotifyDelegate d c).VariableState = d.VariableState := rfl

@[simp] theorem NotifyDelegate_ChoicesTaken (d : USUDSDialogue) (c : Callback) :
    (NotifyDelegate d c).ChoicesTaken = d.ChoicesTaken := rfl

@[simp] theorem NotifyDelegate_CurrentChoices (d : USUDSDialogue) (c : Callback) :
    (NotifyDelegate d c).CurrentChoices = d.CurrentChoices := rfl

@[simp] theorem NotifyDelegate_Participants (d : USUDSDialogue) (c : Callback) :
    (NotifyDelegate d c).Participants = d.Participants := rfl

theorem SameButNotifications_refl (d : USUDSDialogue) : SameButNotifications d d :=
  ⟨rfl, rfl, rfl, rfl, rfl, rfl, rfl⟩

theorem SameButNotifications_trans {a b c : USUDSDialogue} (h1 : SameButNotifications a b)
    (h2 : SameButNotifications b c) : SameButNotifications a c := by
  unfold SameButNotifications at h1 h2 ⊢
  refine ⟨?_, ?_, ?_, ?_, ?_, ?_, ?_⟩
  · rw [h2.1, h1.1]
  · rw [h2.2.1, h1.2.1]
  · rw [h2.2.2.1, h1.2.2.1]
  · rw [h2.2.2.2.1, h1.2.2.2.1]
  · rw [h2.2.2.2.2.1, h1.2.2.2.2.1]
  · rw [h2.2.2.2.2.2.1, h1.2.2.2.2.2.1]
  · rw [h2.2.2.2.2.2.2, h1.2.2.2.2.2.2]

theorem NotifyParticipants_same (d : USUDSDialogue) (c : Callback) :
    SameButNotifications d (NotifyParticipants d c) :=
  ⟨rfl, rfl, rfl, rfl, rfl, rfl, rfl⟩

theorem NotifyDelegate_same (d : USUDSDialogue) (c : Callback) :
    SameButNotifications d (NotifyDelegate d c) :=
  ⟨rfl, rfl, rfl, rfl, rfl, rfl, rfl⟩

theorem RaiseVariableRequested_same (d : USUDSDialogue) (v : String) :
    SameButNotifications d (RaiseVariableRequested d v) :=
  ⟨rfl, rfl, rfl, rfl, rfl, rfl, rfl⟩

theorem RaiseVariablesRequested_same (Names : List String) (d : USUDSDialogue) :
    SameButNotifications d (RaiseVariablesRequested d Names) := by
  induction Names generalizing d with
  | nil => exact SameButNotifications_refl d
  | cons v rest ih =>
    exact SameButNotifications_trans (RaiseVariableRequested_same d v) (ih _)

theorem RaiseExpressionVariablesRequested_same (d : USUDSDialogue) (e : FSUDSExpression) :
    SameButNotifications d (RaiseExpressionVariablesRequested d e) :=
  RaiseVariablesRequested_same e.VariableNames d

@[simp] theorem RaiseExpressionVariablesRequested_VariableState (d : USUDSDialogue)
    (e : FSUDSExpression) :
    (RaiseExpressionVariablesRequested d e).VariableState = d.VariableState :=
  (RaiseExpressionVariablesRequested_same d e).2.1

theorem GetText_same (X : Externals) (S : USUDSScript) (d : USUDSDialogue) :
    SameButNotifications d (GetText X S d).2 := by
  unfold GetText
  cases d.CurrentSpeakerNode with
  | none => exact SameButNotifications_refl d
  | some n =>
    by_cases h : (S.Node n).HasParameters = true
    · simp only [h, if_true, ResolveParameterisedText]
      exact RaiseVariablesRequested_same _ d
    · simp only [h]
      exact SameButNotifications_refl d

/-! ## Maps and sets -/

theorem VarMap_Find_Add (m : VarMap) (k : String) (v : FSUDSValue) (k1 : String) :
    (VarMap.Add m k v).Find k1 = if k1 = k then some v else m.Find k1 := by
  induction m with
  | nil =>
    by_cases h : k1 = k
    · simp [VarMap.Add, VarMap.Find, h]
    · have h2 : ¬ k = k1 := fun h3 => h h3.symm
      simp [VarMap.Add, VarMap.Find, h, h2]
  | cons p rest ih =>
    obtain ⟨a, b⟩ := p
    by_cases hak : a = k
    · subst hak
      by_cases h : k1 = a
      · subst h
        simp [VarMap.Add, VarMap.Find]
      · have h2 : ¬ a = k1 := fun h3 => h h3.symm
        simp [VarMap.Add, VarMap.Find, h, h2]
    · by_cases h : k1 = k
      · subst h
        simp [VarMap.Add, VarMap.Find, hak, ih]
      · by_cases h3 : a = k1
        · subst h3
          simp [VarMap.Add, VarMap.Find, hak]
        · simp [VarMap.Add, VarMap.Find, hak, h, h3, ih]

theorem VarMap_Find_Append (m Other : VarMap) (k : String) :
    (VarMap.Append m Other).Find k =
      match Other.Find k with
      | some v => some v
      | none => m.Find k := by
  induction Other with
  | nil => simp [VarMap.Append, VarMap.Find]
  | cons p rest ih =>
    obtain ⟨a, b⟩ := p
    simp only [VarMap.Append, VarMap_Find_Add, VarMap.Find]
    by_cases h : a = k
    · subst h
      simp
    · have h2 : ¬ k = a := fun h3 => h h3.symm
      simp [h, h2, ih]

theorem mem_SetAdd (s : List String) (x y : String) : y ∈ SetAdd s x ↔ y ∈ s ∨ y = x := by
  unfold SetAdd
  by_cases h : x ∈ s
  · simp only [h, if_true]
    constructor
    · intro h1; exact Or.inl h1
    · intro h1
      rcases h1 with h1 | h1
      · exact h1
      · rw [h1]; exact h
  · simp [h]

theorem mem_SetAppend (Other s : List String) (y : String) :
    y ∈ SetAppend s Other ↔ y ∈ s ∨ y ∈ Other := by
  induction Other generalizing s with
  | nil => simp [SetAppend]
  | cons x rest ih =>
    simp only [SetAppend, ih, mem_SetAdd, List.mem_cons]
    tauto

/-! ## Running nodes: what is left alone, and what the result depends on -/

theorem SameButVariables_refl (d : USUDSDialogue) : SameButVariables d d :=
  ⟨rfl, rfl, rfl, rfl, rfl, rfl⟩

theorem SameButVariables_trans {a b c : USUDSDialogue} (h1 : SameButVariables a b)
    (h2 : SameButVariables b c) : SameButVariables a c := by
  unfold SameButVariables at h1 h2 ⊢
  refine ⟨?_, ?_, ?_, ?_, ?_, ?_⟩
  · rw [h2.1, h1.1]
  · rw [h2.2.1, h1.2.1]
  · rw [h2.2.2.1, h1.2.2.1]
  · rw [h2.2.2.2.1, h1.2.2.2.1]
  · rw [h2.2.2.2.2.1, h1.2.2.2.2.1]
  · rw [h2.2.2.2.2.2, h1.2.2.2.2.2]

theorem SameButNotifications_toVariables {d e : USUDSDialogue}
    (h : SameButNotifications d e) : SameButVariables d e := by
  obtain ⟨a1, _, a3, a4, a5, a6, a7⟩ := h
  exact ⟨a1, a3, a4, a5, a6, a7⟩

theorem KeysKept_refl (m : VarMap) : KeysKept m m := fun _ h => h

theorem KeysKept_trans {a b c : VarMap} (h1 : KeysKept a b) (h2 : KeysKept b c) :
    KeysKept a c := fun k h => h2 k (h1 k h)

theorem KeysKept_Add (m : VarMap) (k : String) (v : FSUDSValue) : KeysKept m (m.Add k v) := by
  intro k1 h
  rw [VarMap_Find_Add]
  by_cases h1 : k1 = k
  · simp [h1]
  · simpa [h1] using h

theorem RunSelectEdges_same (X : Externals) (Edges : List FSUDSScriptEdge) (d : USUDSDialogue) :
    SameButNotifications d (RunSelectEdges X Edges d).2 := by
  induction Edges generalizing d with
  | nil => exact SameButNotifications_refl d
  | cons Edge rest ih =>
    unfold RunSelectEdges
    by_cases hv : Edge.Condition.bIsValid = true
    · rw [if_pos hv]
      by_cases hb : X.EvaluateBoolean Edge.Condition
          (RaiseExpressionVariablesRequested d Edge.Condition).VariableState = true
      · rw [if_pos hb]
        exact RaiseExpressionVariablesRequested_same d Edge.Condition
      · rw [if_neg hb]
        exact SameButNotifications_trans (RaiseExpressionVariablesRequested_same d Edge.Condition)
          (ih _)
    · rw [if_neg hv]
      exact ih d

theorem RunSelectEdges_fst (X : Externals) (Edges : List FSUDSScriptEdge) (d : USUDSDialogue) :
    (RunSelectEdges X Edges d).1 =
      (Edges.find? (GuardHolds X d.VariableState)).bind (fun Edge => Edge.TargetNode) := by
  induction Edges generalizing d with
  | nil => rfl
  | cons Edge rest ih =>
    unfold RunSelectEdges
    rw [RaiseExpressionVariablesRequested_VariableState]
    by_cases hv : Edge.Condition.bIsValid = true
    · rw [if_pos hv]
      by_cases hb : X.EvaluateBoolean Edge.Condition d.VariableState = true
      · rw [if_pos hb]
        simp [GuardHolds, List.find?, hv, hb]
      · rw [if_neg hb, ih, RaiseExpressionVariablesRequested_VariableState]
        simp [GuardHolds, List.find?, hv, hb]
    · rw [if_neg hv, ih]
      simp [GuardHolds, List.find?, hv]

theorem ResolveEventArgs_same (X : Externals) (Args : List FSUDSExpression) (d : USUDSDialogue) :
    SameButNotifications d (ResolveEventArgs X Args d).2 := by
  induction Args generalizing d with
  | nil => exact SameButNotifications_refl d
  | cons Expr rest ih =>
    unfold ResolveEventArgs
    exact SameButNotifications_trans (RaiseExpressionVariablesRequested_same d Expr) (ih _)

theorem RunEventNode_same (X : Externals) (S : USUDSScript) (d : USUDSDialogue) (Node : Nat) :
    SameButNotifications d (RunEventNode X S d Node).2 := by
  unfold RunEventNode
  by_cases h : (S.Node Node).NodeType = ESUDSScriptNodeType.Event
  · rw [if_pos h]
    exact SameButNotifications_trans (ResolveEventArgs_same X _ d)
      (SameButNotifications_trans (NotifyParticipants_same _ _) (NotifyDelegate_same _ _))
  · rw [if_neg h]
    exact SameButNotifications_refl d

theorem RunSetVariableNode_frame (X : Externals) (S : USUDSScript) (d : USUDSDialogue)
    (Node : Nat) : SameButVariables d (RunSetVariableNode X S d Node).2 := by
  have hR := RaiseExpressionVariablesRequested_same d (S.Node Node).Expression
  obtain ⟨a1, _, a3, a4, a5, a6, a7⟩ := hR
  unfold RunSetVariableNode
  by_cases h : (S.Node Node).NodeType = ESUDSScriptNodeType.SetVariable
  · by_cases hv : (S.Node Node).Expression.bIsValid = true
    · rw [if_pos h, if_pos hv]
      dsimp only
      split
      · exact ⟨a1, a3, a4, a5, a6, a7⟩
      · exact ⟨a1, a3, a4, a5, a6, a7⟩
    · rw [if_pos h, if_neg hv]
      exact SameButVariables_refl d
  · rw [if_neg h]
    exact SameButVariables_refl d

theorem RunSetVariableNode_keys (X : Externals) (S : USUDSScript) (d : USUDSDialogue)
    (Node : Nat) : KeysKept d.VariableState (RunSetVariableNode X S d Node).2.VariableState := by
  unfold RunSetVariableNode
  by_cases h : (S.Node Node).NodeType = ESUDSScriptNodeType.SetVariable
  · by_cases hv : (S.Node Node).Expression.bIsValid = true
    · rw [if_pos h, if_pos hv]
      dsimp only
      split
      · simp only [RaiseVariableChange, NotifyDelegate_VariableState,
          NotifyParticipants_VariableState, RaiseExpressionVariablesRequested_VariableState]
        exact KeysKept_Add _ _ _
      · simp only [RaiseExpressionVariablesRequested_VariableState]
        exact KeysKept_refl _
    · rw [if_pos h, if_neg hv]
      exact KeysKept_refl _
  · rw [if_neg h]
    exact KeysKept_refl _

theorem RunSetVariableNode_sim (X : Externals) (S : USUDSScript) (d e : USUDSDialogue)
    (Node : Nat) (h : d.VariableState = e.VariableState) :
    (RunSetVariableNode X S d Node).1 = (RunSetVariableNode X S e Node).1 ∧
    (RunSetVariableNode X S d Node).2.VariableState =
      (RunSetVariableNode X S e Node).2.VariableState := by
  unfold RunSetVariableNode
  by_cases ht : (S.Node Node).NodeType = ESUDSScriptNodeType.SetVariable
  · by_cases hv : (S.Node Node).Expression.bIsValid = true
    · rw [if_pos ht, if_pos hv, if_pos ht, if_pos hv]
      simp only [GetVariable, RaiseExpressionVariablesRequested_VariableState, h]
      split
      · simp [RaiseVariableChange, h]
      · simp [h]
    · rw [if_pos ht, if_neg hv, if_pos ht, if_neg hv]
      exact ⟨rfl, h⟩
  · rw [if_neg ht, if_neg ht]
    exact ⟨rfl, h⟩

theorem RunNode_frame (X : Externals) (S : USUDSScript) (d : USUDSDialogue) (Node : Nat) :
    SameButVariables d (RunNode X S d Node).2 := by
  unfold RunNode
  split
  · exact SameButNotifications_toVariables (RunSelectEdges_same X _ d)
  · exact RunSetVariableNode_frame X S d Node
  · exact SameButNotifications_toVariables (RunEventNode_same X S d Node)
  · exact SameButVariables_refl d

theorem RunNode_keys (X : Externals) (S : USUDSScript) (d : USUDSDialogue) (Node : Nat) :
    KeysKept d.VariableState (RunNode X S d Node).2.VariableState := by
  unfold RunNode
  split
  · unfold RunSelectNode
    rw [(RunSelectEdges_same X _ d).2.1]
    exact KeysKept_refl _
  · exact RunSetVariableNode_keys X S d Node
  · rw [(RunEventNode_same X S d Node).2.1]
    exact KeysKept_refl _
  · exact KeysKept_refl _

theorem RunNode_sim (X : Externals) (S : USUDSScript) (d e : USUDSDialogue) (Node : Nat)
    (h : d.VariableState = e.VariableState) :
    (RunNode X S d Node).1 = (RunNode X S e Node).1 ∧
    (RunNode X S d Node).2.VariableState = (RunNode X S e Node).2.VariableState := by
  unfold RunNode
  split
  · refine ⟨?_, ?_⟩
    · unfold RunSelectNode
      rw [RunSelectEdges_fst, RunSelectEdges_fst, h]
    · unfold RunSelectNode
      rw [(RunSelectEdges_same X _ d).2.1, (RunSelectEdges_same X _ e).2.1, h]
  · exact RunSetVariableNode_sim X S d e Node h
  · refine ⟨?_, ?_⟩
    · unfold RunEventNode
      split <;> rfl
    · rw [(RunEventNode_same X S d Node).2.1, (RunEventNode_same X S e Node).2.1, h]
  · exact ⟨rfl, h⟩

theorem RunAutoNodes_frame (X : Externals) (S : USUDSScript) (fuel : Nat) (n : Option Nat)
    (d : USUDSDialogue) (r : Option Nat × USUDSDialogue)
    (h : RunAutoNodes X S fuel n d = Except.ok r) :
    SameButVariables d r.2 ∧ KeysKept d.VariableState r.2.VariableState := by
  induction fuel generalizing n d with
  | zero =>
    cases n with
    | none =>
      unfold RunAutoNodes at h
      cases h
      exact ⟨SameButVariables_refl d, KeysKept_refl _⟩
    | some m =>
      unfold RunAutoNodes at h
      by_cases hs : ShouldStopAtNodeType (S.Node m).NodeType = true
      · rw [if_pos hs] at h
        cases h
        exact ⟨SameButVariables_refl d, KeysKept_refl _⟩
      · rw [if_neg hs] at h
        cases h
  | succ f ih =>
    cases n with
    | none =>
      unfold RunAutoNodes at h
      cases h
      exact ⟨SameButVariables_refl d, KeysKept_refl _⟩
    | some m =>
      unfold RunAutoNodes at h
      by_cases hs : ShouldStopAtNodeType (S.Node m).NodeType = true
      · rw [if_pos hs] at h
        cases h
        exact ⟨SameButVariables_refl d, KeysKept_refl _⟩
      · rw [if_neg hs] at h
        obtain ⟨h1, h2⟩ := ih _ _ h
        exact ⟨SameButVariables_trans (RunNode_frame X S d m) h1,
          KeysKept_trans (RunNode_keys X S d m) h2⟩

theorem RunAutoNodes_sim (X : Externals) (S : USUDSScript) (fuel : Nat) (n : Option Nat)
    (d e : USUDSDialogue) (h : d.VariableState = e.VariableState) :
    SameOutcome (fun r r1 => r.1 = r1.1 ∧ r.2.VariableState = r1.2.VariableState)
      (RunAutoNodes X S fuel n d) (RunAutoNodes X S fuel n e) := by
  induction fuel generalizing n d e with
  | zero =>
    cases n with
    | none =>
      unfold RunAutoNodes
      exact ⟨rfl, h⟩
    | some m =>
      unfold RunAutoNodes
      by_cases hs : ShouldStopAtNodeType (S.Node m).NodeType = true
      · rw [if_pos hs, if_pos hs]
        exact ⟨rfl, h⟩
      · rw [if_neg hs, if_neg hs]
        exact rfl
  | succ f ih =>
    cases n with
    | none =>
      unfold RunAutoNodes
      exact ⟨rfl, h⟩
    | some m =>
      unfold RunAutoNodes
      by_cases hs : ShouldStopAtNodeType (S.Node m).NodeType = true
      · rw [if_pos hs, if_pos hs]
        exact ⟨rfl, h⟩
      · rw [if_neg hs, if_neg hs]
        obtain ⟨h1, h2⟩ := RunNode_sim X S d e m h
        simp only []
        rw [h1]
        exact ih _ _ _ h2

/-- The node at which the loop stops is not an auto-run node. -/
theorem RunAutoNodes_stops (X : Externals) (S : USUDSScript) (fuel : Nat) (n : Option Nat)
    (d : USUDSDialogue) (m : Nat) (d1 : USUDSDialogue)
    (h : RunAutoNodes X S fuel n d = Except.ok (some m, d1)) :
    ShouldStopAtNodeType (S.Node m).NodeType = true := by
  induction fuel generalizing n d with
  | zero =>
    cases n with
    | none =>
      unfold RunAutoNodes at h
      cases h
    | some k =>
      unfold RunAutoNodes at h
      by_cases hs : ShouldStopAtNodeType (S.Node k).NodeType = true
      · rw [if_pos hs] at h
        cases h
        exact hs
      · rw [if_neg hs] at h
        cases h
  | succ f ih =>
    cases n with
    | none =>
      unfold RunAutoNodes at h
      cases h
    | some k =>
      unfold RunAutoNodes at h
      by_cases hs : ShouldStopAtNodeType (S.Node k).NodeType = true
      · rw [if_pos hs] at h
        cases h
        exact hs
      · rw [if_neg hs] at h
        exact ih _ _ h

theorem SameOutcome_of_ok_right {α β : Type} {R : α → β → Prop} {a : Except Fault α}
    {b : Except Fault β} {y : β} (h : SameOutcome R a b) (hb : b = Except.ok y) :
    ∃ x, a = Except.ok x ∧ R x y := by
  subst hb
  cases a with
  | error e => exact h.elim
  | ok x => exact ⟨x, rfl, h⟩

theorem SameOutcome_of_ok_left {α β : Type} {R : α → β → Prop} {a : Except Fault α}
    {b : Except Fault β} {x : α} (h : SameOutcome R a b) (ha : a = Except.ok x) :
    ∃ y, b = Except.ok y ∧ R x y := by
  subst ha
  cases b with
  | error e => exact h.elim
  | ok y => exact ⟨y, rfl, h⟩

theorem SameOutcome_of_error_right {α β : Type} {R : α → β → Prop} {a : Except Fault α}
    {b : Except Fault β} {f : Fault} (h : SameOutcome R a b) (hb : b = Except.error f) :
    a = Except.error f := by
  subst hb
  cases a with
  | error e =>
    have h1 : e = f := h
    rw [h1]
  | ok x => exact h.elim

/-- Both outcomes are compared with a third one: they fail alike or both return. -/
theorem SameOutcome_join {α β γ : Type} {R : α → γ → Prop} {R1 : β → γ → Prop}
    {Q : α → β → Prop} {a : Except Fault α} {b : Except Fault β} {c : Except Fault γ}
    (h : SameOutcome R a c) (h1 : SameOutcome R1 b c)
    (hQ : ∀ x y z, R x z → R1 y z → Q x y) : SameOutcome Q a b := by
  cases c with
  | error f =>
    rw [SameOutcome_of_error_right h rfl, SameOutcome_of_error_right h1 rfl]
    exact rfl
  | ok z =>
    obtain ⟨x, hx, hxz⟩ := SameOutcome_of_ok_right h rfl
    obtain ⟨y, hy, hyz⟩ := SameOutcome_of_ok_right h1 rfl
    rw [hx, hy]
    exact hQ x y z hxz hyz

/-! ## Collecting choices: what is left alone, and what the result depends on -/

theorem AppendChoicesOfEdges_same (X : Externals)
    (Recurse : Option Nat → List FSUDSScriptEdge → USUDSDialogue →
      Except Fault (List FSUDSScriptEdge × USUDSDialogue))
    (hRec : ∀ n out d r, Recurse n out d = Except.ok r → SameButNotifications d r.2)
    (Edges : List FSUDSScriptEdge) (out : List FSUDSScriptEdge) (d : USUDSDialogue)
    (r : List FSUDSScriptEdge × USUDSDialogue)
    (h : AppendChoicesOfEdges X Recurse Edges out d = Except.ok r) :
    SameButNotifications d r.2 := by
  induction Edges generalizing out d with
  | nil =>
    unfold AppendChoicesOfEdges at h
    cases h
    exact SameButNotifications_refl d
  | cons Edge rest ih =>
    unfold AppendChoicesOfEdges at h
    split at h
    · exact ih _ _ h
    · by_cases hv : Edge.Condition.bIsValid = true
      · rw [if_pos hv] at h
        split at h
        · exact SameButNotifications_trans
            (RaiseExpressionVariablesRequested_same d Edge.Condition) (hRec _ _ _ _ h)
        · exact SameButNotifications_trans
            (RaiseExpressionVariablesRequested_same d Edge.Condition) (ih _ _ h)
      · rw [if_neg hv] at h
        exact ih _ _ h
    · split at h
      · cases h
      · rename_i r1 hr1
        exact SameButNotifications_trans (hRec _ _ _ _ hr1) (ih _ _ h)
    · cases h

theorem RecurseAppendChoices_same (X : Externals) (S : USUDSScript) (fuel : Nat)
    (n : Option Nat) (out : List FSUDSScriptEdge) (d : USUDSDialogue)
    (r : List FSUDSScriptEdge × USUDSDialogue)
    (h : RecurseAppendChoices X S fuel n out d = Except.ok r) :
    SameButNotifications d r.2 := by
  induction fuel generalizing n out d r with
  | zero =>
    cases n with
    | none =>
      unfold RecurseAppendChoices at h
      cases h
      exact SameButNotifications_refl d
    | some m =>
      unfold RecurseAppendChoices at h
      cases h
  | succ f ih =>
    cases n with
    | none =>
      unfold RecurseAppendChoices at h
      cases h
      exact SameButNotifications_refl d
    | some m =>
      unfold RecurseAppendChoices at h
      simp only [] at h
      split at h
      · exact AppendChoicesOfEdges_same X _ (fun n out d r hr => ih n out d r hr) _ _ _ _ h
      · cases h

theorem AppendChoicesOfEdges_sim (X : Externals)
    (Recurse : Option Nat → List FSUDSScriptEdge → USUDSDialogue →
      Except Fault (List FSUDSScriptEdge × USUDSDialogue))
    (hRec : ∀ n out d r, Recurse n out d = Except.ok r → SameButNotifications d r.2)
    (hSim : ∀ n out d e, SameGuards X d.VariableState e.VariableState →
      SameOutcome (fun r r1 => r.1 = r1.1) (Recurse n out d) (Recurse n out e))
    (Edges : List FSUDSScriptEdge) (out : List FSUDSScriptEdge) (d e : USUDSDialogue)
    (h : SameGuards X d.VariableState e.VariableState) :
    SameOutcome (fun r r1 => r.1 = r1.1) (AppendChoicesOfEdges X Recurse Edges out d)
      (AppendChoicesOfEdges X Recurse Edges out e) := by
  induction Edges generalizing out d e with
  | nil =>
    unfold AppendChoicesOfEdges
    exact rfl
  | cons Edge rest ih =>
    unfold AppendChoicesOfEdges
    split
    · exact ih _ _ _ h
    · by_cases hv : Edge.Condition.bIsValid = true
      · rw [if_pos hv, if_pos hv]
        simp only [RaiseExpressionVariablesRequested_VariableState, h Edge.Condition]
        split
        · apply hSim
          simpa using h
        · apply ih
          simpa using h
      · rw [if_neg hv, if_neg hv]
        exact ih _ _ _ h
    · have hS := hSim Edge.TargetNode out d e h
      cases hd : Recurse Edge.TargetNode out d with
      | error x =>
        cases he : Recurse Edge.TargetNode out e with
        | error y =>
          rw [hd, he] at hS
          exact hS
        | ok r1 =>
          rw [hd, he] at hS
          exact hS.elim
      | ok r0 =>
        cases he : Recurse Edge.TargetNode out e with
        | error y =>
          rw [hd, he] at hS
          exact hS.elim
        | ok r1 =>
          rw [hd, he] at hS
          have h0 : r0.1 = r1.1 := hS
          simp only []
          rw [h0]
          apply ih
          rw [(hRec _ _ _ _ hd).2.1, (hRec _ _ _ _ he).2.1]
          exact h
    · exact rfl

theorem RecurseAppendChoices_sim (X : Externals) (S : USUDSScript) (fuel : Nat)
    (n : Option Nat) (out : List FSUDSScriptEdge) (d e : USUDSDialogue)
    (h : SameGuards X d.VariableState e.VariableState) :
    SameOutcome (fun r r1 => r.1 = r1.1) (RecurseAppendChoices X S fuel n out d)
      (RecurseAppendChoices X S fuel n out e) := by
  induction fuel generalizing n out d e with
  | zero =>
    cases n with
    | none =>
      unfold RecurseAppendChoices
      exact rfl
    | some m =>
      unfold RecurseAppendChoices
      exact rfl
  | succ f ih =>
    cases n with
    | none =>
      unfold RecurseAppendChoices
      exact rfl
    | some m =>
      unfold RecurseAppendChoices
      simp only []
      split
      · exact AppendChoicesOfEdges_sim X _
          (fun n out d r hr => RecurseAppendChoices_same X S f n out d r hr)
          (fun n out d e hde => ih n out d e hde) _ _ _ _ h
      · exact rfl

/-- `UpdateChoices` sets the choice list to a function of the position and the
environment, and fails only when that computation fails. -/
theorem UpdateChoices_spec (X : Externals) (S : USUDSScript) (fuel : Nat) (d : USUDSDialogue) :
    SameOutcome (fun d1 cs => d1.CurrentChoices = cs ∧ SameButChoices d d1)
      (UpdateChoices X S fuel d) (ChoicesFor X S fuel d.VariableState d.CurrentSpeakerNode) := by
  obtain ⟨node, vs, ct, cc, ps, dn, bp, ns⟩ := d
  unfold ChoicesFor UpdateChoices
  cases node with
  | none => exact ⟨rfl, rfl, rfl, rfl, rfl, rfl, rfl⟩
  | some n =>
    by_cases hc : (S.Node n).bHasChoices = true
    · simp only [hc, if_true]
      cases hg : S.GetNextChoiceNode n with
      | none => exact ⟨rfl, rfl, rfl, rfl, rfl, rfl, rfl⟩
      | some c =>
        simp only []
        have hS := RecurseAppendChoices_sim X S fuel (some c) []
          { CurrentSpeakerNode := some n, VariableState := vs, ChoicesTaken := ct,
            CurrentChoices := [], Participants := ps, CurrentSpeakerDisplayName := dn,
            bParamNamesExtracted := bp, Notifications := ns }
          { ({ NewDialogue with CurrentSpeakerNode := some n,
                                VariableState := vs } : USUDSDialogue) with
            CurrentChoices := [] } (fun _ => rfl)
        have hF := RecurseAppendChoices_same X S fuel (some c) []
          { CurrentSpeakerNode := some n, VariableState := vs, ChoicesTaken := ct,
            CurrentChoices := [], Participants := ps, CurrentSpeakerDisplayName := dn,
            bParamNamesExtracted := bp, Notifications := ns }
        revert hS hF
        generalize RecurseAppendChoices X S fuel (some c) []
          { CurrentSpeakerNode := some n, VariableState := vs, ChoicesTaken := ct,
            CurrentChoices := [], Participants := ps, CurrentSpeakerDisplayName := dn,
            bParamNamesExtracted := bp, Notifications := ns } = A
        generalize RecurseAppendChoices X S fuel (some c) []
          { ({ NewDialogue with CurrentSpeakerNode := some n,
                                VariableState := vs } : USUDSDialogue) with
            CurrentChoices := [] } = B
        intro hS hF
        cases A with
        | error x =>
          cases B with
          | error y => exact hS
          | ok r1 => exact hS.elim
        | ok r =>
          cases B with
          | error y => exact hS.elim
          | ok r1 =>
            obtain ⟨a1, a2, a3, _, a5, a6, a7⟩ := hF r rfl
            exact ⟨hS, a1, a2, a3, a5, a6, a7⟩
    · simp only [hc]
      cases (S.Node n).GetEdge 0 with
      | none => exact ⟨rfl, rfl, rfl, rfl, rfl, rfl, rfl⟩
      | some Edge => exact ⟨rfl, rfl, rfl, rfl, rfl, rfl, rfl⟩

/-- `SetCurrentSpeakerNode` moves to the node, recomputes the choices for it, and leaves
the variables, the choices taken and the participants alone. -/
theorem SetCurrentSpeakerNode_spec (X : Externals) (S : USUDSScript) (fuel : Nat)
    (d : USUDSDialogue) (Node : Option Nat) (bQuietly : Bool) :
    SameOutcome (fun d1 cs => d1.CurrentChoices = cs ∧ d1.CurrentSpeakerNode = Node ∧
        d1.VariableState = d.VariableState ∧ d1.ChoicesTaken = d.ChoicesTaken ∧
        d1.Participants = d.Participants)
      (SetCurrentSpeakerNode X S fuel d Node bQuietly)
      (ChoicesFor X S fuel d.VariableState Node) := by
  have hU := UpdateChoices_spec X S fuel
    { d with CurrentSpeakerNode := Node, CurrentSpeakerDisplayName := "",
             bParamNamesExtracted := false }
  unfold SetCurrentSpeakerNode
  cases hc : ChoicesFor X S fuel d.VariableState Node with
  | error f =>
    have h1 := SameOutcome_of_error_right hU hc
    rw [h1]
    exact rfl
  | ok cs =>
    obtain ⟨d1, h1, h2, h3, h4, h5, h6, _⟩ := SameOutcome_of_ok_right hU hc
    rw [h1]
    cases bQuietly with
    | true => exact ⟨h2, h3, h4, h5, h6⟩
    | false =>
      simp only [Bool.false_eq_true, if_false]
      cases hn : d1.CurrentSpeakerNode with
      | none => exact ⟨h2, h3, h4, h5, h6⟩
      | some m => exact ⟨h2, h3, h4, h5, h6⟩

theorem RunUntilNextSpeakerNodeOrEnd_frame (X : Externals) (S : USUDSScript) (fuel : Nat)
    (d : USUDSDialogue) (n : Option Nat) (b : Bool) (r : USUDSDialogue)
    (h : RunUntilNextSpeakerNodeOrEnd X S fuel d n b = Except.ok r) :
    KeysKept d.VariableState r.VariableState ∧ r.ChoicesTaken = d.ChoicesTaken ∧
    r.Participants = d.Participants := by
  unfold RunUntilNextSpeakerNodeOrEnd at h
  cases hA : RunAutoNodes X S fuel n d with
  | error x =>
    rw [hA] at h
    cases h
  | ok p =>
    obtain ⟨m, d1⟩ := p
    obtain ⟨hF, hK⟩ := RunAutoNodes_frame X S fuel n d _ hA
    obtain ⟨_, f2, _, f4, _, _⟩ := hF
    rw [hA] at h
    cases m with
    | none =>
      simp only [End] at h
      obtain ⟨cs, _, _, _, h3, h4, h5⟩ :=
        SameOutcome_of_ok_left (SetCurrentSpeakerNode_spec X S fuel d1 none (!b)) h
      exact ⟨by rw [h3]; exact hK, h4.trans f2, h5.trans f4⟩
    | some k =>
      simp only [] at h
      by_cases ht : (S.Node k).NodeType = ESUDSScriptNodeType.Text
      · rw [if_pos ht] at h
        obtain ⟨cs, _, _, _, h3, h4, h5⟩ :=
          SameOutcome_of_ok_left (SetCurrentSpeakerNode_spec X S fuel d1 (some k) false) h
        exact ⟨by rw [h3]; exact hK, h4.trans f2, h5.trans f4⟩
      · rw [if_neg ht] at h
        cases h
        exact ⟨hK, f2, f4⟩

theorem RunUntilNextSpeakerNodeOrEnd_sim (X : Externals) (S : USUDSScript) (fuel : Nat)
    (d e : USUDSDialogue) (n : Option Nat) (b b1 : Bool)
    (h : d.VariableState = e.VariableState) :
    SameOutcome (fun r r1 => r.VariableState = r1.VariableState)
      (RunUntilNextSpeakerNodeOrEnd X S fuel d n b)
      (RunUntilNextSpeakerNodeOrEnd X S fuel e n b1) := by
  have hS := RunAutoNodes_sim X S fuel n d e h
  unfold RunUntilNextSpeakerNodeOrEnd
  revert hS
  generalize RunAutoNodes X S fuel n d = A
  generalize RunAutoNodes X S fuel n e = B
  intro hS
  cases A with
  | error x =>
    cases B with
    | error y => exact hS
    | ok q => exact hS.elim
  | ok p =>
    cases B with
    | error y => exact hS.elim
    | ok q =>
      obtain ⟨m, d1⟩ := p
      obtain ⟨m1, e1⟩ := q
      obtain ⟨hm, hv⟩ : m = m1 ∧ d1.VariableState = e1.VariableState := hS
      subst hm
      cases m with
      | none =>
        simp only [End]
        have h1 := SetCurrentSpeakerNode_spec X S fuel d1 none (!b)
        have h2 := SetCurrentSpeakerNode_spec X S fuel e1 none (!b1)
        rw [hv] at h1
        exact SameOutcome_join h1 h2
          (fun x y _ hx hy => hx.2.2.1.trans hy.2.2.1.symm)
      | some k =>
        simp only []
        by_cases ht : (S.Node k).NodeType = ESUDSScriptNodeType.Text
        · rw [if_pos ht, if_pos ht]
          have h1 := SetCurrentSpeakerNode_spec X S fuel d1 (some k) false
          have h2 := SetCurrentSpeakerNode_spec X S fuel e1 (some k) false
          rw [hv] at h1
          exact SameOutcome_join h1 h2
            (fun x y _ hx hy => hx.2.2.1.trans hy.2.2.1.symm)
        · rw [if_neg ht, if_neg ht]
          exact hv

/-- `InitVariables` rebuilds the header environment whatever the state it is called in,
and leaves the choices taken and the participants alone. -/
theorem InitVariables_spec (X : Externals) (S : USUDSScript) (fuel : Nat) (d : USUDSDialogue) :
    SameOutcome (fun d1 H => d1.VariableState = H ∧ d1.ChoicesTaken = d.ChoicesTaken ∧
        d1.Participants = d.Participants)
      (InitVariables X S fuel d) (HeaderVariables X S fuel) := by
  have hS := RunUntilNextSpeakerNodeOrEnd_sim X S fuel { d with VariableState := [] }
    { NewDialogue with VariableState := [] } S.HeaderNode false false rfl
  have hF := RunUntilNextSpeakerNodeOrEnd_frame X S fuel { d with VariableState := [] }
    S.HeaderNode false
  unfold HeaderVariables InitVariables
  revert hS hF
  generalize RunUntilNextSpeakerNodeOrEnd X S fuel { d with VariableState := [] }
    S.HeaderNode false = A
  generalize RunUntilNextSpeakerNodeOrEnd X S fuel { NewDialogue with VariableState := [] }
    S.HeaderNode false = B
  intro hS hF
  cases A with
  | error x =>
    cases B with
    | error y => exact hS
    | ok q => exact hS.elim
  | ok p =>
    cases B with
    | error y => exact hS.elim
    | ok q =>
      obtain ⟨_, h2, h3⟩ := hF p rfl
      exact ⟨hS, h2, h3⟩

theorem ChoicesFor_none (X : Externals) (S : USUDSScript) (fuel : Nat) (env : VarMap) :
    ChoicesFor X S fuel env none = Except.ok [] := rfl

/-- What `RestoreSavedState` builds, for any state it is called in. -/
theorem RestoreSavedState_spec (X : Externals) (S : USUDSScript) (fuel : Nat)
    (d : USUDSDialogue) (State : FSUDSDialogueState) (H : VarMap)
    (cs : List FSUDSScriptEdge) (hHeader : HeaderVariables X S fuel = Except.ok H)
    (hChoices : ChoicesFor X S fuel (H.Append State.Variables) (RestoreTarget S State) =
      Except.ok cs) :
    ∃ d1, RestoreSavedState X S fuel d State = Except.ok d1 ∧
      d1.CurrentSpeakerNode = RestoreTarget S State ∧
      d1.VariableState = H.Append State.Variables ∧
      d1.ChoicesTaken = SetAppend [] State.ChoicesTaken ∧
      d1.CurrentChoices = cs ∧ d1.Participants = d.Participants := by
  obtain ⟨d0, h0, hv, _, hp⟩ := SameOutcome_of_ok_right (InitVariables_spec X S fuel d) hHeader
  have hSet : ∀ Node, Node = RestoreTarget S State →
      ∃ d1, SetCurrentSpeakerNode X S fuel
          { d0 with VariableState := d0.VariableState.Append State.Variables,
                    ChoicesTaken := SetAppend [] State.ChoicesTaken } Node true = Except.ok d1 ∧
        d1.CurrentSpeakerNode = RestoreTarget S State ∧
        d1.VariableState = H.Append State.Variables ∧
        d1.ChoicesTaken = SetAppend [] State.ChoicesTaken ∧
        d1.CurrentChoices = cs ∧ d1.Participants = d.Participants := by
    intro Node hNode
    have hSpec := SetCurrentSpeakerNode_spec X S fuel
      { d0 with VariableState := d0.VariableState.Append State.Variables,
                ChoicesTaken := SetAppend [] State.ChoicesTaken } Node true
    have hC : ChoicesFor X S fuel (d0.VariableState.Append State.Variables) Node =
        Except.ok cs := by rw [hv, hNode]; exact hChoices
    obtain ⟨d1, h1, h2, h3, h4, h5, h6⟩ := SameOutcome_of_ok_right hSpec hC
    exact ⟨d1, h1, by rw [h3, hNode], by rw [h4, hv], h5, h2, by rw [h6]; exact hp⟩
  unfold RestoreSavedState
  rw [h0]
  by_cases hID : State.TextNodeID ≠ ""
  · simp only []
    rw [if_pos hID]
    exact hSet _ (by unfold RestoreTarget; rw [if_pos hID])
  · simp only []
    rw [if_neg hID]
    exact hSet _ (by unfold RestoreTarget; rw [if_neg hID])

theorem ChoicesFor_congr (X : Externals) (S : USUDSScript) (fuel : Nat) (env env1 : VarMap)
    (Node : Option Nat) (h : SameGuards X env env1) :
    ChoicesFor X S fuel env Node = ChoicesFor X S fuel env1 Node := by
  unfold ChoicesFor UpdateChoices
  cases Node with
  | none => rfl
  | some n =>
    by_cases hc : (S.Node n).bHasChoices = true
    · simp only [hc, if_true]
      cases hg : S.GetNextChoiceNode n with
      | none => rfl
      | some c =>
        simp only []
        have hS := RecurseAppendChoices_sim X S fuel (some c) []
          { ({ NewDialogue with CurrentSpeakerNode := some n,
                                VariableState := env } : USUDSDialogue) with
            CurrentChoices := [] }
          { ({ NewDialogue with CurrentSpeakerNode := some n,
                                VariableState := env1 } : USUDSDialogue) with
            CurrentChoices := [] } h
        revert hS
        generalize RecurseAppendChoices X S fuel (some c) []
          { ({ NewDialogue with CurrentSpeakerNode := some n,
                                VariableState := env } : USUDSDialogue) with
            CurrentChoices := [] } = A
        generalize RecurseAppendChoices X S fuel (some c) []
          { ({ NewDialogue with CurrentSpeakerNode := some n,
                                VariableState := env1 } : USUDSDialogue) with
            CurrentChoices := [] } = B
        intro hS
        cases A with
        | error x =>
          cases B with
          | error y =>
            have hxy : x = y := hS
            rw [hxy]
          | ok r1 => exact hS.elim
        | ok r =>
          cases B with
          | error y => exact hS.elim
          | ok r1 =>
            have hrr : r.1 = r1.1 := hS
            simp only [hrr]
    · simp only [hc]
      cases (S.Node n).GetEdge 0 with
      | none => rfl
      | some Edge => rfl

/-! ## States reached by the runner, and what they keep -/

theorem RunUntilNextChoiceNode_frame (X : Externals) (S : USUDSScript) (fuel : Nat)
    (d : USUDSDialogue) (n : Option Nat) (r : Option Nat × USUDSDialogue)
    (h : RunUntilNextChoiceNode X S fuel d n = Except.ok r) :
    SameButVariables d r.2 ∧ KeysKept d.VariableState r.2.VariableState := by
  unfold RunUntilNextChoiceNode at h
  cases n with
  | none =>
    cases h
    exact ⟨SameButVariables_refl d, KeysKept_refl _⟩
  | some m =>
    simp only [] at h
    by_cases h1 : (S.Node m).GetEdgeCount = 1
    · rw [if_pos h1] at h
      exact RunAutoNodes_frame X S fuel _ d r h
    · rw [if_neg h1] at h
      cases h
      exact ⟨SameButVariables_refl d, KeysKept_refl _⟩

theorem Choose_keys (X : Externals) (S : USUDSScript) (fuel : Nat) (d : USUDSDialogue)
    (Index : Int) (b : Bool) (d1 : USUDSDialogue)
    (h : Choose X S fuel d Index = Except.ok (b, d1)) :
    KeysKept d.VariableState d1.VariableState := by
  unfold Choose at h
  split at h
  · rename_i Choice hc
    split at h
    · cases h
    · rename_i n hn
      split at h
      · split at h
        · cases h
        · rename_i r hr
          obtain ⟨_, hk⟩ := RunUntilNextChoiceNode_frame X S fuel _ _ r hr
          split at h
          · cases h
          · rename_i Chosen hc2
            split at h
            · cases h
            · rename_i d2 hu
              cases h
              exact KeysKept_trans hk (RunUntilNextSpeakerNodeOrEnd_frame X S fuel _ _ _ _ hu).1
      · split at h
        · cases h
        · rename_i d2 hu
          cases h
          exact (RunUntilNextSpeakerNodeOrEnd_frame X S fuel _ _ _ _ hu).1
  · cases h
    rw [(GetText_same X S d).2.1]
    exact KeysKept_refl _

theorem Continue_keys (X : Externals) (S : USUDSScript) (fuel : Nat) (d : USUDSDialogue)
    (b : Bool) (d1 : USUDSDialogue) (h : Continue X S fuel d = Except.ok (b, d1)) :
    KeysKept d.VariableState d1.VariableState := by
  unfold Continue at h
  by_cases h1 : GetNumberOfChoices d = 1
  · rw [if_pos h1] at h
    exact Choose_keys X S fuel d 0 b d1 h
  · rw [if_neg h1] at h
    cases h
    exact KeysKept_refl _

theorem ResetState_all_header (X : Externals) (S : USUDSScript) (fuel : Nat)
    (d d1 : USUDSDialogue) (h : ResetState X S fuel d true true true = Except.ok d1) :
    HasHeaderVariables X S fuel d1 := by
  unfold ResetState at h
  simp only [if_true] at h
  cases hi : InitVariables X S fuel d with
  | error x =>
    rw [hi] at h
    cases h
  | ok d0 =>
    rw [hi] at h
    simp only [] at h
    obtain ⟨H, hH, hv, _, _⟩ := SameOutcome_of_ok_left (InitVariables_spec X S fuel d) hi
    cases hs : SetCurrentSpeakerNode X S fuel d0 none true with
    | error x =>
      rw [hs] at h
      cases h
    | ok d2 =>
      rw [hs] at h
      cases h
      obtain ⟨_, _, _, _, h3, _, _⟩ :=
        SameOutcome_of_ok_left (SetCurrentSpeakerNode_spec X S fuel d0 none true) hs
      refine ⟨H, hH, ?_⟩
      show KeysKept H d2.VariableState
      rw [h3, hv]
      exact KeysKept_refl _

theorem Restart_header (X : Externals) (S : USUDSScript) (fuel : Nat) (d d1 : USUDSDialogue)
    (bResetState : Bool) (StartLabel : Option String) (bReRunHeader : Bool)
    (hd : HasHeaderVariables X S fuel d)
    (h : Restart X S fuel d bResetState StartLabel bReRunHeader = Except.ok d1) :
    HasHeaderVariables X S fuel d1 := by
  unfold Restart at h
  split at h
  · cases h
  · rename_i d0 hd0
    have h0 : HasHeaderVariables X S fuel d0 := by
      cases bResetState with
      | true => exact ResetState_all_header X S fuel d d0 hd0
      | false =>
        cases hd0
        exact hd
    obtain ⟨H, hH, hK⟩ := h0
    split at h
    · cases h
    · rename_i d2 hd2
      have h2 : KeysKept H d2.VariableState := by
        split at hd2
        · exact KeysKept_trans hK (RunUntilNextSpeakerNodeOrEnd_frame X S fuel _ _ _ _ hd2).1
        · cases hd2
          exact hK
      exact ⟨H, hH, KeysKept_trans h2 (RunUntilNextSpeakerNodeOrEnd_frame X S fuel _ _ _ _ h).1⟩

theorem Start_header (X : Externals) (S : USUDSScript) (fuel : Nat) (d d1 : USUDSDialogue)
    (Label : Option String) (hd : HasHeaderVariables X S fuel d)
    (h : Start X S fuel d Label = Except.ok d1) : HasHeaderVariables X S fuel d1 := by
  unfold Start at h
  cases hn : d.CurrentSpeakerNode with
  | none =>
    rw [hn] at h
    exact Restart_header X S fuel d d1 false Label false hd h
  | some n =>
    rw [hn] at h
    cases h
    exact hd

theorem Initialise_header (X : Externals) (S : USUDSScript) (fuel : Nat) (d d1 : USUDSDialogue)
    (h : Initialise X S fuel d = Except.ok d1) : HasHeaderVariables X S fuel d1 := by
  unfold Initialise at h
  cases hi : InitVariables X S fuel { d with CurrentSpeakerNode := none } with
  | error x =>
    rw [hi] at h
    cases h
  | ok d0 =>
    rw [hi] at h
    cases h
    obtain ⟨H, hH, hv, _, _⟩ := SameOutcome_of_ok_left (InitVariables_spec X S fuel _) hi
    refine ⟨H, hH, ?_⟩
    show KeysKept H d0.VariableState
    rw [hv]
    exact KeysKept_refl _

/-! ## Claims on `Choose` and `Continue` -/

/-- C1: `Choose` with an index outside the current choice list (negative, or at least the
number of choices) returns false and leaves the current speaker node, the variables, the
choices taken and the current choices as they were. -/
theorem Choose_invalid_index_is_noop (X : Externals) (S : USUDSScript) (fuel : Nat)
    (d : USUDSDialogue) (Index : Int)
    (hIndex : Index < 0 ∨ (GetNumberOfChoices d : Int) ≤ Index) :
    ∃ d1, Choose X S fuel d Index = Except.ok (false, d1) ∧
      d1.CurrentSpeakerNode = d.CurrentSpeakerNode ∧
      d1.VariableState = d.VariableState ∧
      d1.ChoicesTaken = d.ChoicesTaken ∧
      d1.CurrentChoices = d.CurrentChoices := by
  have hNone : ChoiceAt d.CurrentChoices Index = none :=
    ChoiceAt_of_out_of_range d.CurrentChoices Index hIndex
  refine ⟨(GetText X S d).2, ?_, ?_⟩
  · unfold Choose
    rw [hNone]
  · obtain ⟨h1, h2, h3, h4, _⟩ := GetText_same X S d
    exact ⟨h1, h2, h3, h4⟩

theorem Choose_invalid_index_is_noop_witness :
    ((3 : Int) < 0 ∨ (GetNumberOfChoices (DemoAt 1 (DemoNode 2).Edges) : Int) ≤ 3) ∧
    ∃ d1, Choose DemoExternals DemoScript 4 (DemoAt 1 (DemoNode 2).Edges) 3 =
        Except.ok (false, d1) ∧
      d1.CurrentSpeakerNode = (DemoAt 1 (DemoNode 2).Edges).CurrentSpeakerNode ∧
      d1.VariableState = (DemoAt 1 (DemoNode 2).Edges).VariableState ∧
      d1.ChoicesTaken = (DemoAt 1 (DemoNode 2).Edges).ChoicesTaken ∧
      d1.CurrentChoices = (DemoAt 1 (DemoNode 2).Edges).CurrentChoices :=
  ⟨Or.inr (by decide),
    Choose_invalid_index_is_noop DemoExternals DemoScript 4 (DemoAt 1 (DemoNode 2).Edges) 3
      (Or.inr (by decide))⟩

/-- C7: on a text node without choice construct that exposes exactly one (implicit) choice,
`Continue` is `Choose(0)`: same return value, same resulting state, same notifications;
both follow the single edge after raising "proceeding". -/
theorem Continue_eq_Choose_zero (X : Externals) (S : USUDSScript) (fuel : Nat)
    (d : USUDSDialogue) (n : Nat) (hNode : d.CurrentSpeakerNode = some n)
    (hPlain : (S.Node n).bHasChoices = false) (hOne : GetNumberOfChoices d = 1) :
    Continue X S fuel d = Choose X S fuel d 0 ∧
    ∃ Edge, d.CurrentChoices = [Edge] ∧
      Choose X S fuel d 0 =
        (match RunUntilNextSpeakerNodeOrEnd X S fuel (RaiseProceeding d) Edge.TargetNode true with
         | Except.error e => Except.error e
         | Except.ok d2 => Except.ok (!IsEnded d2, d2)) := by
  refine ⟨by unfold Continue; rw [if_pos hOne], ?_⟩
  unfold GetNumberOfChoices at hOne
  obtain ⟨Edge, hEdge⟩ := List.length_eq_one.mp hOne
  refine ⟨Edge, hEdge, ?_⟩
  have hAt : ChoiceAt d.CurrentChoices 0 = some Edge := by
    rw [hEdge]; rfl
  unfold Choose
  rw [hAt]
  simp only [hNode, hPlain]
  rfl

theorem Continue_eq_Choose_zero_witness :
    Continue DemoExternals DemoScript 4 (DemoAt 0 (DemoNode 0).Edges) =
      Choose DemoExternals DemoScript 4 (DemoAt 0 (DemoNode 0).Edges) 0 ∧
    ∃ Edge, (DemoAt 0 (DemoNode 0).Edges).CurrentChoices = [Edge] ∧
      Choose DemoExternals DemoScript 4 (DemoAt 0 (DemoNode 0).Edges) 0 =
        (match RunUntilNextSpeakerNodeOrEnd DemoExternals DemoScript 4
            (RaiseProceeding (DemoAt 0 (DemoNode 0).Edges)) Edge.TargetNode true with
         | Except.error e => Except.error e
         | Except.ok d2 => Except.ok (!IsEnded d2, d2)) :=
  Continue_eq_Choose_zero DemoExternals DemoScript 4 (DemoAt 0 (DemoNode 0).Edges) 0 rfl rfl rfl

/-- C8, refuted as stated: on a node with a real choice construct that exposes a single
decision, `Continue` is not a no-op; it takes the decision, records it in the choices taken,
raises "choice made", "proceeding" and a speaker line, and moves to the target. -/
theorem Continue_single_decision_not_noop :
    Start DemoExternals DemoScript 4 NewDialogue (some "nestedstart") = Except.ok DemoNested ∧
    DemoNested.CurrentSpeakerNode = some 7 ∧
    (DemoScript.Node 7).bHasChoices = true ∧
    GetNumberOfChoices DemoNested = 1 ∧
    Continue DemoExternals DemoScript 4 DemoNested = Except.ok (true, DemoNestedContinued) ∧
    DemoNestedContinued ≠ DemoNested ∧
    DemoNestedContinued.ChoicesTaken ≠ DemoNested.ChoicesTaken :=
  ⟨rfl, rfl, rfl, rfl, rfl, by decide, by decide⟩

/-- C9: for a current text node without choice construct, `UpdateChoices` exposes exactly
one choice, the first outgoing edge of the node, so that the number of choices is 1; for
an ended dialogue it exposes no choice.  The first outgoing edge is the premise `hEdge`:
the text nodes of a script all have one, the last line of a script having an edge without
target (with it `Continue` on the last line ends the dialogue, as the tests expect). -/
theorem UpdateChoices_plain_continuation (X : Externals) (S : USUDSScript) (fuel : Nat)
    (d e : USUDSDialogue) (n : Nat) (Edge : FSUDSScriptEdge)
    (hNode : d.CurrentSpeakerNode = some n) (hPlain : (S.Node n).bHasChoices = false)
    (hEdge : (S.Node n).GetEdge 0 = some Edge) (hEnded : e.CurrentSpeakerNode = none) :
    UpdateChoices X S fuel d = Except.ok { d with CurrentChoices := [Edge] } ∧
    GetNumberOfChoices { d with CurrentChoices := [Edge] } = 1 ∧
    UpdateChoices X S fuel e = Except.ok { e with CurrentChoices := [] } ∧
    GetNumberOfChoices { e with CurrentChoices := [] } = 0 := by
  refine ⟨?_, rfl, ?_, rfl⟩
  · unfold UpdateChoices
    simp only [hNode, hPlain, hEdge]
    rfl
  · unfold UpdateChoices
    simp only [hEnded]

theorem UpdateChoices_plain_continuation_witness :
    UpdateChoices DemoExternals DemoScript 4 (DemoAt 0 []) =
      Except.ok { DemoAt 0 [] with
                  CurrentChoices := [MkEdge "" "" ESUDSEdgeType.Continue (some 1)] } ∧
    GetNumberOfChoices { DemoAt 0 [] with
                         CurrentChoices := [MkEdge "" "" ESUDSEdgeType.Continue (some 1)] } = 1 ∧
    UpdateChoices DemoExternals DemoScript 4 NewDialogue =
      Except.ok { NewDialogue with CurrentChoices := [] } ∧
    GetNumberOfChoices { NewDialogue with CurrentChoices := [] } = 0 ∧
    (GetChoiceText DemoExternals DemoScript
      { DemoAt 0 [] with CurrentChoices := [MkEdge "" "" ESUDSEdgeType.Continue (some 1)] }
      0).1 = "" := by
  obtain ⟨h1, h2, h3, h4⟩ := UpdateChoices_plain_continuation DemoExternals DemoScript 4
    (DemoAt 0 []) NewDialogue 0 (MkEdge "" "" ESUDSEdgeType.Continue (some 1)) rfl rfl rfl rfl
  exact ⟨h1, h2, h3, h4, rfl⟩

/-! ## Claims on saving and restoring -/

/-- C3: after `RestoreSavedState(State)`, from any prior state, every variable of the
snapshot has the saved value, every other variable has the value the header run gives it
from the empty environment (none if the header does not set it), and the choices taken
are exactly those of the saved state.  The call returns whenever the header run and the
choice collection at the restored position do. -/
theorem RestoreSavedState_variables_and_choices_taken (X : Externals) (S : USUDSScript)
    (fuel : Nat) (d : USUDSDialogue) (State : FSUDSDialogueState) (H : VarMap)
    (cs : List FSUDSScriptEdge) (hHeader : HeaderVariables X S fuel = Except.ok H)
    (hChoices : ChoicesFor X S fuel (H.Append State.Variables) (RestoreTarget S State) =
      Except.ok cs) :
    ∃ d1, RestoreSavedState X S fuel d State = Except.ok d1 ∧
      (∀ Name Value, State.Variables.Find Name = some Value →
        d1.VariableState.Find Name = some Value) ∧
      (∀ Name, State.Variables.Find Name = none →
        d1.VariableState.Find Name = H.Find Name) ∧
      (∀ ID, ID ∈ d1.ChoicesTaken ↔ ID ∈ State.ChoicesTaken) := by
  obtain ⟨d1, h1, _, hv, hc, _, _⟩ :=
    RestoreSavedState_spec X S fuel d State H cs hHeader hChoices
  refine ⟨d1, h1, ?_, ?_, ?_⟩
  · intro Name Value hF
    rw [hv, VarMap_Find_Append, hF]
  · intro Name hF
    rw [hv, VarMap_Find_Append, hF]
  · intro ID
    rw [hc, mem_SetAppend]
    simp

theorem RestoreSavedState_variables_and_choices_taken_witness :
    HeaderVariables DemoExternals DemoScript 4 =
      Except.ok [("ValetName", FSUDSValue.int 7), ("SomeInt", FSUDSValue.int 99)] ∧
    ChoicesFor DemoExternals DemoScript 4
      (VarMap.Append [("ValetName", FSUDSValue.int 7), ("SomeInt", FSUDSValue.int 99)]
        DemoSaved.Variables) (RestoreTarget DemoScript DemoSaved) =
      Except.ok (DemoNode 2).Edges ∧
    ∃ d1, RestoreSavedState DemoExternals DemoScript 4 DemoNested DemoSaved = Except.ok d1 ∧
      (∀ Name Value, DemoSaved.Variables.Find Name = some Value →
        d1.VariableState.Find Name = some Value) ∧
      (∀ Name, DemoSaved.Variables.Find Name = none →
        d1.VariableState.Find Name =
          VarMap.Find [("ValetName", FSUDSValue.int 7), ("SomeInt", FSUDSValue.int 99)] Name) ∧
      (∀ ID, ID ∈ d1.ChoicesTaken ↔ ID ∈ DemoSaved.ChoicesTaken) :=
  ⟨rfl, rfl,
    RestoreSavedState_variables_and_choices_taken DemoExternals DemoScript 4 DemoNested
      DemoSaved _ _ rfl rfl⟩

/-- C4: `RestoreSavedState` ends the dialogue, with no choice, when the saved text id is
empty or matches no text node; when it matches a text node, that node becomes the current
speaker node and the choice list is the one computed for it.  `GetSavedState` stores the
empty id for an ended dialogue and the text id of the current node otherwise. -/
theorem RestoreSavedState_position (X : Externals) (S : USUDSScript) (fuel : Nat)
    (d : USUDSDialogue) (State : FSUDSDialogueState) (H : VarMap)
    (hHeader : HeaderVariables X S fuel = Except.ok H) :
    ((State.TextNodeID = "" ∨ S.GetNodeByTextID State.TextNodeID = none) →
      ∃ d1, RestoreSavedState X S fuel d State = Except.ok d1 ∧ IsEnded d1 = true ∧
        d1.CurrentSpeakerNode = none ∧ GetNumberOfChoices d1 = 0) ∧
    (∀ n cs, State.TextNodeID ≠ "" → S.GetNodeByTextID State.TextNodeID = some n →
      ChoicesFor X S fuel (H.Append State.Variables) (some n) = Except.ok cs →
      ∃ d1, RestoreSavedState X S fuel d State = Except.ok d1 ∧ IsEnded d1 = false ∧
        d1.CurrentSpeakerNode = some n ∧ d1.CurrentChoices = cs ∧
        ChoicesFor X S fuel d1.VariableState d1.CurrentSpeakerNode =
          Except.ok d1.CurrentChoices) ∧
    (d.CurrentSpeakerNode = none → (GetSavedState S d).TextNodeID = "") ∧
    (∀ n, d.CurrentSpeakerNode = some n → (GetSavedState S d).TextNodeID = (S.Node n).TextID) := by
  refine ⟨?_, ?_, ?_, ?_⟩
  · intro hNo
    have hT : RestoreTarget S State = none := by
      unfold RestoreTarget
      rcases hNo with h | h
      · simp [h]
      · simp [h]
    obtain ⟨d1, h1, hn, _, _, hc, _⟩ :=
      RestoreSavedState_spec X S fuel d State H [] hHeader (by rw [hT]; rfl)
    rw [hT] at hn
    exact ⟨d1, h1, by unfold IsEnded; rw [hn]; rfl, hn, by unfold GetNumberOfChoices; rw [hc]; rfl⟩
  · intro n cs hID hNode hC
    have hT : RestoreTarget S State = some n := by
      unfold RestoreTarget
      rw [if_pos hID, hNode]
    obtain ⟨d1, h1, hn, hv, _, hc, _⟩ :=
      RestoreSavedState_spec X S fuel d State H cs hHeader (by rw [hT]; exact hC)
    rw [hT] at hn
    exact ⟨d1, h1, by unfold IsEnded; rw [hn]; rfl, hn, hc, by rw [hv, hn, hc]; exact hC⟩
  · intro hn
    unfold GetSavedState
    simp only [hn]
  · intro n hn
    unfold GetSavedState
    simp only [hn]

theorem RestoreSavedState_position_witness :
    HeaderVariables DemoExternals DemoScript 4 =
      Except.ok [("ValetName", FSUDSValue.int 7), ("SomeInt", FSUDSValue.int 99)] ∧
    (∃ d1, RestoreSavedState DemoExternals DemoScript 4 DemoNested
        { DemoSaved with TextNodeID := "gone" } = Except.ok d1 ∧ IsEnded d1 = true ∧
        d1.CurrentSpeakerNode = none ∧ GetNumberOfChoices d1 = 0) ∧
    (∃ d1, RestoreSavedState DemoExternals DemoScript 4 DemoNested DemoSaved = Except.ok d1 ∧
        IsEnded d1 = false ∧ d1.CurrentSpeakerNode = some 1 ∧
        d1.CurrentChoices = (DemoNode 2).Edges ∧
        ChoicesFor DemoExternals DemoScript 4 d1.VariableState d1.CurrentSpeakerNode =
          Except.ok d1.CurrentChoices) :=
  ⟨rfl,
    (RestoreSavedState_position DemoExternals DemoScript 4 DemoNested
      { DemoSaved with TextNodeID := "gone" } _ rfl).1 (Or.inr rfl),
    (RestoreSavedState_position DemoExternals DemoScript 4 DemoNested DemoSaved _ rfl).2.1
      1 (DemoNode 2).Edges (by decide) rfl rfl⟩

/-! ## Claims on select nodes -/

theorem find_first_satisfied {α : Type} (f : α → Bool) (pre : List α) (a : α) (post : List α)
    (hPre : ∀ p ∈ pre, f p = false) (hA : f a = true) :
    (pre ++ a :: post).find? f = some a := by
  induction pre with
  | nil => simp [List.find?, hA]
  | cons x rest ih =>
    have hx : f x = false := hPre x (List.mem_cons_self _ _)
    simp only [List.cons_append, List.find?, hx]
    exact ih (fun p hp => hPre p (List.mem_cons_of_mem _ hp))

theorem find_none_satisfied {α : Type} (f : α → Bool) (l : List α)
    (h : ∀ p ∈ l, f p = false) : l.find? f = none := by
  induction l with
  | nil => rfl
  | cons x rest ih =>
    have hx : f x = false := h x (List.mem_cons_self _ _)
    simp only [List.find?, hx]
    exact ih (fun p hp => h p (List.mem_cons_of_mem _ hp))

/-- C5: `RunSelectNode` returns the target of the first edge, in declaration order, whose
guard is valid and true, whatever the later edges; when no guard holds it returns no
successor, and a run started on the select node ends the dialogue. -/
theorem RunSelectNode_first_satisfied (X : Externals) (S : USUDSScript) (d : USUDSDialogue)
    (Node : Nat) :
    (∀ pre Edge post, (S.Node Node).Edges = pre ++ Edge :: post →
      (∀ p ∈ pre, GuardHolds X d.VariableState p = false) →
      GuardHolds X d.VariableState Edge = true →
      (RunSelectNode X S d Node).1 = Edge.TargetNode) ∧
    ((∀ p ∈ (S.Node Node).Edges, GuardHolds X d.VariableState p = false) →
      (RunSelectNode X S d Node).1 = none ∧
      ((S.Node Node).NodeType = ESUDSScriptNodeType.Select → ∀ fuel b,
        ∃ d1, RunUntilNextSpeakerNodeOrEnd X S (fuel + 1) d (some Node) b = Except.ok d1 ∧
          IsEnded d1 = true ∧ d1.VariableState = d.VariableState)) ∧
    SameButNotifications d (RunSelectNode X S d Node).2 := by
  refine ⟨?_, ?_, RunSelectEdges_same X _ d⟩
  · intro pre Edge post hE hPre hHit
    unfold RunSelectNode
    rw [RunSelectEdges_fst, hE, find_first_satisfied _ pre Edge post hPre hHit]
    rfl
  · intro hNone
    have hFst : (RunSelectNode X S d Node).1 = none := by
      unfold RunSelectNode
      rw [RunSelectEdges_fst, find_none_satisfied _ _ hNone]
      rfl
    refine ⟨hFst, ?_⟩
    intro hType fuel b
    have hRun : RunNode X S d Node = RunSelectNode X S d Node := by
      unfold RunNode
      rw [hType]
    have hAuto : RunAutoNodes X S (fuel + 1) (some Node) d =
        Except.ok (none, (RunSelectNode X S d Node).2) := by
      unfold RunAutoNodes
      have hs : ShouldStopAtNodeType (S.Node Node).NodeType = false := by
        rw [hType]; rfl
      simp only [hs, Bool.false_eq_true, if_false, hRun, hFst]
      unfold RunAutoNodes
      rfl
    have hSpec := SetCurrentSpeakerNode_spec X S (fuel + 1) (RunSelectNode X S d Node).2 none (!b)
    obtain ⟨d1, h1, _, h3, h4, _, _⟩ :=
      SameOutcome_of_ok_right hSpec (ChoicesFor_none X S (fuel + 1) _)
    refine ⟨d1, ?_, ?_, ?_⟩
    · unfold RunUntilNextSpeakerNodeOrEnd
      rw [hAuto]
      exact h1
    · unfold IsEnded
      rw [h3]
      rfl
    · rw [h4]
      exact (RunSelectEdges_same X _ d).2.1

theorem RunSelectNode_first_satisfied_witness :
    (RunSelectNode DemoExternals DemoSelectScript NewDialogue 20).1 = some 2 ∧
    ((RunSelectNode DemoExternals DemoSelectScript NewDialogue 21).1 = none ∧
      ∃ d1, RunUntilNextSpeakerNodeOrEnd DemoExternals DemoSelectScript (0 + 1) NewDialogue
          (some 21) true = Except.ok d1 ∧
        IsEnded d1 = true ∧ d1.VariableState = NewDialogue.VariableState) :=
  ⟨(RunSelectNode_first_satisfied DemoExternals DemoSelectScript NewDialogue 20).1
      [(DemoSelect 20).Edges.get ⟨0, by decide⟩] ((DemoSelect 20).Edges.get ⟨1, by decide⟩)
      [(DemoSelect 20).Edges.get ⟨2, by decide⟩] rfl (by decide) (by decide),
    ((RunSelectNode_first_satisfied DemoExternals DemoSelectScript NewDialogue 21).2.1
      (by decide)).1,
    ((RunSelectNode_first_satisfied DemoExternals DemoSelectScript NewDialogue 21).2.1
      (by decide)).2 rfl 0 true⟩

/-! ## Claims on the collection of choices -/

theorem AppendChoicesOfEdges_condition (X : Externals)
    (Recurse : Option Nat → List FSUDSScriptEdge → USUDSDialogue →
      Except Fault (List FSUDSScriptEdge × USUDSDialogue))
    (Edge : FSUDSScriptEdge) (rest out : List FSUDSScriptEdge) (d : USUDSDialogue)
    (hT : Edge.EdgeType = ESUDSEdgeType.Condition) :
    AppendChoicesOfEdges X Recurse (Edge :: rest) out d =
      if Edge.Condition.bIsValid then
        if X.EvaluateBoolean Edge.Condition
            (RaiseExpressionVariablesRequested d Edge.Condition).VariableState then
          Recurse Edge.TargetNode out (RaiseExpressionVariablesRequested d Edge.Condition)
        else AppendChoicesOfEdges X Recurse rest out
          (RaiseExpressionVariablesRequested d Edge.Condition)
      else AppendChoicesOfEdges X Recurse rest out d := by
  rw [AppendChoicesOfEdges]
  simp only [hT]

theorem AppendChoicesOfEdges_decision (X : Externals)
    (Recurse : Option Nat → List FSUDSScriptEdge → USUDSDialogue →
      Except Fault (List FSUDSScriptEdge × USUDSDialogue))
    (Edge : FSUDSScriptEdge) (rest out : List FSUDSScriptEdge) (d : USUDSDialogue)
    (hT : Edge.EdgeType = ESUDSEdgeType.Decision) :
    AppendChoicesOfEdges X Recurse (Edge :: rest) out d =
      AppendChoicesOfEdges X Recurse rest (out ++ [Edge]) d := by
  rw [AppendChoicesOfEdges]
  simp only [hT]

theorem AppendChoicesOfEdges_chained (X : Externals)
    (Recurse : Option Nat → List FSUDSScriptEdge → USUDSDialogue →
      Except Fault (List FSUDSScriptEdge × USUDSDialogue))
    (Edge : FSUDSScriptEdge) (rest out : List FSUDSScriptEdge) (d : USUDSDialogue)
    (hT : Edge.EdgeType = ESUDSEdgeType.Chained) :
    AppendChoicesOfEdges X Recurse (Edge :: rest) out d =
      match Recurse Edge.TargetNode out d with
      | Except.error e => Except.error e
      | Except.ok r => AppendChoicesOfEdges X Recurse rest r.1 r.2 := by
  rw [AppendChoicesOfEdges]
  simp only [hT]

/-- Guards that fail are passed over: the loop goes on with the edges that follow. -/
theorem AppendChoicesOfEdges_skip (X : Externals)
    (Recurse : Option Nat → List FSUDSScriptEdge → USUDSDialogue →
      Except Fault (List FSUDSScriptEdge × USUDSDialogue))
    (pre rest : List FSUDSScriptEdge) (out : List FSUDSScriptEdge) (d : USUDSDialogue)
    (hPre : ∀ p ∈ pre, p.EdgeType = ESUDSEdgeType.Condition ∧
      GuardHolds X d.VariableState p = false) :
    ∃ d1, SameButNotifications d d1 ∧
      AppendChoicesOfEdges X Recurse (pre ++ rest) out d =
        AppendChoicesOfEdges X Recurse rest out d1 := by
  induction pre generalizing d with
  | nil => exact ⟨d, SameButNotifications_refl d, rfl⟩
  | cons Edge more ih =>
    obtain ⟨hT, hG⟩ := hPre Edge (List.mem_cons_self _ _)
    have hMore : ∀ e : USUDSDialogue, e.VariableState = d.VariableState →
        ∀ p ∈ more, p.EdgeType = ESUDSEdgeType.Condition ∧
          GuardHolds X e.VariableState p = false := by
      intro e he p hp
      rw [he]
      exact hPre p (List.mem_cons_of_mem _ hp)
    rw [List.cons_append, AppendChoicesOfEdges_condition X Recurse Edge _ out d hT]
    by_cases hv : Edge.Condition.bIsValid = true
    · have hb : ¬ X.EvaluateBoolean Edge.Condition
          (RaiseExpressionVariablesRequested d Edge.Condition).VariableState = true := by
        rw [RaiseExpressionVariablesRequested_VariableState]
        intro hb
        unfold GuardHolds at hG
        rw [hv, hb] at hG
        cases hG
      rw [if_pos hv, if_neg hb]
      obtain ⟨d1, h1, h2⟩ := ih (RaiseExpressionVariablesRequested d Edge.Condition)
        (hMore _ (RaiseExpressionVariablesRequested_VariableState d Edge.Condition))
      exact ⟨d1, SameButNotifications_trans
        (RaiseExpressionVariablesRequested_same d Edge.Condition) h1, h2⟩
    · rw [if_neg hv]
      exact ih d (hMore d rfl)

/-- C6: on a select node whose edges are condition edges, `RecurseAppendChoices` collects
exactly what it collects from the target of the first edge whose guard holds, whatever the
guards of the later edges; when no guard holds the node adds no choice. -/
theorem RecurseAppendChoices_select_first_match (X : Externals) (S : USUDSScript) (fuel : Nat)
    (n : Nat) (out : List FSUDSScriptEdge) (d : USUDSDialogue)
    (hType : (S.Node n).NodeType = ESUDSScriptNodeType.Select)
    (hCond : ∀ p ∈ (S.Node n).Edges, p.EdgeType = ESUDSEdgeType.Condition) :
    (∀ pre Edge post, (S.Node n).Edges = pre ++ Edge :: post →
      (∀ p ∈ pre, GuardHolds X d.VariableState p = false) →
      GuardHolds X d.VariableState Edge = true →
      SameOutcome (fun r r1 => r.1 = r1.1)
        (RecurseAppendChoices X S (fuel + 1) (some n) out d)
        (RecurseAppendChoices X S fuel Edge.TargetNode out d)) ∧
    ((∀ p ∈ (S.Node n).Edges, GuardHolds X d.VariableState p = false) →
      ∃ d1, RecurseAppendChoices X S (fuel + 1) (some n) out d = Except.ok (out, d1) ∧
        SameButNotifications d d1) := by
  have hUnfold : RecurseAppendChoices X S (fuel + 1) (some n) out d =
      AppendChoicesOfEdges X (RecurseAppendChoices X S fuel) (S.Node n).Edges out d := by
    rw [RecurseAppendChoices]
    simp only [hType, or_true, if_true]
  refine ⟨?_, ?_⟩
  · intro pre Edge post hE hPre hHit
    have hPre1 : ∀ p ∈ pre, p.EdgeType = ESUDSEdgeType.Condition ∧
        GuardHolds X d.VariableState p = false := by
      intro p hp
      exact ⟨hCond p (by rw [hE]; exact List.mem_append_left _ hp), hPre p hp⟩
    obtain ⟨d1, h1, h2⟩ := AppendChoicesOfEdges_skip X (RecurseAppendChoices X S fuel) pre
      (Edge :: post) out d hPre1
    have hT : Edge.EdgeType = ESUDSEdgeType.Condition :=
      hCond Edge (by rw [hE]; exact List.mem_append_right _ (List.mem_cons_self _ _))
    unfold GuardHolds at hHit
    have hv : Edge.Condition.bIsValid = true := by
      cases hb : Edge.Condition.bIsValid
      · rw [hb] at hHit; cases hHit
      · rfl
    have hb : X.EvaluateBoolean Edge.Condition
        (RaiseExpressionVariablesRequested d1 Edge.Condition).VariableState = true := by
      rw [RaiseExpressionVariablesRequested_VariableState, h1.2.1]
      rw [hv] at hHit
      exact hHit
    rw [hUnfold, hE, h2, AppendChoicesOfEdges_condition X _ Edge post out d1 hT, if_pos hv,
      if_pos hb]
    apply RecurseAppendChoices_sim
    intro c
    rw [RaiseExpressionVariablesRequested_VariableState, h1.2.1]
  · intro hNone
    have hPre1 : ∀ p ∈ (S.Node n).Edges, p.EdgeType = ESUDSEdgeType.Condition ∧
        GuardHolds X d.VariableState p = false := fun p hp => ⟨hCond p hp, hNone p hp⟩
    obtain ⟨d1, h1, h2⟩ := AppendChoicesOfEdges_skip X (RecurseAppendChoices X S fuel)
      (S.Node n).Edges [] out d hPre1
    rw [List.append_nil] at h2
    refine ⟨d1, ?_, h1⟩
    rw [hUnfold, h2]
    rfl

theorem RecurseAppendChoices_select_first_match_witness :
    SameOutcome (fun r r1 => r.1 = r1.1)
      (RecurseAppendChoices DemoExternals DemoSelectScript (1 + 1) (some 20) [] NewDialogue)
      (RecurseAppendChoices DemoExternals DemoSelectScript 1 (some 2) [] NewDialogue) ∧
    (∃ d1, RecurseAppendChoices DemoExternals DemoSelectScript (1 + 1) (some 21) [] NewDialogue =
        Except.ok ([], d1) ∧ SameButNotifications NewDialogue d1) :=
  ⟨(RecurseAppendChoices_select_first_match DemoExternals DemoSelectScript 1 20 [] NewDialogue
      rfl (by decide)).1
      [(DemoSelect 20).Edges.get ⟨0, by decide⟩] ((DemoSelect 20).Edges.get ⟨1, by decide⟩)
      [(DemoSelect 20).Edges.get ⟨2, by decide⟩] rfl (by decide) (by decide),
    (RecurseAppendChoices_select_first_match DemoExternals DemoSelectScript 1 21 [] NewDialogue
      rfl (by decide)).2 (by decide)⟩

theorem RecurseAppendChoices_null (X : Externals) (S : USUDSScript) (fuel : Nat)
    (out : List FSUDSScriptEdge) (d : USUDSDialogue) :
    RecurseAppendChoices X S fuel none out d = Except.ok (out, d) := by
  cases fuel <;> rfl

theorem RecurseAppendChoices_node (X : Externals) (S : USUDSScript) (fuel : Nat) (t : Nat)
    (out : List FSUDSScriptEdge) (d : USUDSDialogue)
    (hType : (S.Node t).NodeType = ESUDSScriptNodeType.Choice ∨
      (S.Node t).NodeType = ESUDSScriptNodeType.Select) :
    RecurseAppendChoices X S (fuel + 1) (some t) out d =
      AppendChoicesOfEdges X (RecurseAppendChoices X S fuel) (S.Node t).Edges out d := by
  rw [RecurseAppendChoices]
  simp only [hType, if_true]

theorem GuardHolds_true_iff (X : Externals) (env : VarMap) (Edge : FSUDSScriptEdge) :
    GuardHolds X env Edge = true ↔
      Edge.Condition.bIsValid = true ∧ X.EvaluateBoolean Edge.Condition env = true := by
  unfold GuardHolds
  simp

/-- The edge loop computes the flattening, once the fuel covers the depth of the tree. -/
theorem AppendChoicesOfEdges_flattens (X : Externals) (S : USUDSScript) (env : VarMap)
    (Edges l : List FSUDSScriptEdge) (h : FlattensTo X S env Edges l) :
    ∃ f0, ∀ fuel, f0 ≤ fuel → ∀ out d, d.VariableState = env →
      ∃ d1, AppendChoicesOfEdges X (RecurseAppendChoices X S fuel) Edges out d =
          Except.ok (out ++ l, d1) ∧ SameButNotifications d d1 := by
  induction h with
  | done =>
    refine ⟨0, fun fuel _ out d _ => ⟨d, ?_, SameButNotifications_refl d⟩⟩
    rw [AppendChoicesOfEdges, List.append_nil]
  | decision Edge rest l hT _ ih =>
    obtain ⟨f0, hf⟩ := ih
    refine ⟨f0, fun fuel hle out d hd => ?_⟩
    obtain ⟨d1, h1, h2⟩ := hf fuel hle (out ++ [Edge]) d hd
    refine ⟨d1, ?_, h2⟩
    rw [AppendChoicesOfEdges_decision X _ Edge rest out d hT, h1]
    simp
  | chainedNull Edge rest l hT hN _ ih =>
    obtain ⟨f0, hf⟩ := ih
    refine ⟨f0, fun fuel hle out d hd => ?_⟩
    obtain ⟨d1, h1, h2⟩ := hf fuel hle out d hd
    refine ⟨d1, ?_, h2⟩
    rw [AppendChoicesOfEdges_chained X _ Edge rest out d hT, hN, RecurseAppendChoices_null]
    exact h1
  | chained Edge rest t l1 l2 hT hN hType _ _ ih1 ih2 =>
    obtain ⟨f1, hf1⟩ := ih1
    obtain ⟨f2, hf2⟩ := ih2
    refine ⟨max (f1 + 1) f2, fun fuel hle out d hd => ?_⟩
    obtain ⟨k, hk⟩ : ∃ k, fuel = k + 1 := ⟨fuel - 1, by omega⟩
    obtain ⟨d1, h1, s1⟩ := hf1 k (by omega) out d hd
    obtain ⟨d2, h2, s2⟩ := hf2 fuel (by omega) (out ++ l1) d1 (s1.2.1.trans hd)
    refine ⟨d2, ?_, SameButNotifications_trans s1 s2⟩
    rw [AppendChoicesOfEdges_chained X _ Edge rest out d hT, hN]
    have hR : RecurseAppendChoices X S fuel (some t) out d = Except.ok (out ++ l1, d1) := by
      rw [hk, RecurseAppendChoices_node X S k t out d hType]
      exact h1
    rw [hR]
    simp only []
    rw [h2, List.append_assoc]
  | conditionFails Edge rest l hT hG _ ih =>
    obtain ⟨f0, hf⟩ := ih
    refine ⟨f0, fun fuel hle out d hd => ?_⟩
    rw [AppendChoicesOfEdges_condition X _ Edge rest out d hT]
    by_cases hv : Edge.Condition.bIsValid = true
    · have hb : ¬ X.EvaluateBoolean Edge.Condition
          (RaiseExpressionVariablesRequested d Edge.Condition).VariableState = true := by
        rw [RaiseExpressionVariablesRequested_VariableState, hd]
        intro hb
        have := (GuardHolds_true_iff X env Edge).mpr ⟨hv, hb⟩
        rw [hG] at this
        cases this
      rw [if_pos hv, if_neg hb]
      obtain ⟨d1, h1, h2⟩ := hf fuel hle out (RaiseExpressionVariablesRequested d Edge.Condition)
        ((RaiseExpressionVariablesRequested_VariableState d Edge.Condition).trans hd)
      exact ⟨d1, h1, SameButNotifications_trans
        (RaiseExpressionVariablesRequested_same d Edge.Condition) h2⟩
    · rw [if_neg hv]
      exact hf fuel hle out d hd
  | conditionNull Edge rest hT hG hN =>
    refine ⟨0, fun fuel _ out d hd => ?_⟩
    obtain ⟨hv, hb⟩ := (GuardHolds_true_iff X env Edge).mp hG
    have hb1 : X.EvaluateBoolean Edge.Condition
        (RaiseExpressionVariablesRequested d Edge.Condition).VariableState = true := by
      rw [RaiseExpressionVariablesRequested_VariableState, hd]
      exact hb
    refine ⟨RaiseExpressionVariablesRequested d Edge.Condition, ?_,
      RaiseExpressionVariablesRequested_same d Edge.Condition⟩
    rw [AppendChoicesOfEdges_condition X _ Edge rest out d hT, if_pos hv, if_pos hb1, hN,
      RecurseAppendChoices_null, List.append_nil]
  | conditionHolds Edge rest t l hT hG hN hType _ ih =>
    obtain ⟨f0, hf⟩ := ih
    refine ⟨f0 + 1, fun fuel hle out d hd => ?_⟩
    obtain ⟨k, hk⟩ : ∃ k, fuel = k + 1 := ⟨fuel - 1, by omega⟩
    obtain ⟨hv, hb⟩ := (GuardHolds_true_iff X env Edge).mp hG
    have hb1 : X.EvaluateBoolean Edge.Condition
        (RaiseExpressionVariablesRequested d Edge.Condition).VariableState = true := by
      rw [RaiseExpressionVariablesRequested_VariableState, hd]
      exact hb
    obtain ⟨d1, h1, h2⟩ := hf k (by omega) out (RaiseExpressionVariablesRequested d Edge.Condition)
      ((RaiseExpressionVariablesRequested_VariableState d Edge.Condition).trans hd)
    refine ⟨d1, ?_, SameButNotifications_trans
      (RaiseExpressionVariablesRequested_same d Edge.Condition) h2⟩
    rw [AppendChoicesOfEdges_condition X _ Edge rest out d hT, if_pos hv, if_pos hb1, hN]
    rw [hk, RecurseAppendChoices_node X S k t out _ hType]
    exact h1

theorem AppendChoicesOfEdges_all_decisions (X : Externals)
    (Recurse : Option Nat → List FSUDSScriptEdge → USUDSDialogue →
      Except Fault (List FSUDSScriptEdge × USUDSDialogue))
    (Edges out : List FSUDSScriptEdge) (d : USUDSDialogue)
    (h : ∀ p ∈ Edges, p.EdgeType = ESUDSEdgeType.Decision) :
    AppendChoicesOfEdges X Recurse Edges out d = Except.ok (out ++ Edges, d) := by
  induction Edges generalizing out with
  | nil => rw [AppendChoicesOfEdges, List.append_nil]
  | cons Edge rest ih =>
    rw [AppendChoicesOfEdges_decision X Recurse Edge rest out d (h Edge (List.mem_cons_self _ _)),
      ih _ (fun p hp => h p (List.mem_cons_of_mem _ hp))]
    simp

/-- C10: the list built by `RecurseAppendChoices` from a choice or select node is the
depth-first, declaration-order flattening of the tree below it, appended to what was
collected before; the call returns it once the fuel covers the depth of the tree.  A node
with decision edges only yields exactly its edges, in order. -/
theorem RecurseAppendChoices_is_flattening (X : Externals) (S : USUDSScript) (n : Nat)
    (d : USUDSDialogue) (l : List FSUDSScriptEdge)
    (hType : (S.Node n).NodeType = ESUDSScriptNodeType.Choice ∨
      (S.Node n).NodeType = ESUDSScriptNodeType.Select)
    (hFlat : FlattensTo X S d.VariableState (S.Node n).Edges l) :
    (∃ f0, ∀ fuel, f0 ≤ fuel → ∀ out,
      ∃ d1, RecurseAppendChoices X S fuel (some n) out d = Except.ok (out ++ l, d1) ∧
        SameButNotifications d d1) ∧
    ((∀ p ∈ (S.Node n).Edges, p.EdgeType = ESUDSEdgeType.Decision) →
      ∀ fuel out, RecurseAppendChoices X S (fuel + 1) (some n) out d =
        Except.ok (out ++ (S.Node n).Edges, d)) := by
  refine ⟨?_, ?_⟩
  · obtain ⟨f0, hf⟩ := AppendChoicesOfEdges_flattens X S d.VariableState _ l hFlat
    refine ⟨f0 + 1, fun fuel hle out => ?_⟩
    obtain ⟨k, hk⟩ : ∃ k, fuel = k + 1 := ⟨fuel - 1, by omega⟩
    obtain ⟨d1, h1, h2⟩ := hf k (by omega) out d rfl
    refine ⟨d1, ?_, h2⟩
    rw [hk, RecurseAppendChoices_node X S k n out d hType]
    exact h1
  · intro hDec fuel out
    rw [RecurseAppendChoices_node X S fuel n out d hType]
    exact AppendChoicesOfEdges_all_decisions X _ _ out d hDec

theorem DemoFlattened_flattens :
    FlattensTo DemoExternals DemoSelectScript NewDialogue.VariableState
      (DemoSelectScript.Node 22).Edges DemoFlattened := by
  refine FlattensTo.decision _ _ _ rfl ?_
  refine FlattensTo.chained _ _ 20 (DemoNode 2).Edges
    [MkEdge "c6" "After" ESUDSEdgeType.Decision (some 6)] rfl rfl (Or.inr rfl) ?_ ?_
  · refine FlattensTo.conditionFails _ _ _ rfl (by decide) ?_
    refine FlattensTo.conditionHolds _ _ 2 _ rfl (by decide) rfl (Or.inl rfl) ?_
    refine FlattensTo.decision _ _ _ rfl ?_
    refine FlattensTo.decision _ _ _ rfl ?_
    refine FlattensTo.decision _ _ _ rfl ?_
    exact FlattensTo.done
  · refine FlattensTo.decision _ _ _ rfl ?_
    exact FlattensTo.done

theorem RecurseAppendChoices_is_flattening_witness :
    ((DemoSelectScript.Node 22).NodeType = ESUDSScriptNodeType.Choice ∨
      (DemoSelectScript.Node 22).NodeType = ESUDSScriptNodeType.Select) ∧
    FlattensTo DemoExternals DemoSelectScript NewDialogue.VariableState
      (DemoSelectScript.Node 22).Edges DemoFlattened ∧
    (∃ f0, ∀ fuel, f0 ≤ fuel → ∀ out,
      ∃ d1, RecurseAppendChoices DemoExternals DemoSelectScript fuel (some 22) out NewDialogue =
          Except.ok (out ++ DemoFlattened, d1) ∧
        SameButNotifications NewDialogue d1) :=
  ⟨Or.inl rfl, DemoFlattened_flattens,
    (RecurseAppendChoices_is_flattening DemoExternals DemoSelectScript 22 NewDialogue
      DemoFlattened (Or.inl rfl) DemoFlattened_flattens).1⟩

/-! ## The save and restore round trip -/

theorem Reachable_header (X : Externals) (S : USUDSScript) (fuel : Nat) (d : USUDSDialogue)
    (h : Reachable X S fuel d) : HasHeaderVariables X S fuel d := by
  induction h with
  | initialise d0 d hi => exact Initialise_header X S fuel d0 d hi
  | start d d1 Label _ hs ih => exact Start_header X S fuel d d1 Label ih hs
  | proceed d d1 b _ hc ih =>
    obtain ⟨H, hH, hK⟩ := ih
    exact ⟨H, hH, KeysKept_trans hK (Continue_keys X S fuel d b d1 hc)⟩
  | choose d d1 Index b _ hc ih =>
    obtain ⟨H, hH, hK⟩ := ih
    exact ⟨H, hH, KeysKept_trans hK (Choose_keys X S fuel d Index b d1 hc)⟩
  | restart d d1 bR L bH _ hr ih => exact Restart_header X S fuel d d1 bR L bH ih hr

/-- C2, refuted as stated: after `Initialise`, `Start` at the label `t` and a `Restart`
without reset whose run sets `Met` and then stops on a choice node, the dialogue is still
on node 2 with the empty choice list computed before `Met` was set; saving and restoring
recomputes the choices and exposes option `b`. -/
theorem SaveRestore_changes_stale_choices :
    Initialise DemoExternals StaleScript 4 NewDialogue = Except.ok NewDialogue ∧
    Start DemoExternals StaleScript 4 NewDialogue (some "t") = Except.ok StaleStarted ∧
    Restart DemoExternals StaleScript 4 StaleStarted false none false =
      Except.ok StaleRestarted ∧
    RestoreSavedState DemoExternals StaleScript 4 StaleRestarted
        (GetSavedState StaleScript StaleRestarted) = Except.ok StaleRestored ∧
    StaleRestarted.CurrentSpeakerNode = some 2 ∧
    StaleRestarted.CurrentChoices = [] ∧
    StaleRestored.CurrentChoices = [MkEdge "b" "B" ESUDSEdgeType.Decision none] ∧
    StaleRestored.CurrentChoices ≠ StaleRestarted.CurrentChoices :=
  ⟨rfl, rfl, rfl, rfl, rfl, rfl, rfl, by decide⟩

/-- C2, amended: for every state reached from `Initialise` through `Start`, `Continue`,
`Choose` and `Restart` whose choice list is up to date and whose current text id resolves
to the current node, `RestoreSavedState(GetSavedState())` returns a state with the same
current speaker node, the same value for every variable, the same choice list and the
same choices taken. -/
theorem SaveRestore_round_trip (X : Externals) (S : USUDSScript) (fuel : Nat)
    (d : USUDSDialogue) (hGuards : GuardsReadByName X) (hReach : Reachable X S fuel d)
    (hFresh : ChoicesUpToDate X S fuel d) (hID : TextIDResolves S d) :
    ∃ d1, RestoreSavedState X S fuel d (GetSavedState S d) = Except.ok d1 ∧
      d1.CurrentSpeakerNode = d.CurrentSpeakerNode ∧
      (∀ Name, d1.VariableState.Find Name = d.VariableState.Find Name) ∧
      d1.CurrentChoices = d.CurrentChoices ∧
      (∀ ID, ID ∈ d1.ChoicesTaken ↔ ID ∈ d.ChoicesTaken) := by
  obtain ⟨H, hH, hK⟩ := Reachable_header X S fuel d hReach
  have hTarget : RestoreTarget S (GetSavedState S d) = d.CurrentSpeakerNode := by
    unfold RestoreTarget GetSavedState
    cases hn : d.CurrentSpeakerNode with
    | none => simp
    | some n =>
      obtain ⟨h1, h2⟩ := hID n hn
      simp only [h1, ne_eq, not_false_eq_true, if_true, h2]
  have hFind : ∀ k, (H.Append d.VariableState).Find k = d.VariableState.Find k := by
    intro k
    rw [VarMap_Find_Append]
    cases hk : d.VariableState.Find k with
    | some v => rfl
    | none =>
      simp only []
      by_contra hne
      exact hK k hne hk
  have hChoices : ChoicesFor X S fuel (H.Append (GetSavedState S d).Variables)
      (RestoreTarget S (GetSavedState S d)) = Except.ok d.CurrentChoices := by
    rw [hTarget]
    have hG : SameGuards X (H.Append d.VariableState) d.VariableState :=
      fun c => hGuards c _ _ hFind
    have := ChoicesFor_congr X S fuel _ _ d.CurrentSpeakerNode hG
    rw [← hFresh, ← this]
    rfl
  obtain ⟨d1, h1, hn, hv, hc, hcs, _⟩ :=
    RestoreSavedState_spec X S fuel d (GetSavedState S d) H d.CurrentChoices hH hChoices
  refine ⟨d1, h1, hn.trans hTarget, ?_, hcs, ?_⟩
  · intro Name
    rw [hv]
    exact hFind Name
  · intro ID
    rw [hc, mem_SetAppend]
    simp [GetSavedState]

theorem DemoExternals_guards_read_by_name : GuardsReadByName DemoExternals := by
  intro c env env1 h
  unfold DemoExternals
  simp only []
  cases c.VariableNames with
  | nil => rfl
  | cons v rest => simp only [h]

theorem DemoAtChoices_reachable : Reachable DemoExternals DemoScript 4 DemoAtChoices :=
  Reachable.proceed DemoStarted DemoAtChoices true
    (Reachable.start DemoInitialised DemoStarted none
      (Reachable.initialise NewDialogue DemoInitialised rfl) rfl) rfl

theorem DemoAtChoices_text_id : TextIDResolves DemoScript DemoAtChoices := by
  intro n hn
  have h1 : n = 1 := by
    have h2 : DemoAtChoices.CurrentSpeakerNode = some 1 := rfl
    rw [h2] at hn
    exact (Option.some.inj hn).symm
  subst h1
  exact ⟨by decide, rfl⟩

theorem SaveRestore_round_trip_witness :
    GuardsReadByName DemoExternals ∧ Reachable DemoExternals DemoScript 4 DemoAtChoices ∧
    ChoicesUpToDate DemoExternals DemoScript 4 DemoAtChoices ∧
    TextIDResolves DemoScript DemoAtChoices ∧
    DemoAtChoices.CurrentChoices = (DemoNode 2).Edges ∧
    ∃ d1, RestoreSavedState DemoExternals DemoScript 4 DemoAtChoices
        (GetSavedState DemoScript DemoAtChoices) = Except.ok d1 ∧
      d1.CurrentSpeakerNode = DemoAtChoices.CurrentSpeakerNode ∧
      (∀ Name, d1.VariableState.Find Name = DemoAtChoices.VariableState.Find Name) ∧
      d1.CurrentChoices = DemoAtChoices.CurrentChoices ∧
      (∀ ID, ID ∈ d1.ChoicesTaken ↔ ID ∈ DemoAtChoices.ChoicesTaken) :=
  ⟨DemoExternals_guards_read_by_name, DemoAtChoices_reachable, rfl, DemoAtChoices_text_id, rfl,
    SaveRestore_round_trip DemoExternals DemoScript 4 DemoAtChoices
      DemoExternals_guards_read_by_name DemoAtChoices_reachable rfl DemoAtChoices_text_id⟩

/-! ## Claims on participants -/

theorem Priority_le_total : IsTotal Participant (fun A B => A.Priority ≤ B.Priority) :=
  ⟨fun A B => le_total A.Priority B.Priority⟩

theorem Priority_le_trans : IsTrans Participant (fun A B => A.Priority ≤ B.Priority) :=
  ⟨fun _ _ _ h1 h2 => le_trans h1 h2⟩

theorem SortParticipants_eq (d : USUDSDialogue) :
    (SortParticipants d).Participants =
      d.Participants.insertionSort (fun A B => A.Priority ≤ B.Priority) := by
  unfold SortParticipants
  by_cases he : d.Participants.isEmpty = true
  · rw [if_pos he, List.isEmpty_iff.mp he]
    rfl
  · rw [if_neg he]

theorem ParticipantCalls_targets (ps : List Participant) (c : Callback) :
    (ParticipantCalls ps c).map (fun n => n.Target) =
      (ps.filter (fun p => p.bImplementsInterface)).map (fun p => Listener.Participant p.Id) := by
  induction ps with
  | nil => rfl
  | cons p rest ih =>
    unfold ParticipantCalls
    by_cases h : p.bImplementsInterface = true
    · rw [if_pos h, List.filter_cons_of_pos h, List.map_cons, List.map_cons, ih]
    · rw [if_neg h, List.filter_cons_of_neg h, ih]

theorem insertionSort_by_priority (l : List Participant) :
    List.Perm (l.insertionSort (fun A B => A.Priority ≤ B.Priority)) l ∧
    List.Sorted (fun A B => A.Priority ≤ B.Priority)
      (l.insertionSort (fun A B => A.Priority ≤ B.Priority)) ∧
    (∀ A B : Participant, A.Priority ≤ B.Priority → List.Sublist [A, B] l →
      List.Sublist [A, B] (l.insertionSort (fun A B => A.Priority ≤ B.Priority))) := by
  haveI := Priority_le_total
  haveI := Priority_le_trans
  refine ⟨List.perm_insertionSort _ l, List.sorted_insertionSort _ l, ?_⟩
  intro A B hAB hSub
  exact List.pair_sublist_insertionSort hAB hSub

/-- C19: after `SetParticipants(list)` the participant list is a permutation of the list,
in non-decreasing priority order, and two participants of which the first is registered
before the second and has no higher priority (equal priority included) keep their order;
likewise after `AddParticipant(P)` for the previous list followed by `P`.  The callbacks
go to the participants that implement the interface in list order, so the participants
of higher priority are called last. -/
theorem Participants_sorted_stable (d : USUDSDialogue) (InParticipants : List Participant)
    (P : Participant) :
    (List.Perm (SetParticipants d InParticipants).Participants InParticipants ∧
      List.Sorted (fun A B => A.Priority ≤ B.Priority)
        (SetParticipants d InParticipants).Participants ∧
      (∀ A B : Participant, A.Priority ≤ B.Priority → List.Sublist [A, B] InParticipants →
        List.Sublist [A, B] (SetParticipants d InParticipants).Participants)) ∧
    (List.Perm (AddParticipant d P).Participants (d.Participants ++ [P]) ∧
      List.Sorted (fun A B => A.Priority ≤ B.Priority) (AddParticipant d P).Participants ∧
      (∀ A B : Participant, A.Priority ≤ B.Priority →
        List.Sublist [A, B] (d.Participants ++ [P]) →
        List.Sublist [A, B] (AddParticipant d P).Participants)) ∧
    (∀ (ps : List Participant) (c : Callback),
      (ParticipantCalls ps c).map (fun n => n.Target) =
        (ps.filter (fun p => p.bImplementsInterface)).map
          (fun p => Listener.Participant p.Id)) := by
  refine ⟨?_, ?_, ParticipantCalls_targets⟩
  · unfold SetParticipants
    rw [SortParticipants_eq]
    exact insertionSort_by_priority InParticipants
  · unfold AddParticipant
    rw [SortParticipants_eq]
    exact insertionSort_by_priority (d.Participants ++ [P])

/-! ## The record of callbacks: what each step raises -/

theorem Blocks_append (ps : List Participant) (cs cs1 : List Callback) :
    Blocks ps (cs ++ cs1) = Blocks ps cs ++ Blocks ps cs1 := by
  induction cs with
  | nil => rfl
  | cons c rest ih =>
    rw [List.cons_append, Blocks, Blocks, ih, List.append_assoc]

theorem Blocks_single (ps : List Participant) (c : Callback) :
    Blocks ps [c] = EventBlock ps c := by
  rw [Blocks, Blocks, List.append_nil]

theorem Raises_nil (d : USUDSDialogue) : Raises d d [] := by
  unfold Raises
  rw [Blocks, List.append_nil]
  exact ⟨rfl, rfl⟩

theorem Raises_append {a b c : USUDSDialogue} {cs cs1 : List Callback} (h : Raises a b cs)
    (h1 : Raises b c cs1) : Raises a c (cs ++ cs1) := by
  unfold Raises at h h1 ⊢
  rw [h1.1, h.1, h.2, Blocks_append, List.append_assoc]
  exact ⟨rfl, h1.2.trans h.2⟩

/-- A step that touches neither the record nor the participants raises nothing. -/
theorem Raises_of_untouched {d d1 : USUDSDialogue} (hN : d1.Notifications = d.Notifications)
    (hP : d1.Participants = d.Participants) : Raises d d1 [] := by
  unfold Raises
  rw [Blocks, List.append_nil]
  exact ⟨hN, hP⟩

theorem IsRequest_run (c : Callback) (h : IsRequest c) : IsRunEvent c := by
  cases c <;> first | exact h.elim | trivial

theorem RaisesOnly_nil (P : Callback → Prop) (d : USUDSDialogue) : RaisesOnly P d d :=
  ⟨[], Raises_nil d, fun _ h => by cases h⟩

theorem RaisesOnly_untouched (P : Callback → Prop) {d d1 : USUDSDialogue}
    (hN : d1.Notifications = d.Notifications) (hP : d1.Participants = d.Participants) :
    RaisesOnly P d d1 :=
  ⟨[], Raises_of_untouched hN hP, fun _ h => by cases h⟩

theorem RaisesOnly_append {P : Callback → Prop} {a b c : USUDSDialogue}
    (h : RaisesOnly P a b) (h1 : RaisesOnly P b c) : RaisesOnly P a c := by
  obtain ⟨cs, hr, hp⟩ := h
  obtain ⟨cs1, hr1, hp1⟩ := h1
  refine ⟨cs ++ cs1, Raises_append hr hr1, ?_⟩
  intro x hx
  rcases List.mem_append.mp hx with hx | hx
  · exact hp x hx
  · exact hp1 x hx

theorem RaisesOnly_mono {P Q : Callback → Prop} {a b : USUDSDialogue}
    (hPQ : ∀ c, P c → Q c) (h : RaisesOnly P a b) : RaisesOnly Q a b := by
  obtain ⟨cs, hr, hp⟩ := h
  exact ⟨cs, hr, fun c hc => hPQ c (hp c hc)⟩

theorem RaisesOnly_single {P : Callback → Prop} {a b : USUDSDialogue} {c : Callback}
    (h : Raises a b [c]) (hc : P c) : RaisesOnly P a b :=
  ⟨[c], h, fun x hx => by
    have hxc : x = c := List.mem_singleton.mp hx
    rw [hxc]
    exact hc⟩

/-- An event other than "variable requested": participants first, delegate last. -/
theorem Raises_participants_first (d : USUDSDialogue) (c : Callback) (hc : ¬ IsRequest c) :
    Raises d (NotifyDelegate (NotifyParticipants d c) c) [c] := by
  unfold Raises
  rw [Blocks_single]
  refine ⟨?_, rfl⟩
  cases c <;> first | exact (hc trivial).elim | simp [NotifyDelegate, NotifyParticipants, EventBlock]

theorem RaiseVariableRequested_raises (d : USUDSDialogue) (v : String) :
    Raises d (RaiseVariableRequested d v) [Callback.VariableRequested v] := by
  unfold Raises
  rw [Blocks_single]
  refine ⟨?_, rfl⟩
  simp [RaiseVariableRequested, NotifyDelegate, NotifyParticipants, EventBlock]

theorem RaiseVariablesRequested_raises (Names : List String) (d : USUDSDialogue) :
    Raises d (RaiseVariablesRequested d Names)
      (Names.map (fun v => Callback.VariableRequested v)) := by
  induction Names generalizing d with
  | nil => exact Raises_nil d
  | cons v rest ih =>
    unfold RaiseVariablesRequested
    exact Raises_append (RaiseVariableRequested_raises d v) (ih _)

theorem RaiseVariablesRequested_only (Names : List String) (d : USUDSDialogue) :
    RaisesOnly IsRequest d (RaiseVariablesRequested d Names) := by
  refine ⟨_, RaiseVariablesRequested_raises Names d, ?_⟩
  intro c hc
  obtain ⟨v, _, hv⟩ := List.mem_map.mp hc
  rw [← hv]
  trivial

theorem RaiseExpressionVariablesRequested_only (d : USUDSDialogue) (e : FSUDSExpression) :
    RaisesOnly IsRequest d (RaiseExpressionVariablesRequested d e) :=
  RaiseVariablesRequested_only e.VariableNames d

theorem RunSelectEdges_only (X : Externals) (Edges : List FSUDSScriptEdge) (d : USUDSDialogue) :
    RaisesOnly IsRequest d (RunSelectEdges X Edges d).2 := by
  induction Edges generalizing d with
  | nil => exact RaisesOnly_nil _ d
  | cons Edge rest ih =>
    unfold RunSelectEdges
    by_cases hv : Edge.Condition.bIsValid = true
    · rw [if_pos hv]
      by_cases hb : X.EvaluateBoolean Edge.Condition
          (RaiseExpressionVariablesRequested d Edge.Condition).VariableState = true
      · rw [if_pos hb]
        exact RaiseExpressionVariablesRequested_only d Edge.Condition
      · rw [if_neg hb]
        exact RaisesOnly_append (RaiseExpressionVariablesRequested_only d Edge.Condition) (ih _)
    · rw [if_neg hv]
      exact ih d

theorem ResolveEventArgs_only (X : Externals) (Args : List FSUDSExpression) (d : USUDSDialogue) :
    RaisesOnly IsRequest d (ResolveEventArgs X Args d).2 := by
  induction Args generalizing d with
  | nil => exact RaisesOnly_nil _ d
  | cons Expr rest ih =>
    unfold ResolveEventArgs
    exact RaisesOnly_append (RaiseExpressionVariablesRequested_only d Expr) (ih _)

theorem RunEventNode_only (X : Externals) (S : USUDSScript) (d : USUDSDialogue) (Node : Nat) :
    RaisesOnly IsRunEvent d (RunEventNode X S d Node).2 := by
  unfold RunEventNode
  by_cases h : (S.Node Node).NodeType = ESUDSScriptNodeType.Event
  · rw [if_pos h]
    exact RaisesOnly_append (RaisesOnly_mono IsRequest_run (ResolveEventArgs_only X _ d))
      (RaisesOnly_single (Raises_participants_first _ _ (fun hq => hq)) trivial)
  · rw [if_neg h]
    exact RaisesOnly_nil _ d

/-- What `RunSetVariableNode` raises: the requests for the variables of the expression,
then one "variable changed" event when the value differs from the current one. -/
theorem RunSetVariableNode_raises (X : Externals) (S : USUDSScript) (d : USUDSDialogue)
    (Node : Nat) (hT : (S.Node Node).NodeType = ESUDSScriptNodeType.SetVariable)
    (hV : (S.Node Node).Expression.bIsValid = true) :
    Raises d (RunSetVariableNode X S d Node).2
      ((S.Node Node).Expression.VariableNames.map (fun v => Callback.VariableRequested v) ++
        (if X.NotEqual (GetVariable X d (S.Node Node).Identifier)
            (X.Evaluate (S.Node Node).Expression d.VariableState) then
          [Callback.VariableChanged (S.Node Node).Identifier
            (X.Evaluate (S.Node Node).Expression d.VariableState) true]
        else [])) := by
  have hReq := RaiseVariablesRequested_raises (S.Node Node).Expression.VariableNames d
  have hVS : (RaiseExpressionVariablesRequested d (S.Node Node).Expression).VariableState =
      d.VariableState := RaiseExpressionVariablesRequested_VariableState d _
  have hG : GetVariable X (RaiseExpressionVariablesRequested d (S.Node Node).Expression)
      (S.Node Node).Identifier = GetVariable X d (S.Node Node).Identifier := by
    unfold GetVariable
    rw [hVS]
  unfold RunSetVariableNode
  rw [if_pos hT, if_pos hV]
  dsimp only
  rw [hG, hVS]
  by_cases hNe : X.NotEqual (GetVariable X d (S.Node Node).Identifier)
      (X.Evaluate (S.Node Node).Expression d.VariableState) = true
  · rw [if_pos hNe, if_pos hNe]
    refine Raises_append hReq ?_
    have h1 := Raises_participants_first
      { RaiseExpressionVariablesRequested d (S.Node Node).Expression with
        VariableState := d.VariableState.Add (S.Node Node).Identifier
          (X.Evaluate (S.Node Node).Expression d.VariableState) }
      (Callback.VariableChanged (S.Node Node).Identifier
        (X.Evaluate (S.Node Node).Expression d.VariableState) true) (fun hq => hq)
    exact h1
  · rw [if_neg hNe, if_neg hNe, List.append_nil]
    exact hReq

theorem RunSetVariableNode_only (X : Externals) (S : USUDSScript) (d : USUDSDialogue)
    (Node : Nat) : RaisesOnly IsRunEvent d (RunSetVariableNode X S d Node).2 := by
  by_cases hT : (S.Node Node).NodeType = ESUDSScriptNodeType.SetVariable
  · by_cases hV : (S.Node Node).Expression.bIsValid = true
    · refine ⟨_, RunSetVariableNode_raises X S d Node hT hV, ?_⟩
      intro c hc
      rcases List.mem_append.mp hc with hc | hc
      · obtain ⟨v, _, hv⟩ := List.mem_map.mp hc
        rw [← hv]
        trivial
      · split at hc
        · rw [List.mem_singleton.mp hc]
          trivial
        · cases hc
    · unfold RunSetVariableNode
      rw [if_pos hT, if_neg hV]
      exact RaisesOnly_nil _ d
  · unfold RunSetVariableNode
    rw [if_neg hT]
    exact RaisesOnly_nil _ d

theorem RunNode_only (X : Externals) (S : USUDSScript) (d : USUDSDialogue) (Node : Nat) :
    RaisesOnly IsRunEvent d (RunNode X S d Node).2 := by
  unfold RunNode
  split
  · exact RaisesOnly_mono IsRequest_run (RunSelectEdges_only X _ d)
  · exact RunSetVariableNode_only X S d Node
  · exact RunEventNode_only X S d Node
  · exact RaisesOnly_nil _ d

theorem RunAutoNodes_only (X : Externals) (S : USUDSScript) (fuel : Nat) (n : Option Nat)
    (d : USUDSDialogue) (r : Option Nat × USUDSDialogue)
    (h : RunAutoNodes X S fuel n d = Except.ok r) : RaisesOnly IsRunEvent d r.2 := by
  induction fuel generalizing n d with
  | zero =>
    cases n with
    | none =>
      unfold RunAutoNodes at h
      cases h
      exact RaisesOnly_nil _ d
    | some m =>
      unfold RunAutoNodes at h
      by_cases hs : ShouldStopAtNodeType (S.Node m).NodeType = true
      · rw [if_pos hs] at h
        cases h
        exact RaisesOnly_nil _ d
      · rw [if_neg hs] at h
        cases h
  | succ f ih =>
    cases n with
    | none =>
      unfold RunAutoNodes at h
      cases h
      exact RaisesOnly_nil _ d
    | some m =>
      unfold RunAutoNodes at h
      by_cases hs : ShouldStopAtNodeType (S.Node m).NodeType = true
      · rw [if_pos hs] at h
        cases h
        exact RaisesOnly_nil _ d
      · rw [if_neg hs] at h
        exact RaisesOnly_append (RunNode_only X S d m) (ih _ _ h)

theorem AppendChoicesOfEdges_only (X : Externals)
    (Recurse : Option Nat → List FSUDSScriptEdge → USUDSDialogue →
      Except Fault (List FSUDSScriptEdge × USUDSDialogue))
    (hRec : ∀ n out d r, Recurse n out d = Except.ok r → RaisesOnly IsRequest d r.2)
    (Edges : List FSUDSScriptEdge) (out : List FSUDSScriptEdge) (d : USUDSDialogue)
    (r : List FSUDSScriptEdge × USUDSDialogue)
    (h : AppendChoicesOfEdges X Recurse Edges out d = Except.ok r) :
    RaisesOnly IsRequest d r.2 := by
  induction Edges generalizing out d with
  | nil =>
    unfold AppendChoicesOfEdges at h
    cases h
    exact RaisesOnly_nil _ d
  | cons Edge rest ih =>
    unfold AppendChoicesOfEdges at h
    split at h
    · exact ih _ _ h
    · by_cases hv : Edge.Condition.bIsValid = true
      · rw [if_pos hv] at h
        split at h
        · exact RaisesOnly_append (RaiseExpressionVariablesRequested_only d Edge.Condition)
            (hRec _ _ _ _ h)
        · exact RaisesOnly_append (RaiseExpressionVariablesRequested_only d Edge.Condition)
            (ih _ _ h)
      · rw [if_neg hv] at h
        exact ih _ _ h
    · split at h
      · cases h
      · rename_i r1 hr1
        exact RaisesOnly_append (hRec _ _ _ _ hr1) (ih _ _ h)
    · cases h

theorem RecurseAppendChoices_only (X : Externals) (S : USUDSScript) (fuel : Nat)
    (n : Option Nat) (out : List FSUDSScriptEdge) (d : USUDSDialogue)
    (r : List FSUDSScriptEdge × USUDSDialogue)
    (h : RecurseAppendChoices X S fuel n out d = Except.ok r) :
    RaisesOnly IsRequest d r.2 := by
  induction fuel generalizing n out d r with
  | zero =>
    cases n with
    | none =>
      unfold RecurseAppendChoices at h
      cases h
      exact RaisesOnly_nil _ d
    | some m =>
      unfold RecurseAppendChoices at h
      cases h
  | succ f ih =>
    cases n with
    | none =>
      unfold RecurseAppendChoices at h
      cases h
      exact RaisesOnly_nil _ d
    | some m =>
      unfold RecurseAppendChoices at h
      simp only [] at h
      split at h
      · exact AppendChoicesOfEdges_only X _ (fun n out d r hr => ih n out d r hr) _ _ _ _ h
      · cases h

theorem UpdateChoices_only (X : Externals) (S : USUDSScript) (fuel : Nat)
    (d d1 : USUDSDialogue) (h : UpdateChoices X S fuel d = Except.ok d1) :
    RaisesOnly IsRequest d d1 := by
  unfold UpdateChoices at h
  split at h
  · cases h
    exact RaisesOnly_untouched _ rfl rfl
  · split at h
    · split at h
      · split at h
        · cases h
        · rename_i r hr
          cases h
          obtain ⟨cs, hc, hp⟩ := RecurseAppendChoices_only X S fuel _ _ _ r hr
          exact ⟨cs, hc, hp⟩
      · cases h
        exact RaisesOnly_untouched _ rfl rfl
    · split at h
      · cases h
        exact RaisesOnly_untouched _ rfl rfl
      · cases h
        exact RaisesOnly_untouched _ rfl rfl

/-- What `SetCurrentSpeakerNode` raises: the requests of the choice collection, then,
unless quiet, one "speaker line" event for a node and one "finished" event for none. -/
theorem SetCurrentSpeakerNode_raises (X : Externals) (S : USUDSScript) (fuel : Nat)
    (d d1 : USUDSDialogue) (Node : Option Nat) (bQuietly : Bool)
    (h : SetCurrentSpeakerNode X S fuel d Node bQuietly = Except.ok d1) :
    ∃ cs, (∀ c ∈ cs, IsRequest c) ∧
      Raises d d1 (cs ++ (if bQuietly then []
        else match Node with
          | some _ => [Callback.SpeakerLine]
          | none => [Callback.Finished])) := by
  unfold SetCurrentSpeakerNode at h
  split at h
  · cases h
  · rename_i d0 hU
    obtain ⟨cs, hR, hP⟩ := UpdateChoices_only X S fuel _ d0 hU
    have hR0 : Raises d d0 cs := hR
    have hNode : d0.CurrentSpeakerNode = Node :=
      (SameOutcome_of_ok_left (UpdateChoices_spec X S fuel _) hU).choose_spec.2.2.1
    refine ⟨cs, hP, ?_⟩
    cases bQuietly with
    | true =>
      simp only [if_true] at h ⊢
      cases h
      rw [List.append_nil]
      exact hR0
    | false =>
      simp only [Bool.false_eq_true, if_false] at h ⊢
      rw [hNode] at h
      cases Node with
      | none =>
        simp only [] at h
        cases h
        exact Raises_append hR0 (Raises_participants_first d0 _ (fun hq => hq))
      | some m =>
        simp only [] at h
        cases h
        exact Raises_append hR0 (Raises_participants_first d0 _ (fun hq => hq))

theorem SetCurrentSpeakerNode_any (X : Externals) (S : USUDSScript) (fuel : Nat)
    (d d1 : USUDSDialogue) (Node : Option Nat) (bQuietly : Bool)
    (h : SetCurrentSpeakerNode X S fuel d Node bQuietly = Except.ok d1) :
    RaisesOnly AnyEvent d d1 := by
  obtain ⟨cs, _, hR⟩ := SetCurrentSpeakerNode_raises X S fuel d d1 Node bQuietly h
  exact ⟨_, hR, fun _ _ => trivial⟩

theorem RunUntilNextSpeakerNodeOrEnd_any (X : Externals) (S : USUDSScript) (fuel : Nat)
    (d : USUDSDialogue) (n : Option Nat) (b : Bool) (d1 : USUDSDialogue)
    (h : RunUntilNextSpeakerNodeOrEnd X S fuel d n b = Except.ok d1) :
    RaisesOnly AnyEvent d d1 := by
  unfold RunUntilNextSpeakerNodeOrEnd at h
  split at h
  · cases h
  · rename_i m d0 hA
    have hRun := RaisesOnly_mono (fun _ _ => trivial) (RunAutoNodes_only X S fuel n d _ hA)
    split at h
    · exact RaisesOnly_append hRun (SetCurrentSpeakerNode_any X S fuel _ _ _ _ h)
    · cases h
      exact hRun
  · rename_i d0 hA
    have hRun := RaisesOnly_mono (fun _ _ => trivial) (RunAutoNodes_only X S fuel n d _ hA)
    exact RaisesOnly_append hRun (SetCurrentSpeakerNode_any X S fuel _ _ _ _ h)

theorem RunUntilNextChoiceNode_only (X : Externals) (S : USUDSScript) (fuel : Nat)
    (d : USUDSDialogue) (n : Option Nat) (r : Option Nat × USUDSDialogue)
    (h : RunUntilNextChoiceNode X S fuel d n = Except.ok r) : RaisesOnly IsRunEvent d r.2 := by
  unfold RunUntilNextChoiceNode at h
  cases n with
  | none =>
    cases h
    exact RaisesOnly_nil _ d
  | some m =>
    simp only [] at h
    by_cases h1 : (S.Node m).GetEdgeCount = 1
    · rw [if_pos h1] at h
      exact RunAutoNodes_only X S fuel _ d r h
    · rw [if_neg h1] at h
      cases h
      exact RaisesOnly_nil _ d

/-- `Choose` for a valid index on a current node: the prologue, then the run along the
chosen edge; the return value is whether the dialogue is not ended. -/
theorem Choose_eq (X : Externals) (S : USUDSScript) (fuel : Nat) (d : USUDSDialogue)
    (Index : Int) (Choice : FSUDSScriptEdge) (n : Nat)
    (hValid : ChoiceAt d.CurrentChoices Index = some Choice)
    (hNode : d.CurrentSpeakerNode = some n) :
    Choose X S fuel d Index =
      match ChoosePrologue X S fuel d Index Choice n with
      | Except.error e => Except.error e
      | Except.ok d0 =>
        match RunUntilNextSpeakerNodeOrEnd X S fuel d0 Choice.TargetNode true with
        | Except.error e => Except.error e
        | Except.ok d2 => Except.ok (!IsEnded d2, d2) := by
  obtain ⟨node, vs, ct, cc, ps, dn, bp, ns⟩ := d
  have hn : node = some n := hNode
  subst hn
  unfold Choose ChoosePrologue
  rw [hValid]
  simp only []
  by_cases hh : (S.Node n).bHasChoices = true
  · rw [if_pos hh, if_pos hh]
    have hF := RunUntilNextChoiceNode_frame X S fuel
      (RaiseProceeding (RaiseChoiceMade
        { CurrentSpeakerNode := some n, VariableState := vs,
          ChoicesTaken := SetAdd ct Choice.TextID, CurrentChoices := cc, Participants := ps,
          CurrentSpeakerDisplayName := dn, bParamNamesExtracted := bp, Notifications := ns }
        Index)) (some n)
    revert hF
    generalize RunUntilNextChoiceNode X S fuel
      (RaiseProceeding (RaiseChoiceMade
        { CurrentSpeakerNode := some n, VariableState := vs,
          ChoicesTaken := SetAdd ct Choice.TextID, CurrentChoices := cc, Participants := ps,
          CurrentSpeakerDisplayName := dn, bParamNamesExtracted := bp, Notifications := ns }
        Index)) (some n) = A
    intro hF
    cases A with
    | error x => rfl
    | ok r =>
      simp only []
      have hC : r.2.CurrentChoices = cc := (hF r rfl).1.2.2.1
      rw [hC, hValid]
  · rw [if_neg hh, if_neg hh]

/-! ## Claims on what `Choose` records and returns -/

theorem ChoosePrologue_spec (X : Externals) (S : USUDSScript) (fuel : Nat)
    (d d0 : USUDSDialogue) (Index : Int) (Choice : FSUDSScriptEdge) (n : Nat)
    (h : ChoosePrologue X S fuel d Index Choice n = Except.ok d0) :
    d0.ChoicesTaken =
      (if (S.Node n).bHasChoices then SetAdd d.ChoicesTaken Choice.TextID
       else d.ChoicesTaken) ∧
    RaisesOnly (fun c => c ≠ Callback.Finished) d d0 := by
  unfold ChoosePrologue at h
  by_cases hh : (S.Node n).bHasChoices = true
  · rw [if_pos hh] at h
    rw [if_pos hh]
    split at h
    · cases h
    · rename_i r hr
      cases h
      refine ⟨(RunUntilNextChoiceNode_frame X S fuel _ _ r hr).1.2.1, ?_⟩
      have h1 : RaisesOnly (fun c => c ≠ Callback.Finished) d
          (RaiseChoiceMade { d with ChoicesTaken := SetAdd d.ChoicesTaken Choice.TextID }
            Index) :=
        RaisesOnly_single (Raises_participants_first
          { d with ChoicesTaken := SetAdd d.ChoicesTaken Choice.TextID }
          (Callback.Choice Index) (fun hq => hq)) (by intro hq; cases hq)
      have h2 : RaisesOnly (fun c => c ≠ Callback.Finished)
          (RaiseChoiceMade { d with ChoicesTaken := SetAdd d.ChoicesTaken Choice.TextID }
            Index)
          (RaiseProceeding (RaiseChoiceMade
            { d with ChoicesTaken := SetAdd d.ChoicesTaken Choice.TextID } Index)) :=
        RaisesOnly_single (Raises_participants_first _ Callback.Proceeding (fun hq => hq))
          (by intro hq; cases hq)
      have h3 := RaisesOnly_mono
        (fun c (hc : IsRunEvent c) => (by intro hq; rw [hq] at hc; exact hc :
          c ≠ Callback.Finished))
        (RunUntilNextChoiceNode_only X S fuel _ _ r hr)
      exact RaisesOnly_append (RaisesOnly_append h1 h2) h3
  · rw [if_neg hh] at h
    rw [if_neg hh]
    cases h
    exact ⟨rfl, RaisesOnly_single (Raises_participants_first d Callback.Proceeding
      (fun hq => hq)) (by intro hq; cases hq)⟩

theorem Choose_returned (X : Externals) (S : USUDSScript) (fuel : Nat) (d : USUDSDialogue)
    (Index : Int) (Choice : FSUDSScriptEdge) (n : Nat) (b : Bool) (d1 : USUDSDialogue)
    (hValid : ChoiceAt d.CurrentChoices Index = some Choice)
    (hNode : d.CurrentSpeakerNode = some n)
    (h : Choose X S fuel d Index = Except.ok (b, d1)) :
    ∃ d0, ChoosePrologue X S fuel d Index Choice n = Except.ok d0 ∧
      RunUntilNextSpeakerNodeOrEnd X S fuel d0 Choice.TargetNode true = Except.ok d1 ∧
      b = !IsEnded d1 := by
  rw [Choose_eq X S fuel d Index Choice n hValid hNode] at h
  split at h
  · cases h
  · rename_i d0 h0
    split at h
    · cases h
    · rename_i d2 h2
      cases h
      exact ⟨d0, h0, h2, rfl⟩

/-- C11: for a valid index on a node with a choice construct, `Choose` adds the text id of
the chosen edge to the choices taken, so that `HasChoiceBeenTakenPreviously` holds for the
edge afterwards and `HasChoiceIndexBeenTakenPreviously` holds for the index whenever the
same choice list is presented again; on a node without choice construct the choices taken
are unchanged.  `Choose` returns whenever its two runs return. -/
theorem Choose_records_choice (X : Externals) (S : USUDSScript) (fuel : Nat)
    (d : USUDSDialogue) (Index : Int) (Choice : FSUDSScriptEdge) (n : Nat)
    (hValid : ChoiceAt d.CurrentChoices Index = some Choice)
    (hNode : d.CurrentSpeakerNode = some n) :
    (∀ d0 d2, ChoosePrologue X S fuel d Index Choice n = Except.ok d0 →
      RunUntilNextSpeakerNodeOrEnd X S fuel d0 Choice.TargetNode true = Except.ok d2 →
      Choose X S fuel d Index = Except.ok (!IsEnded d2, d2)) ∧
    ((S.Node n).bHasChoices = true → ∀ b d1, Choose X S fuel d Index = Except.ok (b, d1) →
      (∀ ID, ID ∈ d1.ChoicesTaken ↔ ID ∈ d.ChoicesTaken ∨ ID = Choice.TextID) ∧
      HasChoiceBeenTakenPreviously d1 Choice = true ∧
      (∀ e : USUDSDialogue, e.ChoicesTaken = d1.ChoicesTaken →
        e.CurrentChoices = d.CurrentChoices →
        HasChoiceIndexBeenTakenPreviously e Index = true)) ∧
    ((S.Node n).bHasChoices = false → ∀ b d1, Choose X S fuel d Index = Except.ok (b, d1) →
      d1.ChoicesTaken = d.ChoicesTaken) := by
  refine ⟨?_, ?_, ?_⟩
  · intro d0 d2 h0 h2
    rw [Choose_eq X S fuel d Index Choice n hValid hNode, h0]
    simp only []
    rw [h2]
  · intro hh b d1 h
    obtain ⟨d0, h0, h2, _⟩ := Choose_returned X S fuel d Index Choice n b d1 hValid hNode h
    have hT : d1.ChoicesTaken = SetAdd d.ChoicesTaken Choice.TextID := by
      rw [(RunUntilNextSpeakerNodeOrEnd_frame X S fuel _ _ _ _ h2).2.1,
        (ChoosePrologue_spec X S fuel d d0 Index Choice n h0).1, if_pos hh]
    have hMem : Choice.TextID ∈ d1.ChoicesTaken := by
      rw [hT, mem_SetAdd]
      exact Or.inr rfl
    refine ⟨?_, ?_, ?_⟩
    · intro ID
      rw [hT, mem_SetAdd]
    · unfold HasChoiceBeenTakenPreviously
      exact decide_eq_true hMem
    · intro e hE hC
      unfold HasChoiceIndexBeenTakenPreviously HasChoiceBeenTakenPreviously
      rw [hC, hValid]
      simp only []
      rw [hE]
      exact decide_eq_true hMem
  · intro hh b d1 h
    obtain ⟨d0, h0, h2, _⟩ := Choose_returned X S fuel d Index Choice n b d1 hValid hNode h
    rw [(RunUntilNextSpeakerNodeOrEnd_frame X S fuel _ _ _ _ h2).2.1,
      (ChoosePrologue_spec X S fuel d d0 Index Choice n h0).1]
    simp only [hh, Bool.false_eq_true, if_false]

theorem Choose_records_choice_witness :
    ChoiceAt (DemoAt 1 (DemoNode 2).Edges).CurrentChoices 0 =
      some (MkEdge "c0" "Actually no" ESUDSEdgeType.Decision (some 3)) ∧
    (DemoAt 1 (DemoNode 2).Edges).CurrentSpeakerNode = some 1 ∧
    (DemoScript.Node 1).bHasChoices = true ∧
    Choose DemoExternals DemoScript 4 (DemoAt 1 (DemoNode 2).Edges) 0 =
      Except.ok (true, DemoChosen) ∧
    (∀ ID, ID ∈ DemoChosen.ChoicesTaken ↔
      ID ∈ (DemoAt 1 (DemoNode 2).Edges).ChoicesTaken ∨ ID = "c0") ∧
    HasChoiceBeenTakenPreviously DemoChosen
      (MkEdge "c0" "Actually no" ESUDSEdgeType.Decision (some 3)) = true ∧
    (∀ e : USUDSDialogue, e.ChoicesTaken = DemoChosen.ChoicesTaken →
      e.CurrentChoices = (DemoAt 1 (DemoNode 2).Edges).CurrentChoices →
      HasChoiceIndexBeenTakenPreviously e 0 = true) :=
  ⟨rfl, rfl, rfl, rfl,
    (Choose_records_choice DemoExternals DemoScript 4 (DemoAt 1 (DemoNode 2).Edges) 0
      (MkEdge "c0" "Actually no" ESUDSEdgeType.Decision (some 3)) 1 rfl rfl).2.1 rfl true
      DemoChosen rfl⟩

/-- C12: for a valid index, `Choose` returns true exactly when the dialogue is not ended
after the call.  When the auto-run from the chosen edge's target ends without successor,
`Choose` returns false, the dialogue is ended and the call raises exactly one "finished"
event, as its last event.  When it reaches a text node, that node becomes the current
speaker node and `Choose` returns true. -/
theorem Choose_returns_not_ended (X : Externals) (S : USUDSScript) (fuel : Nat)
    (d d0 : USUDSDialogue) (Index : Int) (Choice : FSUDSScriptEdge) (n : Nat)
    (hValid : ChoiceAt d.CurrentChoices Index = some Choice)
    (hNode : d.CurrentSpeakerNode = some n)
    (hPrologue : ChoosePrologue X S fuel d Index Choice n = Except.ok d0) :
    (∀ b d1, Choose X S fuel d Index = Except.ok (b, d1) → (b = true ↔ IsEnded d1 = false)) ∧
    (∀ d2, RunAutoNodes X S fuel Choice.TargetNode d0 = Except.ok (none, d2) →
      ∃ d1 cs, Choose X S fuel d Index = Except.ok (false, d1) ∧ IsEnded d1 = true ∧
        d1.CurrentSpeakerNode = none ∧
        Raises d d1 (cs ++ [Callback.Finished]) ∧ Callback.Finished ∉ cs) ∧
    (∀ m d2 Choices, RunAutoNodes X S fuel Choice.TargetNode d0 = Except.ok (some m, d2) →
      (S.Node m).NodeType = ESUDSScriptNodeType.Text →
      ChoicesFor X S fuel d2.VariableState (some m) = Except.ok Choices →
      ∃ d1, Choose X S fuel d Index = Except.ok (true, d1) ∧ IsEnded d1 = false ∧
        d1.CurrentSpeakerNode = some m ∧ d1.CurrentChoices = Choices) := by
  have hEq := Choose_eq X S fuel d Index Choice n hValid hNode
  rw [hPrologue] at hEq
  simp only [] at hEq
  refine ⟨?_, ?_, ?_⟩
  · intro b d1 h
    obtain ⟨_, _, _, hb⟩ := Choose_returned X S fuel d Index Choice n b d1 hValid hNode h
    rw [hb]
    cases IsEnded d1 <;> simp
  · intro d2 hRun
    obtain ⟨d1, h1, _, hn, _, _, _⟩ := SameOutcome_of_ok_right
      (SetCurrentSpeakerNode_spec X S fuel d2 none false) (ChoicesFor_none X S fuel _)
    have hU : RunUntilNextSpeakerNodeOrEnd X S fuel d0 Choice.TargetNode true =
        Except.ok d1 := by
      unfold RunUntilNextSpeakerNodeOrEnd
      rw [hRun]
      exact h1
    obtain ⟨cs0, hR0, hP0⟩ := (ChoosePrologue_spec X S fuel d d0 Index Choice n hPrologue).2
    obtain ⟨cs1, hR1, hP1⟩ := RunAutoNodes_only X S fuel _ d0 _ hRun
    obtain ⟨cs2, hP2, hR2⟩ := SetCurrentSpeakerNode_raises X S fuel d2 d1 none false h1
    simp only [Bool.false_eq_true, if_false] at hR2
    have hEnded : IsEnded d1 = true := by
      unfold IsEnded
      rw [hn]
      rfl
    refine ⟨d1, cs0 ++ cs1 ++ cs2, ?_, hEnded, hn, ?_, ?_⟩
    · rw [hEq, hU]
      simp only [hEnded]
      rfl
    · have h3 := Raises_append (Raises_append hR0 hR1) hR2
      rw [← List.append_assoc] at h3
      exact h3
    · intro hMem
      rcases List.mem_append.mp hMem with hMem | hMem
      · rcases List.mem_append.mp hMem with hMem | hMem
        · exact hP0 _ hMem rfl
        · exact hP1 _ hMem
      · exact hP2 _ hMem
  · intro m d2 Choices hRun hText hC
    obtain ⟨d1, h1, hcs, hn, _, _, _⟩ := SameOutcome_of_ok_right
      (SetCurrentSpeakerNode_spec X S fuel d2 (some m) false) hC
    have hU : RunUntilNextSpeakerNodeOrEnd X S fuel d0 Choice.TargetNode true =
        Except.ok d1 := by
      unfold RunUntilNextSpeakerNodeOrEnd
      rw [hRun]
      simp only []
      rw [if_pos hText]
      exact h1
    have hEnded : IsEnded d1 = false := by
      unfold IsEnded
      rw [hn]
      rfl
    refine ⟨d1, ?_, hEnded, hn, hcs⟩
    rw [hEq, hU]
    simp only [hEnded]
    rfl

theorem Choose_returns_not_ended_witness :
    ChoiceAt (DemoAt 3 (DemoNode 3).Edges).CurrentChoices 0 =
      some (MkEdge "" "" ESUDSEdgeType.Continue none) ∧
    (DemoAt 3 (DemoNode 3).Edges).CurrentSpeakerNode = some 3 ∧
    ChoosePrologue DemoExternals DemoScript 4 (DemoAt 3 (DemoNode 3).Edges) 0
      (MkEdge "" "" ESUDSEdgeType.Continue none) 3 =
      Except.ok (RaiseProceeding (DemoAt 3 (DemoNode 3).Edges)) ∧
    ∃ d1 cs, Choose DemoExternals DemoScript 4 (DemoAt 3 (DemoNode 3).Edges) 0 =
        Except.ok (false, d1) ∧ IsEnded d1 = true ∧ d1.CurrentSpeakerNode = none ∧
      Raises (DemoAt 3 (DemoNode 3).Edges) d1 (cs ++ [Callback.Finished]) ∧
      Callback.Finished ∉ cs :=
  ⟨rfl, rfl, rfl,
    (Choose_returns_not_ended DemoExternals DemoScript 4 (DemoAt 3 (DemoNode 3).Edges)
      (RaiseProceeding (DemoAt 3 (DemoNode 3).Edges)) 0
      (MkEdge "" "" ESUDSEdgeType.Continue none) 3 rfl rfl rfl).2.1 _ rfl⟩

/-! ## Claims on set nodes and the header -/

theorem ParticipantCalls_eq_map (ps : List Participant) (c : Callback) :
    ParticipantCalls ps c =
      (ps.filter (fun p => p.bImplementsInterface)).map
        (fun p => { Target := Listener.Participant p.Id, What := c }) := by
  induction ps with
  | nil => rfl
  | cons p rest ih =>
    unfold ParticipantCalls
    by_cases h : p.bImplementsInterface = true
    · rw [if_pos h, List.filter_cons_of_pos h, List.map_cons, ih]
    · rw [if_neg h, List.filter_cons_of_neg h, ih]

theorem ParticipantCalls_what (ps : List Participant) (c : Callback) (n : Notification)
    (h : n ∈ ParticipantCalls ps c) : n.What = c := by
  rw [ParticipantCalls_eq_map] at h
  obtain ⟨p, _, hp⟩ := List.mem_map.mp h
  rw [← hp]

theorem EventBlock_what (ps : List Participant) (c : Callback) (n : Notification)
    (h : n ∈ EventBlock ps c) : n.What = c := by
  unfold EventBlock at h
  split at h
  · rcases List.mem_cons.mp h with h | h
    · rw [h]
    · exact ParticipantCalls_what ps _ n h
  · rcases List.mem_append.mp h with h | h
    · exact ParticipantCalls_what ps _ n h
    · rw [List.mem_singleton.mp h]

/-- Every callback of a sequence of events is the callback of one of the events. -/
theorem Blocks_what (ps : List Participant) (cs : List Callback) (n : Notification)
    (h : n ∈ Blocks ps cs) : n.What ∈ cs := by
  induction cs with
  | nil =>
    rw [Blocks] at h
    cases h
  | cons c rest ih =>
    rw [Blocks] at h
    rcases List.mem_append.mp h with h | h
    · rw [EventBlock_what ps c n h]
      exact List.mem_cons_self _ _
    · exact List.mem_cons_of_mem _ (ih h)

/-- C13: a set node with a valid expression whose value equals the current value of the
variable (the type-aware comparison `NotEqual` is false) leaves the environment unchanged
and makes "variable requested" callbacks only; when the value differs, the new value is
stored under the variable and, after the requests, every participant that implements the
interface and then the delegate get one "variable changed" callback with the name, the new
value and the from-script flag set. -/
theorem RunSetVariableNode_notifies_on_change (X : Externals) (S : USUDSScript)
    (d : USUDSDialogue) (Node : Nat)
    (hType : (S.Node Node).NodeType = ESUDSScriptNodeType.SetVariable)
    (hValid : (S.Node Node).Expression.bIsValid = true) :
    (X.NotEqual (GetVariable X d (S.Node Node).Identifier)
        (X.Evaluate (S.Node Node).Expression d.VariableState) = false →
      (RunSetVariableNode X S d Node).2.VariableState = d.VariableState ∧
      ∃ Added, (RunSetVariableNode X S d Node).2.Notifications = d.Notifications ++ Added ∧
        ∀ n ∈ Added, ∃ v, n.What = Callback.VariableRequested v) ∧
    (X.NotEqual (GetVariable X d (S.Node Node).Identifier)
        (X.Evaluate (S.Node Node).Expression d.VariableState) = true →
      (RunSetVariableNode X S d Node).2.VariableState =
        d.VariableState.Add (S.Node Node).Identifier
          (X.Evaluate (S.Node Node).Expression d.VariableState) ∧
      (RunSetVariableNode X S d Node).2.VariableState.Find (S.Node Node).Identifier =
        some (X.Evaluate (S.Node Node).Expression d.VariableState) ∧
      (RunSetVariableNode X S d Node).2.Notifications =
        d.Notifications ++
          (Blocks d.Participants
            ((S.Node Node).Expression.VariableNames.map
              (fun v => Callback.VariableRequested v)) ++
          ((d.Participants.filter (fun p => p.bImplementsInterface)).map
              (fun p => { Target := Listener.Participant p.Id,
                          What := Callback.VariableChanged (S.Node Node).Identifier
                            (X.Evaluate (S.Node Node).Expression d.VariableState) true }) ++
            [{ Target := Listener.Delegate,
               What := Callback.VariableChanged (S.Node Node).Identifier
                 (X.Evaluate (S.Node Node).Expression d.VariableState) true }]))) := by
  have hR := RunSetVariableNode_raises X S d Node hType hValid
  have hVS : (RaiseExpressionVariablesRequested d (S.Node Node).Expression).VariableState =
      d.VariableState := RaiseExpressionVariablesRequested_VariableState d _
  have hG : GetVariable X (RaiseExpressionVariablesRequested d (S.Node Node).Expression)
      (S.Node Node).Identifier = GetVariable X d (S.Node Node).Identifier := by
    unfold GetVariable
    rw [hVS]
  refine ⟨?_, ?_⟩
  · intro hEq
    rw [hEq] at hR
    simp only [Bool.false_eq_true, if_false, List.append_nil] at hR
    refine ⟨?_, _, hR.1, ?_⟩
    · unfold RunSetVariableNode
      rw [if_pos hType, if_pos hValid]
      dsimp only
      rw [hG, hVS, hEq]
      simp only [Bool.false_eq_true, if_false]
      exact hVS
    · intro n hn
      obtain ⟨v, _, hv⟩ := List.mem_map.mp (Blocks_what _ _ n hn)
      exact ⟨v, hv.symm⟩
  · intro hNe
    rw [hNe] at hR
    simp only [if_true] at hR
    have hState : (RunSetVariableNode X S d Node).2.VariableState =
        d.VariableState.Add (S.Node Node).Identifier
          (X.Evaluate (S.Node Node).Expression d.VariableState) := by
      unfold RunSetVariableNode
      rw [if_pos hType, if_pos hValid]
      dsimp only
      rw [hG, hVS, hNe]
      simp only [if_true]
      rfl
    refine ⟨hState, ?_, ?_⟩
    · rw [hState, VarMap_Find_Add, if_pos rfl]
    · rw [hR.1, Blocks_append, Blocks_single]
      simp only [EventBlock, ParticipantCalls_eq_map]

theorem RunSetVariableNode_notifies_on_change_witness :
    (DemoScript.Node 11).NodeType = ESUDSScriptNodeType.SetVariable ∧
    (DemoScript.Node 11).Expression.bIsValid = true ∧
    DemoExternals.NotEqual (GetVariable DemoExternals NewDialogue (DemoScript.Node 11).Identifier)
      (DemoExternals.Evaluate (DemoScript.Node 11).Expression NewDialogue.VariableState) = true ∧
    (RunSetVariableNode DemoExternals DemoScript NewDialogue 11).2.VariableState.Find
        (DemoScript.Node 11).Identifier =
      some (DemoExternals.Evaluate (DemoScript.Node 11).Expression NewDialogue.VariableState) :=
  ⟨rfl, rfl, by decide,
    ((RunSetVariableNode_notifies_on_change DemoExternals DemoScript NewDialogue 11 rfl rfl).2
      (by decide)).2.1⟩

theorem RunSetVariableNode_effect (X : Externals) (S : USUDSScript) (d : USUDSDialogue)
    (n : Nat) (hT : (S.Node n).NodeType = ESUDSScriptNodeType.SetVariable) :
    (RunSetVariableNode X S d n).1 = S.GetNextNode n ∧
    (RunSetVariableNode X S d n).2.VariableState = SpecSetVariable X S d.VariableState n := by
  have hVS : (RaiseExpressionVariablesRequested d (S.Node n).Expression).VariableState =
      d.VariableState := RaiseExpressionVariablesRequested_VariableState d _
  unfold RunSetVariableNode SpecSetVariable
  rw [if_pos hT]
  by_cases hV : (S.Node n).Expression.bIsValid = true
  · rw [if_pos hV]
    dsimp only
    unfold GetVariable
    rw [hVS]
    by_cases hNe : X.NotEqual
        (match d.VariableState.Find (S.Node n).Identifier with
         | some v => v
         | none => X.DefaultValue)
        (X.Evaluate (S.Node n).Expression d.VariableState) = true
    · rw [if_pos hNe, if_pos ⟨hV, hNe⟩]
      exact ⟨rfl, rfl⟩
    · rw [if_neg hNe, if_neg (fun h => hNe h.2)]
      exact ⟨rfl, hVS⟩
  · rw [if_neg hV, if_neg (fun h => hV h.1)]
    exact ⟨rfl, rfl⟩

theorem RunSetVariableNode_variable_events (X : Externals) (S : USUDSScript)
    (d : USUDSDialogue) (Node : Nat) :
    RaisesOnly IsVariableEvent d (RunSetVariableNode X S d Node).2 := by
  by_cases hT : (S.Node Node).NodeType = ESUDSScriptNodeType.SetVariable
  · by_cases hV : (S.Node Node).Expression.bIsValid = true
    · refine ⟨_, RunSetVariableNode_raises X S d Node hT hV, ?_⟩
      intro c hc
      rcases List.mem_append.mp hc with hc | hc
      · obtain ⟨v, _, hv⟩ := List.mem_map.mp hc
        rw [← hv]
        trivial
      · split at hc
        · rw [List.mem_singleton.mp hc]
          trivial
        · cases hc
    · unfold RunSetVariableNode
      rw [if_pos hT, if_neg hV]
      exact RaisesOnly_nil _ d
  · unfold RunSetVariableNode
    rw [if_neg hT]
    exact RaisesOnly_nil _ d

/-- The loop over a chain of set nodes: it returns within a fuel of the length of the
chain, has executed the nodes in order, and has raised variable events only. -/
theorem RunAutoNodes_set_chain (X : Externals) (S : USUDSScript) (Chain : List Nat)
    (fuel : Nat) (Start : Option Nat) (d : USUDSDialogue) (hChain : IsSetChain S Start Chain)
    (hFuel : Chain.length ≤ fuel) :
    ∃ d1, RunAutoNodes X S fuel Start d = Except.ok (none, d1) ∧
      d1.VariableState = SpecRunSetNodes X S Chain d.VariableState ∧
      SameButVariables d d1 ∧ RaisesOnly IsVariableEvent d d1 := by
  induction Chain generalizing fuel Start d with
  | nil =>
    have hS : Start = none := hChain
    subst hS
    refine ⟨d, ?_, rfl, SameButVariables_refl d, RaisesOnly_nil _ d⟩
    unfold RunAutoNodes
    rfl
  | cons n rest ih =>
    obtain ⟨hS, hT, hRest⟩ := hChain
    subst hS
    obtain ⟨f, hf⟩ : ∃ f, fuel = f + 1 := ⟨fuel - 1, by
      have : 0 < fuel := Nat.lt_of_lt_of_le (Nat.succ_pos _) hFuel
      omega⟩
    subst hf
    have hStop : ShouldStopAtNodeType (S.Node n).NodeType = false := by
      rw [hT]
      rfl
    have hRun : RunNode X S d n = RunSetVariableNode X S d n := by
      unfold RunNode
      rw [hT]
    obtain ⟨hNext, hEff⟩ := RunSetVariableNode_effect X S d n hT
    obtain ⟨d1, h1, h2, h3, h4⟩ := ih f (S.GetNextNode n) (RunSetVariableNode X S d n).2 hRest
      (by simp only [List.length_cons] at hFuel; omega)
    refine ⟨d1, ?_, ?_, ?_, ?_⟩
    · rw [RunAutoNodes]
      rw [hStop]
      simp only [Bool.false_eq_true, if_false, hRun, hNext]
      exact h1
    · rw [h2, hEff]
      rfl
    · exact SameButVariables_trans (RunSetVariableNode_frame X S d n) h3
    · exact RaisesOnly_append (RunSetVariableNode_variable_events X S d n) h4

/-- A quiet run over a chain of set nodes, as the header run is: it executes the nodes in
order, ends with no current speaker node and no choice, keeps the choices taken, and raises
variable events only. -/
theorem RunUntilNextSpeakerNodeOrEnd_set_chain (X : Externals) (S : USUDSScript)
    (Chain : List Nat) (fuel : Nat) (Start : Option Nat) (d : USUDSDialogue)
    (hChain : IsSetChain S Start Chain) (hFuel : Chain.length ≤ fuel) :
    ∃ d1, RunUntilNextSpeakerNodeOrEnd X S fuel d Start false = Except.ok d1 ∧
      d1.VariableState = SpecRunSetNodes X S Chain d.VariableState ∧
      d1.CurrentSpeakerNode = none ∧ d1.CurrentChoices = [] ∧
      d1.ChoicesTaken = d.ChoicesTaken ∧ RaisesOnly IsVariableEvent d d1 := by
  obtain ⟨d0, h0, hv, hF, hE⟩ := RunAutoNodes_set_chain X S Chain fuel Start d hChain hFuel
  obtain ⟨d1, h1, hcs, hn, hvs, hct, _⟩ := SameOutcome_of_ok_right
    (SetCurrentSpeakerNode_spec X S fuel d0 none true) (ChoicesFor_none X S fuel _)
  obtain ⟨cs, hP, hR⟩ := SetCurrentSpeakerNode_raises X S fuel d0 d1 none true h1
  simp only [if_true, List.append_nil] at hR
  refine ⟨d1, ?_, by rw [hvs, hv], hn, hcs, by rw [hct, hF.2.1], ?_⟩
  · unfold RunUntilNextSpeakerNodeOrEnd
    rw [h0]
    exact h1
  · refine RaisesOnly_append hE ⟨cs, hR, ?_⟩
    intro c hc
    have hq := hP c hc
    cases c <;> first | exact hq.elim | trivial

/-- C14: when the header is a chain of set nodes, `Initialise` returns, within a fuel of
the length of the chain and whatever the state it is called on, with the environment that
executing the header's set nodes in order from the empty environment gives, with no
current speaker node and no choice, and having made variable callbacks only, so no speaker
line; `GetVariable` then reads the header values. -/
theorem Initialise_runs_header (X : Externals) (S : USUDSScript) (fuel : Nat)
    (d0 : USUDSDialogue) (Chain : List Nat) (hChain : IsSetChain S S.HeaderNode Chain)
    (hFuel : Chain.length ≤ fuel) :
    ∃ d, Initialise X S fuel d0 = Except.ok d ∧
      d.VariableState = SpecRunSetNodes X S Chain [] ∧
      d.CurrentSpeakerNode = none ∧ d.CurrentChoices = [] ∧
      (∃ Added, d.Notifications = d0.Notifications ++ Added ∧
        ∀ n ∈ Added, IsVariableEvent n.What ∧ n.What ≠ Callback.SpeakerLine) ∧
      (∀ Name, GetVariable X d Name =
        match (SpecRunSetNodes X S Chain []).Find Name with
        | some v => v
        | none => X.DefaultValue) := by
  obtain ⟨d1, h1, hv, _, hcs, _, cs, hR, hP⟩ := RunUntilNextSpeakerNodeOrEnd_set_chain X S Chain
    fuel S.HeaderNode
    { ({ d0 with CurrentSpeakerNode := none } : USUDSDialogue) with VariableState := [] }
    hChain hFuel
  have hInit : Initialise X S fuel d0 = Except.ok { d1 with CurrentSpeakerNode := none } := by
    unfold Initialise InitVariables
    rw [h1]
  refine ⟨_, hInit, hv, rfl, hcs, ⟨Blocks d0.Participants cs, hR.1, ?_⟩, ?_⟩
  · intro n hn
    have hq := hP _ (Blocks_what _ _ n hn)
    refine ⟨hq, ?_⟩
    intro hs
    rw [hs] at hq
    exact hq
  · intro Name
    unfold GetVariable
    simp only []
    rw [hv]

theorem Initialise_runs_header_witness :
    IsSetChain DemoScript DemoScript.HeaderNode [10, 11] ∧ [10, 11].length ≤ 4 ∧
    SpecRunSetNodes DemoExternals DemoScript [10, 11] [] =
      [("ValetName", FSUDSValue.int 7), ("SomeInt", FSUDSValue.int 99)] ∧
    ∃ d, Initialise DemoExternals DemoScript 4 DemoNested = Except.ok d ∧
      d.VariableState = SpecRunSetNodes DemoExternals DemoScript [10, 11] [] ∧
      d.CurrentSpeakerNode = none ∧ d.CurrentChoices = [] ∧
      (∃ Added, d.Notifications = DemoNested.Notifications ++ Added ∧
        ∀ n ∈ Added, IsVariableEvent n.What ∧ n.What ≠ Callback.SpeakerLine) ∧
      (∀ Name, GetVariable DemoExternals d Name =
        match (SpecRunSetNodes DemoExternals DemoScript [10, 11] []).Find Name with
        | some v => v
        | none => DemoExternals.DefaultValue) :=
  ⟨⟨rfl, rfl, rfl, rfl, rfl⟩, by decide, by decide,
    Initialise_runs_header DemoExternals DemoScript 4 DemoNested [10, 11]
      ⟨rfl, rfl, rfl, rfl, rfl⟩ (by decide)⟩

/-! ## Claims on `Restart` -/

theorem Restart_eq (X : Externals) (S : USUDSScript) (fuel : Nat) (d : USUDSDialogue)
    (bResetState : Bool) (StartLabel : Option String) (bReRunHeader : Bool) :
    Restart X S fuel d bResetState StartLabel bReRunHeader =
      match RestartPrologue X S fuel d bResetState StartLabel bReRunHeader with
      | Except.error e => Except.error e
      | Except.ok d2 =>
        RunUntilNextSpeakerNodeOrEnd X S fuel d2 (StartNodeFor S StartLabel) true := by
  unfold Restart RestartPrologue
  cases (if bResetState = true then ResetState X S fuel d true true true
    else Except.ok d) with
  | error e => rfl
  | ok d1 => rfl

/-- `ResetState()` with its default arguments leaves the header environment, no choice
taken, no position and no choice, whatever the state it is called in. -/
theorem ResetState_default_spec (X : Externals) (S : USUDSScript) (fuel : Nat)
    (d : USUDSDialogue) (H : VarMap) (hH : HeaderVariables X S fuel = Except.ok H) :
    ∃ d0, ResetState X S fuel d true true true = Except.ok d0 ∧ d0.VariableState = H ∧
      d0.ChoicesTaken = [] ∧ d0.CurrentSpeakerNode = none ∧ d0.CurrentChoices = [] ∧
      d0.Participants = d.Participants := by
  obtain ⟨d1, h1, hv, _, hp⟩ := SameOutcome_of_ok_right (InitVariables_spec X S fuel d) hH
  obtain ⟨d2, h2, hcs, hn, hvs, _, hps⟩ := SameOutcome_of_ok_right
    (SetCurrentSpeakerNode_spec X S fuel d1 none true) (ChoicesFor_none X S fuel _)
  refine ⟨{ d2 with ChoicesTaken := [] }, ?_, by rw [← hv, ← hvs], rfl, hn, hcs,
    by rw [← hp, ← hps]⟩
  unfold ResetState
  simp only [if_true]
  rw [h1]
  simp only []
  rw [h2]

/-- A run started on a text node, or on no node, stops there at once. -/
theorem RunUntilNextSpeakerNodeOrEnd_at_stop (X : Externals) (S : USUDSScript) (fuel : Nat)
    (d : USUDSDialogue) (Start : Option Nat) (b : Bool) (cs : List FSUDSScriptEdge)
    (hStart : ∀ n, Start = some n → (S.Node n).NodeType = ESUDSScriptNodeType.Text)
    (hC : ChoicesFor X S fuel d.VariableState Start = Except.ok cs) :
    ∃ d1, RunUntilNextSpeakerNodeOrEnd X S fuel d Start b = Except.ok d1 ∧
      d1.CurrentSpeakerNode = Start ∧ d1.CurrentChoices = cs ∧
      d1.VariableState = d.VariableState ∧ d1.ChoicesTaken = d.ChoicesTaken := by
  cases Start with
  | none =>
    obtain ⟨d1, h1, hcs, hn, hvs, hct, _⟩ := SameOutcome_of_ok_right
      (SetCurrentSpeakerNode_spec X S fuel d none (!b)) hC
    refine ⟨d1, ?_, hn, hcs, hvs, hct⟩
    unfold RunUntilNextSpeakerNodeOrEnd
    rw [RunAutoNodes]
    exact h1
  | some n =>
    have hT := hStart n rfl
    obtain ⟨d1, h1, hcs, hn, hvs, hct, _⟩ := SameOutcome_of_ok_right
      (SetCurrentSpeakerNode_spec X S fuel d (some n) false) hC
    refine ⟨d1, ?_, hn, hcs, hvs, hct⟩
    have hStop : ShouldStopAtNodeType (S.Node n).NodeType = true := by
      rw [hT]
      rfl
    have hAuto : RunAutoNodes X S fuel (some n) d = Except.ok (some n, d) := by
      unfold RunAutoNodes
      simp only [hStop, if_true]
    unfold RunUntilNextSpeakerNodeOrEnd
    rw [hAuto]
    simp only []
    rw [if_pos hT]
    exact h1

/-- C15, refuted as stated: on a script whose body starts with `[set Met 1]`, `Restart`
with reset leaves `Met` set to 1 although the header does not set it. -/
theorem Restart_with_reset_runs_leading_sets :
    HeaderVariables DemoExternals PreludeScript 4 =
      Except.ok [("SomeInt", FSUDSValue.int 99)] ∧
    VarMap.Find [("SomeInt", FSUDSValue.int 99)] "Met" = none ∧
    Restart DemoExternals PreludeScript 4 PreludeAtB true none true = Except.ok PreludeReset ∧
    PreludeReset.VariableState =
      [("SomeInt", FSUDSValue.int 99), ("Met", FSUDSValue.int 1)] ∧
    PreludeReset.VariableState.Find "Met" = some (FSUDSValue.int 1) ∧
    GetVariable DemoExternals PreludeReset "Met" ≠ DemoExternals.DefaultValue :=
  ⟨rfl, rfl, rfl, rfl, rfl, by decide⟩

/-- C15, amended: `Restart` with reset and no start label first resets to exactly the
header environment with no choice taken; it returns with no choice taken and with the
header variables present; and when the first node of the script is a text node, so that
no node runs before the first speaker line, it returns with exactly the header
environment: a variable the header does not set is absent and reads as the default. -/
theorem Restart_with_reset_reinitialises (X : Externals) (S : USUDSScript) (fuel : Nat)
    (d : USUDSDialogue) (H : VarMap) (bReRunHeader : Bool)
    (hH : HeaderVariables X S fuel = Except.ok H) :
    (∃ d0, ResetState X S fuel d true true true = Except.ok d0 ∧ d0.VariableState = H ∧
      d0.ChoicesTaken = []) ∧
    (∀ d1, Restart X S fuel d true none bReRunHeader = Except.ok d1 →
      d1.ChoicesTaken = [] ∧ KeysKept H d1.VariableState) ∧
    (∀ cs, (∀ n, S.FirstNode = some n → (S.Node n).NodeType = ESUDSScriptNodeType.Text) →
      ChoicesFor X S fuel H S.FirstNode = Except.ok cs →
      ∃ d1, Restart X S fuel d true none bReRunHeader = Except.ok d1 ∧
        d1.ChoicesTaken = [] ∧ d1.VariableState = H ∧ d1.CurrentSpeakerNode = S.FirstNode ∧
        ∀ Name, H.Find Name = none →
          d1.VariableState.Find Name = none ∧ GetVariable X d1 Name = X.DefaultValue) := by
  obtain ⟨d0, h0, hv, hct, _, _, _⟩ := ResetState_default_spec X S fuel d H hH
  have hPro : RestartPrologue X S fuel d true none bReRunHeader =
      Except.ok (RaiseStarting d0 none) := by
    unfold RestartPrologue
    simp only [if_true]
    rw [h0]
    simp
  have hEq := Restart_eq X S fuel d true none bReRunHeader
  rw [hPro] at hEq
  simp only [] at hEq
  refine ⟨⟨d0, h0, hv, hct⟩, ?_, ?_⟩
  · intro d1 h1
    rw [hEq] at h1
    obtain ⟨hk, hc, _⟩ := RunUntilNextSpeakerNodeOrEnd_frame X S fuel _ _ _ _ h1
    refine ⟨by rw [hc]; exact hct, ?_⟩
    have hk2 : KeysKept d0.VariableState d1.VariableState := hk
    rw [hv] at hk2
    exact hk2
  · intro cs hFirst hC
    obtain ⟨d1, h1, hn, _, hvs, hc⟩ := RunUntilNextSpeakerNodeOrEnd_at_stop X S fuel
      (RaiseStarting d0 none) (StartNodeFor S none) true cs hFirst (by
        have : (RaiseStarting d0 none).VariableState = H := hv
        rw [this]
        exact hC)
    have hvs2 : d1.VariableState = H := hvs.trans hv
    refine ⟨d1, by rw [hEq]; exact h1, by rw [hc]; exact hct, hvs2, hn, ?_⟩
    intro Name hName
    refine ⟨by rw [hvs2]; exact hName, ?_⟩
    unfold GetVariable
    rw [hvs2, hName]

theorem Restart_with_reset_reinitialises_witness :
    HeaderVariables DemoExternals DemoScript 4 =
      Except.ok [("ValetName", FSUDSValue.int 7), ("SomeInt", FSUDSValue.int 99)] ∧
    ChoicesFor DemoExternals DemoScript 4
      [("ValetName", FSUDSValue.int 7), ("SomeInt", FSUDSValue.int 99)] DemoScript.FirstNode =
      Except.ok (DemoNode 0).Edges ∧
    ∃ d1, Restart DemoExternals DemoScript 4 DemoChosen true none true = Except.ok d1 ∧
      d1.ChoicesTaken = [] ∧
      d1.VariableState = [("ValetName", FSUDSValue.int 7), ("SomeInt", FSUDSValue.int 99)] ∧
      d1.CurrentSpeakerNode = DemoScript.FirstNode ∧
      ∀ Name, VarMap.Find [("ValetName", FSUDSValue.int 7), ("SomeInt", FSUDSValue.int 99)]
          Name = none →
        d1.VariableState.Find Name = none ∧
        GetVariable DemoExternals d1 Name = DemoExternals.DefaultValue :=
  ⟨rfl, rfl,
    (Restart_with_reset_reinitialises DemoExternals DemoScript 4 DemoChosen _ true rfl).2.2
      (DemoNode 0).Edges (by
        intro n hn
        have h0 : n = 0 := (Option.some.inj hn).symm
        rw [h0]
        rfl) rfl⟩

theorem SpecSetVariable_other (X : Externals) (S : USUDSScript) (env : VarMap) (n : Nat)
    (Name : String) (h : (S.Node n).Identifier ≠ Name) :
    (SpecSetVariable X S env n).Find Name = env.Find Name := by
  unfold SpecSetVariable
  split
  · rw [VarMap_Find_Add, if_neg (fun hq => h hq.symm)]
  · rfl

theorem SpecRunSetNodes_other (X : Externals) (S : USUDSScript) (Chain : List Nat)
    (env : VarMap) (Name : String) (h : ∀ n ∈ Chain, (S.Node n).Identifier ≠ Name) :
    (SpecRunSetNodes X S Chain env).Find Name = env.Find Name := by
  induction Chain generalizing env with
  | nil => rfl
  | cons n rest ih =>
    rw [SpecRunSetNodes, ih _ (fun m hm => h m (List.mem_cons_of_mem _ hm)),
      SpecSetVariable_other X S env n Name (h n (List.mem_cons_self _ _))]

theorem SpecRunSetNodes_append (X : Externals) (S : USUDSScript) (pre post : List Nat)
    (env : VarMap) :
    SpecRunSetNodes X S (pre ++ post) env =
      SpecRunSetNodes X S post (SpecRunSetNodes X S pre env) := by
  induction pre generalizing env with
  | nil => rfl
  | cons n rest ih =>
    rw [List.cons_append, SpecRunSetNodes, SpecRunSetNodes, ih]

/-- After a set node with a valid expression, the variable reads as the value of the
expression, or as a value the type-aware comparison does not tell apart from it. -/
theorem SpecSetVariable_value (X : Externals) (S : USUDSScript) (env : VarMap) (n : Nat)
    (hV : (S.Node n).Expression.bIsValid = true) :
    ReadVariable X (SpecSetVariable X S env n) (S.Node n).Identifier =
        X.Evaluate (S.Node n).Expression env ∨
      X.NotEqual (ReadVariable X (SpecSetVariable X S env n) (S.Node n).Identifier)
        (X.Evaluate (S.Node n).Expression env) = false := by
  unfold SpecSetVariable
  by_cases hNe : X.NotEqual
      (match env.Find (S.Node n).Identifier with
       | some v => v
       | none => X.DefaultValue)
      (X.Evaluate (S.Node n).Expression env) = true
  · rw [if_pos ⟨hV, hNe⟩]
    left
    unfold ReadVariable
    rw [VarMap_Find_Add, if_pos rfl]
  · rw [if_neg (fun h => hNe h.2)]
    right
    unfold ReadVariable
    cases hb : X.NotEqual
      (match env.Find (S.Node n).Identifier with
       | some v => v
       | none => X.DefaultValue)
      (X.Evaluate (S.Node n).Expression env) with
    | false => rfl
    | true => exact (hNe hb).elim

/-- C16, refuted as stated: on a script whose body starts with `[set Met 1]`, `Restart`
without reset and with the header run again changes `Met` from 5 to 1 although no header
node assigns it. -/
theorem Restart_without_reset_runs_leading_sets :
    IsSetChain PreludeScript PreludeScript.HeaderNode [10] ∧
    (PreludeScript.Node 10).Identifier = "SomeInt" ∧
    PreludeAtB.VariableState.Find "Met" = some (FSUDSValue.int 5) ∧
    Restart DemoExternals PreludeScript 4 PreludeAtB false none true =
      Except.ok PreludeRestarted ∧
    PreludeRestarted.VariableState.Find "Met" = some (FSUDSValue.int 1) ∧
    PreludeRestarted.VariableState.Find "Met" ≠ PreludeAtB.VariableState.Find "Met" :=
  ⟨⟨rfl, rfl, rfl⟩, rfl, rfl, rfl, rfl, by decide⟩

/-- C16, amended: when the header is a chain of set nodes and the start node is a text
node (or there is none), so that no node runs before the first speaker line, `Restart`
without reset and with the header run again returns with the environment that executing
the header's set nodes in order from the current environment gives: a variable that no
header node assigns keeps its value, and a variable assigned by a header node with a valid
expression, and by none after it, reads as the value that node assigns (up to the
type-aware comparison). -/
theorem Restart_without_reset_keeps_variables (X : Externals) (S : USUDSScript) (fuel : Nat)
    (d : USUDSDialogue) (StartLabel : Option String) (Chain : List Nat)
    (cs : List FSUDSScriptEdge) (hChain : IsSetChain S S.HeaderNode Chain)
    (hFuel : Chain.length ≤ fuel)
    (hStart : ∀ n, StartNodeFor S StartLabel = some n →
      (S.Node n).NodeType = ESUDSScriptNodeType.Text)
    (hChoices : ChoicesFor X S fuel (SpecRunSetNodes X S Chain d.VariableState)
      (StartNodeFor S StartLabel) = Except.ok cs) :
    ∃ d1, Restart X S fuel d false StartLabel true = Except.ok d1 ∧
      d1.VariableState = SpecRunSetNodes X S Chain d.VariableState ∧
      d1.ChoicesTaken = d.ChoicesTaken ∧
      (∀ Name, (∀ n ∈ Chain, (S.Node n).Identifier ≠ Name) →
        d1.VariableState.Find Name = d.VariableState.Find Name) ∧
      (∀ pre n post, Chain = pre ++ n :: post →
        (∀ m ∈ post, (S.Node m).Identifier ≠ (S.Node n).Identifier) →
        (S.Node n).Expression.bIsValid = true →
        GetVariable X d1 (S.Node n).Identifier =
            X.Evaluate (S.Node n).Expression (SpecRunSetNodes X S pre d.VariableState) ∨
          X.NotEqual (GetVariable X d1 (S.Node n).Identifier)
            (X.Evaluate (S.Node n).Expression (SpecRunSetNodes X S pre d.VariableState)) =
            false) := by
  obtain ⟨d2, h2, hv2, _, _, hct2, _⟩ := RunUntilNextSpeakerNodeOrEnd_set_chain X S Chain fuel
    S.HeaderNode (RaiseStarting d StartLabel) hChain hFuel
  have hv2a : d2.VariableState = SpecRunSetNodes X S Chain d.VariableState := hv2
  have hPro : RestartPrologue X S fuel d false StartLabel true = Except.ok d2 := by
    unfold RestartPrologue
    simp only [Bool.false_eq_true, if_false, Bool.not_false, Bool.and_self, if_true]
    exact h2
  obtain ⟨d1, h1, _, _, hvs, hct⟩ := RunUntilNextSpeakerNodeOrEnd_at_stop X S fuel d2
    (StartNodeFor S StartLabel) true cs hStart (by rw [hv2a]; exact hChoices)
  have hEnv : d1.VariableState = SpecRunSetNodes X S Chain d.VariableState := hvs.trans hv2a
  refine ⟨d1, ?_, hEnv, ?_, ?_, ?_⟩
  · rw [Restart_eq, hPro]
    exact h1
  · rw [hct, hct2]
    rfl
  · intro Name hName
    rw [hEnv]
    exact SpecRunSetNodes_other X S Chain _ Name hName
  · intro pre n post hSplit hPost hValid
    have hRead : GetVariable X d1 (S.Node n).Identifier =
        ReadVariable X (SpecSetVariable X S (SpecRunSetNodes X S pre d.VariableState) n)
          (S.Node n).Identifier := by
      unfold GetVariable ReadVariable
      rw [hEnv, hSplit, SpecRunSetNodes_append, SpecRunSetNodes,
        SpecRunSetNodes_other X S post _ _ hPost]
    rw [hRead]
    exact SpecSetVariable_value X S _ n hValid

theorem Restart_without_reset_keeps_variables_witness :
    IsSetChain DemoScript DemoScript.HeaderNode [10, 11] ∧ [10, 11].length ≤ 4 ∧
    (∀ n, StartNodeFor DemoScript none = some n →
      (DemoScript.Node n).NodeType = ESUDSScriptNodeType.Text) ∧
    ChoicesFor DemoExternals DemoScript 4
      (SpecRunSetNodes DemoExternals DemoScript [10, 11] DemoSaved.Variables)
      (StartNodeFor DemoScript none) = Except.ok (DemoNode 0).Edges ∧
    ∃ d1, Restart DemoExternals DemoScript 4
        { DemoChosen with VariableState := DemoSaved.Variables } false none true =
        Except.ok d1 ∧
      d1.VariableState =
        SpecRunSetNodes DemoExternals DemoScript [10, 11] DemoSaved.Variables ∧
      d1.ChoicesTaken = DemoChosen.ChoicesTaken ∧
      d1.VariableState.Find "Met" = some (FSUDSValue.boolean true) ∧
      d1.VariableState.Find "SomeInt" = some (FSUDSValue.int 99) := by
  have hStart : ∀ n, StartNodeFor DemoScript none = some n →
      (DemoScript.Node n).NodeType = ESUDSScriptNodeType.Text := by
    intro n hn
    have h0 : n = 0 := (Option.some.inj hn).symm
    rw [h0]
    rfl
  obtain ⟨d1, h1, h2, h3, h4, _⟩ := Restart_without_reset_keeps_variables DemoExternals
    DemoScript 4 { DemoChosen with VariableState := DemoSaved.Variables } none [10, 11]
    (DemoNode 0).Edges ⟨rfl, rfl, rfl, rfl, rfl⟩ (by decide) hStart rfl
  refine ⟨⟨rfl, rfl, rfl, rfl, rfl⟩, by decide, hStart, rfl, d1, h1, h2, h3, ?_, ?_⟩
  · rw [h4 "Met" (by decide)]
    rfl
  · rw [h2]
    rfl

/-- The run to the next speaker line takes states in the same position, with the same
variables, to states in the same position, with the same variables, whatever callbacks
were recorded before and whether or not the end is announced. -/
theorem RunUntilNextSpeakerNodeOrEnd_progress (X : Externals) (S : USUDSScript) (fuel : Nat)
    (d e : USUDSDialogue) (n : Option Nat) (b b1 : Bool) (h : SameProgress d e) :
    SameOutcome SameProgress (RunUntilNextSpeakerNodeOrEnd X S fuel d n b)
      (RunUntilNextSpeakerNodeOrEnd X S fuel e n b1) := by
  obtain ⟨hn, hc, hv, ht⟩ := h
  have hS := RunAutoNodes_sim X S fuel n d e hv.symm
  unfold RunUntilNextSpeakerNodeOrEnd
  cases hA : RunAutoNodes X S fuel n d with
  | error x =>
    rw [hA] at hS
    cases hB : RunAutoNodes X S fuel n e with
    | error y =>
      rw [hB] at hS
      exact hS
    | ok q =>
      rw [hB] at hS
      exact hS.elim
  | ok p =>
    rw [hA] at hS
    cases hB : RunAutoNodes X S fuel n e with
    | error y =>
      rw [hB] at hS
      exact hS.elim
    | ok q =>
      rw [hB] at hS
      obtain ⟨m, d1⟩ := p
      obtain ⟨m1, e1⟩ := q
      obtain ⟨hm, hv1⟩ : m = m1 ∧ d1.VariableState = e1.VariableState := hS
      subst hm
      obtain ⟨⟨a1, a2, a3, _⟩, _⟩ := RunAutoNodes_frame X S fuel n d _ hA
      obtain ⟨⟨e1n, e2, e3, _⟩, _⟩ := RunAutoNodes_frame X S fuel n e _ hB
      have hTaken : e1.ChoicesTaken = d1.ChoicesTaken := e2.trans (ht.trans a2.symm)
      have hJoin : ∀ (k : Option Nat) (q q1 : Bool),
          SameOutcome SameProgress (SetCurrentSpeakerNode X S fuel d1 k q)
            (SetCurrentSpeakerNode X S fuel e1 k q1) := by
        intro k q q1
        have h1 := SetCurrentSpeakerNode_spec X S fuel d1 k q
        have h2 := SetCurrentSpeakerNode_spec X S fuel e1 k q1
        rw [hv1] at h1
        exact SameOutcome_join h1 h2 (fun x y _ hx hy =>
          ⟨hy.2.1.trans hx.2.1.symm, hy.1.trans hx.1.symm,
            hy.2.2.1.trans hx.2.2.1.symm,
            hy.2.2.2.1.trans (hTaken.trans hx.2.2.2.1.symm)⟩)
      cases m with
      | none =>
        simp only [End]
        exact hJoin none _ _
      | some k =>
        simp only []
        by_cases hText : (S.Node k).NodeType = ESUDSScriptNodeType.Text
        · rw [if_pos hText, if_pos hText]
          exact hJoin (some k) _ _
        · rw [if_neg hText, if_neg hText]
          exact ⟨e1n.trans (hn.trans a1.symm), e3.trans (hc.trans a3.symm), hv1.symm, hTaken⟩

/-- The steps of `Restart` before the run from the start node do not depend on the label
but for the label handed to the "starting" callbacks. -/
theorem RestartPrologue_progress (X : Externals) (S : USUDSScript) (fuel : Nat)
    (d : USUDSDialogue) (bResetState bReRunHeader : Bool) (L L1 : Option String) :
    SameOutcome SameProgress (RestartPrologue X S fuel d bResetState L bReRunHeader)
      (RestartPrologue X S fuel d bResetState L1 bReRunHeader) := by
  unfold RestartPrologue
  generalize (if bResetState = true then ResetState X S fuel d true true true
    else Except.ok d) = A
  cases A with
  | error x => exact rfl
  | ok d1 =>
    simp only []
    by_cases hc : (!bResetState && bReRunHeader) = true
    · rw [if_pos hc, if_pos hc]
      exact RunUntilNextSpeakerNodeOrEnd_progress X S fuel _ _ _ _ _ ⟨rfl, rfl, rfl, rfl⟩
    · rw [if_neg hc, if_neg hc]
      exact ⟨rfl, rfl, rfl, rfl⟩

/-- C17: for a start label that the script does not declare, or that leads to a choice
node, `Restart` with the label and `Restart` without label fail alike or both return, in
the same position, with the same choices (and variables and choices taken): the run is
from the first node of the script.  For a label that leads to a text node, that text
node becomes the current speaker node, with its choices, whenever the steps before the
run and the computation of the choices return. -/
theorem Restart_label_fallback (X : Externals) (S : USUDSScript) (fuel : Nat)
    (d : USUDSDialogue) (bResetState bReRunHeader : Bool) (Label : String) :
    ((S.GetNodeByLabel Label = none ∨
        ∃ n, S.GetNodeByLabel Label = some n ∧
          (S.Node n).NodeType = ESUDSScriptNodeType.Choice) →
      StartNodeFor S (some Label) = S.FirstNode ∧
      SameOutcome SameProgress
        (Restart X S fuel d bResetState (some Label) bReRunHeader)
        (Restart X S fuel d bResetState none bReRunHeader)) ∧
    (∀ n d2 cs, S.GetNodeByLabel Label = some n →
      (S.Node n).NodeType = ESUDSScriptNodeType.Text →
      RestartPrologue X S fuel d bResetState (some Label) bReRunHeader = Except.ok d2 →
      ChoicesFor X S fuel d2.VariableState (some n) = Except.ok cs →
      ∃ d1, Restart X S fuel d bResetState (some Label) bReRunHeader = Except.ok d1 ∧
        d1.CurrentSpeakerNode = some n ∧ d1.CurrentChoices = cs ∧
        IsEnded d1 = false) := by
  constructor
  · intro hLabel
    have hStart : StartNodeFor S (some Label) = S.FirstNode := by
      unfold StartNodeFor
      rcases hLabel with hNone | ⟨n, hSome, hChoice⟩
      · simp only [hNone]
      · simp only [hSome, hChoice, if_true]
    refine ⟨hStart, ?_⟩
    have hPro := RestartPrologue_progress X S fuel d bResetState bReRunHeader (some Label) none
    rw [Restart_eq, Restart_eq, hStart]
    have hNoLabel : StartNodeFor S none = S.FirstNode := rfl
    rw [hNoLabel]
    revert hPro
    generalize RestartPrologue X S fuel d bResetState (some Label) bReRunHeader = A
    generalize RestartPrologue X S fuel d bResetState none bReRunHeader = B
    intro hPro
    cases A with
    | error x =>
      cases B with
      | error y => exact hPro
      | ok q => exact hPro.elim
    | ok p =>
      cases B with
      | error y => exact hPro.elim
      | ok q => exact RunUntilNextSpeakerNodeOrEnd_progress X S fuel p q _ true true hPro
  · intro n d2 cs hSome hText hPro hChoices
    have hStart : StartNodeFor S (some Label) = some n := by
      unfold StartNodeFor
      simp only [hSome, hText]
      rw [if_neg (by decide)]
    obtain ⟨d1, h1, h2, h3, _, _⟩ := RunUntilNextSpeakerNodeOrEnd_at_stop X S fuel d2 (some n)
      true cs (fun m hm => by rw [← Option.some.inj hm]; exact hText) hChoices
    refine ⟨d1, ?_, h2, h3, ?_⟩
    · rw [Restart_eq, hPro, hStart]
      exact h1
    · unfold IsEnded
      rw [h2]
      rfl

theorem Restart_label_fallback_witness :
    DemoLabelScript.GetNodeByLabel "nosuchlabel" = none ∧
    (DemoLabelScript.GetNodeByLabel "atchoice" = some 2 ∧
      (DemoLabelScript.Node 2).NodeType = ESUDSScriptNodeType.Choice) ∧
    (DemoLabelScript.GetNodeByLabel "nestedstart" = some 7 ∧
      (DemoLabelScript.Node 7).NodeType = ESUDSScriptNodeType.Text) ∧
    SameOutcome SameProgress
      (Restart DemoExternals DemoLabelScript 4 DemoChosen true (some "nosuchlabel") true)
      (Restart DemoExternals DemoLabelScript 4 DemoChosen true none true) ∧
    SameOutcome SameProgress
      (Restart DemoExternals DemoLabelScript 4 DemoChosen false (some "atchoice") true)
      (Restart DemoExternals DemoLabelScript 4 DemoChosen false none true) ∧
    (Returned (Restart DemoExternals DemoLabelScript 4 DemoChosen false (some "atchoice") true)
      NewDialogue).CurrentSpeakerNode = DemoLabelScript.FirstNode ∧
    ∃ d1, Restart DemoExternals DemoLabelScript 4 DemoChosen false (some "nestedstart") true =
        Except.ok d1 ∧
      d1.CurrentSpeakerNode = some 7 ∧ d1.CurrentChoices = (DemoNode 8).Edges ∧
      IsEnded d1 = false :=
  ⟨rfl, ⟨rfl, rfl⟩, ⟨rfl, rfl⟩,
    ((Restart_label_fallback DemoExternals DemoLabelScript 4 DemoChosen true true
      "nosuchlabel").1 (Or.inl rfl)).2,
    ((Restart_label_fallback DemoExternals DemoLabelScript 4 DemoChosen false true
      "atchoice").1 (Or.inr ⟨2, rfl, rfl⟩)).2,
    rfl,
    (Restart_label_fallback DemoExternals DemoLabelScript 4 DemoChosen false true
      "nestedstart").2 7 _ (DemoNode 8).Edges rfl rfl rfl rfl⟩

theorem Restart_taken (X : Externals) (S : USUDSScript) (fuel : Nat) (d d1 : USUDSDialogue)
    (StartLabel : Option String) (bReRunHeader : Bool)
    (h : Restart X S fuel d false StartLabel bReRunHeader = Except.ok d1) :
    d1.ChoicesTaken = d.ChoicesTaken := by
  rw [Restart_eq] at h
  cases hP : RestartPrologue X S fuel d false StartLabel bReRunHeader with
  | error x =>
    rw [hP] at h
    cases h
  | ok d2 =>
    rw [hP] at h
    have h2 : d2.ChoicesTaken = d.ChoicesTaken := by
      unfold RestartPrologue at hP
      simp only [Bool.false_eq_true, if_false, Bool.not_false, Bool.true_and] at hP
      by_cases hr : bReRunHeader = true
      · rw [if_pos hr] at hP
        exact (RunUntilNextSpeakerNodeOrEnd_frame X S fuel _ _ _ _ hP).2.1
      · rw [if_neg hr] at hP
        cases hP
        rfl
    exact ((RunUntilNextSpeakerNodeOrEnd_frame X S fuel _ _ _ _ h).2.1).trans h2

theorem Choose_taken (X : Externals) (S : USUDSScript) (fuel : Nat) (d : USUDSDialogue)
    (Index : Int) (b : Bool) (d1 : USUDSDialogue) (ID : String)
    (h : Choose X S fuel d Index = Except.ok (b, d1)) (hID : ID ∈ d.ChoicesTaken) :
    ID ∈ d1.ChoicesTaken := by
  cases hc : ChoiceAt d.CurrentChoices Index with
  | none =>
    unfold Choose at h
    rw [hc] at h
    cases h
    rw [(GetText_same X S d).2.2.1]
    exact hID
  | some Choice =>
    cases hn : d.CurrentSpeakerNode with
    | none =>
      unfold Choose at h
      rw [hc] at h
      simp only [hn] at h
      cases h
    | some n =>
      obtain ⟨d0, hP, hR, _⟩ := Choose_returned X S fuel d Index Choice n b d1 hc hn h
      rw [(RunUntilNextSpeakerNodeOrEnd_frame X S fuel _ _ _ _ hR).2.1,
        (ChoosePrologue_spec X S fuel d d0 Index Choice n hP).1]
      split
      · exact (mem_SetAdd _ _ _).mpr (Or.inl hID)
      · exact hID

theorem ResetState_taken (X : Externals) (S : USUDSScript) (fuel : Nat) (d d1 : USUDSDialogue)
    (bResetVariables bResetPosition bResetVisited : Bool)
    (h : ResetState X S fuel d bResetVariables bResetPosition bResetVisited = Except.ok d1) :
    d1.ChoicesTaken = if bResetVisited then [] else d.ChoicesTaken := by
  unfold ResetState at h
  split at h
  · cases h
  · rename_i da ha
    have h1 : da.ChoicesTaken = d.ChoicesTaken := by
      by_cases hv : bResetVariables = true
      · rw [if_pos hv] at ha
        obtain ⟨H, _, _, hct, _⟩ := SameOutcome_of_ok_left (InitVariables_spec X S fuel d) ha
        exact hct
      · rw [if_neg hv] at ha
        cases ha
        rfl
    split at h
    · cases h
    · rename_i db hb
      have h2 : db.ChoicesTaken = da.ChoicesTaken := by
        by_cases hp : bResetPosition = true
        · rw [if_pos hp] at hb
          obtain ⟨cs, _, _, _, _, hct, _⟩ := SameOutcome_of_ok_left
            (SetCurrentSpeakerNode_spec X S fuel da none true) hb
          exact hct
        · rw [if_neg hp] at hb
          cases hb
          rfl
      cases bResetVisited with
      | true =>
        simp only [if_true] at h
        cases h
        rfl
      | false =>
        simp only [Bool.false_eq_true, if_false] at h
        cases h
        exact h2.trans h1

theorem RestoreSavedState_taken (X : Externals) (S : USUDSScript) (fuel : Nat)
    (d d1 : USUDSDialogue) (State : FSUDSDialogueState)
    (h : RestoreSavedState X S fuel d State = Except.ok d1) :
    d1.ChoicesTaken = SetAppend [] State.ChoicesTaken := by
  unfold RestoreSavedState at h
  split at h
  · cases h
  · rename_i da ha
    split at h
    · obtain ⟨cs, _, _, _, _, hct, _⟩ := SameOutcome_of_ok_left
        (SetCurrentSpeakerNode_spec X S fuel _ _ true) h
      exact hct
    · obtain ⟨cs, _, _, _, _, hct, _⟩ := SameOutcome_of_ok_left
        (SetCurrentSpeakerNode_spec X S fuel _ _ true) h
      exact hct

/-- C18: a text-id that is in the choices-taken set is still in it after `Start`,
`Continue`, `Choose` and `Restart` without reset, whenever the call returns; the same
holds of `Initialise`, of `ResetState` without `bResetVisited` and of the text queries.
`ResetState` with `bResetVisited`, hence `Restart` with reset, leaves the set empty, and
`RestoreSavedState` leaves exactly the text-ids of the saved state. -/
theorem ChoicesTaken_only_grows (X : Externals) (S : USUDSScript) (fuel : Nat)
    (d : USUDSDialogue) (ID : String) (hID : ID ∈ d.ChoicesTaken) :
    (∀ Label d1, Start X S fuel d Label = Except.ok d1 → ID ∈ d1.ChoicesTaken) ∧
    (∀ b d1, Continue X S fuel d = Except.ok (b, d1) → ID ∈ d1.ChoicesTaken) ∧
    (∀ Index b d1, Choose X S fuel d Index = Except.ok (b, d1) → ID ∈ d1.ChoicesTaken) ∧
    (∀ Label bReRunHeader d1, Restart X S fuel d false Label bReRunHeader = Except.ok d1 →
      ID ∈ d1.ChoicesTaken) ∧
    (∀ d1, Initialise X S fuel d = Except.ok d1 → ID ∈ d1.ChoicesTaken) ∧
    (∀ bResetVariables bResetPosition d1,
      ResetState X S fuel d bResetVariables bResetPosition false = Except.ok d1 →
      ID ∈ d1.ChoicesTaken) ∧
    ID ∈ (GetText X S d).2.ChoicesTaken ∧
    (∀ Index, ID ∈ (GetChoiceText X S d Index).2.ChoicesTaken) ∧
    (∀ bResetVariables bResetPosition d1,
      ResetState X S fuel d bResetVariables bResetPosition true = Except.ok d1 →
      d1.ChoicesTaken = []) ∧
    (∀ Label bReRunHeader d1, Restart X S fuel d true Label bReRunHeader = Except.ok d1 →
      d1.ChoicesTaken = []) ∧
    (∀ State d1, RestoreSavedState X S fuel d State = Except.ok d1 →
      ∀ x, x ∈ d1.ChoicesTaken ↔ x ∈ State.ChoicesTaken) := by
  have hRestart : ∀ Label bReRunHeader d1,
      Restart X S fuel d false Label bReRunHeader = Except.ok d1 → ID ∈ d1.ChoicesTaken := by
    intro Label bReRunHeader d1 h
    rw [Restart_taken X S fuel d d1 Label bReRunHeader h]
    exact hID
  have hText : ID ∈ (GetText X S d).2.ChoicesTaken := by
    rw [(GetText_same X S d).2.2.1]
    exact hID
  refine ⟨?_, ?_, ?_, hRestart, ?_, ?_, hText, ?_, ?_, ?_, ?_⟩
  · intro Label d1 h
    unfold Start at h
    split at h
    · exact hRestart Label false d1 h
    · cases h
      exact hID
  · intro b d1 h
    unfold Continue at h
    by_cases h1 : GetNumberOfChoices d = 1
    · rw [if_pos h1] at h
      exact Choose_taken X S fuel d 0 b d1 ID h hID
    · rw [if_neg h1] at h
      cases h
      exact hID
  · intro Index b d1 h
    exact Choose_taken X S fuel d Index b d1 ID h hID
  · intro d1 h
    unfold Initialise at h
    split at h
    · cases h
    · rename_i da ha
      cases h
      obtain ⟨H, _, _, hct, _⟩ := SameOutcome_of_ok_left (InitVariables_spec X S fuel _) ha
      have hda : da.ChoicesTaken = d.ChoicesTaken := hct
      show ID ∈ da.ChoicesTaken
      rw [hda]
      exact hID
  · intro bv bp d1 h
    rw [ResetState_taken X S fuel d d1 bv bp false h]
    exact hID
  · intro Index
    unfold GetChoiceText
    split
    · split
      · unfold ResolveParameterisedText
        rw [(RaiseVariablesRequested_same _ d).2.2.1]
        exact hID
      · exact hID
    · exact hText
  · intro bv bp d1 h
    rw [ResetState_taken X S fuel d d1 bv bp true h]
    rfl
  · intro Label bReRunHeader d1 h
    unfold Restart at h
    simp only [if_true] at h
    split at h
    · cases h
    · rename_i da ha
      have hEmpty : da.ChoicesTaken = [] := ResetState_taken X S fuel d da true true true ha
      simp only [Bool.not_true, Bool.false_and, Bool.false_eq_true, if_false] at h
      rw [(RunUntilNextSpeakerNodeOrEnd_frame X S fuel _ _ _ _ h).2.1]
      exact hEmpty
  · intro State d1 h x
    rw [RestoreSavedState_taken X S fuel d d1 State h, mem_SetAppend]
    simp

theorem ChoicesTaken_only_grows_witness :
    "c0" ∈ DemoChosen.ChoicesTaken ∧
    (∃ d1, Restart DemoExternals DemoScript 4 DemoChosen false none true = Except.ok d1 ∧
      "c0" ∈ d1.ChoicesTaken) ∧
    (∃ b d1, Continue DemoExternals DemoScript 4 DemoChosen = Except.ok (b, d1) ∧
      "c0" ∈ d1.ChoicesTaken) ∧
    (∃ d1, Restart DemoExternals DemoScript 4 DemoChosen true none true = Except.ok d1 ∧
      d1.ChoicesTaken = [] ∧ "c0" ∉ d1.ChoicesTaken) := by
  have hID : "c0" ∈ DemoChosen.ChoicesTaken := by decide
  have h := ChoicesTaken_only_grows DemoExternals DemoScript 4 DemoChosen "c0" hID
  refine ⟨hID, ⟨_, rfl, h.2.2.2.1 none true _ rfl⟩, ⟨_, _, rfl, h.2.1 _ _ rfl⟩,
    ⟨_, rfl, h.2.2.2.2.2.2.2.2.2.1 none true _ rfl, ?_⟩⟩
  rw [h.2.2.2.2.2.2.2.2.2.1 none true _ rfl]
  exact List.not_mem_nil _

theorem InitVariables_any (X : Externals) (S : USUDSScript) (fuel : Nat)
    (d d1 : USUDSDialogue) (h : InitVariables X S fuel d = Except.ok d1) :
    RaisesOnly AnyEvent d d1 :=
  RunUntilNextSpeakerNodeOrEnd_any X S fuel { d with VariableState := [] } _ _ d1 h

theorem ResetState_any (X : Externals) (S : USUDSScript) (fuel : Nat) (d d1 : USUDSDialogue)
    (bResetVariables bResetPosition bResetVisited : Bool)
    (h : ResetState X S fuel d bResetVariables bResetPosition bResetVisited = Except.ok d1) :
    RaisesOnly AnyEvent d d1 := by
  unfold ResetState at h
  split at h
  · cases h
  · rename_i da ha
    have h1 : RaisesOnly AnyEvent d da := by
      by_cases hv : bResetVariables = true
      · rw [if_pos hv] at ha
        exact InitVariables_any X S fuel d da ha
      · rw [if_neg hv] at ha
        cases ha
        exact RaisesOnly_nil _ _
    split at h
    · cases h
    · rename_i db hb
      have h2 : RaisesOnly AnyEvent da db := by
        by_cases hp : bResetPosition = true
        · rw [if_pos hp] at hb
          exact SetCurrentSpeakerNode_any X S fuel da db none true hb
        · rw [if_neg hp] at hb
          cases hb
          exact RaisesOnly_nil _ _
      have h3 : RaisesOnly AnyEvent db d1 := by
        cases bResetVisited with
        | true =>
          simp only [if_true] at h
          cases h
          exact RaisesOnly_untouched _ rfl rfl
        | false =>
          simp only [Bool.false_eq_true, if_false] at h
          cases h
          exact RaisesOnly_nil _ _
      exact RaisesOnly_append (RaisesOnly_append h1 h2) h3

theorem RestoreSavedState_any (X : Externals) (S : USUDSScript) (fuel : Nat)
    (d d1 : USUDSDialogue) (State : FSUDSDialogueState)
    (h : RestoreSavedState X S fuel d State = Except.ok d1) : RaisesOnly AnyEvent d d1 := by
  unfold RestoreSavedState at h
  split at h
  · cases h
  · rename_i da ha
    have h1 := InitVariables_any X S fuel d da ha
    have h2 : ∀ Node, SetCurrentSpeakerNode X S fuel
        { da with VariableState := da.VariableState.Append State.Variables,
                  ChoicesTaken := SetAppend [] State.ChoicesTaken } Node true = Except.ok d1 →
        RaisesOnly AnyEvent da d1 := fun Node hs =>
      SetCurrentSpeakerNode_any X S fuel
        { da with VariableState := da.VariableState.Append State.Variables,
                  ChoicesTaken := SetAppend [] State.ChoicesTaken } d1 Node true hs
    split at h
    · exact RaisesOnly_append h1 (h2 _ h)
    · exact RaisesOnly_append h1 (h2 _ h)

theorem Restart_any (X : Externals) (S : USUDSScript) (fuel : Nat) (d d1 : USUDSDialogue)
    (bResetState : Bool) (StartLabel : Option String) (bReRunHeader : Bool)
    (h : Restart X S fuel d bResetState StartLabel bReRunHeader = Except.ok d1) :
    RaisesOnly AnyEvent d d1 := by
  unfold Restart at h
  split at h
  · cases h
  · rename_i da ha
    have h1 : RaisesOnly AnyEvent d da := by
      by_cases hr : bResetState = true
      · rw [if_pos hr] at ha
        exact ResetState_any X S fuel d da true true true ha
      · rw [if_neg hr] at ha
        cases ha
        exact RaisesOnly_nil _ _
    have h2 : RaisesOnly AnyEvent da (RaiseStarting da StartLabel) :=
      RaisesOnly_single (Raises_participants_first da (Callback.Starting StartLabel)
        (fun hq => hq)) trivial
    split at h
    · cases h
    · rename_i db hb
      have h3 : RaisesOnly AnyEvent (RaiseStarting da StartLabel) db := by
        by_cases hc : (!bResetState && bReRunHeader) = true
        · rw [if_pos hc] at hb
          exact RunUntilNextSpeakerNodeOrEnd_any X S fuel _ _ _ db hb
        · rw [if_neg hc] at hb
          cases hb
          exact RaisesOnly_nil _ _
      exact RaisesOnly_append (RaisesOnly_append (RaisesOnly_append h1 h2) h3)
        (RunUntilNextSpeakerNodeOrEnd_any X S fuel _ _ _ d1 h)

theorem GetText_any (X : Externals) (S : USUDSScript) (d : USUDSDialogue) :
    RaisesOnly AnyEvent d (GetText X S d).2 := by
  unfold GetText
  split
  · split
    · exact RaisesOnly_mono (fun _ _ => trivial) (RaiseVariablesRequested_only _ d)
    · exact RaisesOnly_nil _ _
  · exact RaisesOnly_nil _ _

theorem Choose_any (X : Externals) (S : USUDSScript) (fuel : Nat) (d : USUDSDialogue)
    (Index : Int) (b : Bool) (d1 : USUDSDialogue)
    (h : Choose X S fuel d Index = Except.ok (b, d1)) : RaisesOnly AnyEvent d d1 := by
  cases hc : ChoiceAt d.CurrentChoices Index with
  | none =>
    unfold Choose at h
    rw [hc] at h
    cases h
    exact GetText_any X S d
  | some Choice =>
    cases hn : d.CurrentSpeakerNode with
    | none =>
      unfold Choose at h
      rw [hc] at h
      simp only [hn] at h
      cases h
    | some n =>
      obtain ⟨d0, hP, hR, _⟩ := Choose_returned X S fuel d Index Choice n b d1 hc hn h
      exact RaisesOnly_append
        (RaisesOnly_mono (fun _ _ => trivial) (ChoosePrologue_spec X S fuel d d0 Index Choice n hP).2)
        (RunUntilNextSpeakerNodeOrEnd_any X S fuel _ _ _ d1 hR)

theorem Raises_of_any {d d1 : USUDSDialogue} (h : RaisesOnly AnyEvent d d1) :
    ∃ cs, Raises d d1 cs := by
  obtain ⟨cs, hR, _⟩ := h
  exact ⟨cs, hR⟩

/-- C20: the callbacks any operation records are those of a sequence of events, event by
event.  The callbacks of a "variable requested" event are the broadcast to the generic
listeners followed by the calls of the participants; the callbacks of every other event
(starting, speaker line, choice made, proceeding, variable changed, finished, event fired)
are the calls of the participants followed by the broadcast; the participants called are
those that implement the interface, in the order of the participant list. -/
theorem Notifications_in_event_order (X : Externals) (S : USUDSScript) (fuel : Nat)
    (d : USUDSDialogue) :
    (∀ ps Name, EventBlock ps (Callback.VariableRequested Name) =
      { Target := Listener.Delegate, What := Callback.VariableRequested Name } ::
        ParticipantCalls ps (Callback.VariableRequested Name)) ∧
    (∀ ps c, ¬ IsRequest c →
      EventBlock ps c = ParticipantCalls ps c ++ [{ Target := Listener.Delegate, What := c }]) ∧
    (∀ ps c, ParticipantCalls ps c =
      (ps.filter (fun p => p.bImplementsInterface)).map
        (fun p => { Target := Listener.Participant p.Id, What := c })) ∧
    (∀ d1, Initialise X S fuel d = Except.ok d1 → ∃ cs, Raises d d1 cs) ∧
    (∀ Label d1, Start X S fuel d Label = Except.ok d1 → ∃ cs, Raises d d1 cs) ∧
    (∀ bResetState Label bReRunHeader d1,
      Restart X S fuel d bResetState Label bReRunHeader = Except.ok d1 →
      ∃ cs, Raises d d1 cs) ∧
    (∀ b d1, Continue X S fuel d = Except.ok (b, d1) → ∃ cs, Raises d d1 cs) ∧
    (∀ Index b d1, Choose X S fuel d Index = Except.ok (b, d1) → ∃ cs, Raises d d1 cs) ∧
    (∀ bQuietly d1, End X S fuel d bQuietly = Except.ok d1 → ∃ cs, Raises d d1 cs) ∧
    (∀ bResetVariables bResetPosition bResetVisited d1,
      ResetState X S fuel d bResetVariables bResetPosition bResetVisited = Except.ok d1 →
      ∃ cs, Raises d d1 cs) ∧
    (∀ State d1, RestoreSavedState X S fuel d State = Except.ok d1 → ∃ cs, Raises d d1 cs) ∧
    (∃ cs, Raises d (GetText X S d).2 cs) ∧
    (∀ Index, ∃ cs, Raises d (GetChoiceText X S d Index).2 cs) := by
  refine ⟨fun _ _ => rfl, ?_, ParticipantCalls_eq_map, ?_, ?_, ?_, ?_, ?_, ?_, ?_, ?_,
    Raises_of_any (GetText_any X S d), ?_⟩
  · intro ps c hc
    cases c with
    | VariableRequested Name => exact (hc trivial).elim
    | Starting L => rfl
    | SpeakerLine => rfl
    | Choice i => rfl
    | Proceeding => rfl
    | VariableChanged a v f => rfl
    | Finished => rfl
    | Event a v => rfl
  · intro d1 h
    unfold Initialise at h
    split at h
    · cases h
    · rename_i da ha
      cases h
      have h1 : RaisesOnly AnyEvent d da :=
        InitVariables_any X S fuel { d with CurrentSpeakerNode := none } da ha
      exact Raises_of_any (RaisesOnly_append h1 (RaisesOnly_untouched _ rfl rfl))
  · intro Label d1 h
    unfold Start at h
    split at h
    · exact Raises_of_any (Restart_any X S fuel d d1 false Label false h)
    · cases h
      exact ⟨[], Raises_nil d⟩
  · intro bResetState Label bReRunHeader d1 h
    exact Raises_of_any (Restart_any X S fuel d d1 bResetState Label bReRunHeader h)
  · intro b d1 h
    unfold Continue at h
    by_cases h1 : GetNumberOfChoices d = 1
    · rw [if_pos h1] at h
      exact Raises_of_any (Choose_any X S fuel d 0 b d1 h)
    · rw [if_neg h1] at h
      cases h
      exact ⟨[], Raises_nil d⟩
  · intro Index b d1 h
    exact Raises_of_any (Choose_any X S fuel d Index b d1 h)
  · intro bQuietly d1 h
    exact Raises_of_any (SetCurrentSpeakerNode_any X S fuel d d1 none bQuietly h)
  · intro bv bp bc d1 h
    exact Raises_of_any (ResetState_any X S fuel d d1 bv bp bc h)
  · intro State d1 h
    exact Raises_of_any (RestoreSavedState_any X S fuel d d1 State h)
  · intro Index
    unfold GetChoiceText
    split
    · split
      · exact Raises_of_any (RaisesOnly_mono (fun _ _ => trivial)
          (RaiseVariablesRequested_only _ d))
      · exact ⟨[], Raises_nil d⟩
    · exact Raises_of_any (GetText_any X S d)

theorem Notifications_in_event_order_witness :
    Restart DemoExternals OrderScript 4 OrderDialogue false none false =
      Except.ok (Returned (Restart DemoExternals OrderScript 4 OrderDialogue false none false)
        NewDialogue) ∧
    (Returned (Restart DemoExternals OrderScript 4 OrderDialogue false none false)
      NewDialogue).Notifications =
      [{ Target := Listener.Participant 1, What := Callback.Starting none },
       { Target := Listener.Participant 2, What := Callback.Starting none },
       { Target := Listener.Delegate, What := Callback.Starting none },
       { Target := Listener.Delegate, What := Callback.VariableRequested "Met" },
       { Target := Listener.Participant 1, What := Callback.VariableRequested "Met" },
       { Target := Listener.Participant 2, What := Callback.VariableRequested "Met" },
       { Target := Listener.Participant 1, What := Callback.Finished },
       { Target := Listener.Participant 2, What := Callback.Finished },
       { Target := Listener.Delegate, What := Callback.Finished }] ∧
    ∃ cs, Raises OrderDialogue
      (Returned (Restart DemoExternals OrderScript 4 OrderDialogue false none false)
        NewDialogue) cs :=
  ⟨rfl, rfl,
    (Notifications_in_event_order DemoExternals OrderScript 4 OrderDialogue).2.2.2.2.2.1
      false none false _ rfl⟩

theorem Participants_sorted_stable_witness :
    (SetParticipants NewDialogue MixedParticipants).Participants =
      [{ Id := 2, Priority := 0, bImplementsInterface := true },
       { Id := 1, Priority := 5, bImplementsInterface := true },
       { Id := 3, Priority := 5, bImplementsInterface := true }] ∧
    List.Sublist
      [{ Id := 1, Priority := 5, bImplementsInterface := true },
       { Id := 3, Priority := 5, bImplementsInterface := true }]
      (SetParticipants NewDialogue MixedParticipants).Participants ∧
    List.Sorted (fun A B => A.Priority ≤ B.Priority)
      (AddParticipant (SetParticipants NewDialogue MixedParticipants)
        { Id := 4, Priority := 2, bImplementsInterface := true }).Participants :=
  ⟨rfl,
    (Participants_sorted_stable NewDialogue MixedParticipants
      { Id := 4, Priority := 2, bImplementsInterface := true }).1.2.2
      { Id := 1, Priority := 5, bImplementsInterface := true }
      { Id := 3, Priority := 5, bImplementsInterface := true } (by decide) (by decide),
    (Participants_sorted_stable (SetParticipants NewDialogue MixedParticipants)
      MixedParticipants { Id := 4, Priority := 2, bImplementsInterface := true }).2.1.2.1⟩

/-- C24: running a set node returns its single successor `GetNextNode`, whether or not its
expression is valid, and leaves every other variable as it was.  With a valid expression
the node's variable then reads as the value of the expression in the environment the
node was run in (the very value, or one the type-aware comparison does not tell apart
from it); with an expression that is not valid the environment is unchanged. -/
theorem RunSetVariableNode_assigns (X : Externals) (S : USUDSScript) (d : USUDSDialogue)
    (Node : Nat) (hType : (S.Node Node).NodeType = ESUDSScriptNodeType.SetVariable) :
    RunNode X S d Node = RunSetVariableNode X S d Node ∧
    (RunSetVariableNode X S d Node).1 = S.GetNextNode Node ∧
    (∀ Name, Name ≠ (S.Node Node).Identifier →
      (RunSetVariableNode X S d Node).2.VariableState.Find Name = d.VariableState.Find Name) ∧
    ((S.Node Node).Expression.bIsValid = true →
      GetVariable X (RunSetVariableNode X S d Node).2 (S.Node Node).Identifier =
          X.Evaluate (S.Node Node).Expression d.VariableState ∨
        X.NotEqual (GetVariable X (RunSetVariableNode X S d Node).2 (S.Node Node).Identifier)
          (X.Evaluate (S.Node Node).Expression d.VariableState) = false) ∧
    ((S.Node Node).Expression.bIsValid = false →
      (RunSetVariableNode X S d Node).2.VariableState = d.VariableState) := by
  obtain ⟨hNext, hEnv⟩ := RunSetVariableNode_effect X S d Node hType
  refine ⟨?_, hNext, ?_, ?_, ?_⟩
  · unfold RunNode
    rw [hType]
  · intro Name hName
    rw [hEnv]
    exact SpecSetVariable_other X S d.VariableState Node Name (fun h => hName h.symm)
  · intro hValid
    have hRead : GetVariable X (RunSetVariableNode X S d Node).2 (S.Node Node).Identifier =
        ReadVariable X (SpecSetVariable X S d.VariableState Node) (S.Node Node).Identifier := by
      unfold GetVariable ReadVariable
      rw [hEnv]
    rw [hRead]
    exact SpecSetVariable_value X S d.VariableState Node hValid
  · intro hInvalid
    rw [hEnv]
    unfold SpecSetVariable
    rw [if_neg (fun h => by rw [hInvalid] at h; exact Bool.false_ne_true h.1)]

theorem RunSetVariableNode_assigns_witness :
    (SetRunnerScript.Node 1).NodeType = ESUDSScriptNodeType.SetVariable ∧
    (SetRunnerScript.Node 1).Identifier = "SomeInt" ∧
    GetVariable DemoExternals SetRunnerStarted "SomeInt" = FSUDSValue.int 0 ∧
    (RunSetVariableNode DemoExternals SetRunnerScript SetRunnerStarted 1).1 = some 2 ∧
    GetVariable DemoExternals
      (RunSetVariableNode DemoExternals SetRunnerScript SetRunnerStarted 1).2 "SomeInt" =
      FSUDSValue.int 99 ∧
    (∃ d1, Continue DemoExternals SetRunnerScript 4 SetRunnerStarted = Except.ok (true, d1) ∧
      d1.CurrentSpeakerNode = some 2 ∧
      GetVariable DemoExternals d1 "SomeInt" = FSUDSValue.int 99) := by
  have h := RunSetVariableNode_assigns DemoExternals SetRunnerScript SetRunnerStarted 1 rfl
  refine ⟨rfl, rfl, rfl, h.2.1, ?_, ⟨_, rfl, rfl, rfl⟩⟩
  rcases h.2.2.2.1 rfl with hEq | hNe
  · exact hEq
  · exact rfl

/-- C26: `Start` on a dialogue that is on a speaker node returns the state it was given:
nothing changes and no callback is made.  With no current speaker node `Start(Label)` is
`Restart(false, Label, false)`, that is "starting" followed by the run from the start
node, the header not being run; so when the start node is a text node the variables are
those the dialogue had before the call. -/
theorem Start_only_when_ended (X : Externals) (S : USUDSScript) (fuel : Nat)
    (d : USUDSDialogue) (Label : Option String) :
    (∀ n, d.CurrentSpeakerNode = some n → Start X S fuel d Label = Except.ok d) ∧
    (d.CurrentSpeakerNode = none →
      Start X S fuel d Label = Restart X S fuel d false Label false ∧
      Start X S fuel d Label =
        RunUntilNextSpeakerNodeOrEnd X S fuel (RaiseStarting d Label)
          (StartNodeFor S Label) true ∧
      (∀ d1, Start X S fuel d Label = Except.ok d1 →
        KeysKept d.VariableState d1.VariableState ∧ d1.ChoicesTaken = d.ChoicesTaken) ∧
      (∀ cs, (∀ n, StartNodeFor S Label = some n →
          (S.Node n).NodeType = ESUDSScriptNodeType.Text) →
        ChoicesFor X S fuel d.VariableState (StartNodeFor S Label) = Except.ok cs →
        ∃ d1, Start X S fuel d Label = Except.ok d1 ∧
          d1.VariableState = d.VariableState ∧
          d1.CurrentSpeakerNode = StartNodeFor S Label ∧ d1.CurrentChoices = cs)) := by
  constructor
  · intro n hn
    unfold Start
    rw [hn]
  · intro hn
    have hStart : Start X S fuel d Label = Restart X S fuel d false Label false := by
      unfold Start
      rw [hn]
    have hRun : Restart X S fuel d false Label false =
        RunUntilNextSpeakerNodeOrEnd X S fuel (RaiseStarting d Label)
          (StartNodeFor S Label) true := by
      rw [Restart_eq]
      rfl
    refine ⟨hStart, hStart.trans hRun, ?_, ?_⟩
    · intro d1 h1
      rw [hStart, hRun] at h1
      obtain ⟨hk, hct, _⟩ := RunUntilNextSpeakerNodeOrEnd_frame X S fuel _ _ _ _ h1
      exact ⟨hk, hct⟩
    · intro cs hText hChoices
      obtain ⟨d1, h1, h2, h3, h4, _⟩ := RunUntilNextSpeakerNodeOrEnd_at_stop X S fuel
        (RaiseStarting d Label) (StartNodeFor S Label) true cs hText hChoices
      exact ⟨d1, by rw [hStart, hRun]; exact h1, h4, h2, h3⟩

theorem Start_only_when_ended_witness :
    DemoStarted.CurrentSpeakerNode = some 0 ∧
    Start DemoExternals DemoScript 4 DemoStarted (some "nestedstart") =
      Except.ok DemoStarted ∧
    DemoOverridden.CurrentSpeakerNode = none ∧
    HeaderVariables DemoExternals DemoScript 4 =
      Except.ok [("ValetName", FSUDSValue.int 7), ("SomeInt", FSUDSValue.int 99)] ∧
    (∃ d1, Start DemoExternals DemoScript 4 DemoOverridden none = Except.ok d1 ∧
      d1.VariableState = DemoOverridden.VariableState ∧
      d1.CurrentSpeakerNode = some 0 ∧ d1.CurrentChoices = (DemoNode 0).Edges ∧
      d1.VariableState.Find "ValetName" = some (FSUDSValue.int 3)) := by
  have h := Start_only_when_ended DemoExternals DemoScript 4 DemoOverridden none
  obtain ⟨d1, h1, h2, h3, h4⟩ := (h.2 rfl).2.2.2 (DemoNode 0).Edges
    (fun n hn => by
      have h0 : n = 0 := (Option.some.inj hn).symm
      rw [h0]
      rfl) rfl
  refine ⟨rfl,
    (Start_only_when_ended DemoExternals DemoScript 4 DemoStarted (some "nestedstart")).1 0 rfl,
    rfl, rfl, d1, h1, h2, h3, h4, ?_⟩
  rw [h2]
  rfl

theorem GetText_raises (X : Externals) (S : USUDSScript) (d : USUDSDialogue) :
    Raises d (GetText X S d).2
      ((CurrentTextParameters S d).map (fun v => Callback.VariableRequested v)) := by
  obtain ⟨node, vs, ct, cc, ps, dn, bp, ns⟩ := d
  cases node with
  | none => exact Raises_nil _
  | some n =>
    by_cases hp : (S.Node n).HasParameters = true
    · unfold GetText
      simp only [hp, if_true]
      exact RaiseVariablesRequested_raises _ _
    · have hNil : (S.Node n).ParameterNames = [] := by
        unfold USUDSScriptNode.HasParameters at hp
        simpa using hp
      unfold GetText CurrentTextParameters
      simp only [hp]
      rw [hNil]
      exact Raises_nil _

theorem GetText_ended (X : Externals) (S : USUDSScript) (d : USUDSDialogue)
    (h : d.CurrentSpeakerNode = none) : GetText X S d = (DummyText, d) := by
  unfold GetText
  rw [h]

theorem GetText_without_parameters (X : Externals) (S : USUDSScript) (d : USUDSDialogue)
    (h : CurrentTextParameters S d = []) : (GetText X S d).2 = d := by
  obtain ⟨node, vs, ct, cc, ps, dn, bp, ns⟩ := d
  cases node with
  | none => rfl
  | some n =>
    have hNil : (S.Node n).ParameterNames = [] := h
    have hp : (S.Node n).HasParameters = false := by
      unfold USUDSScriptNode.HasParameters
      rw [hNil]
      rfl
    unfold GetText
    simp only [hp]
    rfl

/-- C30, refuted as stated: on a line whose text has a parameter, `Choose` and
`GetChoiceText` with an index that is out of range make the "variable requested"
callbacks of that parameter, as the log line formats the text of the node. -/
theorem Invalid_index_requests_text_variables :
    ChoiceAt GreetAtLine.CurrentChoices 5 = none ∧
    GreetAtLine.Notifications = [] ∧
    (Returned (Choose DemoExternals GreetScript 4 GreetAtLine 5)
      (true, NewDialogue)).2.Notifications =
      [{ Target := Listener.Delegate, What := Callback.VariableRequested "PlayerName" },
       { Target := Listener.Participant 1, What := Callback.VariableRequested "PlayerName" },
       { Target := Listener.Participant 2, What := Callback.VariableRequested "PlayerName" }] ∧
    (GetChoiceText DemoExternals GreetScript GreetAtLine 5).2.Notifications =
      [{ Target := Listener.Delegate, What := Callback.VariableRequested "PlayerName" },
       { Target := Listener.Participant 1, What := Callback.VariableRequested "PlayerName" },
       { Target := Listener.Participant 2, What := Callback.VariableRequested "PlayerName" }] :=
  ⟨rfl, rfl, rfl, rfl⟩

/-- C30, amended: with an index that is out of range, `Choose` returns false and
`GetChoiceText` the dummy text, and the callbacks both make are the "variable requested"
ones of the parameters of the current node's text, in order, and no other; they make no
callback at all when that text has no parameter or the dialogue is ended. -/
theorem Invalid_index_raises_requests_only (X : Externals) (S : USUDSScript) (fuel : Nat)
    (d : USUDSDialogue) (Index : Int)
    (hIndex : Index < 0 ∨ (GetNumberOfChoices d : Int) ≤ Index) :
    Choose X S fuel d Index = Except.ok (false, (GetText X S d).2) ∧
    GetChoiceText X S d Index = (DummyText, (GetText X S d).2) ∧
    Raises d (GetText X S d).2
      ((CurrentTextParameters S d).map (fun v => Callback.VariableRequested v)) ∧
    (∀ n ∈ Blocks d.Participants
        ((CurrentTextParameters S d).map (fun v => Callback.VariableRequested v)),
      ∃ v, v ∈ CurrentTextParameters S d ∧ n.What = Callback.VariableRequested v) ∧
    (CurrentTextParameters S d = [] → (GetText X S d).2 = d) ∧
    (d.CurrentSpeakerNode = none → (GetText X S d).2 = d) := by
  have hNone : ChoiceAt d.CurrentChoices Index = none :=
    ChoiceAt_of_out_of_range d.CurrentChoices Index hIndex
  refine ⟨?_, ?_, GetText_raises X S d, ?_, GetText_without_parameters X S d, ?_⟩
  · unfold Choose
    rw [hNone]
  · unfold GetChoiceText
    rw [hNone]
  · intro n hn
    have hWhat := Blocks_what _ _ n hn
    obtain ⟨v, hv, hEq⟩ := List.mem_map.mp hWhat
    exact ⟨v, hv, hEq.symm⟩
  · intro hEnded
    rw [GetText_ended X S d hEnded]

theorem Invalid_index_raises_requests_only_witness :
    ((5 : Int) < 0 ∨ (GetNumberOfChoices GreetAtLine : Int) ≤ 5) ∧
    CurrentTextParameters GreetScript GreetAtLine = ["PlayerName"] ∧
    Choose DemoExternals GreetScript 4 GreetAtLine 5 =
      Except.ok (false, (GetText DemoExternals GreetScript GreetAtLine).2) ∧
    Raises GreetAtLine (GetText DemoExternals GreetScript GreetAtLine).2
      ((CurrentTextParameters GreetScript GreetAtLine).map
        (fun v => Callback.VariableRequested v)) :=
  ⟨Or.inr (by decide), rfl,
    (Invalid_index_raises_requests_only DemoExternals GreetScript 4 GreetAtLine 5
      (Or.inr (by decide))).1,
    (Invalid_index_raises_requests_only DemoExternals GreetScript 4 GreetAtLine 5
      (Or.inr (by decide))).2.2.1⟩

/-- C22, refuted as stated: on an ended dialogue `GetText` returns the text `INVALID`,
which is not the empty text, and so does `GetChoiceText` for an index outside the (empty)
choice list. -/
theorem Failing_queries_text_not_empty :
    NewDialogue.CurrentSpeakerNode = none ∧
    ChoiceAt NewDialogue.CurrentChoices 0 = none ∧
    (GetText DemoExternals DemoScript NewDialogue).1 = "INVALID" ∧
    (GetText DemoExternals DemoScript NewDialogue).1 ≠ "" ∧
    (GetChoiceText DemoExternals DemoScript NewDialogue 0).1 = "INVALID" ∧
    (GetChoiceText DemoExternals DemoScript NewDialogue 0).1 ≠ "" :=
  ⟨rfl, rfl, rfl, by decide, rfl, by decide⟩

/-- C22, amended: the failing queries return the dummy text `INVALID`: `GetText` on an
ended dialogue, and `GetChoiceText` for an index outside the current choice list, for
which `HasChoiceIndexBeenTakenPreviously` returns false.  Position, variables, choices
taken and current choices are left as they were. -/
theorem Failing_queries_return_dummy (X : Externals) (S : USUDSScript)
    (d : USUDSDialogue) (Index : Int)
    (hIndex : Index < 0 ∨ (GetNumberOfChoices d : Int) ≤ Index) :
    DummyText = "INVALID" ∧
    (d.CurrentSpeakerNode = none → GetText X S d = (DummyText, d)) ∧
    (GetChoiceText X S d Index).1 = DummyText ∧
    HasChoiceIndexBeenTakenPreviously d Index = false ∧
    SameButNotifications d (GetChoiceText X S d Index).2 ∧
    (d.CurrentSpeakerNode = none → GetChoiceText X S d Index = (DummyText, d)) := by
  have hNone : ChoiceAt d.CurrentChoices Index = none :=
    ChoiceAt_of_out_of_range d.CurrentChoices Index hIndex
  have hText : GetChoiceText X S d Index = (DummyText, (GetText X S d).2) := by
    unfold GetChoiceText
    rw [hNone]
  refine ⟨rfl, GetText_ended X S d, ?_, ?_, ?_, ?_⟩
  · rw [hText]
  · unfold HasChoiceIndexBeenTakenPreviously
    rw [hNone]
  · rw [hText]
    exact GetText_same X S d
  · intro hEnded
    rw [hText, GetText_ended X S d hEnded]

theorem Failing_queries_return_dummy_witness :
    ((3 : Int) < 0 ∨ (GetNumberOfChoices DemoChosen : Int) ≤ 3) ∧
    (GetChoiceText DemoExternals DemoScript DemoChosen 3).1 = "INVALID" ∧
    HasChoiceIndexBeenTakenPreviously DemoChosen 3 = false ∧
    SameButNotifications DemoChosen (GetChoiceText DemoExternals DemoScript DemoChosen 3).2 ∧
    GetText DemoExternals DemoScript NewDialogue = ("INVALID", NewDialogue) := by
  have h := Failing_queries_return_dummy DemoExternals DemoScript DemoChosen 3
    (Or.inr (by decide))
  exact ⟨Or.inr (by decide), h.2.2.1, h.2.2.2.1, h.2.2.2.2.1, rfl⟩

theorem RunUntilNextSpeakerNodeOrEnd_advance (X : Externals) (S : USUDSScript) (fuel : Nat)
    (d : USUDSDialogue) (n : Option Nat) (b : Bool) (d1 : USUDSDialogue)
    (h : RunUntilNextSpeakerNodeOrEnd X S fuel d n b = Except.ok d1) :
    RaisesOnly IsAdvanceEvent d d1 := by
  have hRunEvent : ∀ c, IsRunEvent c → IsAdvanceEvent c := by
    intro c hc
    cases c <;> first | exact trivial | exact hc
  have hSet : ∀ (e e1 : USUDSDialogue) (Node : Option Nat) (q : Bool),
      SetCurrentSpeakerNode X S fuel e Node q = Except.ok e1 →
      RaisesOnly IsAdvanceEvent e e1 := by
    intro e e1 Node q hs
    obtain ⟨cs, hReq, hR⟩ := SetCurrentSpeakerNode_raises X S fuel e e1 Node q hs
    refine ⟨_, hR, ?_⟩
    intro c hc
    rcases List.mem_append.mp hc with h1 | h1
    · exact hRunEvent c (IsRequest_run c (hReq c h1))
    · cases q with
      | true =>
        simp only [if_true] at h1
        cases h1
      | false =>
        simp only [Bool.false_eq_true, if_false] at h1
        cases Node with
        | none =>
          have hc1 : c = Callback.Finished := List.mem_singleton.mp h1
          rw [hc1]
          exact trivial
        | some m =>
          have hc1 : c = Callback.SpeakerLine := List.mem_singleton.mp h1
          rw [hc1]
          exact trivial
  unfold RunUntilNextSpeakerNodeOrEnd at h
  split at h
  · cases h
  · rename_i m d0 hA
    have hRun := RaisesOnly_mono hRunEvent (RunAutoNodes_only X S fuel n d _ hA)
    split at h
    · exact RaisesOnly_append hRun (hSet _ _ _ _ h)
    · cases h
      exact hRun
  · rename_i d0 hA
    have hRun := RaisesOnly_mono hRunEvent (RunAutoNodes_only X S fuel n d _ hA)
    exact RaisesOnly_append hRun (hSet _ _ _ _ h)

theorem ChoiceAnnounced_raises (d : USUDSDialogue) (Index : Int) (Choice : FSUDSScriptEdge) :
    Raises d (ChoiceAnnounced d Index Choice) [Callback.Choice Index, Callback.Proceeding] := by
  have h1 : Raises d
      (RaiseChoiceMade { d with ChoicesTaken := SetAdd d.ChoicesTaken Choice.TextID } Index)
      [Callback.Choice Index] :=
    Raises_participants_first { d with ChoicesTaken := SetAdd d.ChoicesTaken Choice.TextID }
      (Callback.Choice Index) (fun hq => hq)
  have h2 : Raises
      (RaiseChoiceMade { d with ChoicesTaken := SetAdd d.ChoicesTaken Choice.TextID } Index)
      (ChoiceAnnounced d Index Choice) [Callback.Proceeding] :=
    Raises_participants_first _ Callback.Proceeding (fun hq => hq)
  exact Raises_append h1 h2

/-- C21: for a valid index on a node with a choice construct, the events of `Choose` are
"choice made" with the index, then "proceeding", then the events of the nodes run between
the text node and the choice node (variable requested, variable changed, event fired),
then those of the run from the chosen edge's target, which starts in the state the nodes
in between have left; the nodes in between are those from the text node's successor when
it has exactly one edge.  On a plain continuation the events are "proceeding" and then
those of the run from the edge's target, which starts in the variables of before the call
and raises no "choice made". -/
theorem Choose_notification_order (X : Externals) (S : USUDSScript) (fuel : Nat)
    (d : USUDSDialogue) (Index : Int) (Choice : FSUDSScriptEdge) (n : Nat)
    (hValid : ChoiceAt d.CurrentChoices Index = some Choice)
    (hNode : d.CurrentSpeakerNode = some n) :
    ((S.Node n).bHasChoices = true → ∀ r d1,
      RunUntilNextChoiceNode X S fuel (ChoiceAnnounced d Index Choice) (some n) =
        Except.ok r →
      RunUntilNextSpeakerNodeOrEnd X S fuel r.2 Choice.TargetNode true = Except.ok d1 →
      Choose X S fuel d Index = Except.ok (!IsEnded d1, d1) ∧
      ∃ aux rest, Raises (ChoiceAnnounced d Index Choice) r.2 aux ∧
        (∀ c ∈ aux, IsRunEvent c) ∧ Raises r.2 d1 rest ∧ (∀ c ∈ rest, IsAdvanceEvent c) ∧
        Raises d d1 ([Callback.Choice Index, Callback.Proceeding] ++ aux ++ rest)) ∧
    ((S.Node n).GetEdgeCount = 1 →
      RunUntilNextChoiceNode X S fuel (ChoiceAnnounced d Index Choice) (some n) =
        RunAutoNodes X S fuel (S.GetNextNode n) (ChoiceAnnounced d Index Choice)) ∧
    ((S.Node n).bHasChoices = false → ∀ d1,
      RunUntilNextSpeakerNodeOrEnd X S fuel (RaiseProceeding d) Choice.TargetNode true =
        Except.ok d1 →
      Choose X S fuel d Index = Except.ok (!IsEnded d1, d1) ∧
      (RaiseProceeding d).VariableState = d.VariableState ∧
      ∃ rest, Raises (RaiseProceeding d) d1 rest ∧ (∀ c ∈ rest, IsAdvanceEvent c) ∧
        Raises d d1 (Callback.Proceeding :: rest)) := by
  refine ⟨?_, ?_, ?_⟩
  · intro hHas r d1 hAux hRun
    have hPro : ChoosePrologue X S fuel d Index Choice n = Except.ok r.2 := by
      unfold ChoosePrologue
      rw [if_pos hHas]
      unfold ChoiceAnnounced at hAux
      rw [hAux]
    refine ⟨?_, ?_⟩
    · rw [Choose_eq X S fuel d Index Choice n hValid hNode, hPro]
      simp only []
      rw [hRun]
    · obtain ⟨aux, hA, hAll⟩ := RunUntilNextChoiceNode_only X S fuel _ _ r hAux
      obtain ⟨rest, hR, hRest⟩ := RunUntilNextSpeakerNodeOrEnd_advance X S fuel _ _ _ d1 hRun
      exact ⟨aux, rest, hA, hAll, hR, hRest,
        Raises_append (Raises_append (ChoiceAnnounced_raises d Index Choice) hA) hR⟩
  · intro hOne
    unfold RunUntilNextChoiceNode
    simp only [hOne, if_true]
  · intro hPlain d1 hRun
    have hPro : ChoosePrologue X S fuel d Index Choice n = Except.ok (RaiseProceeding d) := by
      unfold ChoosePrologue
      rw [hPlain]
      rfl
    refine ⟨?_, rfl, ?_⟩
    · rw [Choose_eq X S fuel d Index Choice n hValid hNode, hPro]
      simp only []
      rw [hRun]
    · obtain ⟨rest, hR, hRest⟩ := RunUntilNextSpeakerNodeOrEnd_advance X S fuel _ _ _ d1 hRun
      have hP : Raises d (RaiseProceeding d) [Callback.Proceeding] :=
        Raises_participants_first d Callback.Proceeding (fun hq => hq)
      exact ⟨rest, hR, hRest, Raises_append hP hR⟩

theorem Choose_notification_order_witness :
    ChoiceAt AuxAtLine.CurrentChoices 0 = some (MkEdge "c1" "Choice 1" ESUDSEdgeType.Decision
      (some 3)) ∧
    AuxAtLine.CurrentSpeakerNode = some 0 ∧ (AuxScript.Node 0).bHasChoices = true ∧
    (AuxScript.Node 0).GetEdgeCount = 1 ∧ AuxScript.GetNextNode 0 = some 1 ∧
    (∃ d1, Choose DemoExternals AuxScript 4 AuxAtLine 0 = Except.ok (true, d1) ∧
      d1.CurrentSpeakerNode = some 5 ∧
      d1.Notifications.map (fun x => x.What) =
        [Callback.Choice 0, Callback.Proceeding,
         Callback.VariableChanged "SomeGender" (FSUDSValue.int 1) true,
         Callback.VariableChanged "SomeBoolean" (FSUDSValue.int 1) true,
         Callback.SpeakerLine]) ∧
    ∃ d1 aux rest, Raises AuxAtLine d1
      ([Callback.Choice 0, Callback.Proceeding] ++ aux ++ rest) ∧
      (∀ c ∈ aux, IsRunEvent c) ∧ (∀ c ∈ rest, IsAdvanceEvent c) := by
  obtain ⟨_, aux, rest, _, h2, _, h4, h5⟩ := (Choose_notification_order DemoExternals AuxScript
    4 AuxAtLine 0 (MkEdge "c1" "Choice 1" ESUDSEdgeType.Decision (some 3)) 0 rfl rfl).1 rfl
    (Returned (RunUntilNextChoiceNode DemoExternals AuxScript 4
      (ChoiceAnnounced AuxAtLine 0 (MkEdge "c1" "Choice 1" ESUDSEdgeType.Decision (some 3)))
      (some 0)) (none, NewDialogue))
    (Returned (Choose DemoExternals AuxScript 4 AuxAtLine 0) (false, NewDialogue)).2 rfl rfl
  exact ⟨rfl, rfl, rfl, rfl, rfl, ⟨_, rfl, rfl, rfl⟩, ⟨_, aux, rest, h5, h2, h4⟩⟩

theorem RunNodeChecked_of_auto (X : Externals) (S : USUDSScript) (d : USUDSDialogue)
    (n : Nat) (h : ShouldStopAtNodeType (S.Node n).NodeType = false) :
    RunNodeChecked X S d n = Except.ok (RunNode X S d n) := by
  unfold RunNodeChecked RunNode
  cases hT : (S.Node n).NodeType with
  | Select => rfl
  | SetVariable => rfl
  | Event => rfl
  | Text => rw [hT] at h; cases h
  | Choice => rw [hT] at h; cases h
  | Goto => rw [hT] at h; cases h

theorem RunAutoNodesChecked_eq (X : Externals) (S : USUDSScript) (fuel : Nat)
    (Start : Option Nat) (d : USUDSDialogue) :
    RunAutoNodesChecked X S fuel Start d = RunAutoNodes X S fuel Start d := by
  induction fuel generalizing Start d with
  | zero =>
    cases Start with
    | none => rfl
    | some n =>
      unfold RunAutoNodesChecked RunAutoNodes
      rfl
  | succ f ih =>
    cases Start with
    | none => rfl
    | some n =>
      unfold RunAutoNodesChecked RunAutoNodes
      by_cases hStop : ShouldStopAtNodeType (S.Node n).NodeType = true
      · simp only [hStop, if_true]
      · have hAuto : ShouldStopAtNodeType (S.Node n).NodeType = false := by
          cases hb : ShouldStopAtNodeType (S.Node n).NodeType with
          | true => exact (hStop hb).elim
          | false => rfl
        simp only [hAuto, Bool.false_eq_true, if_false]
        rw [RunNodeChecked_of_auto X S d n hAuto]
        exact ih _ _

theorem RunUntilNextSpeakerNodeOrEnd_unexpected (X : Externals) (S : USUDSScript)
    (fuel : Nat) (d : USUDSDialogue) (Start : Option Nat) (b : Bool) (m : Nat)
    (d0 : USUDSDialogue) (hRun : RunAutoNodes X S fuel Start d = Except.ok (some m, d0))
    (hType : (S.Node m).NodeType ≠ ESUDSScriptNodeType.Text) :
    RunUntilNextSpeakerNodeOrEnd X S fuel d Start b = Except.ok d0 ∧
    d0.CurrentSpeakerNode = d.CurrentSpeakerNode ∧ d0.CurrentChoices = d.CurrentChoices ∧
    IsEnded d0 = IsEnded d ∧ RaisesOnly IsRunEvent d d0 := by
  obtain ⟨⟨h1, _, h3, _⟩, _⟩ := RunAutoNodes_frame X S fuel Start d _ hRun
  have h1a : d0.CurrentSpeakerNode = d.CurrentSpeakerNode := h1
  have h3a : d0.CurrentChoices = d.CurrentChoices := h3
  refine ⟨?_, h1a, h3a, ?_, RunAutoNodes_only X S fuel Start d _ hRun⟩
  · unfold RunUntilNextSpeakerNodeOrEnd
    rw [hRun]
    simp only []
    rw [if_neg hType]
  · unfold IsEnded
    rw [h1a]

theorem IsRunEvent_quiet (c : Callback) (h : IsRunEvent c) : IsQuietEvent c := by
  cases c <;> first | exact h.elim | exact ⟨(by intro hq; cases hq), (by intro hq; cases hq)⟩

theorem ChoosePrologue_quiet (X : Externals) (S : USUDSScript) (fuel : Nat)
    (d d0 : USUDSDialogue) (Index : Int) (Choice : FSUDSScriptEdge) (n : Nat)
    (h : ChoosePrologue X S fuel d Index Choice n = Except.ok d0) :
    d0.CurrentSpeakerNode = d.CurrentSpeakerNode ∧ d0.CurrentChoices = d.CurrentChoices ∧
    RaisesOnly IsQuietEvent d d0 := by
  unfold ChoosePrologue at h
  by_cases hh : (S.Node n).bHasChoices = true
  · rw [if_pos hh] at h
    split at h
    · cases h
    · rename_i r hr
      cases h
      obtain ⟨⟨f1, _, f3, _⟩, _⟩ := RunUntilNextChoiceNode_frame X S fuel _ _ r hr
      have hA : RaisesOnly IsQuietEvent d (ChoiceAnnounced d Index Choice) :=
        ⟨_, ChoiceAnnounced_raises d Index Choice, fun c hc => by
          rcases List.mem_cons.mp hc with h1 | h1
          · rw [h1]
            exact ⟨(by intro hq; cases hq), (by intro hq; cases hq)⟩
          · have h2 : c = Callback.Proceeding := List.mem_singleton.mp h1
            rw [h2]
            exact ⟨(by intro hq; cases hq), (by intro hq; cases hq)⟩⟩
      have hB : RaisesOnly IsQuietEvent (ChoiceAnnounced d Index Choice) r.2 :=
        RaisesOnly_mono IsRunEvent_quiet (RunUntilNextChoiceNode_only X S fuel _ _ r hr)
      exact ⟨f1, f3, RaisesOnly_append hA hB⟩
  · rw [if_neg hh] at h
    cases h
    exact ⟨rfl, rfl, RaisesOnly_single (Raises_participants_first d Callback.Proceeding
      (fun hq => hq)) ⟨(by intro hq; cases hq), (by intro hq; cases hq)⟩⟩

theorem RunAutoNodes_set_chain_end (X : Externals) (S : USUDSScript) (Chain : List Nat)
    (fuel : Nat) (Start : Option Nat) (d : USUDSDialogue) (m : Option Nat)
    (d1 : USUDSDialogue) (hChain : IsSetChain S Start Chain)
    (h : RunAutoNodes X S fuel Start d = Except.ok (m, d1)) :
    m = none ∧ RaisesOnly IsVariableEvent d d1 := by
  induction Chain generalizing fuel Start d with
  | nil =>
    have hStart : Start = none := hChain
    rw [hStart] at h
    unfold RunAutoNodes at h
    cases h
    exact ⟨rfl, RaisesOnly_nil _ _⟩
  | cons n rest ih =>
    obtain ⟨hStart, hType, hRest⟩ := hChain
    rw [hStart] at h
    have hAuto : ShouldStopAtNodeType (S.Node n).NodeType = false := by
      rw [hType]
      rfl
    have hNode : RunNode X S d n = RunSetVariableNode X S d n := by
      unfold RunNode
      rw [hType]
    cases fuel with
    | zero =>
      unfold RunAutoNodes at h
      simp only [hAuto, Bool.false_eq_true, if_false] at h
      cases h
    | succ f =>
      unfold RunAutoNodes at h
      simp only [hAuto, Bool.false_eq_true, if_false] at h
      rw [hNode, (RunSetVariableNode_effect X S d n hType).1] at h
      obtain ⟨hm, hEv⟩ := ih f (S.GetNextNode n) _ hRest h
      exact ⟨hm, RaisesOnly_append (RunSetVariableNode_variable_events X S d n) hEv⟩

theorem IsRequest_variable (c : Callback) (h : IsRequest c) : IsVariableEvent c := by
  cases c <;> first | exact h.elim | trivial

theorem SetCurrentSpeakerNode_quietly (X : Externals) (S : USUDSScript) (fuel : Nat)
    (d d1 : USUDSDialogue) (Node : Option Nat)
    (h : SetCurrentSpeakerNode X S fuel d Node true = Except.ok d1) :
    RaisesOnly IsRequest d d1 := by
  obtain ⟨cs, hReq, hR⟩ := SetCurrentSpeakerNode_raises X S fuel d d1 Node true h
  simp only [if_true, List.append_nil] at hR
  exact ⟨cs, hR, hReq⟩

/-- The run of a header that is a chain of set nodes ends the dialogue quietly: its events
are "variable requested" and "variable changed" only. -/
theorem RunUntilNextSpeakerNodeOrEnd_header (X : Externals) (S : USUDSScript)
    (Chain : List Nat) (fuel : Nat) (Start : Option Nat) (d d1 : USUDSDialogue)
    (hChain : IsSetChain S Start Chain)
    (h : RunUntilNextSpeakerNodeOrEnd X S fuel d Start false = Except.ok d1) :
    d1.CurrentSpeakerNode = none ∧ d1.CurrentChoices = [] ∧
    RaisesOnly IsVariableEvent d d1 := by
  unfold RunUntilNextSpeakerNodeOrEnd at h
  cases hA : RunAutoNodes X S fuel Start d with
  | error x =>
    rw [hA] at h
    cases h
  | ok p =>
    obtain ⟨m, d0⟩ := p
    obtain ⟨hm, hEv⟩ := RunAutoNodes_set_chain_end X S Chain fuel Start d m d0 hChain hA
    rw [hA, hm] at h
    simp only [End, Bool.not_false] at h
    obtain ⟨cs, h1, h2, h3, _⟩ := SameOutcome_of_ok_left
      (SetCurrentSpeakerNode_spec X S fuel d0 none true) h
    have hcs : cs = [] := by
      have h4 : Except.ok cs = (Except.ok [] : Except Fault (List FSUDSScriptEdge)) :=
        h1.symm.trans (ChoicesFor_none X S fuel d0.VariableState)
      cases h4
      rfl
    exact ⟨h3, h2.trans hcs, RaisesOnly_append hEv
      (RaisesOnly_mono IsRequest_variable (SetCurrentSpeakerNode_quietly X S fuel d0 d1 none h))⟩

theorem ResetState_variable_events (X : Externals) (S : USUDSScript) (fuel : Nat)
    (d d1 : USUDSDialogue) (Chain : List Nat) (bResetVariables bResetPosition bResetVisited : Bool)
    (hChain : IsSetChain S S.HeaderNode Chain)
    (h : ResetState X S fuel d bResetVariables bResetPosition bResetVisited = Except.ok d1) :
    RaisesOnly IsVariableEvent d d1 := by
  unfold ResetState at h
  split at h
  · cases h
  · rename_i da ha
    have h1 : RaisesOnly IsVariableEvent d da := by
      by_cases hv : bResetVariables = true
      · rw [if_pos hv] at ha
        exact (RunUntilNextSpeakerNodeOrEnd_header X S Chain fuel S.HeaderNode
          { d with VariableState := [] } da hChain ha).2.2
      · rw [if_neg hv] at ha
        cases ha
        exact RaisesOnly_nil _ _
    split at h
    · cases h
    · rename_i db hb
      have h2 : RaisesOnly IsVariableEvent da db := by
        by_cases hp : bResetPosition = true
        · rw [if_pos hp] at hb
          exact RaisesOnly_mono IsRequest_variable
            (SetCurrentSpeakerNode_quietly X S fuel da db none hb)
        · rw [if_neg hp] at hb
          cases hb
          exact RaisesOnly_nil _ _
      have h3 : RaisesOnly IsVariableEvent db d1 := by
        cases bResetVisited with
        | true =>
          simp only [if_true] at h
          cases h
          exact RaisesOnly_untouched _ rfl rfl
        | false =>
          simp only [Bool.false_eq_true, if_false] at h
          cases h
          exact RaisesOnly_nil _ _
      exact RaisesOnly_append (RaisesOnly_append h1 h2) h3

theorem IsVariableEvent_quiet (c : Callback) (h : IsVariableEvent c) : IsQuietEvent c := by
  cases c <;> first | exact h.elim | exact ⟨(by intro hq; cases hq), (by intro hq; cases hq)⟩

theorem RestartPrologue_quiet (X : Externals) (S : USUDSScript) (fuel : Nat)
    (d d0 : USUDSDialogue) (Chain : List Nat) (bResetState : Bool)
    (StartLabel : Option String) (bReRunHeader : Bool)
    (hChain : IsSetChain S S.HeaderNode Chain)
    (h : RestartPrologue X S fuel d bResetState StartLabel bReRunHeader = Except.ok d0) :
    RaisesOnly IsQuietEvent d d0 := by
  unfold RestartPrologue at h
  split at h
  · cases h
  · rename_i da ha
    have h1 : RaisesOnly IsQuietEvent d da := by
      by_cases hr : bResetState = true
      · rw [if_pos hr] at ha
        exact RaisesOnly_mono IsVariableEvent_quiet
          (ResetState_variable_events X S fuel d da Chain true true true hChain ha)
      · rw [if_neg hr] at ha
        cases ha
        exact RaisesOnly_nil _ _
    have h2 : RaisesOnly IsQuietEvent da (RaiseStarting da StartLabel) :=
      RaisesOnly_single (Raises_participants_first da (Callback.Starting StartLabel)
        (fun hq => hq)) ⟨(by intro hq; cases hq), (by intro hq; cases hq)⟩
    have h3 : RaisesOnly IsQuietEvent (RaiseStarting da StartLabel) d0 := by
      by_cases hc : (!bResetState && bReRunHeader) = true
      · rw [if_pos hc] at h
        exact RaisesOnly_mono IsVariableEvent_quiet
          (RunUntilNextSpeakerNodeOrEnd_header X S Chain fuel S.HeaderNode _ d0 hChain h).2.2
      · rw [if_neg hc] at h
        cases h
        exact RaisesOnly_nil _ _
    exact RaisesOnly_append (RaisesOnly_append h1 h2) h3

/-- C25: when the run of auto-run nodes stops on a node that is not a text node (a choice
or goto node), `RunUntilNextSpeakerNodeOrEnd` returns the state the nodes run have left:
the current speaker node and the current choices are those of before the run, the
dialogue is ended exactly if it was, and the events of the run are those of the nodes run
(no "finished", no "speaker line").  `Choose` then returns true, on the node it was called
on, having raised neither "finished" nor "speaker line"; `Restart` returns in the position
its steps before the run have left, and raises neither when the header is a chain of set
nodes.  The loop never hands `RunNode` a node for its last, "non-runnable", branch: it is
the same function when that branch is made a fault. -/
theorem Run_stops_on_unexpected_node (X : Externals) (S : USUDSScript) (fuel : Nat)
    (d d0 d1 : USUDSDialogue) (Start : Option Nat) (m : Nat)
    (hRun : RunAutoNodes X S fuel Start d0 = Except.ok (some m, d1))
    (hType : (S.Node m).NodeType ≠ ESUDSScriptNodeType.Text) :
    ShouldStopAtNodeType (S.Node m).NodeType = true ∧
    (∀ b, RunUntilNextSpeakerNodeOrEnd X S fuel d0 Start b = Except.ok d1) ∧
    d1.CurrentSpeakerNode = d0.CurrentSpeakerNode ∧ d1.CurrentChoices = d0.CurrentChoices ∧
    IsEnded d1 = IsEnded d0 ∧ RaisesOnly IsRunEvent d0 d1 ∧
    (∀ Index Choice n, ChoiceAt d.CurrentChoices Index = some Choice →
      d.CurrentSpeakerNode = some n →
      ChoosePrologue X S fuel d Index Choice n = Except.ok d0 →
      Start = Choice.TargetNode →
      Choose X S fuel d Index = Except.ok (true, d1) ∧ IsEnded d = false ∧
      d1.CurrentSpeakerNode = d.CurrentSpeakerNode ∧ d1.CurrentChoices = d.CurrentChoices ∧
      RaisesOnly IsQuietEvent d d1) ∧
    (∀ bResetState StartLabel bReRunHeader,
      RestartPrologue X S fuel d bResetState StartLabel bReRunHeader = Except.ok d0 →
      Start = StartNodeFor S StartLabel →
      Restart X S fuel d bResetState StartLabel bReRunHeader = Except.ok d1 ∧
      ∀ Chain, IsSetChain S S.HeaderNode Chain → RaisesOnly IsQuietEvent d d1) ∧
    (∀ (fuel1 : Nat) (Start1 : Option Nat) (e : USUDSDialogue),
      RunAutoNodesChecked X S fuel1 Start1 e = RunAutoNodes X S fuel1 Start1 e ∧
      RunAutoNodesChecked X S fuel1 Start1 e ≠ Except.error Fault.Fatal) := by
  have hU := fun b => RunUntilNextSpeakerNodeOrEnd_unexpected X S fuel d0 Start b m d1 hRun hType
  obtain ⟨_, hNode, hChoices, hEnded, hOnly⟩ := hU true
  refine ⟨RunAutoNodes_stops X S fuel Start d0 m d1 hRun, fun b => (hU b).1, hNode, hChoices,
    hEnded, hOnly, ?_, ?_, ?_⟩
  · intro Index Choice n hValid hn hPro hStart
    obtain ⟨q1, q2, q3⟩ := ChoosePrologue_quiet X S fuel d d0 Index Choice n hPro
    have hNode1 : d1.CurrentSpeakerNode = some n := by rw [hNode, q1, hn]
    refine ⟨?_, ?_, hNode.trans q1, hChoices.trans q2,
      RaisesOnly_append q3 (RaisesOnly_mono IsRunEvent_quiet hOnly)⟩
    · rw [Choose_eq X S fuel d Index Choice n hValid hn, hPro]
      simp only []
      rw [← hStart, (hU true).1]
      simp only [IsEnded, hNode1]
      rfl
    · unfold IsEnded
      rw [hn]
      rfl
  · intro bResetState StartLabel bReRunHeader hPro hStart
    refine ⟨?_, fun Chain hChain => RaisesOnly_append
      (RestartPrologue_quiet X S fuel d d0 Chain bResetState StartLabel bReRunHeader hChain hPro)
      (RaisesOnly_mono IsRunEvent_quiet hOnly)⟩
    rw [Restart_eq, hPro]
    simp only []
    rw [← hStart]
    exact (hU true).1
  · intro fuel1 Start1 e
    refine ⟨RunAutoNodesChecked_eq X S fuel1 Start1 e, ?_⟩
    rw [RunAutoNodesChecked_eq]
    intro hFatal
    have hOut : ∀ (f : Nat) (s : Option Nat) (x : USUDSDialogue),
        RunAutoNodes X S f s x ≠ Except.error Fault.Fatal := by
      intro f
      induction f with
      | zero =>
        intro s x hx
        cases s with
        | none => cases hx
        | some k =>
          unfold RunAutoNodes at hx
          split at hx
          · cases hx
          · cases hx
      | succ g ih =>
        intro s x hx
        cases s with
        | none => cases hx
        | some k =>
          unfold RunAutoNodes at hx
          split at hx
          · cases hx
          · exact ih _ _ hx
    exact hOut fuel1 Start1 e hFatal

theorem Run_stops_on_unexpected_node_witness :
    (StaleScript.Node 1).NodeType = ESUDSScriptNodeType.Choice ∧
    (∃ d1, Restart DemoExternals StaleScript 4 StaleStarted false none false =
        Except.ok d1 ∧
      d1.CurrentSpeakerNode = StaleStarted.CurrentSpeakerNode ∧
      d1.CurrentChoices = StaleStarted.CurrentChoices ∧ IsEnded d1 = false) ∧
    (∃ d1, Choose DemoExternals StaleScript 4 StaleAtChoice 0 = Except.ok (true, d1) ∧
      d1.CurrentSpeakerNode = StaleAtChoice.CurrentSpeakerNode ∧
      d1.CurrentChoices = StaleAtChoice.CurrentChoices ∧
      RaisesOnly IsQuietEvent StaleAtChoice d1) := by
  have hRestart := Run_stops_on_unexpected_node DemoExternals StaleScript 4 StaleStarted
    (RaiseStarting StaleStarted none)
    (Returned (Restart DemoExternals StaleScript 4 StaleStarted false none false) NewDialogue)
    (some 0) 1 rfl (by decide)
  have hChoose := Run_stops_on_unexpected_node DemoExternals StaleScript 4 StaleAtChoice
    (ChoiceAnnounced StaleAtChoice 0 (MkEdge "x" "X" ESUDSEdgeType.Decision (some 1)))
    (Returned (Choose DemoExternals StaleScript 4 StaleAtChoice 0) (false, NewDialogue)).2
    (some 1) 1 rfl (by decide)
  obtain ⟨c1, _, c3, c4, c5⟩ := hChoose.2.2.2.2.2.2.1 0
    (MkEdge "x" "X" ESUDSEdgeType.Decision (some 1)) 2 rfl rfl rfl rfl
  exact ⟨rfl,
    ⟨_, (hRestart.2.2.2.2.2.2.2.1 false none false rfl rfl).1, hRestart.2.2.1, hRestart.2.2.2.1,
      hRestart.2.2.2.2.1⟩,
    ⟨_, c1, c3, c4, c5⟩⟩

/-- What `ResetState` leaves alone when it is not asked to reset the variables. -/
theorem ResetState_without_variables (X : Externals) (S : USUDSScript) (fuel : Nat)
    (d d1 : USUDSDialogue) (bResetPosition bResetVisited : Bool)
    (h : ResetState X S fuel d false bResetPosition bResetVisited = Except.ok d1) :
    d1.VariableState = d.VariableState ∧
    (bResetVisited = false → d1.ChoicesTaken = d.ChoicesTaken) ∧
    (bResetPosition = false → d1.CurrentSpeakerNode = d.CurrentSpeakerNode ∧
      d1.CurrentChoices = d.CurrentChoices) := by
  have hTaken := ResetState_taken X S fuel d d1 false bResetPosition bResetVisited h
  unfold ResetState at h
  simp only [Bool.false_eq_true, if_false] at h
  split at h
  · cases h
  · rename_i db hb
    have h2 : db.VariableState = d.VariableState ∧
        (bResetPosition = false → db.CurrentSpeakerNode = d.CurrentSpeakerNode ∧
          db.CurrentChoices = d.CurrentChoices) := by
      by_cases hp : bResetPosition = true
      · rw [if_pos hp] at hb
        obtain ⟨cs, _, _, _, hv, _⟩ := SameOutcome_of_ok_left
          (SetCurrentSpeakerNode_spec X S fuel d none true) hb
        exact ⟨hv, fun hq => by rw [hp] at hq; cases hq⟩
      · rw [if_neg hp] at hb
        cases hb
        exact ⟨rfl, fun _ => ⟨rfl, rfl⟩⟩
    have h3 : d1.VariableState = db.VariableState ∧
        d1.CurrentSpeakerNode = db.CurrentSpeakerNode ∧
        d1.CurrentChoices = db.CurrentChoices := by
      cases bResetVisited with
      | true =>
        simp only [if_true] at h
        cases h
        exact ⟨rfl, rfl, rfl⟩
      | false =>
        simp only [Bool.false_eq_true, if_false] at h
        cases h
        exact ⟨rfl, rfl, rfl⟩
    refine ⟨h3.1.trans h2.1, ?_, ?_⟩
    · intro hv
      rw [hTaken, hv]
      rfl
    · intro hp
      exact ⟨h3.2.1.trans (h2.2 hp).1, h3.2.2.trans (h2.2 hp).2⟩

/-- C27, failing input: on the demo dialogue, which is on `NPC: Salutations fellow human`
with three choices, `ResetState(true, false, false)` returns with no current speaker node
and no choice, though it is not asked to reset the position: the header run of
`InitVariables` finishes with `End(true)`. -/
theorem ResetState_variables_clears_position :
    DemoAtChoices.CurrentSpeakerNode = some 1 ∧
    DemoAtChoices.CurrentChoices = (DemoNode 2).Edges ∧
    ResetState DemoExternals DemoScript 4 DemoAtChoices true false false =
      Except.ok (Returned (ResetState DemoExternals DemoScript 4 DemoAtChoices true false false)
        DemoAtChoices) ∧
    (Returned (ResetState DemoExternals DemoScript 4 DemoAtChoices true false false)
      DemoAtChoices).CurrentSpeakerNode = none ∧
    (Returned (ResetState DemoExternals DemoScript 4 DemoAtChoices true false false)
      DemoAtChoices).CurrentChoices = [] ∧
    (Returned (ResetState DemoExternals DemoScript 4 DemoAtChoices true false false)
      DemoAtChoices).CurrentSpeakerNode ≠ DemoAtChoices.CurrentSpeakerNode :=
  ⟨rfl, rfl, rfl, rfl, rfl, by decide⟩

theorem SetCurrentSpeakerNode_no_choice (X : Externals) (S : USUDSScript) (fuel : Nat)
    (d d1 : USUDSDialogue) (Node : Option Nat) (bQuietly : Bool)
    (h : SetCurrentSpeakerNode X S fuel d Node bQuietly = Except.ok d1) :
    EndedHasNoChoice d1 := by
  obtain ⟨cs, h1, h2, h3, _⟩ := SameOutcome_of_ok_left
    (SetCurrentSpeakerNode_spec X S fuel d Node bQuietly) h
  intro hEnded
  have hNode : Node = none := h3.symm.trans hEnded
  rw [hNode, ChoicesFor_none] at h1
  cases h1
  exact h2

theorem RunUntilNextSpeakerNodeOrEnd_no_choice (X : Externals) (S : USUDSScript) (fuel : Nat)
    (d : USUDSDialogue) (n : Option Nat) (b : Bool) (d1 : USUDSDialogue)
    (hInv : EndedHasNoChoice d)
    (h : RunUntilNextSpeakerNodeOrEnd X S fuel d n b = Except.ok d1) :
    EndedHasNoChoice d1 := by
  unfold RunUntilNextSpeakerNodeOrEnd at h
  split at h
  · cases h
  · rename_i m d0 hA
    split at h
    · exact SetCurrentSpeakerNode_no_choice X S fuel _ _ _ _ h
    · obtain ⟨⟨f1, _, f3, _⟩, _⟩ := RunAutoNodes_frame X S fuel n d _ hA
      have f1a : d0.CurrentSpeakerNode = d.CurrentSpeakerNode := f1
      have f3a : d0.CurrentChoices = d.CurrentChoices := f3
      cases h
      intro hEnded
      rw [f3a]
      exact hInv (f1a.symm.trans hEnded)
  · exact SetCurrentSpeakerNode_no_choice X S fuel _ _ _ _ h

theorem ResetState_no_choice (X : Externals) (S : USUDSScript) (fuel : Nat)
    (d d1 : USUDSDialogue) (bResetVariables bResetPosition bResetVisited : Bool)
    (hInv : EndedHasNoChoice d)
    (h : ResetState X S fuel d bResetVariables bResetPosition bResetVisited = Except.ok d1) :
    EndedHasNoChoice d1 := by
  unfold ResetState at h
  split at h
  · cases h
  · rename_i da ha
    have h1 : EndedHasNoChoice da := by
      by_cases hv : bResetVariables = true
      · rw [if_pos hv] at ha
        exact RunUntilNextSpeakerNodeOrEnd_no_choice X S fuel { d with VariableState := [] }
          _ _ da hInv ha
      · rw [if_neg hv] at ha
        cases ha
        exact hInv
    split at h
    · cases h
    · rename_i db hb
      have h2 : EndedHasNoChoice db := by
        by_cases hp : bResetPosition = true
        · rw [if_pos hp] at hb
          exact SetCurrentSpeakerNode_no_choice X S fuel _ _ _ _ hb
        · rw [if_neg hp] at hb
          cases hb
          exact h1
      cases bResetVisited with
      | true =>
        simp only [if_true] at h
        cases h
        exact h2
      | false =>
        simp only [Bool.false_eq_true, if_false] at h
        cases h
        exact h2

theorem Restart_no_choice (X : Externals) (S : USUDSScript) (fuel : Nat)
    (d d1 : USUDSDialogue) (bResetState : Bool) (StartLabel : Option String)
    (bReRunHeader : Bool) (hInv : EndedHasNoChoice d)
    (h : Restart X S fuel d bResetState StartLabel bReRunHeader = Except.ok d1) :
    EndedHasNoChoice d1 := by
  unfold Restart at h
  split at h
  · cases h
  · rename_i da ha
    have h1 : EndedHasNoChoice da := by
      by_cases hr : bResetState = true
      · rw [if_pos hr] at ha
        exact ResetState_no_choice X S fuel d da true true true hInv ha
      · rw [if_neg hr] at ha
        cases ha
        exact hInv
    split at h
    · cases h
    · rename_i db hb
      have h2 : EndedHasNoChoice db := by
        by_cases hc : (!bResetState && bReRunHeader) = true
        · rw [if_pos hc] at hb
          exact RunUntilNextSpeakerNodeOrEnd_no_choice X S fuel (RaiseStarting da StartLabel)
            _ _ db h1 hb
        · rw [if_neg hc] at hb
          cases hb
          exact h1
      exact RunUntilNextSpeakerNodeOrEnd_no_choice X S fuel db _ _ d1 h2 h

theorem Choose_no_choice (X : Externals) (S : USUDSScript) (fuel : Nat) (d : USUDSDialogue)
    (Index : Int) (b : Bool) (d1 : USUDSDialogue) (hInv : EndedHasNoChoice d)
    (h : Choose X S fuel d Index = Except.ok (b, d1)) : EndedHasNoChoice d1 := by
  cases hc : ChoiceAt d.CurrentChoices Index with
  | none =>
    unfold Choose at h
    rw [hc] at h
    cases h
    obtain ⟨g1, _, _, g4, _⟩ := GetText_same X S d
    intro hEnded
    rw [g4]
    exact hInv (g1.symm.trans hEnded)
  | some Choice =>
    cases hn : d.CurrentSpeakerNode with
    | none =>
      unfold Choose at h
      rw [hc] at h
      simp only [hn] at h
      cases h
    | some n =>
      obtain ⟨d0, hP, hR, _⟩ := Choose_returned X S fuel d Index Choice n b d1 hc hn h
      obtain ⟨q1, q2, _⟩ := ChoosePrologue_quiet X S fuel d d0 Index Choice n hP
      have h0 : EndedHasNoChoice d0 := by
        intro hEnded
        rw [q2]
        exact hInv (q1.symm.trans hEnded)
      exact RunUntilNextSpeakerNodeOrEnd_no_choice X S fuel d0 _ _ d1 h0 hR

theorem Attainable_no_choice (X : Externals) (S : USUDSScript) (fuel : Nat)
    (d : USUDSDialogue) (Chain : List Nat) (hChain : IsSetChain S S.HeaderNode Chain)
    (h : Attainable X S fuel d) : EndedHasNoChoice d := by
  induction h with
  | initialise d0 d hi =>
    unfold Initialise InitVariables at hi
    split at hi
    · cases hi
    · rename_i da ha
      cases hi
      have hEmpty := (RunUntilNextSpeakerNodeOrEnd_header X S Chain fuel S.HeaderNode _ da
        hChain ha).2.1
      intro _
      exact hEmpty
  | start d d1 Label _ hs ih =>
    unfold Start at hs
    split at hs
    · exact Restart_no_choice X S fuel d d1 false Label false ih hs
    · cases hs
      exact ih
  | restart d d1 bResetState StartLabel bReRunHeader _ hs ih =>
    exact Restart_no_choice X S fuel d d1 bResetState StartLabel bReRunHeader ih hs
  | proceed d d1 b _ hs ih =>
    unfold Continue at hs
    by_cases h1 : GetNumberOfChoices d = 1
    · rw [if_pos h1] at hs
      exact Choose_no_choice X S fuel d 0 b d1 ih hs
    · rw [if_neg h1] at hs
      cases hs
      exact ih
  | choose d d1 Index b _ hs ih =>
    exact Choose_no_choice X S fuel d Index b d1 ih hs
  | reset d d1 bv bp bc _ hs ih =>
    exact ResetState_no_choice X S fuel d d1 bv bp bc ih hs
  | restore d d1 State _ hs ih =>
    unfold RestoreSavedState at hs
    split at hs
    · cases hs
    · split at hs
      · exact SetCurrentSpeakerNode_no_choice X S fuel _ _ _ _ hs
      · exact SetCurrentSpeakerNode_no_choice X S fuel _ _ _ _ hs

theorem RunAutoNodes_not_null (X : Externals) (S : USUDSScript) (fuel : Nat)
    (Start : Option Nat) (d : USUDSDialogue) :
    RunAutoNodes X S fuel Start d ≠ Except.error Fault.NullDereference := by
  induction fuel generalizing Start d with
  | zero =>
    intro hx
    cases Start with
    | none => cases hx
    | some k =>
      unfold RunAutoNodes at hx
      split at hx
      · cases hx
      · cases hx
  | succ g ih =>
    intro hx
    cases Start with
    | none => cases hx
    | some k =>
      unfold RunAutoNodes at hx
      split at hx
      · cases hx
      · exact ih _ _ hx

theorem AppendChoicesOfEdges_not_null (X : Externals)
    (Recurse : Option Nat → List FSUDSScriptEdge → USUDSDialogue →
      Except Fault (List FSUDSScriptEdge × USUDSDialogue))
    (hRec : ∀ n out d, Recurse n out d ≠ Except.error Fault.NullDereference)
    (Edges : List FSUDSScriptEdge) (OutChoices : List FSUDSScriptEdge) (d : USUDSDialogue) :
    AppendChoicesOfEdges X Recurse Edges OutChoices d ≠
      Except.error Fault.NullDereference := by
  induction Edges generalizing OutChoices d with
  | nil =>
    intro hx
    cases hx
  | cons Edge rest ih =>
    intro hx
    unfold AppendChoicesOfEdges at hx
    split at hx
    · exact ih _ _ hx
    · split at hx
      · split at hx
        · exact hRec _ _ _ hx
        · exact ih _ _ hx
      · exact ih _ _ hx
    · split at hx
      · rename_i e he
        cases hx
        exact hRec _ _ _ he
      · exact ih _ _ hx
    · cases hx

theorem RecurseAppendChoices_not_null (X : Externals) (S : USUDSScript) (fuel : Nat)
    (Node : Option Nat) (OutChoices : List FSUDSScriptEdge) (d : USUDSDialogue) :
    RecurseAppendChoices X S fuel Node OutChoices d ≠
      Except.error Fault.NullDereference := by
  induction fuel generalizing Node OutChoices d with
  | zero =>
    intro hx
    cases Node with
    | none => cases hx
    | some n =>
      unfold RecurseAppendChoices at hx
      cases hx
  | succ f ih =>
    intro hx
    cases Node with
    | none => cases hx
    | some n =>
      unfold RecurseAppendChoices at hx
      simp only [] at hx
      by_cases ht : (S.Node n).NodeType = ESUDSScriptNodeType.Choice ∨
          (S.Node n).NodeType = ESUDSScriptNodeType.Select
      · rw [if_pos ht] at hx
        exact AppendChoicesOfEdges_not_null X _ ih _ _ _ hx
      · rw [if_neg ht] at hx
        cases hx

theorem SetCurrentSpeakerNode_not_null (X : Externals) (S : USUDSScript) (fuel : Nat)
    (d : USUDSDialogue) (Node : Option Nat) (bQuietly : Bool) :
    SetCurrentSpeakerNode X S fuel d Node bQuietly ≠ Except.error Fault.NullDereference := by
  intro hx
  unfold SetCurrentSpeakerNode UpdateChoices at hx
  split at hx
  · rename_i e he
    cases hx
    split at he
    · cases he
    · split at he
      · split at he
        · split at he
          · rename_i e1 he1
            cases he
            exact RecurseAppendChoices_not_null X S fuel _ _ _ he1
          · cases he
        · cases he
      · split at he
        · cases he
        · cases he
  · split at hx
    · cases hx
    · split at hx
      · cases hx
      · cases hx

theorem RunUntilNextSpeakerNodeOrEnd_not_null (X : Externals) (S : USUDSScript) (fuel : Nat)
    (d : USUDSDialogue) (n : Option Nat) (b : Bool) :
    RunUntilNextSpeakerNodeOrEnd X S fuel d n b ≠ Except.error Fault.NullDereference := by
  intro hx
  unfold RunUntilNextSpeakerNodeOrEnd at hx
  split at hx
  · rename_i e he
    cases hx
    exact RunAutoNodes_not_null X S fuel n d he
  · split at hx
    · exact SetCurrentSpeakerNode_not_null X S fuel _ _ _ hx
    · cases hx
  · exact SetCurrentSpeakerNode_not_null X S fuel _ _ _ hx

theorem Choose_not_null (X : Externals) (S : USUDSScript) (fuel : Nat) (d : USUDSDialogue)
    (Index : Int) (n : Nat) (hNode : d.CurrentSpeakerNode = some n) :
    Choose X S fuel d Index ≠ Except.error Fault.NullDereference := by
  intro hx
  cases hc : ChoiceAt d.CurrentChoices Index with
  | none =>
    unfold Choose at hx
    rw [hc] at hx
    cases hx
  | some Choice =>
    rw [Choose_eq X S fuel d Index Choice n hc hNode] at hx
    split at hx
    · rename_i e he
      cases hx
      unfold ChoosePrologue at he
      split at he
      · split at he
        · rename_i e1 he1
          cases he
          unfold RunUntilNextChoiceNode at he1
          simp only [] at he1
          split at he1
          · exact RunAutoNodes_not_null X S fuel _ _ he1
          · cases he1
        · cases he
      · cases he
    · split at hx
      · rename_i e he
        cases hx
        exact RunUntilNextSpeakerNodeOrEnd_not_null X S fuel _ _ _ he
      · cases hx

/-- C28: on a script whose header is a chain of set nodes, every state reached from
`Initialise` through `Start`, `Restart`, `Continue`, `Choose`, `ResetState` and
`RestoreSavedState` has an empty choice list when it has no current speaker node.  So
whenever `Choose` finds its index valid, and dereferences the current speaker node, that
node is not null; on an ended dialogue every index is invalid and `Choose` returns false
and leaves the state as it is. -/
theorem Ended_has_no_choice (X : Externals) (S : USUDSScript) (fuel : Nat)
    (d : USUDSDialogue) (Chain : List Nat) (hChain : IsSetChain S S.HeaderNode Chain)
    (hReached : Attainable X S fuel d) :
    (d.CurrentSpeakerNode = none → d.CurrentChoices = [] ∧ GetNumberOfChoices d = 0) ∧
    (∀ Index Choice, ChoiceAt d.CurrentChoices Index = some Choice →
      ∃ n, d.CurrentSpeakerNode = some n) ∧
    (∀ Index, Choose X S fuel d Index ≠ Except.error Fault.NullDereference) ∧
    (d.CurrentSpeakerNode = none → ∀ Index,
      IsValidIndex d.CurrentChoices Index = false ∧
      Choose X S fuel d Index = Except.ok (false, d)) := by
  have hInv := Attainable_no_choice X S fuel d Chain hChain hReached
  have hEnded : d.CurrentSpeakerNode = none → ∀ Index,
      ChoiceAt d.CurrentChoices Index = none := by
    intro hn Index
    rw [hInv hn]
    unfold ChoiceAt
    split
    · rfl
    · rfl
  have hValid : ∀ Index Choice, ChoiceAt d.CurrentChoices Index = some Choice →
      ∃ n, d.CurrentSpeakerNode = some n := by
    intro Index Choice hc
    cases hn : d.CurrentSpeakerNode with
    | none =>
      rw [hEnded hn Index] at hc
      cases hc
    | some n => exact ⟨n, rfl⟩
  refine ⟨?_, hValid, ?_, ?_⟩
  · intro hn
    refine ⟨hInv hn, ?_⟩
    unfold GetNumberOfChoices
    rw [hInv hn]
    rfl
  · intro Index
    cases hn : d.CurrentSpeakerNode with
    | some n => exact Choose_not_null X S fuel d Index n hn
    | none =>
      unfold Choose
      rw [hEnded hn Index]
      intro hq
      cases hq
  · intro hn Index
    refine ⟨(ChoiceAt_eq_none_iff _ _).mp (hEnded hn Index), ?_⟩
    unfold Choose
    rw [hEnded hn Index, GetText_ended X S d hn]

theorem Ended_has_no_choice_witness :
    IsSetChain DemoScript DemoScript.HeaderNode [10, 11] ∧
    Attainable DemoExternals DemoScript 4 DemoInitialised ∧
    DemoInitialised.CurrentSpeakerNode = none ∧
    DemoInitialised.CurrentChoices = [] ∧
    Choose DemoExternals DemoScript 4 DemoInitialised 0 = Except.ok (false, DemoInitialised) :=
  ⟨⟨rfl, rfl, rfl, rfl, rfl⟩, Attainable.initialise NewDialogue DemoInitialised rfl, rfl,
    ((Ended_has_no_choice DemoExternals DemoScript 4 DemoInitialised [10, 11]
      ⟨rfl, rfl, rfl, rfl, rfl⟩
      (Attainable.initialise NewDialogue DemoInitialised rfl)).1 rfl).1,
    ((Ended_has_no_choice DemoExternals DemoScript 4 DemoInitialised [10, 11]
      ⟨rfl, rfl, rfl, rfl, rfl⟩
      (Attainable.initialise NewDialogue DemoInitialised rfl)).2.2.2 rfl 0).2⟩

theorem RunSelectEdges_target (X : Externals) (Edges : List FSUDSScriptEdge)
    (d : USUDSDialogue) (m : Nat) (h : (RunSelectEdges X Edges d).1 = some m) :
    ∃ Edge ∈ Edges, Edge.TargetNode = some m := by
  induction Edges generalizing d with
  | nil =>
    unfold RunSelectEdges at h
    cases h
  | cons Edge rest ih =>
    unfold RunSelectEdges at h
    split at h
    · split at h
      · exact ⟨Edge, List.mem_cons_self _ _, h⟩
      · obtain ⟨e, he, ht⟩ := ih _ h
        exact ⟨e, List.mem_cons_of_mem _ he, ht⟩
    · obtain ⟨e, he, ht⟩ := ih _ h
      exact ⟨e, List.mem_cons_of_mem _ he, ht⟩

theorem RunNode_step (X : Externals) (S : USUDSScript) (d : USUDSDialogue) (n m : Nat)
    (hAuto : IsAutoRun S n) (h : (RunNode X S d n).1 = some m) : AutoStep S n m := by
  refine ⟨hAuto, ?_⟩
  unfold IsAutoRun at hAuto
  unfold RunNode at h
  cases hT : (S.Node n).NodeType with
  | Select =>
    rw [hT] at h
    exact Or.inl ⟨rfl, RunSelectEdges_target X _ d m h⟩
  | SetVariable =>
    rw [hT] at h
    simp only [] at h
    rw [(RunSetVariableNode_effect X S d n hT).1] at h
    exact Or.inr ⟨(by intro hq; cases hq), h⟩
  | Event =>
    rw [hT] at h
    simp only [] at h
    unfold RunEventNode at h
    rw [if_pos hT] at h
    exact Or.inr ⟨(by intro hq; cases hq), h⟩
  | Text => rw [hT] at hAuto; cases hAuto
  | Choice => rw [hT] at hAuto; cases hAuto
  | Goto => rw [hT] at hAuto; cases hAuto

/-- The node loop returns once the fuel covers the auto-run nodes not yet passed. -/
theorem RunAutoNodes_returns_from (X : Externals) (S : USUDSScript) (Nodes : Finset Nat)
    (hAll : ∀ n, IsAutoRun S n → n ∈ Nodes) (hAcyclic : NoAutoCycle S) (fuel : Nat)
    (Passed : Finset Nat) (n : Nat) (d : USUDSDialogue) (hSub : Passed ⊆ Nodes)
    (hPath : ∀ v ∈ Passed, Relation.TransGen (AutoStep S) v n)
    (hFuel : Nodes.card ≤ fuel + Passed.card) :
    ∃ r, RunAutoNodes X S fuel (some n) d = Except.ok r := by
  induction fuel generalizing Passed n d with
  | zero =>
    by_cases hStop : ShouldStopAtNodeType (S.Node n).NodeType = true
    · exact ⟨(some n, d), by unfold RunAutoNodes; simp only [hStop, if_true]⟩
    · have hAuto : IsAutoRun S n := by
        unfold IsAutoRun
        cases hb : ShouldStopAtNodeType (S.Node n).NodeType with
        | true => exact (hStop hb).elim
        | false => rfl
      have hNew : n ∉ Passed := fun hin => hAcyclic n (hPath n hin)
      have hIns : insert n Passed ⊆ Nodes :=
        Finset.insert_subset_iff.mpr ⟨hAll n hAuto, hSub⟩
      have hCard := Finset.card_le_card hIns
      rw [Finset.card_insert_of_not_mem hNew] at hCard
      omega
  | succ f ih =>
    by_cases hStop : ShouldStopAtNodeType (S.Node n).NodeType = true
    · exact ⟨(some n, d), by unfold RunAutoNodes; simp only [hStop, if_true]⟩
    · have hAuto : IsAutoRun S n := by
        unfold IsAutoRun
        cases hb : ShouldStopAtNodeType (S.Node n).NodeType with
        | true => exact (hStop hb).elim
        | false => rfl
      have hNew : n ∉ Passed := fun hin => hAcyclic n (hPath n hin)
      have hIns : insert n Passed ⊆ Nodes :=
        Finset.insert_subset_iff.mpr ⟨hAll n hAuto, hSub⟩
      have hUnfold : RunAutoNodes X S (f + 1) (some n) d =
          RunAutoNodes X S f (RunNode X S d n).1 (RunNode X S d n).2 := by
        have hAuto1 : ShouldStopAtNodeType (S.Node n).NodeType = false := hAuto
        conv_lhs => unfold RunAutoNodes
        simp only [hAuto1, Bool.false_eq_true, if_false]
      rw [hUnfold]
      cases hNext : (RunNode X S d n).1 with
      | none => exact ⟨(none, (RunNode X S d n).2), by unfold RunAutoNodes; rfl⟩
      | some m =>
        have hStep : AutoStep S n m := RunNode_step X S d n m hAuto hNext
        refine ih (insert n Passed) m _ hIns ?_ ?_
        · intro v hv
          rcases Finset.mem_insert.mp hv with h1 | h1
          · rw [h1]
            exact Relation.TransGen.single hStep
          · exact Relation.TransGen.tail (hPath v h1) hStep
        · rw [Finset.card_insert_of_not_mem hNew]
          omega

theorem RunAutoNodes_returns (X : Externals) (S : USUDSScript) (Nodes : Finset Nat)
    (hAll : ∀ n, IsAutoRun S n → n ∈ Nodes) (hAcyclic : NoAutoCycle S) (fuel : Nat)
    (hFuel : Nodes.card ≤ fuel) (Start : Option Nat) (d : USUDSDialogue) :
    ∃ r, RunAutoNodes X S fuel Start d = Except.ok r := by
  cases Start with
  | none => exact ⟨(none, d), by unfold RunAutoNodes; rfl⟩
  | some n =>
    exact RunAutoNodes_returns_from X S Nodes hAll hAcyclic fuel ∅ n d
      (Finset.empty_subset _) (fun v hv => absurd hv (Finset.not_mem_empty v))
      (by rw [Finset.card_empty]; omega)

theorem AppendChoicesOfEdges_within_fuel (X : Externals)
    (Recurse : Option Nat → List FSUDSScriptEdge → USUDSDialogue →
      Except Fault (List FSUDSScriptEdge × USUDSDialogue))
    (Edges : List FSUDSScriptEdge)
    (hRec : ∀ Edge ∈ Edges,
      (Edge.EdgeType = ESUDSEdgeType.Condition ∨ Edge.EdgeType = ESUDSEdgeType.Chained) →
      ∀ out d, Recurse Edge.TargetNode out d ≠ Except.error Fault.OutOfFuel)
    (OutChoices : List FSUDSScriptEdge) (d : USUDSDialogue) :
    AppendChoicesOfEdges X Recurse Edges OutChoices d ≠ Except.error Fault.OutOfFuel := by
  induction Edges generalizing OutChoices d with
  | nil =>
    intro hx
    cases hx
  | cons Edge rest ih =>
    intro hx
    have hTail := fun out1 d1 =>
      ih (fun e he => hRec e (List.mem_cons_of_mem _ he)) out1 d1
    have hHere := hRec Edge (List.mem_cons_self _ _)
    unfold AppendChoicesOfEdges at hx
    cases hT : Edge.EdgeType with
    | Decision =>
      rw [hT] at hx
      exact hTail _ _ hx
    | Condition =>
      rw [hT] at hx
      simp only [] at hx
      split at hx
      · split at hx
        · exact hHere (Or.inl hT) _ _ hx
        · exact hTail _ _ hx
      · exact hTail _ _ hx
    | Chained =>
      rw [hT] at hx
      simp only [] at hx
      split at hx
      · rename_i e he
        cases hx
        exact hHere (Or.inr hT) _ _ he
      · exact hTail _ _ hx
    | Continue =>
      rw [hT] at hx
      cases hx

/-- The recursion over the choice tree ends once the fuel exceeds the choice and select
nodes not yet entered. -/
theorem RecurseAppendChoices_within_fuel_from (X : Externals) (S : USUDSScript)
    (Nodes : Finset Nat) (hAll : ∀ n, IsChoiceOrSelect S n → n ∈ Nodes)
    (hAcyclic : NoChoiceCycle S) (fuel : Nat) (Entered : Finset Nat) (n : Nat)
    (OutChoices : List FSUDSScriptEdge) (d : USUDSDialogue) (hSub : Entered ⊆ Nodes)
    (hPath : ∀ v ∈ Entered, Relation.TransGen (ChoiceStep S) v n)
    (hFuel : Nodes.card + 1 ≤ fuel + Entered.card) :
    RecurseAppendChoices X S fuel (some n) OutChoices d ≠ Except.error Fault.OutOfFuel := by
  induction fuel generalizing Entered n OutChoices d with
  | zero =>
    have hCard := Finset.card_le_card hSub
    omega
  | succ f ih =>
    intro hx
    unfold RecurseAppendChoices at hx
    simp only [] at hx
    by_cases ht : (S.Node n).NodeType = ESUDSScriptNodeType.Choice ∨
        (S.Node n).NodeType = ESUDSScriptNodeType.Select
    · rw [if_pos ht] at hx
      have hNew : n ∉ Entered := fun hin => hAcyclic n (hPath n hin)
      have hIns : insert n Entered ⊆ Nodes :=
        Finset.insert_subset_iff.mpr ⟨hAll n ht, hSub⟩
      refine AppendChoicesOfEdges_within_fuel X (RecurseAppendChoices X S f) (S.Node n).Edges
        ?_ OutChoices d hx
      intro Edge hE hType out1 d1
      cases hTarget : Edge.TargetNode with
      | none =>
        intro hq
        unfold RecurseAppendChoices at hq
        cases hq
      | some m =>
        refine ih (insert n Entered) m out1 d1 hIns ?_ ?_
        · intro v hv
          have hStep : ChoiceStep S n m := ⟨ht, Edge, hE, hType, hTarget⟩
          rcases Finset.mem_insert.mp hv with h1 | h1
          · rw [h1]
            exact Relation.TransGen.single hStep
          · exact Relation.TransGen.tail (hPath v h1) hStep
        · rw [Finset.card_insert_of_not_mem hNew]
          omega
    · rw [if_neg ht] at hx
      cases hx

theorem RecurseAppendChoices_within_fuel (X : Externals) (S : USUDSScript)
    (Nodes : Finset Nat) (hAll : ∀ n, IsChoiceOrSelect S n → n ∈ Nodes)
    (hAcyclic : NoChoiceCycle S) (fuel : Nat) (hFuel : Nodes.card < fuel)
    (Node : Option Nat) (OutChoices : List FSUDSScriptEdge) (d : USUDSDialogue) :
    RecurseAppendChoices X S fuel Node OutChoices d ≠ Except.error Fault.OutOfFuel := by
  cases Node with
  | none =>
    intro hq
    unfold RecurseAppendChoices at hq
    cases hq
  | some n =>
    exact RecurseAppendChoices_within_fuel_from X S Nodes hAll hAcyclic fuel ∅ n OutChoices d
      (Finset.empty_subset _) (fun v hv => absurd hv (Finset.not_mem_empty v))
      (by rw [Finset.card_empty]; omega)

theorem SetCurrentSpeakerNode_within_fuel (X : Externals) (S : USUDSScript) (fuel : Nat)
    (hRec : ∀ Node out d,
      RecurseAppendChoices X S fuel Node out d ≠ Except.error Fault.OutOfFuel)
    (d : USUDSDialogue) (Node : Option Nat) (bQuietly : Bool) :
    SetCurrentSpeakerNode X S fuel d Node bQuietly ≠ Except.error Fault.OutOfFuel := by
  intro hx
  unfold SetCurrentSpeakerNode UpdateChoices at hx
  split at hx
  · rename_i e he
    cases hx
    split at he
    · cases he
    · split at he
      · split at he
        · split at he
          · rename_i e1 he1
            cases he
            exact hRec _ _ _ he1
          · cases he
        · cases he
      · split at he
        · cases he
        · cases he
  · split at hx
    · cases hx
    · split at hx
      · cases hx
      · cases hx

theorem RunUntilNextSpeakerNodeOrEnd_within_fuel (X : Externals) (S : USUDSScript)
    (fuel : Nat) (hLoop : ∀ Start d, ∃ r, RunAutoNodes X S fuel Start d = Except.ok r)
    (hRec : ∀ Node out d,
      RecurseAppendChoices X S fuel Node out d ≠ Except.error Fault.OutOfFuel)
    (d : USUDSDialogue) (Start : Option Nat) (b : Bool) :
    RunUntilNextSpeakerNodeOrEnd X S fuel d Start b ≠ Except.error Fault.OutOfFuel := by
  intro hx
  obtain ⟨r, hr⟩ := hLoop Start d
  unfold RunUntilNextSpeakerNodeOrEnd at hx
  rw [hr] at hx
  split at hx
  · rename_i e he
    cases he
  · split at hx
    · exact SetCurrentSpeakerNode_within_fuel X S fuel hRec _ _ _ hx
    · cases hx
  · exact SetCurrentSpeakerNode_within_fuel X S fuel hRec _ _ _ hx

theorem CycleScript_recursion (fuel : Nat) (OutChoices : List FSUDSScriptEdge)
    (d : USUDSDialogue) :
    RecurseAppendChoices DemoExternals CycleScript fuel (some 1) OutChoices d =
      Except.error Fault.OutOfFuel := by
  induction fuel generalizing OutChoices d with
  | zero => rfl
  | succ f ih =>
    have hStep : RecurseAppendChoices DemoExternals CycleScript (f + 1) (some 1) OutChoices d =
        (match RecurseAppendChoices DemoExternals CycleScript f (some 1) OutChoices d with
         | Except.error e => Except.error e
         | Except.ok r =>
           AppendChoicesOfEdges DemoExternals (RecurseAppendChoices DemoExternals CycleScript f)
             [] r.1 r.2) := rfl
    rw [hStep, ih]

theorem CycleScript_run (fuel : Nat) :
    RunUntilNextSpeakerNodeOrEnd DemoExternals CycleScript fuel NewDialogue (some 0) true =
      Except.error Fault.OutOfFuel := by
  have hRun : RunAutoNodes DemoExternals CycleScript fuel (some 0) NewDialogue =
      Except.ok (some 0, NewDialogue) := by
    unfold RunAutoNodes
    rfl
  unfold RunUntilNextSpeakerNodeOrEnd
  rw [hRun]
  simp only []
  have hText : (CycleScript.Node 0).NodeType = ESUDSScriptNodeType.Text := rfl
  rw [if_pos hText]
  unfold SetCurrentSpeakerNode UpdateChoices
  have hChoices : (CycleScript.Node 0).bHasChoices = true := rfl
  have hNext : CycleScript.GetNextChoiceNode 0 = some 1 := rfl
  simp only [hChoices, if_true, hNext]
  rw [CycleScript_recursion]

theorem NoAutoCycle_of_stopping_successors (S : USUDSScript)
    (h : ∀ n m, AutoStep S n m → ¬ IsAutoRun S m) : NoAutoCycle S := by
  intro n hCycle
  obtain ⟨b, _, hLast⟩ := Relation.TransGen.tail'_iff.mp hCycle
  obtain ⟨c, hFirst, _⟩ := Relation.TransGen.head'_iff.mp hCycle
  exact h b n hLast hFirst.1

theorem NoChoiceCycle_of_no_step (S : USUDSScript) (h : ∀ n m, ¬ ChoiceStep S n m) :
    NoChoiceCycle S := by
  intro n hCycle
  obtain ⟨c, hFirst, _⟩ := Relation.TransGen.head'_iff.mp hCycle
  exact h n c hFirst

theorem CycleScript_stops (n : Nat) :
    ShouldStopAtNodeType (CycleScript.Node n).NodeType = true := by
  match n with
  | 0 => rfl
  | 1 => rfl
  | (k+2) => rfl

theorem CycleScript_no_auto_cycle : NoAutoCycle CycleScript := by
  refine NoAutoCycle_of_stopping_successors CycleScript ?_
  intro n m hStep
  have hAuto : ShouldStopAtNodeType (CycleScript.Node n).NodeType = false := hStep.1
  rw [CycleScript_stops n] at hAuto
  cases hAuto

theorem AuxScript_auto_nodes (n : Nat) (h : IsAutoRun AuxScript n) : n = 1 ∨ n = 3 := by
  match n, h with
  | 0, h => cases h
  | 1, _ => exact Or.inl rfl
  | 2, h => cases h
  | 3, _ => exact Or.inr rfl
  | 4, h => cases h
  | 5, h => cases h
  | (k+6), h => cases h

theorem AuxScript_no_auto_cycle : NoAutoCycle AuxScript := by
  refine NoAutoCycle_of_stopping_successors AuxScript ?_
  intro n m hStep hm
  obtain ⟨hn, hNext⟩ := hStep
  rcases AuxScript_auto_nodes n hn with h1 | h3
  · subst h1
    rcases hNext with ⟨hSel, _⟩ | ⟨_, hNext⟩
    · cases hSel
    · have hm2 : m = 2 := (Option.some.inj hNext).symm
      subst hm2
      cases hm
  · subst h3
    rcases hNext with ⟨hSel, _⟩ | ⟨_, hNext⟩
    · cases hSel
    · have hm5 : m = 5 := (Option.some.inj hNext).symm
      subst hm5
      cases hm

theorem AuxScript_choice_nodes (n : Nat) (h : IsChoiceOrSelect AuxScript n) : n = 2 := by
  match n, h with
  | 0, h => rcases h with h | h <;> cases h
  | 1, h => rcases h with h | h <;> cases h
  | 2, _ => rfl
  | 3, h => rcases h with h | h <;> cases h
  | 4, h => rcases h with h | h <;> cases h
  | 5, h => rcases h with h | h <;> cases h
  | (k+6), h => rcases h with h | h <;> cases h

theorem AuxScript_no_choice_cycle : NoChoiceCycle AuxScript := by
  refine NoChoiceCycle_of_no_step AuxScript ?_
  intro n m hStep
  obtain ⟨hn, Edge, hE, hType, _⟩ := hStep
  have h2 := AuxScript_choice_nodes n hn
  subst h2
  have hEdges : Edge = MkEdge "c1" "Choice 1" ESUDSEdgeType.Decision (some 3) ∨
      Edge = MkEdge "c2" "Choice 2" ESUDSEdgeType.Decision (some 4) := by
    have hE1 : Edge ∈ [MkEdge "c1" "Choice 1" ESUDSEdgeType.Decision (some 3),
        MkEdge "c2" "Choice 2" ESUDSEdgeType.Decision (some 4)] := hE
    simpa using hE1
  rcases hEdges with h1 | h1
  · rw [h1] at hType
    rcases hType with h | h <;> cases h
  · rw [h1] at hType
    rcases hType with h | h <;> cases h

/-- C29, refuted as stated: the script `CycleScript` has no auto-run node at all, hence
no cycle of auto-run nodes, yet `RunUntilNextSpeakerNodeOrEnd` from its first node returns
with no amount of fuel: it reaches the text node and recomputes the choices, and the
choice node is chained to itself. -/
theorem Run_with_chained_cycle_never_returns :
    (∀ n, ShouldStopAtNodeType (CycleScript.Node n).NodeType = true) ∧
    NoAutoCycle CycleScript ∧
    (∀ fuel, RunUntilNextSpeakerNodeOrEnd DemoExternals CycleScript fuel NewDialogue (some 0)
      true = Except.error Fault.OutOfFuel) :=
  ⟨CycleScript_stops, CycleScript_no_auto_cycle, CycleScript_run⟩

/-- C29, amended: on a graph whose auto-run nodes are finitely many and form no cycle, the
node loop of `RunUntilNextSpeakerNodeOrEnd` and `RunUntilNextChoiceNode`, and so
`RunUntilNextChoiceNode`, returns from every start node and every state with as much fuel
as there are auto-run nodes, one unit being spent on each node run.  On a graph whose
choice and select nodes are finitely many and form no cycle along condition and chained
edges, `RecurseAppendChoices` ends (with a result, or with the failed check or fatal log
line of the code) at a nesting of at most their number plus one.  When both hold,
`RunUntilNextSpeakerNodeOrEnd`, which recomputes the choices of the text node it reaches,
ends. -/
theorem Runs_terminate (X : Externals) (S : USUDSScript) (fuel : Nat) :
    (∀ AutoNodes : Finset Nat, (∀ n, IsAutoRun S n → n ∈ AutoNodes) → NoAutoCycle S →
      AutoNodes.card ≤ fuel →
      (∀ Start d, ∃ r, RunAutoNodes X S fuel Start d = Except.ok r) ∧
      (∀ From d, ∃ r, RunUntilNextChoiceNode X S fuel d From = Except.ok r)) ∧
    (∀ ChoiceNodes : Finset Nat, (∀ n, IsChoiceOrSelect S n → n ∈ ChoiceNodes) →
      NoChoiceCycle S → ChoiceNodes.card < fuel →
      ∀ Node OutChoices d,
        RecurseAppendChoices X S fuel Node OutChoices d ≠ Except.error Fault.OutOfFuel) ∧
    (∀ AutoNodes ChoiceNodes : Finset Nat, (∀ n, IsAutoRun S n → n ∈ AutoNodes) →
      NoAutoCycle S → AutoNodes.card ≤ fuel →
      (∀ n, IsChoiceOrSelect S n → n ∈ ChoiceNodes) → NoChoiceCycle S →
      ChoiceNodes.card < fuel →
      ∀ d Start b,
        RunUntilNextSpeakerNodeOrEnd X S fuel d Start b ≠ Except.error Fault.OutOfFuel) := by
  refine ⟨?_, ?_, ?_⟩
  · intro AutoNodes hAll hAcyclic hFuel
    have hLoop := RunAutoNodes_returns X S AutoNodes hAll hAcyclic fuel hFuel
    refine ⟨hLoop, ?_⟩
    intro From d
    unfold RunUntilNextChoiceNode
    cases From with
    | none => exact ⟨_, rfl⟩
    | some n =>
      simp only []
      by_cases hOne : (S.Node n).GetEdgeCount = 1
      · rw [if_pos hOne]
        exact hLoop _ _
      · rw [if_neg hOne]
        exact ⟨_, rfl⟩
  · intro ChoiceNodes hAll hAcyclic hFuel
    exact RecurseAppendChoices_within_fuel X S ChoiceNodes hAll hAcyclic fuel hFuel
  · intro AutoNodes ChoiceNodes hAll hAcyclic hFuel hAllC hAcyclicC hFuelC
    exact RunUntilNextSpeakerNodeOrEnd_within_fuel X S fuel
      (RunAutoNodes_returns X S AutoNodes hAll hAcyclic fuel hFuel)
      (RecurseAppendChoices_within_fuel X S ChoiceNodes hAllC hAcyclicC fuel hFuelC)

theorem Runs_terminate_witness :
    (∀ n, IsAutoRun AuxScript n → n ∈ ({1, 3} : Finset Nat)) ∧ NoAutoCycle AuxScript ∧
    ({1, 3} : Finset Nat).card ≤ 2 ∧
    (∀ n, IsChoiceOrSelect AuxScript n → n ∈ ({2} : Finset Nat)) ∧
    NoChoiceCycle AuxScript ∧ ({2} : Finset Nat).card < 2 ∧
    (∃ r, RunUntilNextChoiceNode DemoExternals AuxScript 2 AuxAtLine (some 0) =
      Except.ok r) ∧
    RunUntilNextSpeakerNodeOrEnd DemoExternals AuxScript 2 AuxAtLine (some 3) true ≠
      Except.error Fault.OutOfFuel := by
  have hAuto : ∀ n, IsAutoRun AuxScript n → n ∈ ({1, 3} : Finset Nat) := by
    intro n hn
    rcases AuxScript_auto_nodes n hn with h | h
    · rw [h]
      decide
    · rw [h]
      decide
  have hChoice : ∀ n, IsChoiceOrSelect AuxScript n → n ∈ ({2} : Finset Nat) := by
    intro n hn
    rw [AuxScript_choice_nodes n hn]
    decide
  have h := Runs_terminate DemoExternals AuxScript 2
  exact ⟨hAuto, AuxScript_no_auto_cycle, by decide, hChoice, AuxScript_no_choice_cycle,
    by decide,
    (h.1 {1, 3} hAuto AuxScript_no_auto_cycle (by decide)).2 (some 0) AuxAtLine,
    h.2.2 {1, 3} {2} hAuto AuxScript_no_auto_cycle (by decide) hChoice
      AuxScript_no_choice_cycle (by decide) AuxAtLine (some 3) true⟩

theorem FindOutdentedFrom_some (Nodes : List FSUDSParsedNode) (Index : Nat)
    (IndentLessThan : Int) (j : Nat)
    (h : FindOutdentedFrom Nodes Index IndentLessThan = some j) :
    ∃ k M, j = Index + k ∧ Nodes[k]? = some M ∧ M.OriginalIndent < IndentLessThan ∧
      ∀ k1 M1, k1 < k → Nodes[k1]? = some M1 → IndentLessThan ≤ M1.OriginalIndent := by
  induction Nodes generalizing Index with
  | nil =>
    unfold FindOutdentedFrom at h
    cases h
  | cons N rest ih =>
    unfold FindOutdentedFrom at h
    by_cases hLess : N.OriginalIndent < IndentLessThan
    · rw [if_pos hLess] at h
      cases h
      exact ⟨0, N, rfl, List.getElem?_cons_zero, hLess,
        fun k1 M1 hk => absurd hk (Nat.not_lt_zero k1)⟩
    · rw [if_neg hLess] at h
      obtain ⟨k, M, hj, hM, hIndent, hFirst⟩ := ih (Index + 1) h
      refine ⟨k + 1, M, by omega, by rw [List.getElem?_cons_succ]; exact hM, hIndent, ?_⟩
      intro k1 M1 hk hM1
      cases k1 with
      | zero =>
        rw [List.getElem?_cons_zero] at hM1
        have hN : N = M1 := Option.some.inj hM1
        rw [← hN]
        omega
      | succ k2 =>
        rw [List.getElem?_cons_succ] at hM1
        exact hFirst k2 M1 (by omega) hM1

theorem FindOutdentedFrom_none (Nodes : List FSUDSParsedNode) (Index : Nat)
    (IndentLessThan : Int) (h : FindOutdentedFrom Nodes Index IndentLessThan = none) :
    ∀ (k : Nat) (M : FSUDSParsedNode), Nodes[k]? = some M →
      IndentLessThan ≤ M.OriginalIndent := by
  induction Nodes generalizing Index with
  | nil =>
    intro k M hM
    simp at hM
  | cons N rest ih =>
    unfold FindOutdentedFrom at h
    by_cases hLess : N.OriginalIndent < IndentLessThan
    · rw [if_pos hLess] at h
      cases h
    · rw [if_neg hLess] at h
      intro k M hM
      cases k with
      | zero =>
        rw [List.getElem?_cons_zero] at hM
        have hN : N = M := Option.some.inj hM
        rw [← hN]
        omega
      | succ k2 =>
        rw [List.getElem?_cons_succ] at hM
        exact ih (Index + 1) h k2 M hM

/-- What `FindNextOutdentedNodeIndex` finds: the first node, from the start index on, whose
indent is strictly less than the given indent. -/
theorem FindNextOutdentedNodeIndex_first (Nodes : List FSUDSParsedNode) (Start : Nat)
    (IndentLessThan : Int) (j : Nat)
    (h : FindNextOutdentedNodeIndex Nodes Start IndentLessThan = some j) :
    Start ≤ j ∧
    (∃ M, Nodes[j]? = some M ∧ M.OriginalIndent < IndentLessThan) ∧
    ∀ x M1, Start ≤ x → x < j → Nodes[x]? = some M1 → IndentLessThan ≤ M1.OriginalIndent := by
  obtain ⟨k, M, hj, hM, hIndent, hFirst⟩ := FindOutdentedFrom_some _ _ _ _ h
  rw [List.getElem?_drop] at hM
  refine ⟨by omega, ⟨M, by rw [hj]; exact hM, hIndent⟩, ?_⟩
  intro x M1 hx hxj hM1
  have hx1 : x = Start + (x - Start) := by omega
  refine hFirst (x - Start) M1 (by omega) ?_
  rw [List.getElem?_drop, ← hx1]
  exact hM1

theorem Continue_follows_single_edge (X : Externals) (S : USUDSScript) (fuel : Nat)
    (d : USUDSDialogue) (i j : Nat) (Edge : FSUDSScriptEdge) (cs : List FSUDSScriptEdge)
    (hNode : d.CurrentSpeakerNode = some i) (hPlain : (S.Node i).bHasChoices = false)
    (hChoices : d.CurrentChoices = [Edge]) (hTarget : Edge.TargetNode = some j)
    (hText : (S.Node j).NodeType = ESUDSScriptNodeType.Text)
    (hNext : ChoicesFor X S fuel d.VariableState (some j) = Except.ok cs) :
    ∃ d1, Continue X S fuel d = Except.ok (true, d1) ∧ d1.CurrentSpeakerNode = some j ∧
      d1.CurrentChoices = cs := by
  have hOne : GetNumberOfChoices d = 1 := by
    unfold GetNumberOfChoices
    rw [hChoices]
    rfl
  have hValid : ChoiceAt d.CurrentChoices 0 = some Edge := by
    rw [hChoices]
    rfl
  have hPro : ChoosePrologue X S fuel d 0 Edge i = Except.ok (RaiseProceeding d) := by
    unfold ChoosePrologue
    rw [hPlain]
    rfl
  obtain ⟨d1, h1, h2, h3, _⟩ := RunUntilNextSpeakerNodeOrEnd_at_stop X S fuel
    (RaiseProceeding d) (some j) true cs
    (fun m hm => by rw [← Option.some.inj hm]; exact hText) hNext
  refine ⟨d1, ?_, h2, h3⟩
  unfold Continue
  rw [if_pos hOne, Choose_eq X S fuel d 0 Edge i hValid hNode, hPro]
  simp only []
  rw [hTarget, h1]
  simp only [IsEnded, h2]
  rfl

/-- C23: for the last node of a choice branch that has no edge (no explicit goto), the
node `FindNextOutdentedNodeIndex` finds is the first later node, in file order, whose
indent is strictly less than the indent of the choice, and the fallthrough step gives the
last node one edge, to that node, and changes no other node.  On the compiled script,
`Continue` on the last line of the branch, whose only edge leads to that node, lands on
it when it is a text node. -/
theorem Fallthrough_lands_on_outdented (Nodes : List FSUDSParsedNode) (i : Nat)
    (ChoiceIndent : Int) (j : Nat) (N : FSUDSParsedNode) (hN : Nodes[i]? = some N)
    (hNoEdge : N.Edges = [])
    (hFind : FindNextOutdentedNodeIndex Nodes (i + 1) ChoiceIndent = some j) :
    (i < j ∧ (∃ M, Nodes[j]? = some M ∧ M.OriginalIndent < ChoiceIndent) ∧
      ∀ x M1, i < x → x < j → Nodes[x]? = some M1 → ChoiceIndent ≤ M1.OriginalIndent) ∧
    (ConnectFallthrough Nodes i ChoiceIndent)[i]? =
      some { N with Edges := [{ Text := "", TargetNodeIdx := j }] } ∧
    (∀ x, x ≠ i → (ConnectFallthrough Nodes i ChoiceIndent)[x]? = Nodes[x]?) ∧
    (∀ (X : Externals) (S : USUDSScript) (fuel : Nat) (d : USUDSDialogue)
        (Edge : FSUDSScriptEdge) (cs : List FSUDSScriptEdge),
      d.CurrentSpeakerNode = some i → (S.Node i).bHasChoices = false →
      d.CurrentChoices = [Edge] → Edge.TargetNode = some j →
      (S.Node j).NodeType = ESUDSScriptNodeType.Text →
      ChoicesFor X S fuel d.VariableState (some j) = Except.ok cs →
      ∃ d1, Continue X S fuel d = Except.ok (true, d1) ∧ d1.CurrentSpeakerNode = some j ∧
        d1.CurrentChoices = cs) := by
  obtain ⟨hLe, hFound, hFirst⟩ := FindNextOutdentedNodeIndex_first Nodes (i + 1) ChoiceIndent
    j hFind
  have hConnect : ConnectFallthrough Nodes i ChoiceIndent =
      Nodes.set i { N with Edges := [{ Text := "", TargetNodeIdx := j }] } := by
    unfold ConnectFallthrough
    rw [hN]
    simp only [hNoEdge, List.isEmpty_nil, if_true]
    rw [hFind]
  refine ⟨⟨by omega, hFound, fun x M1 hx => hFirst x M1 (by omega)⟩, ?_, ?_, ?_⟩
  · have hLen : i < Nodes.length := by
      by_contra hge
      rw [List.getElem?_eq_none (by omega)] at hN
      cases hN
    rw [hConnect, List.getElem?_set, if_pos rfl, if_pos hLen]
  · intro x hx
    rw [hConnect, List.getElem?_set, if_neg (fun h => hx h.symm)]
  · intro X S fuel d Edge cs hNode hPlain hChoices hTarget hText hNext
    exact Continue_follows_single_edge X S fuel d i j Edge cs hNode hPlain hChoices hTarget
      hText hNext

theorem Fallthrough_lands_on_outdented_witness :
    FallthroughNodes[2]? =
      some (MkParsedText "NPC" "This should fall through to latterhalf" 12 []) ∧
    FindNextOutdentedNodeIndex FallthroughNodes 3 8 = some 6 ∧
    FallthroughNodes[6]? =
      some (MkParsedText "Player" "This is the latter half of the discussion" 0
        [{ Text := "", TargetNodeIdx := 7 }]) ∧
    (ConnectFallthrough FallthroughNodes 2 8)[2]? =
      some (MkParsedText "NPC" "This should fall through to latterhalf" 12
        [{ Text := "", TargetNodeIdx := 6 }]) ∧
    ∃ d1, Continue DemoExternals FallthroughScript 4 FallthroughAtLine = Except.ok (true, d1) ∧
      d1.CurrentSpeakerNode = some 6 ∧ d1.CurrentChoices = (FallthroughNode 6).Edges := by
  have h := Fallthrough_lands_on_outdented FallthroughNodes 2 8 6
    (MkParsedText "NPC" "This should fall through to latterhalf" 12 []) rfl rfl rfl
  exact ⟨rfl, rfl, rfl, h.2.1,
    h.2.2.2 DemoExternals FallthroughScript 4 FallthroughAtLine
      (MkEdge "" "" ESUDSEdgeType.Continue (some 6)) (FallthroughNode 6).Edges rfl rfl rfl rfl
      rfl rfl⟩

theorem IsHeaderEvent_variable (S : USUDSScript) (Chain : List Nat) (c : Callback)
    (h : IsHeaderEvent S Chain c) : IsVariableEvent c := by
  obtain ⟨n, _, h1 | h1⟩ := h
  · obtain ⟨v, _, hEq⟩ := h1
    rw [hEq]
    exact trivial
  · obtain ⟨Value, hEq⟩ := h1
    rw [hEq]
    exact trivial

theorem IsHeaderEvent_mono (S : USUDSScript) (Chain Chain1 : List Nat) (c : Callback)
    (hSub : ∀ n ∈ Chain, n ∈ Chain1) (h : IsHeaderEvent S Chain c) :
    IsHeaderEvent S Chain1 c := by
  obtain ⟨n, hn, hc⟩ := h
  exact ⟨n, hSub n hn, hc⟩

theorem RunSetVariableNode_header_events (X : Externals) (S : USUDSScript)
    (d : USUDSDialogue) (n : Nat)
    (hT : (S.Node n).NodeType = ESUDSScriptNodeType.SetVariable) :
    RaisesOnly (IsHeaderEvent S [n]) d (RunSetVariableNode X S d n).2 := by
  by_cases hV : (S.Node n).Expression.bIsValid = true
  · refine ⟨_, RunSetVariableNode_raises X S d n hT hV, ?_⟩
    intro c hc
    rcases List.mem_append.mp hc with h1 | h1
    · obtain ⟨v, hv, hEq⟩ := List.mem_map.mp h1
      exact ⟨n, List.mem_cons_self _ _, Or.inl ⟨v, hv, hEq.symm⟩⟩
    · split at h1
      · exact ⟨n, List.mem_cons_self _ _, Or.inr ⟨_, List.mem_singleton.mp h1⟩⟩
      · cases h1
  · have hSame : (RunSetVariableNode X S d n).2 = d := by
      unfold RunSetVariableNode
      rw [if_pos hT, if_neg hV]
    rw [hSame]
    exact RaisesOnly_nil _ _

theorem RunAutoNodes_header_events (X : Externals) (S : USUDSScript) (Chain : List Nat)
    (fuel : Nat) (Start : Option Nat) (d : USUDSDialogue) (m : Option Nat)
    (d1 : USUDSDialogue) (hChain : IsSetChain S Start Chain)
    (h : RunAutoNodes X S fuel Start d = Except.ok (m, d1)) :
    RaisesOnly (IsHeaderEvent S Chain) d d1 := by
  induction Chain generalizing fuel Start d with
  | nil =>
    have hStart : Start = none := hChain
    rw [hStart] at h
    unfold RunAutoNodes at h
    cases h
    exact RaisesOnly_nil _ _
  | cons n rest ih =>
    obtain ⟨hStart, hType, hRest⟩ := hChain
    rw [hStart] at h
    have hAuto : ShouldStopAtNodeType (S.Node n).NodeType = false := by
      rw [hType]
      rfl
    have hNode : RunNode X S d n = RunSetVariableNode X S d n := by
      unfold RunNode
      rw [hType]
    cases fuel with
    | zero =>
      unfold RunAutoNodes at h
      simp only [hAuto, Bool.false_eq_true, if_false] at h
      cases h
    | succ f =>
      unfold RunAutoNodes at h
      simp only [hAuto, Bool.false_eq_true, if_false] at h
      rw [hNode, (RunSetVariableNode_effect X S d n hType).1] at h
      have hHere := RaisesOnly_mono
        (fun c hc => IsHeaderEvent_mono S [n] (n :: rest) c
          (fun k hk => by rw [List.mem_singleton.mp hk]; exact List.mem_cons_self _ _) hc)
        (RunSetVariableNode_header_events X S d n hType)
      have hThen := RaisesOnly_mono
        (fun c hc => IsHeaderEvent_mono S rest (n :: rest) c
          (fun k hk => List.mem_cons_of_mem _ hk) hc)
        (ih f (S.GetNextNode n) _ hRest h)
      exact RaisesOnly_append hHere hThen

theorem SetCurrentSpeakerNode_null_quietly (X : Externals) (S : USUDSScript) (fuel : Nat)
    (d d1 : USUDSDialogue) (h : SetCurrentSpeakerNode X S fuel d none true = Except.ok d1) :
    d1.Notifications = d.Notifications ∧ d1.Participants = d.Participants := by
  unfold SetCurrentSpeakerNode UpdateChoices at h
  simp only [if_true] at h
  cases h
  exact ⟨rfl, rfl⟩

/-- The header run of `InitVariables`, on a header that is a chain of set nodes, raises the
events of those set nodes and no other. -/
theorem InitVariables_header_events (X : Externals) (S : USUDSScript) (Chain : List Nat)
    (fuel : Nat) (d d1 : USUDSDialogue) (hChain : IsSetChain S S.HeaderNode Chain)
    (h : InitVariables X S fuel d = Except.ok d1) :
    RaisesOnly (IsHeaderEvent S Chain) d d1 := by
  unfold InitVariables RunUntilNextSpeakerNodeOrEnd at h
  cases hA : RunAutoNodes X S fuel S.HeaderNode { d with VariableState := [] } with
  | error x =>
    rw [hA] at h
    cases h
  | ok p =>
    obtain ⟨m, d0⟩ := p
    obtain ⟨hm, _⟩ := RunAutoNodes_set_chain_end X S Chain fuel S.HeaderNode _ m d0 hChain hA
    have hEv0 := RunAutoNodes_header_events X S Chain fuel S.HeaderNode
      { d with VariableState := [] } m d0 hChain hA
    have hEv : RaisesOnly (IsHeaderEvent S Chain) d d0 := hEv0
    rw [hA, hm] at h
    simp only [End, Bool.not_false] at h
    obtain ⟨h1, h2⟩ := SetCurrentSpeakerNode_null_quietly X S fuel d0 d1 h
    exact RaisesOnly_append hEv (RaisesOnly_untouched _ h1 h2)

theorem ResetState_header_events (X : Externals) (S : USUDSScript) (fuel : Nat)
    (d d1 : USUDSDialogue) (Chain : List Nat)
    (bResetVariables bResetPosition bResetVisited : Bool)
    (hChain : IsSetChain S S.HeaderNode Chain)
    (h : ResetState X S fuel d bResetVariables bResetPosition bResetVisited = Except.ok d1) :
    ∃ hdr, Raises d d1 hdr ∧ (∀ c ∈ hdr, IsHeaderEvent S Chain c) ∧
      (bResetVariables = false → hdr = []) := by
  unfold ResetState at h
  split at h
  · cases h
  · rename_i da ha
    have h1 : ∃ hdr, Raises d da hdr ∧ (∀ c ∈ hdr, IsHeaderEvent S Chain c) ∧
        (bResetVariables = false → hdr = []) := by
      by_cases hv : bResetVariables = true
      · rw [if_pos hv] at ha
        obtain ⟨hdr, hR, hAll⟩ := InitVariables_header_events X S Chain fuel d da hChain ha
        exact ⟨hdr, hR, hAll, fun hq => by rw [hv] at hq; cases hq⟩
      · rw [if_neg hv] at ha
        cases ha
        exact ⟨[], Raises_nil d, (fun _ hc => by cases hc), fun _ => rfl⟩
    split at h
    · cases h
    · rename_i db hb
      have h2 : db.Notifications = da.Notifications ∧ db.Participants = da.Participants := by
        by_cases hp : bResetPosition = true
        · rw [if_pos hp] at hb
          exact SetCurrentSpeakerNode_null_quietly X S fuel da db hb
        · rw [if_neg hp] at hb
          cases hb
          exact ⟨rfl, rfl⟩
      have h3 : d1.Notifications = db.Notifications ∧ d1.Participants = db.Participants := by
        cases bResetVisited with
        | true =>
          simp only [if_true] at h
          cases h
          exact ⟨rfl, rfl⟩
        | false =>
          simp only [Bool.false_eq_true, if_false] at h
          cases h
          exact ⟨rfl, rfl⟩
      obtain ⟨hdr, hR, hAll, hNone⟩ := h1
      refine ⟨hdr, ?_, hAll, hNone⟩
      have hTail : Raises da d1 [] :=
        Raises_of_untouched (h3.1.trans h2.1) (h3.2.trans h2.2)
      have hBoth := Raises_append hR hTail
      rw [List.append_nil] at hBoth
      exact hBoth

theorem ResetState_returns (X : Externals) (S : USUDSScript) (fuel : Nat)
    (d : USUDSDialogue) (Chain : List Nat)
    (bResetVariables bResetPosition bResetVisited : Bool)
    (hChain : IsSetChain S S.HeaderNode Chain) (hFuel : Chain.length ≤ fuel) :
    ∃ d1, ResetState X S fuel d bResetVariables bResetPosition bResetVisited =
      Except.ok d1 := by
  have hInit : ∃ da, (if bResetVariables = true then InitVariables X S fuel d
      else Except.ok d) = Except.ok da := by
    by_cases hv : bResetVariables = true
    · rw [if_pos hv]
      obtain ⟨da, ha, _⟩ := RunUntilNextSpeakerNodeOrEnd_set_chain X S Chain fuel S.HeaderNode
        { d with VariableState := [] } hChain hFuel
      exact ⟨da, ha⟩
    · rw [if_neg hv]
      exact ⟨d, rfl⟩
  obtain ⟨da, ha⟩ := hInit
  have hPos : ∃ db, (if bResetPosition = true then SetCurrentSpeakerNode X S fuel da none true
      else Except.ok da) = Except.ok db := by
    by_cases hp : bResetPosition = true
    · rw [if_pos hp]
      obtain ⟨db, hb, _⟩ := SameOutcome_of_ok_right
        (SetCurrentSpeakerNode_spec X S fuel da none true) (ChoicesFor_none X S fuel _)
      exact ⟨db, hb⟩
    · rw [if_neg hp]
      exact ⟨da, rfl⟩
  obtain ⟨db, hb⟩ := hPos
  unfold ResetState
  rw [ha]
  simp only []
  rw [hb]
  simp only []
  cases bResetVisited with
  | true => exact ⟨_, rfl⟩
  | false => exact ⟨_, rfl⟩

/-- C31: on a script whose header is a chain of set nodes, the events `Initialise` and
`ResetState` raise are those of the header's set nodes ("variable requested" for the
variables their expressions read, "variable changed" for their identifiers), and
`ResetState` raises none when it does not reset the variables; the events
`RestoreSavedState` raises are those of the header's set nodes followed by "variable
requested" events, which come from the guards evaluated for the choices of the restored
node.  None of them is "speaker line" or "finished".  `Initialise` and `ResetState` return
once the fuel covers the header. -/
theorem Repositioning_is_quiet (X : Externals) (S : USUDSScript) (fuel : Nat)
    (d : USUDSDialogue) (Chain : List Nat) (hChain : IsSetChain S S.HeaderNode Chain) :
    (∀ d1, Initialise X S fuel d = Except.ok d1 →
      ∃ hdr, Raises d d1 hdr ∧ ∀ c ∈ hdr, IsHeaderEvent S Chain c) ∧
    (∀ bResetVariables bResetPosition bResetVisited d1,
      ResetState X S fuel d bResetVariables bResetPosition bResetVisited = Except.ok d1 →
      ∃ hdr, Raises d d1 hdr ∧ (∀ c ∈ hdr, IsHeaderEvent S Chain c) ∧
        (bResetVariables = false → hdr = [])) ∧
    (∀ State d1, RestoreSavedState X S fuel d State = Except.ok d1 →
      ∃ hdr guards, Raises d d1 (hdr ++ guards) ∧ (∀ c ∈ hdr, IsHeaderEvent S Chain c) ∧
        ∀ c ∈ guards, IsRequest c) ∧
    (∀ c, IsHeaderEvent S Chain c ∨ IsRequest c →
      IsVariableEvent c ∧ c ≠ Callback.SpeakerLine ∧ c ≠ Callback.Finished) ∧
    (∀ cs, (∀ c ∈ cs, IsHeaderEvent S Chain c ∨ IsRequest c) →
      ∀ n ∈ Blocks d.Participants cs,
        n.What ≠ Callback.SpeakerLine ∧ n.What ≠ Callback.Finished) ∧
    (Chain.length ≤ fuel →
      (∃ d1, Initialise X S fuel d = Except.ok d1) ∧
      ∀ bResetVariables bResetPosition bResetVisited,
        ∃ d1, ResetState X S fuel d bResetVariables bResetPosition bResetVisited =
          Except.ok d1) := by
  have hQuiet : ∀ c, IsHeaderEvent S Chain c ∨ IsRequest c →
      IsVariableEvent c ∧ c ≠ Callback.SpeakerLine ∧ c ≠ Callback.Finished := by
    intro c hc
    have hv : IsVariableEvent c := by
      rcases hc with h1 | h1
      · exact IsHeaderEvent_variable S Chain c h1
      · exact IsRequest_variable c h1
    obtain ⟨q1, q2⟩ := IsVariableEvent_quiet c hv
    exact ⟨hv, q2, q1⟩
  refine ⟨?_, ?_, ?_, hQuiet, ?_, ?_⟩
  · intro d1 h
    unfold Initialise at h
    split at h
    · cases h
    · rename_i da ha
      obtain ⟨hdr, hR, hAll⟩ := InitVariables_header_events X S Chain fuel
        { d with CurrentSpeakerNode := none } da hChain ha
      have hR0 : Raises d da hdr := hR
      cases h
      have hTail : Raises da { da with CurrentSpeakerNode := none } [] :=
        Raises_of_untouched rfl rfl
      have hBoth := Raises_append hR0 hTail
      rw [List.append_nil] at hBoth
      exact ⟨hdr, hBoth, hAll⟩
  · intro bv bp bc d1 h
    exact ResetState_header_events X S fuel d d1 Chain bv bp bc hChain h
  · intro State d1 h
    unfold RestoreSavedState at h
    split at h
    · cases h
    · rename_i da ha
      obtain ⟨hdr, hR, hAll⟩ := InitVariables_header_events X S Chain fuel d da hChain ha
      have hSet : ∀ Node, SetCurrentSpeakerNode X S fuel
          { da with VariableState := da.VariableState.Append State.Variables,
                    ChoicesTaken := SetAppend [] State.ChoicesTaken } Node true = Except.ok d1 →
          ∃ guards, Raises da d1 guards ∧ ∀ c ∈ guards, IsRequest c := fun Node hs =>
        SetCurrentSpeakerNode_quietly X S fuel
          { da with VariableState := da.VariableState.Append State.Variables,
                    ChoicesTaken := SetAppend [] State.ChoicesTaken } d1 Node hs
      split at h
      · obtain ⟨guards, hG, hReq⟩ := hSet _ h
        exact ⟨hdr, guards, Raises_append hR hG, hAll, hReq⟩
      · obtain ⟨guards, hG, hReq⟩ := hSet _ h
        exact ⟨hdr, guards, Raises_append hR hG, hAll, hReq⟩
  · intro cs hcs n hn
    obtain ⟨_, q1, q2⟩ := hQuiet n.What (hcs n.What (Blocks_what _ _ n hn))
    exact ⟨q1, q2⟩
  · intro hFuel
    refine ⟨?_, fun bv bp bc => ResetState_returns X S fuel d Chain bv bp bc hChain hFuel⟩
    obtain ⟨da, ha, _⟩ := RunUntilNextSpeakerNodeOrEnd_set_chain X S Chain fuel S.HeaderNode
      { d with CurrentSpeakerNode := none, VariableState := [] } hChain hFuel
    have hInit : InitVariables X S fuel { d with CurrentSpeakerNode := none } =
        Except.ok da := ha
    unfold Initialise
    rw [hInit]
    exact ⟨_, rfl⟩

theorem Repositioning_is_quiet_witness :
    IsSetChain GuardedScript GuardedScript.HeaderNode [10, 11] ∧ [10, 11].length ≤ 4 ∧
    (∃ d1, RestoreSavedState DemoExternals GuardedScript 4 NewDialogue DemoSaved =
        Except.ok d1 ∧
      d1.CurrentSpeakerNode = some 1 ∧
      d1.Notifications.map (fun x => x.What) =
        [Callback.VariableChanged "ValetName" (FSUDSValue.int 7) true,
         Callback.VariableChanged "SomeInt" (FSUDSValue.int 99) true,
         Callback.VariableRequested "Met"] ∧
      ∃ hdr guards, Raises NewDialogue d1 (hdr ++ guards) ∧
        (∀ c ∈ hdr, IsHeaderEvent GuardedScript [10, 11] c) ∧ ∀ c ∈ guards, IsRequest c) ∧
    (∃ d1, Initialise DemoExternals GuardedScript 4 NewDialogue = Except.ok d1) ∧
    (∃ d1, ResetState DemoExternals GuardedScript 4 NewDialogue false true true =
      Except.ok d1) := by
  have h := Repositioning_is_quiet DemoExternals GuardedScript 4 NewDialogue [10, 11]
    ⟨rfl, rfl, rfl, rfl, rfl⟩
  exact ⟨⟨rfl, rfl, rfl, rfl, rfl⟩, by decide,
    ⟨_, rfl, rfl, rfl, h.2.2.1 DemoSaved _ rfl⟩,
    (h.2.2.2.2.2 (by decide)).1, (h.2.2.2.2.2 (by decide)).2 false true true⟩

/-- C8, amended: whenever the number of current choices is not exactly one (ended, no
choice, two or more choices) `Continue` changes nothing, raises nothing and returns whether
the dialogue is not ended.  Whenever exactly one choice is exposed, be it the implicit
choice of a plain continuation or the single decision of a real choice construct,
`Continue` is `Choose(0)`: same return value, same resulting state, same notifications;
on a current node it is the steps of `Choose` before the chosen edge is followed (on a
choice construct: recording the choice, "choice made", "proceeding" and the nodes between
the text and the choice node) and then the run from the target of that one choice. -/
theorem Continue_noop_unless_one_choice (X : Externals) (S : USUDSScript) (fuel : Nat)
    (d : USUDSDialogue) :
    (GetNumberOfChoices d ≠ 1 → Continue X S fuel d = Except.ok (!IsEnded d, d)) ∧
    (GetNumberOfChoices d = 1 → Continue X S fuel d = Choose X S fuel d 0) ∧
    (∀ n Choice, d.CurrentSpeakerNode = some n → d.CurrentChoices = [Choice] →
      Continue X S fuel d = Choose X S fuel d 0 ∧
      Continue X S fuel d =
        (match ChoosePrologue X S fuel d 0 Choice n with
         | Except.error e => Except.error e
         | Except.ok d0 =>
           match RunUntilNextSpeakerNodeOrEnd X S fuel d0 Choice.TargetNode true with
           | Except.error e => Except.error e
           | Except.ok d2 => Except.ok (!IsEnded d2, d2)) ∧
      ((S.Node n).bHasChoices = true → ∀ b d1, Continue X S fuel d = Except.ok (b, d1) →
        (b = true ↔ IsEnded d1 = false) ∧
        ∀ ID, ID ∈ d1.ChoicesTaken ↔ ID ∈ d.ChoicesTaken ∨ ID = Choice.TextID)) := by
  have hOneStep : GetNumberOfChoices d = 1 → Continue X S fuel d = Choose X S fuel d 0 := by
    intro hOne
    unfold Continue
    rw [if_pos hOne]
  refine ⟨?_, hOneStep, ?_⟩
  · intro hCount
    unfold Continue
    rw [if_neg hCount]
  · intro n Choice hNode hChoices
    have hOne : GetNumberOfChoices d = 1 := by
      unfold GetNumberOfChoices
      rw [hChoices]
      rfl
    have hValid : ChoiceAt d.CurrentChoices 0 = some Choice := by
      rw [hChoices]
      rfl
    refine ⟨hOneStep hOne, ?_, ?_⟩
    · rw [hOneStep hOne]
      exact Choose_eq X S fuel d 0 Choice n hValid hNode
    · intro hHas b d1 hReturned
      rw [hOneStep hOne] at hReturned
      obtain ⟨d0, hPro, hRun, hb⟩ := Choose_returned X S fuel d 0 Choice n b d1 hValid hNode
        hReturned
      refine ⟨?_, ?_⟩
      · rw [hb]
        cases IsEnded d1 <;> simp
      · intro ID
        rw [(RunUntilNextSpeakerNodeOrEnd_frame X S fuel _ _ _ _ hRun).2.1,
          (ChoosePrologue_spec X S fuel d d0 0 Choice n hPro).1, if_pos hHas]
        exact mem_SetAdd _ _ _

theorem Continue_noop_unless_one_choice_witness :
    GetNumberOfChoices (DemoAt 1 (DemoNode 2).Edges) ≠ 1 ∧
    Continue DemoExternals DemoScript 4 (DemoAt 1 (DemoNode 2).Edges) =
      Except.ok (!IsEnded (DemoAt 1 (DemoNode 2).Edges), DemoAt 1 (DemoNode 2).Edges) ∧
    GetNumberOfChoices DemoNested = 1 ∧ (DemoScript.Node 7).bHasChoices = true ∧
    DemoNested.CurrentChoices = [MkEdge "c3" "Actually bye" ESUDSEdgeType.Decision (some 6)] ∧
    Continue DemoExternals DemoScript 4 DemoNested =
      Choose DemoExternals DemoScript 4 DemoNested 0 ∧
    (∀ ID, ID ∈ DemoNestedContinued.ChoicesTaken ↔
      ID ∈ DemoNested.ChoicesTaken ∨ ID = "c3") :=
  ⟨by decide,
    (Continue_noop_unless_one_choice DemoExternals DemoScript 4
      (DemoAt 1 (DemoNode 2).Edges)).1 (by decide),
    rfl, rfl, rfl,
    (Continue_noop_unless_one_choice DemoExternals DemoScript 4 DemoNested).2.1 rfl,
    (((Continue_noop_unless_one_choice DemoExternals DemoScript 4 DemoNested).2.2 7
      (MkEdge "c3" "Actually bye" ESUDSEdgeType.Decision (some 6)) rfl rfl).2.2 rfl true
      DemoNestedContinued rfl).2⟩

end SUDS
